import Mathlib

/-!
# Thread pool runtime (`rtl/threadpool.c`): embedding and verified properties

The C structures become Lean structures with the same field names.  A
pointer is an address (`Ptr`); a nullable pointer is an `Option`.  The heap
is a family of total maps from addresses to records, one per structure type.
An intrusive `struct list` becomes the list of the addresses of the records
linked into it, head first.

`LONG` and `int` counters are mathematical integers; `unsigned int`
counters are naturals reduced modulo `2 ^ 32` where the source does
arithmetic on them.  Each function body that runs under a critical section
is one atomic state transformer.  Results of calls into the kernel
(thread creation) are arguments of the function that makes the call.
-/

namespace Threadpool

/-- An address in the process heap. -/
abbrev Ptr := Nat

/-- An `NTSTATUS` value; only equality with `STATUS_SUCCESS` is ever tested. -/
abbrev NTSTATUS := Nat

def STATUS_SUCCESS : NTSTATUS := 0
def STATUS_UNSUCCESSFUL : NTSTATUS := 0xC0000001
def STATUS_TOO_MANY_THREADS : NTSTATUS := 0xC0000129
def STATUS_NO_MEMORY : NTSTATUS := 0xC0000017
def STATUS_INVALID_PARAMETER : NTSTATUS := 0xC000000D

/-- The macro `max` of the C headers. -/
def c_max {α : Type} [LT α] [DecidableRel (fun (a b : α) => a < b)] (a b : α) : α :=
  if b < a then a else b

/-- The macro `min` of the C headers. -/
def c_min {α : Type} [LT α] [DecidableRel (fun (a b : α) => a < b)] (a b : α) : α :=
  if a < b then a else b

/-- The modulus of `unsigned int` and `DWORD` arithmetic. -/
def UINT_MOD : Nat := 2 ^ 32

/-- Conversion of an unsigned 32-bit value to `int` (two's complement). -/
def to_int (n : Nat) : Int :=
  if n % UINT_MOD < 2 ^ 31 then ((n % UINT_MOD : Nat) : Int)
  else ((n % UINT_MOD : Nat) : Int) - (UINT_MOD : Int)

/-- Conversion of an `int` to unsigned 32 bits, as the usual arithmetic
conversions do when the other operand is a `DWORD`. -/
def to_uint (i : Int) : Nat := (i % (UINT_MOD : Int)).toNat

/-- Values of `enum threadpool_objtype`. -/
inductive threadpool_objtype where
  | TP_OBJECT_TYPE_SIMPLE
  | TP_OBJECT_TYPE_WORK
  | TP_OBJECT_TYPE_TIMER
  | TP_OBJECT_TYPE_WAIT
  | TP_OBJECT_TYPE_IO
  deriving DecidableEq

open threadpool_objtype

/-- Values of `TP_CALLBACK_PRIORITY` that index `pools`: high, normal, low. -/
def TP_CALLBACK_PRIORITY_HIGH : Nat := 0
def TP_CALLBACK_PRIORITY_NORMAL : Nat := 1
def TP_CALLBACK_PRIORITY_LOW : Nat := 2

/-- Values of `TP_WAIT_RESULT` passed to a wait callback. -/
def WAIT_OBJECT_0 : Nat := 0
def WAIT_TIMEOUT : Nat := 258

/-- The limit `MAXIMUM_WAIT_OBJECTS` of the platform headers. -/
def MAXIMUM_WAIT_OBJECTS : Nat := 64

def MAXIMUM_WAITQUEUE_OBJECTS : Nat := MAXIMUM_WAIT_OBJECTS - 1

/-- Flags of a wait registration, from the platform headers. -/
def WT_EXECUTEINIOTHREAD : Nat := 0x1
def WT_EXECUTEINWAITTHREAD : Nat := 0x4
def WT_EXECUTEONLYONCE : Nat := 0x8

/-- The handle value `INVALID_HANDLE_VALUE`, all bits set. -/
def INVALID_HANDLE_VALUE : Nat := 0xFFFFFFFF

/-- The record `struct threadpool`.  `pools0`, `pools1`, `pools2` are the
three lists `pools[0..2]`; the critical section, the condition variable, the
stack information and the completion port carry no state here. -/
structure threadpool where
  refcount : Int
  objcount : Int
  shutdown : Bool
  pools0 : List Ptr
  pools1 : List Ptr
  pools2 : List Ptr
  max_workers : Int
  min_workers : Int
  num_workers : Int
  num_busy_workers : Int
  deriving DecidableEq

/-- The list `pools[i]`; an index outside the array reads as empty. -/
def threadpool.pools (p : threadpool) (i : Nat) : List Ptr :=
  if i = 0 then p.pools0
  else if i = 1 then p.pools1
  else if i = 2 then p.pools2
  else []

/-- Assignment to the list `pools[i]`; an index outside the array (undefined
in the source) writes nothing. -/
def threadpool.set_pools (p : threadpool) (i : Nat) (l : List Ptr) : threadpool :=
  { p with
    pools0 := if i = 0 then l else p.pools0
    pools1 := if i = 1 then l else p.pools1
    pools2 := if i = 2 then l else p.pools2 }

/-- Member `u.timer` of the object union. -/
structure u_timer where
  timer_initialized : Bool
  timer_pending : Bool
  timer_set : Bool
  timeout : Nat
  period : Int
  window_length : Int
  deriving DecidableEq

/-- Member `u.wait` of the object union. -/
structure u_wait where
  signaled : Int
  bucket : Option Ptr
  wait_pending : Bool
  timeout : Nat
  handle : Nat
  flags : Nat
  deriving DecidableEq

/-- The record `struct io_completion`. -/
structure io_completion where
  iosb : Nat
  cvalue : Nat
  deriving DecidableEq

/-- Member `u.io` of the object union; `completions` is the array the
pointer of that name addresses, entry `i` of the list being element `i`. -/
structure u_io where
  pending_count : Nat
  skipped_count : Nat
  completion_count : Nat
  completion_max : Nat
  shutting_down : Bool
  completions : List io_completion
  deriving DecidableEq

/-- The union `u` of `struct threadpool_object`.  The source reads and writes
a member only under the matching `type` tag, so the members are kept side by
side; the callback pointer of every member is the field `callback`. -/
structure object_u where
  callback : Nat
  timer : u_timer
  wait : u_wait
  io : u_io
  deriving DecidableEq

/-- The record `struct threadpool_object`.  The list entries `group_entry`
and `pool_entry` are represented by the presence of the object's address in
the group's member list and in a pool list. -/
structure threadpool_object where
  refcount : Int
  shutdown : Bool
  type : threadpool_objtype
  pool : Ptr
  group : Option Ptr
  userdata : Nat
  group_cancel_callback : Option Nat
  finalization_callback : Option Nat
  may_run_long : Bool
  priority : Nat
  is_group_member : Bool
  num_pending_callbacks : Int
  num_running_callbacks : Int
  num_associated_callbacks : Int
  update_serial : Int
  u : object_u
  deriving DecidableEq

/-- The record `struct threadpool_group`. -/
structure threadpool_group where
  refcount : Int
  shutdown : Bool
  members : List Ptr
  deriving DecidableEq

/-- The record `struct waitqueue_bucket`. -/
structure waitqueue_bucket where
  objcount : Int
  reserved : List Ptr
  waiting : List Ptr
  alertable : Bool
  deriving DecidableEq

/-- The global `timerqueue`. -/
structure timerqueue_t where
  objcount : Int
  thread_running : Bool
  pending_timers : List Ptr
  deriving DecidableEq

/-- The global `waitqueue`. -/
structure waitqueue_t where
  num_buckets : Int
  buckets : List Ptr
  deriving DecidableEq

/-- The global `ioqueue`; the handle `port` is 0 until the completion port is
created. -/
structure ioqueue_t where
  objcount : Int
  thread_running : Bool
  port : Nat
  deriving DecidableEq

/-- The record `struct threadpool_instance`; the cleanup members carry no
state here. -/
structure threadpool_instance where
  object : Ptr
  threadid : Nat
  associated : Bool
  may_run_long : Bool
  deriving DecidableEq

/-- The fields of `TP_CALLBACK_ENVIRON` that the code reads.  `LongFunction`
is the bit `u.s.LongFunction`; `CallbackPriority` is the member of
`TP_CALLBACK_ENVIRON_V3` and is read only when `Version` is 3. -/
structure TP_CALLBACK_ENVIRON where
  Version : Nat
  Pool : Option Ptr
  CleanupGroup : Option Ptr
  CleanupGroupCancelCallback : Option Nat
  FinalizationCallback : Option Nat
  LongFunction : Bool
  CallbackPriority : Nat
  deriving DecidableEq

/-- A call into user code, with the arguments the properties below observe. -/
inductive call where
  /-- The callback of a simple, work or timer object, with `userdata`. -/
  | callback (object : Ptr) (userdata : Nat)
  /-- The callback of a wait object, with `userdata` and `wait_result`. -/
  | wait_callback (object : Ptr) (userdata : Nat) (wait_result : Nat)
  /-- The callback of an I/O object, with `userdata` and the completion. -/
  | io_callback (object : Ptr) (userdata : Nat) (completion : io_completion)
  /-- The finalization callback `fn`, with `userdata`. -/
  | finalization_callback (fn : Nat) (userdata : Nat)
  /-- The group cancel callback `fn`, with the object's `userdata` and the
  `userdata` argument of the release call. -/
  | group_cancel_callback (fn : Nat) (object_userdata : Nat) (userdata : Nat)
  deriving DecidableEq

/-- The process state the thread pool code works on: the heap (records by
address and the blocks currently allocated), the globals, and the sequence of
calls into user code, oldest first. -/
structure State where
  pools : Ptr → threadpool
  objects : Ptr → threadpool_object
  groups : Ptr → threadpool_group
  buckets : Ptr → waitqueue_bucket
  live_pools : List Ptr
  live_objects : List Ptr
  live_groups : List Ptr
  default_threadpool : Option Ptr
  timerqueue : timerqueue_t
  waitqueue : waitqueue_t
  ioqueue : ioqueue_t
  calls : List call

/-- A heap map with the record at address `a` replaced by `v`. -/
def update {α : Type} (f : Ptr → α) (a : Ptr) (v : α) : Ptr → α :=
  fun x => if x = a then v else f x

/-- Store a pool record at an address. -/
@[simp] def State.set_pool (s : State) (p : Ptr) (v : threadpool) : State :=
  { s with pools := update s.pools p v }

/-- Store an object record at an address. -/
@[simp] def State.set_object (s : State) (o : Ptr) (v : threadpool_object) : State :=
  { s with objects := update s.objects o v }

/-- Store a group record at an address. -/
@[simp] def State.set_group (s : State) (g : Ptr) (v : threadpool_group) : State :=
  { s with groups := update s.groups g v }

/-- Store a bucket record at an address. -/
@[simp] def State.set_bucket (s : State) (b : Ptr) (v : waitqueue_bucket) : State :=
  { s with buckets := update s.buckets b v }

/-- Append a call into user code. -/
@[simp] def State.log (s : State) (c : call) : State :=
  { s with calls := s.calls ++ [c] }

/-- The operation `list_remove` on an entry: the address is unlinked from the
list that holds it. -/
def list_remove (l : List Ptr) (entry : Ptr) : List Ptr :=
  l.filter (fun x => x != entry)

/-- The operation `list_add_tail`. -/
def list_add_tail (l : List Ptr) (entry : Ptr) : List Ptr :=
  l ++ [entry]

/-- The operation `list_head`: the first entry, or `NULL` on an empty list. -/
def list_head (l : List Ptr) : Option Ptr :=
  l.head?

/-- The operation `list_remove( &object->pool_entry )`: the object leaves the
list of its pool that holds it. -/
def threadpool.remove_entry (p : threadpool) (object : Ptr) : threadpool :=
  { p with
    pools0 := list_remove p.pools0 object
    pools1 := list_remove p.pools1 object
    pools2 := list_remove p.pools2 object }

/-- The function `tp_new_worker_thread`.  `thread_status` is the status that
`RtlCreateUserThread` returns. -/
def tp_new_worker_thread (s : State) (pool : Ptr) (thread_status : NTSTATUS) :
    State × NTSTATUS :=
  if thread_status = STATUS_SUCCESS then
    let p := s.pools pool
    (s.set_pool pool { p with refcount := p.refcount + 1, num_workers := p.num_workers + 1 },
      thread_status)
  else (s, thread_status)

/-- The function `tp_threadpool_alloc`.  `new_pool` is the result of
`RtlAllocateHeap`, `none` for `NULL`. -/
def tp_threadpool_alloc (s : State) (new_pool : Option Ptr) : State × NTSTATUS × Option Ptr :=
  match new_pool with
  | none => (s, STATUS_NO_MEMORY, none)
  | some pool =>
    let s := s.set_pool pool
      { refcount := 1, objcount := 0, shutdown := false,
        pools0 := [], pools1 := [], pools2 := [],
        max_workers := 500, min_workers := 0, num_workers := 0, num_busy_workers := 0 }
    ({ s with live_pools := pool :: s.live_pools }, STATUS_SUCCESS, some pool)

/-- The function `tp_threadpool_shutdown`. -/
def tp_threadpool_shutdown (s : State) (pool : Ptr) : State :=
  s.set_pool pool { s.pools pool with shutdown := true }

/-- The function `tp_threadpool_release`: the result is `TRUE` when the pool
was destroyed.  The three assertions do not change the state. -/
def tp_threadpool_release (s : State) (pool : Ptr) : State × Bool :=
  let p := s.pools pool
  let s := s.set_pool pool { p with refcount := p.refcount - 1 }
  if p.refcount - 1 ≠ 0 then (s, false)
  else ({ s with live_pools := s.live_pools.filter (fun x => x != pool) }, true)

/-- The part of `tp_threadpool_lock` after the validation of the
environment: `pool` is `environment->Pool`, or `NULL` without environment.
`new_pool` is the block the heap hands out if the default pool has to be
created and `thread_status` the status of a thread creation.  The result
carries the status and `*out`. -/
def tp_threadpool_lock_pool (s : State) (pool : Option Ptr)
    (new_pool : Option Ptr) (thread_status : NTSTATUS) : State × NTSTATUS × Option Ptr :=
  let r : State × NTSTATUS × Option Ptr :=
    match pool with
    | some p => (s, STATUS_SUCCESS, some p)
    | none =>
      match s.default_threadpool with
      | some d => (s, STATUS_SUCCESS, some d)
      | none =>
        match tp_threadpool_alloc s new_pool with
        | (s, status, none) => (s, status, none)
        | (s, _, some p) =>
          -- InterlockedCompareExchangePointer( &default_threadpool, pool, NULL )
          match s.default_threadpool with
          | none => ({ s with default_threadpool := some p }, STATUS_SUCCESS, some p)
          | some d =>
            (( tp_threadpool_release ( tp_threadpool_shutdown s p) p).1, STATUS_SUCCESS, some d)
  match r with
  | (s, status, none) => (s, status, none)
  | (s, _, some pool) =>
    -- Make sure that the threadpool has at least one thread.
    let r :=
      if (s.pools pool).num_workers = 0 then tp_new_worker_thread s pool thread_status
      else (s, STATUS_SUCCESS)
    -- Keep a reference, and increment objcount.
    if r.2 = STATUS_SUCCESS then
      let p := r.1.pools pool
      (r.1.set_pool pool { p with refcount := p.refcount + 1, objcount := p.objcount + 1 },
        STATUS_SUCCESS, some pool)
    else (r.1, r.2, none)

/-- The function `tp_threadpool_lock`: the validation of the environment,
then `tp_threadpool_lock_pool`. -/
def tp_threadpool_lock (s : State) (environment : Option TP_CALLBACK_ENVIRON)
    (new_pool : Option Ptr) (thread_status : NTSTATUS) : State × NTSTATUS × Option Ptr :=
  match environment with
  | some e =>
    if e.Version = 3 ∧ ¬ (e.CallbackPriority = TP_CALLBACK_PRIORITY_HIGH ∨
        e.CallbackPriority = TP_CALLBACK_PRIORITY_NORMAL ∨
        e.CallbackPriority = TP_CALLBACK_PRIORITY_LOW) then
      (s, STATUS_INVALID_PARAMETER, none)
    else tp_threadpool_lock_pool s e.Pool new_pool thread_status
  | none => tp_threadpool_lock_pool s none new_pool thread_status

/-- The function `tp_threadpool_unlock`. -/
def tp_threadpool_unlock (s : State) (pool : Ptr) : State :=
  let p := s.pools pool
  let s := s.set_pool pool { p with objcount := p.objcount - 1 }
  ( tp_threadpool_release s pool).1

/-- The function `tp_group_alloc`. -/
def tp_group_alloc (s : State) (new_group : Option Ptr) : State × NTSTATUS × Option Ptr :=
  match new_group with
  | none => (s, STATUS_NO_MEMORY, none)
  | some group =>
    let s := s.set_group group { refcount := 1, shutdown := false, members := [] }
    ({ s with live_groups := group :: s.live_groups }, STATUS_SUCCESS, some group)

/-- The function `tp_group_shutdown`. -/
def tp_group_shutdown (s : State) (group : Ptr) : State :=
  s.set_group group { s.groups group with shutdown := true }

/-- The function `tp_group_release`: the result is `TRUE` when the group was
destroyed. -/
def tp_group_release (s : State) (group : Ptr) : State × Bool :=
  let g := s.groups group
  let s := s.set_group group { g with refcount := g.refcount - 1 }
  if g.refcount - 1 ≠ 0 then (s, false)
  else ({ s with live_groups := s.live_groups.filter (fun x => x != group) }, true)

/-- The function `tp_object_prio_queue`. -/
def tp_object_prio_queue (s : State) (object : Ptr) : State :=
  let o := s.objects object
  let p := s.pools o.pool
  let p := { p with num_busy_workers := p.num_busy_workers + 1 }
  s.set_pool o.pool (p.set_pools o.priority (list_add_tail (p.pools o.priority) object))

/-- The function `tp_object_submit`.  `thread_status` is the status of the
thread creation, used when the function decides to start a worker.  The two
assertions on `shutdown` and the wake-up of the condition variable do not
change the state. -/
def tp_object_submit (s : State) (object : Ptr) (signaled : Bool)
    (thread_status : NTSTATUS) : State :=
  let pool := (s.objects object).pool
  -- Start new worker threads if required.
  let s :=
    if (s.pools pool).num_busy_workers ≥ (s.pools pool).num_workers ∧
        (s.pools pool).num_workers < (s.pools pool).max_workers then
      ( tp_new_worker_thread s pool thread_status).1
    else s
  -- Queue work item and increment refcount.
  let o := s.objects object
  let pending := o.num_pending_callbacks
  let s := s.set_object object
    { o with refcount := o.refcount + 1, num_pending_callbacks := pending + 1 }
  let s := if pending = 0 then tp_object_prio_queue s object else s
  -- Count how often the object was signaled.
  let o := s.objects object
  if o.type = TP_OBJECT_TYPE_WAIT ∧ signaled = true then
    s.set_object object
      { o with u := { o.u with wait := { o.u.wait with signaled := o.u.wait.signaled + 1 } } }
  else s

/-- The function `tp_timerqueue_unlock`. -/
def tp_timerqueue_unlock (s : State) (timer : Ptr) : State :=
  let o := s.objects timer
  if o.u.timer.timer_initialized = true then
    -- If timer was pending, remove it.
    let pending_timers :=
      if o.u.timer.timer_pending = true then list_remove s.timerqueue.pending_timers timer
      else s.timerqueue.pending_timers
    let s := { s with timerqueue := { s.timerqueue with
      pending_timers := pending_timers, objcount := s.timerqueue.objcount - 1 } }
    s.set_object timer { o with u := { o.u with timer := { o.u.timer with
      timer_pending := false, timer_initialized := false } } }
  else s

/-- The function `tp_waitqueue_unlock`. -/
def tp_waitqueue_unlock (s : State) (wait : Ptr) : State :=
  let o := s.objects wait
  match o.u.wait.bucket with
  | some bucket =>
    let b := s.buckets bucket
    let s := s.set_bucket bucket { b with
      reserved := list_remove b.reserved wait
      waiting := list_remove b.waiting wait
      objcount := b.objcount - 1 }
    s.set_object wait { o with u := { o.u with wait := { o.u.wait with bucket := none } } }
  | none => s

/-- The function `tp_ioqueue_unlock`. -/
def tp_ioqueue_unlock (s : State) ( io : Ptr) : State :=
  if (s.objects io).shutdown = false then
    { s with ioqueue := { s.ioqueue with objcount := s.ioqueue.objcount - 1 } }
  else s

/-- The function `tp_object_prepare_shutdown`. -/
def tp_object_prepare_shutdown (s : State) (object : Ptr) : State :=
  if (s.objects object).type = TP_OBJECT_TYPE_TIMER then tp_timerqueue_unlock s object
  else if (s.objects object).type = TP_OBJECT_TYPE_WAIT then tp_waitqueue_unlock s object
  else if (s.objects object).type = TP_OBJECT_TYPE_IO then tp_ioqueue_unlock s object
  else s

/-- The function `tp_object_release`: the result is `TRUE` when the object
was destroyed.  The four assertions do not change the state. -/
def tp_object_release (s : State) (object : Ptr) : State × Bool :=
  let o := s.objects object
  let s := s.set_object object { o with refcount := o.refcount - 1 }
  if o.refcount - 1 ≠ 0 then (s, false)
  else
    -- release reference to the group
    let s :=
      match o.group with
      | some group =>
        let s :=
          if o.is_group_member = true then
            let g := s.groups group
            let s := s.set_group group { g with members := list_remove g.members object }
            s.set_object object { s.objects object with is_group_member := false }
          else s
        ( tp_group_release s group).1
      | none => s
    let s := tp_threadpool_unlock s o.pool
    ({ s with live_objects := s.live_objects.filter (fun x => x != object) }, true)

/-- The loop `while (pending_callbacks--) tp_object_release( object )`, for a
count that is not negative. -/
def tp_object_release_loop (s : State) (object : Ptr) : Nat → State
  | 0 => s
  | n + 1 => tp_object_release_loop ( tp_object_release s object).1 object n

/-- The part of `tp_object_cancel` that runs under the pool lock; the result
carries the local variable `pending_callbacks`. -/
def tp_object_cancel_locked (s : State) (object : Ptr) : State × Int :=
  let o := s.objects object
  let pool := o.pool
  let r : State × Int :=
    if o.num_pending_callbacks ≠ 0 then
      let s := s.set_object object { o with num_pending_callbacks := 0 }
      let s := s.set_pool pool ((s.pools pool).remove_entry object)
      (if o.type = TP_OBJECT_TYPE_WAIT then
          let o := s.objects object
          s.set_object object { o with u := { o.u with wait := { o.u.wait with signaled := 0 } } }
        else s,
        o.num_pending_callbacks)
    else (s, 0)
  let s := r.1
  let s :=
    if (s.objects object).type = TP_OBJECT_TYPE_IO then
      let o := s.objects object
      s.set_object object { o with u := { o.u with io := { o.u.io with
        skipped_count := (o.u.io.skipped_count + o.u.io.pending_count) % UINT_MOD
        pending_count := 0 } } }
    else s
  (s, r.2)

/-- The function `tp_object_cancel`.  The count of pending callbacks is not
negative when the function is entered; the release loop of the source does
not end on a negative count, and here it then runs no iteration. -/
def tp_object_cancel (s : State) (object : Ptr) : State :=
  let r := tp_object_cancel_locked s object
  tp_object_release_loop r.1 object r.2.toNat

/-- The function `object_is_finished`. -/
def object_is_finished (object : threadpool_object) (group : Bool) : Bool :=
  if object.num_pending_callbacks ≠ 0 then false
  else if object.type = TP_OBJECT_TYPE_IO ∧ object.u.io.pending_count ≠ 0 then false
  else if group = true then decide (object.num_running_callbacks = 0)
  else decide (object.num_associated_callbacks = 0)

/-- The function `tp_object_wait`.  Every sleep on the condition variable
gives the processor to the other threads; `others` lists, sleep by sleep,
what they do to the state before the caller wakes up.  The result is the
state in which the function returns together with the rest of `others`, or
`none` while the caller is still blocked when `others` is used up. -/
def tp_object_wait (s : State) (object : Ptr) (group_wait : Bool)
    (others : List (State → State)) : Option (State × List (State → State)) :=
  match others with
  | [] =>
    if object_is_finished (s.objects object) group_wait = true then some (s, []) else none
  | f :: rest =>
    if object_is_finished (s.objects object) group_wait = true then some (s, f :: rest)
    else tp_object_wait (f s) object group_wait rest

/-- The function `tp_object_initialize`.  The caller has set `type` and the
callback before; `thread_status` is used by the submission of a simple
callback. -/
def tp_object_initialize (s : State) (object : Ptr) (pool : Ptr) (userdata : Nat)
    (environment : Option TP_CALLBACK_ENVIRON) (thread_status : NTSTATUS) : State :=
  let o := s.objects object
  let is_simple_callback := decide (o.type = TP_OBJECT_TYPE_SIMPLE)
  let o := { o with
    refcount := 1, shutdown := false, pool := pool, group := none, userdata := userdata,
    group_cancel_callback := none, finalization_callback := none, may_run_long := false,
    priority := TP_CALLBACK_PRIORITY_NORMAL, is_group_member := false,
    num_pending_callbacks := 0, num_running_callbacks := 0, num_associated_callbacks := 0,
    update_serial := 0 }
  let o :=
    match environment with
    | some e => { o with
        group := e.CleanupGroup
        group_cancel_callback := e.CleanupGroupCancelCallback
        finalization_callback := e.FinalizationCallback
        may_run_long := e.LongFunction
        priority := if e.Version = 3 then e.CallbackPriority else o.priority }
    | none => o
  let s := s.set_object object o
  -- For simple callbacks we have to run tp_object_submit before adding this object
  -- to the cleanup group.
  let s := if is_simple_callback = true then tp_object_submit s object false thread_status else s
  let s :=
    match o.group with
    | some group =>
      let g := s.groups group
      let s := s.set_group group { g with
        refcount := g.refcount + 1, members := list_add_tail g.members object }
      s.set_object object { s.objects object with is_group_member := true }
    | none => s
  if is_simple_callback = true then ( tp_object_release s object).1 else s

/-- The function `threadpool_get_next_item`: the head of the first list, in
index order, that is not empty. -/
def threadpool_get_next_item (pool : threadpool) : Option Ptr :=
  (List.range 3).findSome? (fun i => list_head (pool.pools i))

/-- The function `TpDisassociateCallback`, called on thread `current_thread`. -/
def TpDisassociateCallback (s : State) (this : threadpool_instance) (current_thread : Nat) :
    State × threadpool_instance :=
  if this.threadid ≠ current_thread then (s, this)
  else if this.associated = false then (s, this)
  else
    let o := s.objects this.object
    (s.set_object this.object
        { o with num_associated_callbacks := o.num_associated_callbacks - 1 },
      { this with associated := false })

/-- The function `TpCallbackMayRunLong`, called on thread `current_thread`;
`thread_status` is the status of the thread creation it may attempt. -/
def TpCallbackMayRunLong (s : State) (this : threadpool_instance) (current_thread : Nat)
    (thread_status : NTSTATUS) : State × threadpool_instance × NTSTATUS :=
  if this.threadid ≠ current_thread then (s, this, STATUS_UNSUCCESSFUL)
  else if this.may_run_long = true then (s, this, STATUS_SUCCESS)
  else
    let pool := (s.objects this.object).pool
    -- Start new worker threads if required.
    let r :=
      if (s.pools pool).num_busy_workers ≥ (s.pools pool).num_workers then
        if (s.pools pool).num_workers < (s.pools pool).max_workers then
          tp_new_worker_thread s pool thread_status
        else (s, STATUS_TOO_MANY_THREADS)
      else (s, STATUS_SUCCESS)
    (r.1, { this with may_run_long := true }, r.2)

/-- What a callback does with the instance it receives, call by call. -/
inductive instance_call where
  /-- The callback calls `TpDisassociateCallback`. -/
  | disassociate
  /-- The callback calls `TpCallbackMayRunLong`; the thread creation it may
  attempt returns `thread_status`. -/
  | may_run_long (thread_status : NTSTATUS)
  deriving DecidableEq

/-- Run the calls a callback makes on its instance, on the thread of the
instance. -/
def run_instance_calls (s : State) (this : threadpool_instance) :
    List instance_call → State × threadpool_instance
  | [] => (s, this)
  | .disassociate :: rest =>
    let r := TpDisassociateCallback s this this.threadid
    run_instance_calls r.1 r.2 rest
  | .may_run_long thread_status :: rest =>
    let r := TpCallbackMayRunLong s this this.threadid thread_status
    run_instance_calls r.1 r.2.1 rest

/-- The updates that `tp_object_execute` makes to the object before it drops
the pool lock; the result carries `wait_result` and `completion`. -/
def tp_object_execute_locked (o : threadpool_object) :
    threadpool_object × Nat × io_completion :=
  let o := { o with num_pending_callbacks := o.num_pending_callbacks - 1 }
  let r : threadpool_object × Nat × io_completion :=
    -- For wait objects check if they were signaled or have timed out.
    if o.type = TP_OBJECT_TYPE_WAIT then
      let wait_result := if o.u.wait.signaled ≠ 0 then WAIT_OBJECT_0 else WAIT_TIMEOUT
      (if wait_result = WAIT_OBJECT_0 then
          { o with u := { o.u with wait := { o.u.wait with signaled := o.u.wait.signaled - 1 } } }
        else o,
        wait_result, ⟨0, 0⟩)
    else if o.type = TP_OBJECT_TYPE_IO then
      let completion_count := (o.u.io.completion_count + UINT_MOD - 1) % UINT_MOD
      ({ o with u := { o.u with io := { o.u.io with completion_count := completion_count } } },
        0, o.u.io.completions.getD completion_count ⟨0, 0⟩)
    else (o, 0, ⟨0, 0⟩)
  -- Leave critical section and do the actual callback.
  ({ r.1 with
      num_associated_callbacks := r.1.num_associated_callbacks + 1
      num_running_callbacks := r.1.num_running_callbacks + 1 },
    r.2.1, r.2.2)

/-- The first part of `tp_object_execute`, up to the point where the pool
lock is dropped: the object is updated and the instance is set up.
`threadid` is the identifier of the running thread. -/
def tp_object_execute_enter (s : State) (object : Ptr) (threadid : Nat) :
    State × threadpool_instance × Nat × io_completion :=
  let r := tp_object_execute_locked (s.objects object)
  (s.set_object object r.1,
    { object := object, threadid := threadid, associated := true,
      may_run_long := r.1.may_run_long },
    r.2.1, r.2.2)

/-- The call of the object's callback in `tp_object_execute` (the `switch`
on the type). -/
def tp_object_execute_callback (s : State) (object : Ptr) (wait_result : Nat)
    (completion : io_completion) : State :=
  let o := s.objects object
  match o.type with
  | TP_OBJECT_TYPE_SIMPLE => s.log (.callback object o.userdata)
  | TP_OBJECT_TYPE_WORK => s.log (.callback object o.userdata)
  | TP_OBJECT_TYPE_TIMER => s.log (.callback object o.userdata)
  | TP_OBJECT_TYPE_WAIT => s.log (.wait_callback object o.userdata wait_result)
  | TP_OBJECT_TYPE_IO => s.log (.io_callback object o.userdata completion)

/-- The call of the finalization callback in `tp_object_execute`. -/
def tp_object_execute_finalization (s : State) (object : Ptr) : State :=
  let o := s.objects object
  match o.finalization_callback with
  | some fn => s.log (.finalization_callback fn o.userdata)
  | none => s

/-- The last part of `tp_object_execute`, from the point where the pool
lock is taken again. -/
def tp_object_execute_leave (s : State) (object : Ptr) (this : threadpool_instance) : State :=
  -- Simple callbacks are automatically shutdown after execution.
  let s :=
    if (s.objects object).type = TP_OBJECT_TYPE_SIMPLE then
      let s := tp_object_prepare_shutdown s object
      s.set_object object { s.objects object with shutdown := true }
    else s
  let o := s.objects object
  let o := { o with num_running_callbacks := o.num_running_callbacks - 1 }
  let o :=
    if this.associated = true then
      { o with num_associated_callbacks := o.num_associated_callbacks - 1 }
    else o
  s.set_object object o

/-- The function `tp_object_execute` run as one step.  `threadid` is the
identifier of the running thread and `user` what the callback does with its
instance.  The flag `wait_thread` selects whether the wait queue lock is
dropped too, and the cleanup tasks act on objects of the caller; neither
changes the state. -/
def tp_object_execute (s : State) (object : Ptr) (wait_thread : Bool) (threadid : Nat)
    (user : List instance_call) : State :=
  let r := tp_object_execute_enter s object threadid
  let s := tp_object_execute_callback r.1 object r.2.2.1 r.2.2.2
  let u := run_instance_calls s r.2.1 user
  let s := tp_object_execute_finalization u.1 object
  let _ := wait_thread
  tp_object_execute_leave s object u.2

/-- The body of the inner loop of `threadpool_worker_proc` for the item
`object` that `threadpool_get_next_item` returned, run as one step. -/
def threadpool_worker_dispatch (s : State) (pool : Ptr) (object : Ptr) (threadid : Nat)
    (user : List instance_call) : State :=
  let o := s.objects object
  -- If further pending callbacks are queued, move the work item to
  -- the end of the pool list. Otherwise remove it from the pool.
  let s := s.set_pool pool ((s.pools pool).remove_entry object)
  let s := if o.num_pending_callbacks > 1 then tp_object_prio_queue s object else s
  let s := tp_object_execute s object false threadid user
  let p := s.pools pool
  let s := s.set_pool pool { p with num_busy_workers := p.num_busy_workers - 1 }
  ( tp_object_release s object).1

/-- The test that ends the outer loop of `threadpool_worker_proc` once the
lists are drained: the pool is shut down, or the sleep on the condition
variable timed out (`timed_out`) and the worker may leave. -/
def threadpool_worker_leaves (p : threadpool) (timed_out : Bool) : Bool :=
  if p.shutdown = true then true
  else
    decide (timed_out = true ∧ threadpool_get_next_item p = none ∧
      (p.num_workers > c_max p.min_workers 1 ∨ (p.min_workers = 0 ∧ p.objcount = 0)))

/-- The end of `threadpool_worker_proc`, after the outer loop. -/
def threadpool_worker_exit (s : State) (pool : Ptr) : State :=
  let p := s.pools pool
  let s := s.set_pool pool { p with num_workers := p.num_workers - 1 }
  ( tp_threadpool_release s pool).1

/-- The first loop of `TpReleaseCleanupGroupMembers` (under the group lock),
for one member: take a reference and mark the object, or drop an object that
is already being destroyed. -/
def release_members_mark (s : State) (this : Ptr) (object : Ptr) : State :=
  let o := s.objects object
  if o.refcount + 1 = 1 then
    -- Object is basically already destroyed, but group reference
    -- was not deleted yet. We can safely ignore this object.
    let g := s.groups this
    let s := s.set_group this { g with members := list_remove g.members object }
    s.set_object object { o with is_group_member := false }
  else
    let s := s.set_object object { o with refcount := o.refcount + 1, is_group_member := false }
    tp_object_prepare_shutdown s object

/-- What `TpReleaseCleanupGroupMembers` does with one member once the wait
for it has returned. -/
def release_members_finish (s : State) (object : Ptr) (cancel_pending : Bool)
    (userdata : Nat) : State :=
  let s :=
    if (s.objects object).shutdown = false then
      -- Execute group cancellation callback if defined, and if this was actually a group cancel.
      let s :=
        if cancel_pending = true then
          match (s.objects object).group_cancel_callback with
          | some fn => s.log (.group_cancel_callback fn (s.objects object).userdata userdata)
          | none => s
        else s
      if (s.objects object).type ≠ TP_OBJECT_TYPE_SIMPLE then ( tp_object_release s object).1
      else s
    else s
  let s := s.set_object object { s.objects object with shutdown := true }
  ( tp_object_release s object).1

/-- The last loop of `TpReleaseCleanupGroupMembers`: wait for each member in
turn, then finish it.  `others` is what the other threads do during the
sleeps, see `tp_object_wait`. -/
def release_members_wait (s : State) (members : List Ptr) (cancel_pending : Bool)
    (userdata : Nat) (others : List (State → State)) : Option (State × List (State → State)) :=
  match members with
  | [] => some (s, others)
  | object :: rest =>
    match tp_object_wait s object true others with
    | none => none
    | some r =>
      release_members_wait ( release_members_finish r.1 object cancel_pending userdata) rest
        cancel_pending userdata r.2

/-- The state of `TpReleaseCleanupGroupMembers` when it leaves the group
lock, and the temporary list `members`. -/
def release_members_collect (s : State) (this : Ptr) : State × List Ptr :=
  -- Unset group, increase references, and mark objects for shutdown
  let s := (s.groups this).members.foldl (fun s object => release_members_mark s this object) s
  -- Move members to a new temporary list
  let members := (s.groups this).members
  (s.set_group this { s.groups this with members := [] }, members)

/-- The state of `TpReleaseCleanupGroupMembers` before its last loop. -/
def release_members_cancel (s : State) (members : List Ptr) (cancel_pending : Bool) : State :=
  -- Cancel pending callbacks if requested
  if cancel_pending = true then members.foldl (fun s object => tp_object_cancel s object) s
  else s

/-- The function `TpReleaseCleanupGroupMembers`.  `others` is what the other
threads do while the function sleeps, see `tp_object_wait`; the result is
`none` while the function is still blocked when `others` is used up. -/
def TpReleaseCleanupGroupMembers (s : State) (group : Ptr) (cancel_pending : Bool)
    (userdata : Nat) (others : List (State → State)) : Option (State × List (State → State)) :=
  let r := release_members_collect s group
  let s := release_members_cancel r.1 r.2 cancel_pending
  -- Wait for remaining callbacks to finish
  release_members_wait s r.2 cancel_pending userdata others

/-- The function `TpSetPoolMaxThreads`; `maximum` is a `DWORD`. -/
def TpSetPoolMaxThreads (s : State) (pool : Ptr) (maximum : Nat) : State :=
  let this := s.pools pool
  let this := { this with max_workers := to_int (c_max maximum 1) }
  s.set_pool pool { this with min_workers := c_min this.min_workers this.max_workers }

/-- The loop of `TpSetPoolMinThreads`.  `thread_status i` is the status of
the thread creation number `i` of the call, `i` counts the creations made;
the result carries the last value of `status`.  The loop runs at most
`minimum` times, which is the value of `fuel` to start with. -/
def TpSetPoolMinThreads_loop (pool : Ptr) (minimum : Nat) (thread_status : Nat → NTSTATUS) :
    Nat → Nat → State → State × NTSTATUS
  | 0, _, s => (s, STATUS_SUCCESS)
  | fuel + 1, i, s =>
    if to_uint (s.pools pool).num_workers < minimum then
      let r := tp_new_worker_thread s pool (thread_status i)
      if r.2 ≠ STATUS_SUCCESS then r
      else TpSetPoolMinThreads_loop pool minimum thread_status fuel (i + 1) r.1
    else (s, STATUS_SUCCESS)

/-- The function `TpSetPoolMinThreads`; `minimum` is a `DWORD`. -/
def TpSetPoolMinThreads (s : State) (pool : Ptr) (minimum : Nat)
    (thread_status : Nat → NTSTATUS) : State × Bool :=
  let r := TpSetPoolMinThreads_loop pool minimum thread_status minimum 0 s
  if r.2 = STATUS_SUCCESS then
    let this := r.1.pools pool
    let this := { this with min_workers := to_int minimum }
    (r.1.set_pool pool { this with max_workers := c_max this.min_workers this.max_workers }, true)
  else (r.1, false)

/-- The function `TpAllocPool`. -/
def TpAllocPool (s : State) (new_pool : Option Ptr) : State × NTSTATUS × Option Ptr :=
  tp_threadpool_alloc s new_pool

/-- The function `TpReleasePool`. -/
def TpReleasePool (s : State) (pool : Ptr) : State :=
  ( tp_threadpool_release ( tp_threadpool_shutdown s pool) pool).1

/-- The function `TpPostWork`. -/
def TpPostWork (s : State) (work : Ptr) (thread_status : NTSTATUS) : State :=
  tp_object_submit s work false thread_status

/-- The function `TpReleaseWork`; `TpReleaseTimer` and `TpReleaseWait` have
the same body. -/
def TpReleaseWork (s : State) (work : Ptr) : State :=
  let s := tp_object_prepare_shutdown s work
  let s := s.set_object work { s.objects work with shutdown := true }
  ( tp_object_release s work).1

/-- The function `TpWaitForWork`; `TpWaitForTimer`, `TpWaitForWait` and
`TpWaitForIoCompletion` have the same body. -/
def TpWaitForWork (s : State) (work : Ptr) (cancel_pending : Bool)
    (others : List (State → State)) : Option (State × List (State → State)) :=
  let s := if cancel_pending = true then tp_object_cancel s work else s
  tp_object_wait s work false others

/-- The function `TpAllocWork`.  `new_object` is the result of
`RtlAllocateHeap`; the result carries the status and `*out`. -/
def TpAllocWork (s : State) (new_object : Option Ptr) (callback : Nat) (userdata : Nat)
    (environment : Option TP_CALLBACK_ENVIRON) (new_pool : Option Ptr)
    (thread_status : NTSTATUS) : State × NTSTATUS × Option Ptr :=
  match new_object with
  | none => (s, STATUS_NO_MEMORY, none)
  | some object =>
    match tp_threadpool_lock s environment new_pool thread_status with
    | (s, status, none) => (s, status, none)
    | (s, _, some pool) =>
      let o := s.objects object
      let s := s.set_object object
        { o with type := TP_OBJECT_TYPE_WORK, u := { o.u with callback := callback } }
      let s := { s with live_objects := object :: s.live_objects }
      ( tp_object_initialize s object pool userdata environment thread_status, STATUS_SUCCESS,
        some object)

/-- The function `TpSimpleTryPost`.  `thread_status` is the status of the
thread creation in `tp_threadpool_lock`, `submit_status` the one in
`tp_object_submit`. -/
def TpSimpleTryPost (s : State) (new_object : Option Ptr) (callback : Nat) (userdata : Nat)
    (environment : Option TP_CALLBACK_ENVIRON) (new_pool : Option Ptr)
    (thread_status : NTSTATUS) (submit_status : NTSTATUS) : State × NTSTATUS :=
  match new_object with
  | none => (s, STATUS_NO_MEMORY)
  | some object =>
    match tp_threadpool_lock s environment new_pool thread_status with
    | (s, status, none) => (s, status)
    | (s, _, some pool) =>
      let o := s.objects object
      let s := s.set_object object
        { o with type := TP_OBJECT_TYPE_SIMPLE, u := { o.u with callback := callback } }
      let s := { s with live_objects := object :: s.live_objects }
      ( tp_object_initialize s object pool userdata environment submit_status, STATUS_SUCCESS)

/-- The function `tp_waitqueue_lock`.  `new_bucket` is the result of
`RtlAllocateHeap`, `event_status` the status of `NtCreateEvent` and
`thread_status` the status of `RtlCreateUserThread`, used when a bucket has
to be created. -/
def tp_waitqueue_lock (s : State) (wait : Ptr) (new_bucket : Option Ptr)
    (event_status : NTSTATUS) (thread_status : NTSTATUS) : State × NTSTATUS :=
  let o := s.objects wait
  let alertable := decide (o.u.wait.flags &&& WT_EXECUTEINIOTHREAD ≠ 0)
  let o := { o with u := { o.u with wait := { o.u.wait with
    signaled := 0, bucket := none, wait_pending := false, timeout := 0,
    handle := INVALID_HANDLE_VALUE } } }
  let s := s.set_object wait o
  -- Try to assign to existing bucket if possible.
  match s.waitqueue.buckets.find? (fun bucket =>
      decide ((s.buckets bucket).objcount < MAXIMUM_WAITQUEUE_OBJECTS ∧
        (s.buckets bucket).alertable = alertable)) with
  | some bucket =>
    let b := s.buckets bucket
    let s := s.set_bucket bucket { b with
      reserved := list_add_tail b.reserved wait, objcount := b.objcount + 1 }
    (s.set_object wait { o with u := { o.u with wait := { o.u.wait with bucket := some bucket } } },
      STATUS_SUCCESS)
  | none =>
    -- Create a new bucket and corresponding worker thread.
    match new_bucket with
    | none => (s, STATUS_NO_MEMORY)
    | some bucket =>
      let s := s.set_bucket bucket
        { objcount := 0, alertable := alertable, reserved := [], waiting := [] }
      if event_status ≠ STATUS_SUCCESS then (s, event_status)
      else if thread_status = STATUS_SUCCESS then
        let s := { s with waitqueue := {
          buckets := list_add_tail s.waitqueue.buckets bucket
          num_buckets := s.waitqueue.num_buckets + 1 } }
        let b := s.buckets bucket
        let s := s.set_bucket bucket { b with
          reserved := list_add_tail b.reserved wait, objcount := b.objcount + 1 }
        (s.set_object wait
            { o with u := { o.u with wait := { o.u.wait with bucket := some bucket } } },
          STATUS_SUCCESS)
      else (s, thread_status)

/-- The function `tp_alloc_wait`.  `new_object` and `new_bucket` are results
of `RtlAllocateHeap`; `thread_status` is the status of the thread creation in
`tp_threadpool_lock`, `event_status` and `bucket_thread_status` are the
statuses used by `tp_waitqueue_lock`. -/
def tp_alloc_wait (s : State) (new_object : Option Ptr) (callback : Nat) (userdata : Nat)
    (environment : Option TP_CALLBACK_ENVIRON) (flags : Nat) (new_pool : Option Ptr)
    (thread_status : NTSTATUS) (new_bucket : Option Ptr) (event_status : NTSTATUS)
    (bucket_thread_status : NTSTATUS) : State × NTSTATUS × Option Ptr :=
  match new_object with
  | none => (s, STATUS_NO_MEMORY, none)
  | some object =>
    match tp_threadpool_lock s environment new_pool thread_status with
    | (s, status, none) => (s, status, none)
    | (s, _, some pool) =>
      let o := s.objects object
      let s := s.set_object object { o with
        type := TP_OBJECT_TYPE_WAIT
        u := { o.u with callback := callback, wait := { o.u.wait with flags := flags } } }
      let r := tp_waitqueue_lock s object new_bucket event_status bucket_thread_status
      if r.2 ≠ STATUS_SUCCESS then ( tp_threadpool_unlock r.1 pool, r.2, none)
      else
        let s := { r.1 with live_objects := object :: r.1.live_objects }
        ( tp_object_initialize s object pool userdata environment thread_status, STATUS_SUCCESS,
          some object)

/-- The function `TpAllocWait`. -/
def TpAllocWait (s : State) (new_object : Option Ptr) (callback : Nat) (userdata : Nat)
    (environment : Option TP_CALLBACK_ENVIRON) (new_pool : Option Ptr)
    (thread_status : NTSTATUS) (new_bucket : Option Ptr) (event_status : NTSTATUS)
    (bucket_thread_status : NTSTATUS) : State × NTSTATUS × Option Ptr :=
  tp_alloc_wait s new_object callback userdata environment WT_EXECUTEONLYONCE new_pool
    thread_status new_bucket event_status bucket_thread_status

/-- A call of one of the three functions that change the counters of an
object, with the object it is made on and its other arguments. -/
inductive object_call where
  | submit (object : Ptr) (signaled : Bool) (thread_status : NTSTATUS)
  | execute (object : Ptr) (wait_thread : Bool) (threadid : Nat) (user : List instance_call)
  | cancel (object : Ptr)

/-- Run one call. -/
def object_call.run (s : State) : object_call → State
  | .submit object signaled thread_status => tp_object_submit s object signaled thread_status
  | .execute object wait_thread threadid user =>
    tp_object_execute s object wait_thread threadid user
  | .cancel object => tp_object_cancel s object

/-- Run a sequence of calls, first to last. -/
def run_object_calls (s : State) (calls : List object_call) : State :=
  calls.foldl object_call.run s

/-- The state of a process that has not used the thread pool yet: nothing is
allocated, the globals have their static initial values, the heap holds
zeroes. -/
def initial_state : State where
  pools := fun _ =>
    { refcount := 0, objcount := 0, shutdown := false, pools0 := [], pools1 := [], pools2 := [],
      max_workers := 0, min_workers := 0, num_workers := 0, num_busy_workers := 0 }
  objects := fun _ =>
    { refcount := 0, shutdown := false, type := TP_OBJECT_TYPE_SIMPLE, pool := 0, group := none,
      userdata := 0, group_cancel_callback := none, finalization_callback := none,
      may_run_long := false, priority := 0, is_group_member := false,
      num_pending_callbacks := 0, num_running_callbacks := 0, num_associated_callbacks := 0,
      update_serial := 0,
      u := { callback := 0,
             timer := { timer_initialized := false, timer_pending := false, timer_set := false,
                        timeout := 0, period := 0, window_length := 0 },
             wait := { signaled := 0, bucket := none, wait_pending := false, timeout := 0,
                       handle := 0, flags := 0 },
             io := { pending_count := 0, skipped_count := 0, completion_count := 0,
                     completion_max := 0, shutting_down := false, completions := [] } } }
  groups := fun _ => { refcount := 0, shutdown := false, members := [] }
  buckets := fun _ => { objcount := 0, reserved := [], waiting := [], alertable := false }
  live_pools := []
  live_objects := []
  live_groups := []
  default_threadpool := none
  timerqueue := { objcount := 0, thread_running := false, pending_timers := [] }
  waitqueue := { num_buckets := 0, buckets := [] }
  ioqueue := { objcount := 0, thread_running := false, port := 0 }
  calls := []

/-- A state with one work object, at address 10, in the default pool, at
address 1: the state after a first successful `TpAllocWork`. -/
def state_one_work : State :=
  ( TpAllocWork initial_state (some 10) 7 42 none (some 1) STATUS_SUCCESS).1

/-- A state with one wait object, at address 20, in the default pool at
address 1 and the wait bucket at address 30: the state after a first
successful `TpAllocWait`. -/
def state_one_wait : State :=
  ( TpAllocWait initial_state (some 20) 9 44 none (some 1) STATUS_SUCCESS (some 30)
    STATUS_SUCCESS STATUS_SUCCESS).1

/-- An environment of version 3 that names no pool and no group and asks
for high priority. -/
def environment_high : TP_CALLBACK_ENVIRON :=
  { Version := 3, Pool := none, CleanupGroup := none, CleanupGroupCancelCallback := none,
    FinalizationCallback := none, LongFunction := false,
    CallbackPriority := TP_CALLBACK_PRIORITY_HIGH }

/-- A state with two work objects in the default pool, object 10 of normal
priority posted first and object 11 of high priority posted second. -/
def state_two_queued : State :=
  let s := ( TpAllocWork state_one_work (some 11) 8 43 (some environment_high) none
    STATUS_SUCCESS).1
  TpPostWork ( TpPostWork s 10 STATUS_SUCCESS) 11 STATUS_SUCCESS

/-- Two pool records that differ at most in their reference and object
counts. -/
def threadpool.same_queues (p p' : threadpool) : Prop :=
  p' = { p with refcount := p'.refcount, objcount := p'.objcount }

/-- Two object records that differ at most in the reference count and the
group membership flag. -/
def threadpool_object.same_work (o o' : threadpool_object) : Prop :=
  o' = { o with refcount := o'.refcount, is_group_member := o'.is_group_member }

/-- The object record that the locked part of `tp_object_cancel` leaves. -/
def cancel_object (o : threadpool_object) : threadpool_object :=
  let o :=
    if o.num_pending_callbacks ≠ 0 then
      { o with
        num_pending_callbacks := 0
        u := { o.u with wait := { o.u.wait with
          signaled := if o.type = TP_OBJECT_TYPE_WAIT then 0 else o.u.wait.signaled } } }
    else o
  if o.type = TP_OBJECT_TYPE_IO then
    { o with u := { o.u with io := { o.u.io with
      skipped_count := (o.u.io.skipped_count + o.u.io.pending_count) % UINT_MOD
      pending_count := 0 } } }
  else o

/-- The state `state_two_queued` once a worker, thread 5, has taken object
10 off its list and is about to call its callback. -/
def state_running : State :=
  ( tp_object_execute_enter
    (state_two_queued.set_pool 1 ((state_two_queued.pools 1).remove_entry 10)) 10 5).1

/-- What the worker of `state_running` does when the callback of object 10
has returned. -/
def worker_returns : State → State :=
  fun s => tp_object_execute_leave s 10
    { object := 10, threadid := 5, associated := true, may_run_long := false }

/-- The object record after a complete `tp_object_execute`: one pending
callback less, a signal or a completion consumed, a simple callback shut
down; the running and association counts are back to their values. -/
def execute_object (o : threadpool_object) : threadpool_object :=
  { o with
    num_pending_callbacks := o.num_pending_callbacks - 1
    shutdown := if o.type = TP_OBJECT_TYPE_SIMPLE then true else o.shutdown
    u := { o.u with
      wait := { o.u.wait with
        signaled :=
          if o.type = TP_OBJECT_TYPE_WAIT ∧ o.u.wait.signaled ≠ 0 then o.u.wait.signaled - 1
          else o.u.wait.signaled }
      io := { o.u.io with
        completion_count :=
          if o.type = TP_OBJECT_TYPE_IO then (o.u.io.completion_count + UINT_MOD - 1) % UINT_MOD
          else o.u.io.completion_count } } }

/-- The calls into user code that `tp_object_execute` makes for the object
record `o` at address `object`. -/
def execute_calls (o : threadpool_object) (object : Ptr) : List call :=
  (match o.type with
    | TP_OBJECT_TYPE_SIMPLE => [call.callback object o.userdata]
    | TP_OBJECT_TYPE_WORK => [call.callback object o.userdata]
    | TP_OBJECT_TYPE_TIMER => [call.callback object o.userdata]
    | TP_OBJECT_TYPE_WAIT =>
      [call.wait_callback object o.userdata
        (if o.u.wait.signaled ≠ 0 then WAIT_OBJECT_0 else WAIT_TIMEOUT)]
    | TP_OBJECT_TYPE_IO =>
      [call.io_callback object o.userdata
        (o.u.io.completions.getD ((o.u.io.completion_count + UINT_MOD - 1) % UINT_MOD) ⟨0, 0⟩)]) ++
  (match o.finalization_callback with
    | some fn => [call.finalization_callback fn o.userdata]
    | none => [])

/-- A run of calls of `tp_object_submit` on one object; each entry of `args`
gives the flag `signaled` and the thread creation status of one call. -/
def submit_all (s : State) (object : Ptr) (args : List (Bool × NTSTATUS)) : State :=
  args.foldl (fun s a => tp_object_submit s object a.1 a.2) s

/-- A run of worker dispatches of one object; each entry of `args` gives the
thread identifier and what the callback does with its instance. -/
def dispatch_all (s : State) (pool : Ptr) (object : Ptr)
    (args : List (Nat × List instance_call)) : State :=
  args.foldl (fun s a => threadpool_worker_dispatch s pool object a.1 a.2) s

/-- An environment of version 1 that names the cleanup group at address 50
and the group cancel callback 99. -/
def environment_group : TP_CALLBACK_ENVIRON :=
  { Version := 1, Pool := none, CleanupGroup := some 50, CleanupGroupCancelCallback := some 99,
    FinalizationCallback := none, LongFunction := false, CallbackPriority := 0 }

/-- A state with a cleanup group at address 50 that has two members in the
default pool: the work object 10, posted once, and the work object 11. -/
def state_group : State :=
  let s := ( tp_group_alloc initial_state (some 50)).1
  let s := ( TpAllocWork s (some 10) 7 42 (some environment_group) (some 1) STATUS_SUCCESS).1
  let s := ( TpAllocWork s (some 11) 8 43 (some environment_group) none STATUS_SUCCESS).1
  TpPostWork s 10 STATUS_SUCCESS

/-- An environment of version 1 that names the pool at address 1. -/
def environment_pool1 : TP_CALLBACK_ENVIRON :=
  { Version := 1, Pool := some 1, CleanupGroup := none, CleanupGroupCancelCallback := none,
    FinalizationCallback := none, LongFunction := false, CallbackPriority := 0 }

/-- A pool at address 1, limited to one worker thread, with two work objects
10 and 11, the first of them posted. -/
def state_one_worker : State :=
  let s := ( TpAllocPool initial_state (some 1)).1
  let s := TpSetPoolMaxThreads s 1 1
  let s := ( TpAllocWork s (some 10) 7 42 (some environment_pool1) none STATUS_SUCCESS).1
  let s := ( TpAllocWork s (some 11) 8 43 (some environment_pool1) none STATUS_SUCCESS).1
  TpPostWork s 10 STATUS_SUCCESS

/-- The inequality chain `num_busy_workers ≤ num_workers ≤ max_workers`. -/
def threadpool.worker_chain (p : threadpool) : Prop :=
  p.num_busy_workers ≤ p.num_workers ∧ p.num_workers ≤ p.max_workers

instance (p : threadpool) : Decidable p.worker_chain := by
  unfold threadpool.worker_chain
  infer_instance

/-- What the users of the pool interface and the worker threads of a pool
do, one call each.  The arguments that stand for results of the kernel (heap
blocks, thread creation statuses) are those of the functions. -/
inductive pool_call where
  /-- A call of `TpAllocPool`. -/
  | alloc_pool (new_pool : Option Ptr)
  /-- A call of `TpReleasePool`. -/
  | release_pool (pool : Ptr)
  /-- A call of `TpSetPoolMaxThreads`. -/
  | set_max_threads (pool : Ptr) (maximum : Nat)
  /-- A call of `TpSetPoolMinThreads`. -/
  | set_min_threads (pool : Ptr) (minimum : Nat) (thread_status : Nat → NTSTATUS)
  /-- A call of `TpAllocWork`. -/
  | alloc_work (new_object : Option Ptr) (callback : Nat) (userdata : Nat)
      (environment : Option TP_CALLBACK_ENVIRON) (new_pool : Option Ptr)
      (thread_status : NTSTATUS)
  /-- A call of `TpSimpleTryPost`. -/
  | simple_try_post (new_object : Option Ptr) (callback : Nat) (userdata : Nat)
      (environment : Option TP_CALLBACK_ENVIRON) (new_pool : Option Ptr)
      (thread_status : NTSTATUS) (submit_status : NTSTATUS)
  /-- A call of `TpPostWork`. -/
  | post_work (work : Ptr) (thread_status : NTSTATUS)
  /-- The call of `tp_object_cancel` that `TpWaitForWork` makes when it is
  asked to cancel the pending callbacks. -/
  | cancel_work (work : Ptr)
  /-- A call of `TpReleaseWork`. -/
  | release_work (work : Ptr)
  /-- A worker thread of `pool` runs the body of its inner loop for the item
  `object`. -/
  | worker_dispatch (pool : Ptr) (object : Ptr) (threadid : Nat) (user : List instance_call)
  /-- A worker thread of `pool` leaves its outer loop and ends; `timed_out`
  tells whether its last sleep timed out. -/
  | worker_exit (pool : Ptr) (timed_out : Bool)

/-- The state after a call. -/
def pool_call.run (s : State) : pool_call → State
  | .alloc_pool new_pool => (TpAllocPool s new_pool).1
  | .release_pool pool => TpReleasePool s pool
  | .set_max_threads pool maximum => TpSetPoolMaxThreads s pool maximum
  | .set_min_threads pool minimum thread_status =>
    (TpSetPoolMinThreads s pool minimum thread_status).1
  | .alloc_work new_object callback userdata environment new_pool thread_status =>
    (TpAllocWork s new_object callback userdata environment new_pool thread_status).1
  | .simple_try_post new_object callback userdata environment new_pool thread_status
      submit_status =>
    (TpSimpleTryPost s new_object callback userdata environment new_pool thread_status
      submit_status).1
  | .post_work work thread_status => TpPostWork s work thread_status
  | .cancel_work work => tp_object_cancel s work
  | .release_work work => TpReleaseWork s work
  | .worker_dispatch pool object threadid user =>
    threadpool_worker_dispatch s pool object threadid user
  | .worker_exit pool _ => threadpool_worker_exit s pool

/-- A block that the heap hands out is not one of the allocated blocks. -/
def fresh_block (live : List Ptr) (block : Option Ptr) : Prop :=
  ∀ a, block = some a → a ∉ live

/-- The pool that a callback environment names, if any, is allocated. -/
def environment_pool_live (s : State) (environment : Option TP_CALLBACK_ENVIRON) : Prop :=
  ∀ e, environment = some e → ∀ p, e.Pool = some p → p ∈ s.live_pools

/-- What the callers owe, call by call: the heap hands out blocks that are
not allocated; a pool or object that is passed is allocated; `TpReleasePool`
and `TpReleaseWork` are called once, on a pool or work object that was not
released before, and never on the default pool; a worker thread that
dispatches or ends is one of the counted worker threads of its pool, it
dispatches the item that `threadpool_get_next_item` returns and ends only
when the test of its outer loop lets it. -/
def pool_call.allowed (s : State) : pool_call → Prop
  | .alloc_pool new_pool => fresh_block s.live_pools new_pool
  | .release_pool pool =>
    pool ∈ s.live_pools ∧ (s.pools pool).shutdown = false ∧ s.default_threadpool ≠ some pool
  | .set_max_threads pool _ => pool ∈ s.live_pools
  | .set_min_threads pool _ _ => pool ∈ s.live_pools
  | .alloc_work new_object _ _ environment new_pool _ =>
    fresh_block s.live_objects new_object ∧ fresh_block s.live_pools new_pool ∧
      environment_pool_live s environment
  | .simple_try_post new_object _ _ environment new_pool _ _ =>
    fresh_block s.live_objects new_object ∧ fresh_block s.live_pools new_pool ∧
      environment_pool_live s environment
  | .post_work work _ => work ∈ s.live_objects
  | .cancel_work work => work ∈ s.live_objects
  | .release_work work =>
    work ∈ s.live_objects ∧ (s.objects work).type ≠ TP_OBJECT_TYPE_SIMPLE ∧
      (s.objects work).shutdown = false
  | .worker_dispatch pool object _ _ =>
    pool ∈ s.live_pools ∧ 0 < (s.pools pool).num_workers ∧
      threadpool_get_next_item (s.pools pool) = some object
  | .worker_exit pool timed_out =>
    pool ∈ s.live_pools ∧ 0 < (s.pools pool).num_workers ∧
      threadpool_get_next_item (s.pools pool) = none ∧
      threadpool_worker_leaves (s.pools pool) timed_out = true

/-- The state that the calls `calls` reach, first to last. -/
def run_pool_calls (s : State) (calls : List pool_call) : State :=
  calls.foldl pool_call.run s

/-- The modulus of `ULONGLONG` arithmetic. -/
def U64_MOD : Nat := 2 ^ 64

/-- The macro `TIMEOUT_INFINITE` of the headers the file is built with, the
largest `LONGLONG`. -/
def TIMEOUT_INFINITE : Nat := 2 ^ 63 - 1

/-- The loop over `timerqueue.pending_timers` that `TpSetTimerEx` and the
timer thread share, with the `list_add_before` that follows it: the timer
goes before the first entry whose timeout is larger than `timeout`, and to
the tail when there is none. -/
def timer_list_insert (objects : Ptr → threadpool_object) (timeout : Nat) (timer : Ptr) :
    List Ptr → List Ptr
  | [] => [timer]
  | other_timer :: rest =>
    if timeout < (objects other_timer).u.timer.timeout then timer :: other_timer :: rest
    else other_timer :: timer_list_insert objects timeout timer rest

/-- The function `tp_timerqueue_lock`; `thread_status` is the status of the
creation of the timer thread, used when the thread is not running. -/
def tp_timerqueue_lock (s : State) (timer : Ptr) (thread_status : NTSTATUS) :
    State × NTSTATUS :=
  let o := s.objects timer
  let s := s.set_object timer { o with u := { o.u with timer :=
    { timer_initialized := false, timer_pending := false, timer_set := false,
      timeout := 0, period := 0, window_length := 0 } } }
  -- Make sure that the timerqueue thread is running.
  let r : State × NTSTATUS :=
    if s.timerqueue.thread_running = false then
      if thread_status = STATUS_SUCCESS then
        ({ s with timerqueue := { s.timerqueue with thread_running := true } }, STATUS_SUCCESS)
      else (s, thread_status)
    else (s, STATUS_SUCCESS)
  if r.2 = STATUS_SUCCESS then
    let s := r.1
    let o := s.objects timer
    let s := s.set_object timer
      { o with u := { o.u with timer := { o.u.timer with timer_initialized := true } } }
    ({ s with timerqueue := { s.timerqueue with objcount := s.timerqueue.objcount + 1 } },
      STATUS_SUCCESS)
  else r

/-- The timestamp and the two flags that the first part of `TpSetTimerEx`
computes from its arguments: the absolute timestamp when the timer is to be
queued (`none` stands for the local `timeout` being `NULL` afterwards) and
`submit_timer`.  `timeout` is `timeout->QuadPart`, a `LONGLONG`, or `none`
for a null pointer; `now` is the time `NtQuerySystemTime` returns.  The
arithmetic is that of `ULONGLONG`. -/
def TpSetTimerEx_timestamp (timeout : Option Int) (period : Int) (now : Nat) :
    Option Nat × Bool :=
  match timeout with
  | none => (none, false)
  | some t =>
    if t < 0 then (some (((now : Int) - t) % (U64_MOD : Int)).toNat, false)
    else if t = 0 then
      if period = 0 then (none, true)
      else (some (((now : Int) + period * 10000) % (U64_MOD : Int)).toNat, true)
    else (some (t % (U64_MOD : Int)).toNat, false)

/-- The part of `TpSetTimerEx` that runs under the lock of the timer queue.
The result carries the locals `submit_timer` and `cancelled_timer`. -/
def TpSetTimerEx_locked (s : State) (timer : Ptr) (timeout : Option Int) (period : Int)
    (window_length : Int) (now : Nat) : State × Bool × Bool :=
  let o := s.objects timer
  let s := s.set_object timer
    { o with u := { o.u with timer := { o.u.timer with timer_set := timeout.isSome } } }
  -- Convert relative timeout to absolute timestamp and handle a timeout
  -- of zero, which means that the timer is submitted immediately.
  let r := TpSetTimerEx_timestamp timeout period now
  -- First remove existing timeout.
  let o := s.objects timer
  let cancelled_timer := o.u.timer.timer_pending
  let s :=
    if o.u.timer.timer_pending = true then
      let s := { s with timerqueue := { s.timerqueue with
        pending_timers := list_remove s.timerqueue.pending_timers timer } }
      s.set_object timer
        { o with u := { o.u with timer := { o.u.timer with timer_pending := false } } }
    else s
  -- If the timer was enabled, then add it back to the queue.
  let s :=
    match r.1 with
    | some timestamp =>
      let o := s.objects timer
      let s := s.set_object timer { o with u := { o.u with timer := { o.u.timer with
        timeout := timestamp, period := period, window_length := window_length } } }
      let s := { s with timerqueue := { s.timerqueue with
        pending_timers :=
          timer_list_insert s.objects timestamp timer s.timerqueue.pending_timers } }
      let o := s.objects timer
      s.set_object timer
        { o with u := { o.u with timer := { o.u.timer with timer_pending := true } } }
    | none => s
  (s, r.2, cancelled_timer)

/-- The function `TpSetTimerEx`; `thread_status` is the status of the thread
creation that the submission may attempt.  The result carries the return
value `cancelled_timer`. -/
def TpSetTimerEx (s : State) (timer : Ptr) (timeout : Option Int) (period : Int)
    (window_length : Int) (now : Nat) (thread_status : NTSTATUS) : State × Bool :=
  let r := TpSetTimerEx_locked s timer timeout period window_length now
  let s := if r.2.1 = true then tp_object_submit r.1 timer false thread_status else r.1
  (s, r.2.2)

/-- The function `TpIsTimerSet`. -/
def TpIsTimerSet (s : State) (timer : Ptr) : Bool :=
  (s.objects timer).u.timer.timer_set

/-- One turn of the loop `while ((ptr = list_head( &timerqueue.pending_timers )))`
of `timerqueue_thread_proc`, at the time `now` the thread read before the
loop; `none` when the loop ends (the list is empty or its head is not due).
`thread_status` is the status of the thread creation that the submission may
attempt. -/
def timerqueue_expire (s : State) (now : Nat) (thread_status : NTSTATUS) : Option State :=
  match list_head s.timerqueue.pending_timers with
  | none => none
  | some timer =>
    if (s.objects timer).u.timer.timeout > now then none
    else
      -- Queue a new callback in one of the worker threads.
      let s := { s with timerqueue := { s.timerqueue with
        pending_timers := list_remove s.timerqueue.pending_timers timer } }
      let o := s.objects timer
      let s := s.set_object timer
        { o with u := { o.u with timer := { o.u.timer with timer_pending := false } } }
      let s := tp_object_submit s timer false thread_status
      -- Insert the timer back into the queue, except it's marked for shutdown.
      let o := s.objects timer
      if o.u.timer.period ≠ 0 ∧ o.shutdown = false then
        let timeout :=
          (o.u.timer.timeout + (o.u.timer.period % (U64_MOD : Int)).toNat * 10000) % U64_MOD
        let timeout := if timeout ≤ now then (now + 1) % U64_MOD else timeout
        let s := s.set_object timer
          { o with u := { o.u with timer := { o.u.timer with timeout := timeout } } }
        let s := { s with timerqueue := { s.timerqueue with
          pending_timers :=
            timer_list_insert s.objects timeout timer s.timerqueue.pending_timers } }
        let o := s.objects timer
        some (s.set_object timer
          { o with u := { o.u with timer := { o.u.timer with timer_pending := true } } })
      else some s

/-- A timer is linked in `timerqueue.pending_timers` exactly when its flag
`timer_pending` is set, and at most once. -/
def timer_linked (s : State) (timer : Ptr) : Prop :=
  ((s.objects timer).u.timer.timer_pending = true ↔ timer ∈ s.timerqueue.pending_timers) ∧
  s.timerqueue.pending_timers.Nodup

/-- The function `TpAllocTimer`.  `new_object` is the result of
`RtlAllocateHeap`, `thread_status` the status of the thread creation in
`tp_threadpool_lock` and `timer_thread_status` the one in
`tp_timerqueue_lock`. -/
def TpAllocTimer (s : State) (new_object : Option Ptr) (callback : Nat) (userdata : Nat)
    (environment : Option TP_CALLBACK_ENVIRON) (new_pool : Option Ptr)
    (thread_status : NTSTATUS) (timer_thread_status : NTSTATUS) :
    State × NTSTATUS × Option Ptr :=
  match new_object with
  | none => (s, STATUS_NO_MEMORY, none)
  | some object =>
    match tp_threadpool_lock s environment new_pool thread_status with
    | (s, status, none) => (s, status, none)
    | (s, _, some pool) =>
      let o := s.objects object
      let s := s.set_object object
        { o with type := TP_OBJECT_TYPE_TIMER, u := { o.u with callback := callback } }
      let r := tp_timerqueue_lock s object timer_thread_status
      if r.2 ≠ STATUS_SUCCESS then ( tp_threadpool_unlock r.1 pool, r.2, none)
      else
        let s := { r.1 with live_objects := object :: r.1.live_objects }
        ( tp_object_initialize s object pool userdata environment thread_status, STATUS_SUCCESS,
          some object)

/-- What is done to the timer queue, one call each: `TpAllocTimer`,
`TpSetTimerEx`, one turn of the expiry loop of the timer thread,
`tp_timerqueue_unlock`, and any other function `f` of the file. -/
inductive timer_call where
  | alloc (new_object : Option Ptr) (callback : Nat) (userdata : Nat)
      (environment : Option TP_CALLBACK_ENVIRON) (new_pool : Option Ptr)
      (thread_status : NTSTATUS) (timer_thread_status : NTSTATUS)
  | set_timer (timer : Ptr) (timeout : Option Int) (period : Int) (window_length : Int)
      (now : Nat) (thread_status : NTSTATUS)
  | expire (now : Nat) (thread_status : NTSTATUS)
  | unlock (timer : Ptr)
  | other (f : State → State)

/-- The state after a call; a turn of the expiry loop that finds nothing due
leaves the state as it is. -/
def timer_call.run (s : State) : timer_call → State
  | .alloc new_object callback userdata environment new_pool thread_status
      timer_thread_status =>
    (TpAllocTimer s new_object callback userdata environment new_pool thread_status
      timer_thread_status).1
  | .set_timer timer timeout period window_length now thread_status =>
    (TpSetTimerEx s timer timeout period window_length now thread_status).1
  | .expire now thread_status => (timerqueue_expire s now thread_status).getD s
  | .unlock timer => tp_timerqueue_unlock s timer
  | .other f => f s

/-- What the callers owe: the block that the heap hands to `TpAllocTimer` is
not an allocated object, so it is not linked in the list of pending timers;
the other functions of the file leave the list of pending timers and the
timer members of the objects as they are. -/
def timer_call.allowed (s : State) : timer_call → Prop
  | .alloc new_object _ _ _ _ _ _ => fresh_block s.timerqueue.pending_timers new_object
  | .set_timer _ _ _ _ _ _ => True
  | .expire _ _ => True
  | .unlock _ => True
  | .other f =>
    (f s).timerqueue.pending_timers = s.timerqueue.pending_timers ∧
    ∀ x, ((f s).objects x).u.timer = (s.objects x).u.timer

/-- A state with two timer objects, at addresses 10 and 11, in the default
pool at address 1: the state after two successful calls of `TpAllocTimer`. -/
def state_two_timers : State :=
  timer_call.run
    (timer_call.run initial_state
      (.alloc (some 10) 7 42 none (some 1) STATUS_SUCCESS STATUS_SUCCESS))
    (.alloc (some 11) 8 43 none none STATUS_SUCCESS STATUS_SUCCESS)

/-- The state `state_two_timers` after timer 10 was set to expire at the
absolute time 500, without period. -/
def state_timer_set : State :=
  ( TpSetTimerEx state_two_timers 10 (some 500) 0 0 100 STATUS_SUCCESS).1

/-- The states of the timer queue that the calls reach from the initial
state. -/
inductive timer_reachable : State → Prop where
  | initial : timer_reachable initial_state
  | step (s : State) (c : timer_call) :
    timer_reachable s → c.allowed s → timer_reachable (c.run s)

/-- The list of pending timers is in non-decreasing order of timeout, has no
repeated entry, and holds only timers whose flag `timer_pending` is set. -/
def timers_sorted (s : State) : Prop :=
  s.timerqueue.pending_timers.Pairwise
    (fun a b => (s.objects a).u.timer.timeout ≤ (s.objects b).u.timer.timeout) ∧
  s.timerqueue.pending_timers.Nodup ∧
  ∀ t ∈ s.timerqueue.pending_timers, (s.objects t).u.timer.timer_pending = true

/-- The timer thread takes the entries of the list of pending timers from
the head: it reaches `a` before `b` when `a` stands before `b` in the list. -/
def reached_before (s : State) (a b : Ptr) : Prop :=
  s.timerqueue.pending_timers.indexOf a < s.timerqueue.pending_timers.indexOf b

/-- The state `state_two_timers` after both timers were set to expire at the
absolute time 500, timer 10 first. -/
def state_timers_tied : State :=
  timer_call.run
    (timer_call.run state_two_timers (.set_timer 10 (some 500) 0 0 100 STATUS_SUCCESS))
    (.set_timer 11 (some 500) 0 0 100 STATUS_SUCCESS)

/-- The state `state_two_timers` after timer 10 was set to expire at the
absolute time 500 and timer 11 at the absolute time 300. -/
def state_timers_ordered : State :=
  timer_call.run
    (timer_call.run state_two_timers (.set_timer 10 (some 500) 0 0 100 STATUS_SUCCESS))
    (.set_timer 11 (some 300) 0 0 100 STATUS_SUCCESS)

/-- The function `TpSetWaitEx`.  `handle` is 0 for a null handle, `timeout`
is `timeout->QuadPart`, a `LONGLONG`, or `none` for a null pointer, and
`now` is the time `NtQuerySystemTime` returns.  The result is `none` when
the assertion on `this->u.wait.bucket` fails, and carries the return value
`replaced_wait` otherwise.  The timestamp is computed in `ULONGLONG`
arithmetic. -/
def TpSetWaitEx (s : State) (wait : Ptr) (handle : Nat) (timeout : Option Int) (now : Nat) :
    Option (State × Bool) :=
  let o := s.objects wait
  match o.u.wait.bucket with
  | none => none
  | some bucket =>
    let same_handle := decide (o.u.wait.handle = handle)
    let s := s.set_object wait
      { o with u := { o.u with wait := { o.u.wait with handle := handle } } }
    let o := s.objects wait
    if handle ≠ 0 ∨ o.u.wait.wait_pending = true then
      let b := s.buckets bucket
      let s := s.set_bucket bucket { b with
        reserved := list_remove b.reserved wait
        waiting := list_remove b.waiting wait }
      let replaced_wait := o.u.wait.wait_pending
      -- Convert relative timeout to absolute timestamp.
      let timestamp : Nat :=
        match timeout with
        | some t =>
          if handle ≠ 0 then
            if t < 0 then (((now : Int) - t) % (U64_MOD : Int)).toNat
            else (t % (U64_MOD : Int)).toNat
          else TIMEOUT_INFINITE
        | none => TIMEOUT_INFINITE
      -- Add wait object back into one of the queues.
      let b := s.buckets bucket
      let s :=
        if handle ≠ 0 then
          let s := s.set_bucket bucket { b with waiting := list_add_tail b.waiting wait }
          s.set_object wait { o with u := { o.u with wait := { o.u.wait with
            wait_pending := true, timeout := timestamp } } }
        else
          let s := s.set_bucket bucket { b with reserved := list_add_tail b.reserved wait }
          s.set_object wait { o with u := { o.u with wait := { o.u.wait with
            wait_pending := false } } }
      -- Wake up the wait queue thread.
      let o := s.objects wait
      let s :=
        if same_handle = false then
          s.set_object wait { o with update_serial := o.update_serial + 1 }
        else s
      some (s, replaced_wait)
    else some (s, false)

/-- A wait object is registered: it belongs to a bucket and is linked once,
in the bucket's list `waiting` when its flag `wait_pending` is set and in the
list `reserved` when it is not. -/
def wait_registered (s : State) (wait : Ptr) : Prop :=
  ∃ bucket, (s.objects wait).u.wait.bucket = some bucket ∧
    ((s.objects wait).u.wait.wait_pending = true →
      (s.buckets bucket).waiting.count wait = 1 ∧ wait ∉ (s.buckets bucket).reserved) ∧
    ((s.objects wait).u.wait.wait_pending = false →
      (s.buckets bucket).reserved.count wait = 1 ∧ wait ∉ (s.buckets bucket).waiting)

/-- The state `state_one_wait` after the wait was bound to the handle 77
with a relative timeout of 50, at the time 100. -/
def state_wait_armed : State :=
  ((TpSetWaitEx state_one_wait 20 77 (some (-50)) 100).getD (initial_state, false)).1

/-- The loop `while (new_capacity < count && new_capacity <= max_capacity / 2)
new_capacity *= 2;` of `array_reserve`, on `unsigned int` values.  The first
argument bounds the number of turns; 32 turns are never used up, as a
capacity that is not 0 cannot double 32 times below `2 ^ 32`. -/
def array_reserve_loop (count max_capacity : Nat) : Nat → Nat → Nat
  | 0, new_capacity => new_capacity
  | turns + 1, new_capacity =>
    if new_capacity < count ∧ new_capacity ≤ max_capacity / 2 then
      array_reserve_loop count max_capacity turns ((new_capacity * 2) % UINT_MOD)
    else new_capacity

/-- The function `array_reserve`.  `capacity` is `*capacity` on entry, `size`
the size of an element, `size_max` the value `~(SIZE_T)0` of the platform
and `memory` tells whether `RtlReAllocateHeap` hands out a block.  The
result is `none` for `FALSE` and `*capacity` on return for `TRUE`; the
elements that were written stay as they are. -/
def array_reserve (capacity count size size_max : Nat) (memory : Bool) : Option Nat :=
  if count ≤ capacity then some capacity
  else
    let max_capacity := (size_max / size) % UINT_MOD
    if count > max_capacity then none
    else
      let new_capacity := c_max 4 capacity
      let new_capacity := array_reserve_loop count max_capacity 32 new_capacity
      let new_capacity := if new_capacity < count then max_capacity else new_capacity
      if memory = false then none else some new_capacity

/-- A store into element `i` of an array of completions: the elements before
`i` that were never written read as zero. -/
def completions_store (completions : List io_completion) (i : Nat) (v : io_completion) :
    List io_completion :=
  if i < completions.length then completions.set i v
  else completions ++ List.replicate (i - completions.length) ⟨0, 0⟩ ++ [v]

/-- The statements `completion = &io->u.io.completions[io->u.io.completion_count++];
completion->iosb = iosb; completion->cvalue = value;` of the I/O thread. -/
def ioqueue_store_completion (s : State) ( io : Ptr) (iosb value : Nat) : State :=
  let o := s.objects io
  s.set_object io { o with u := { o.u with io := { o.u.io with
    completions := completions_store o.u.io.completions o.u.io.completion_count ⟨iosb, value⟩
    completion_count := (o.u.io.completion_count + 1) % UINT_MOD } } }

/-- One turn of the loop of `ioqueue_thread_proc`, from the return of
`NtRemoveIoCompletion` with the packet `key`, `value`, `iosb` to the end of
the handling of the packet; `key` is the address of the I/O object, `none`
for a null key.  `size` and `size_max` are the size of a completion record
and the value `~(SIZE_T)0`, `memory` tells whether a reallocation succeeds
and `thread_status` is the status of a thread creation that a submission may
attempt. -/
def ioqueue_thread_proc (s : State) (key : Option Ptr) (value iosb : Nat)
    (size size_max : Nat) (memory : Bool) (thread_status : NTSTATUS) : State :=
  match key with
  | none => s
  | some io =>
    let o := s.objects io
    -- destroy = skip = FALSE;
    let r : State × Bool × Bool :=
      if o.shutdown = true ∨ o.u.io.shutting_down = true then
        if o.u.io.pending_count = 0 then
          let skipped_count :=
            if o.u.io.skipped_count ≠ 0 then o.u.io.skipped_count - 1
            else o.u.io.skipped_count
          let s := s.set_object io
            { o with u := { o.u with io := { o.u.io with skipped_count := skipped_count } } }
          if skipped_count ≠ 0 then (s, false, true) else (s, true, false)
        else (s, false, false)
      else (s, false, false)
    let s := r.1
    if r.2.2 = true then s
    else if r.2.1 = true then
      let s := { s with ioqueue := { s.ioqueue with objcount := s.ioqueue.objcount - 1 } }
      let s := s.set_object io { s.objects io with shutdown := true }
      ( tp_object_release s io).1
    else
      let o := s.objects io
      if o.u.io.pending_count ≠ 0 then
        let s := s.set_object io { o with u := { o.u with io := { o.u.io with
          pending_count := o.u.io.pending_count - 1 } } }
        let o := s.objects io
        match array_reserve o.u.io.completion_max ((o.u.io.completion_count + 1) % UINT_MOD)
            size size_max memory with
        | none => s
        | some capacity =>
          let s := s.set_object io
            { o with u := { o.u with io := { o.u.io with completion_max := capacity } } }
          let s := ioqueue_store_completion s io iosb value
          let s := tp_object_submit s io false thread_status
          let s := ioqueue_store_completion s io iosb value
          tp_object_submit s io false thread_status
      else
        let s := ioqueue_store_completion s io iosb value
        tp_object_submit s io false thread_status

/-- The function `tp_ioqueue_lock`.  `port_status` and `new_port` are the
status and the handle of `NtCreateIoCompletion`, used while there is no
port, `thread_status` is the status of the creation of the I/O thread, used
when the thread is not running, and `file_status` the status of
`NtSetInformationFile`.  The object `_io` is only the key handed to the
kernel. -/
def tp_ioqueue_lock (s : State) ( _io : Ptr) (port_status : NTSTATUS) (new_port : Nat)
    (thread_status : NTSTATUS) (file_status : NTSTATUS) : State × NTSTATUS :=
  if s.ioqueue.port = 0 ∧ port_status ≠ STATUS_SUCCESS then (s, port_status)
  else
    let s :=
      if s.ioqueue.port = 0 then { s with ioqueue := { s.ioqueue with port := new_port } }
      else s
    let r : State × NTSTATUS :=
      if s.ioqueue.thread_running = false then
        if thread_status = STATUS_SUCCESS then
          ({ s with ioqueue := { s.ioqueue with thread_running := true } }, STATUS_SUCCESS)
        else (s, thread_status)
      else (s, STATUS_SUCCESS)
    let status := if r.2 = STATUS_SUCCESS then file_status else r.2
    if status = STATUS_SUCCESS then
      ({ r.1 with ioqueue := { r.1.ioqueue with objcount := r.1.ioqueue.objcount + 1 } }, status)
    else (r.1, status)

/-- A block that `RtlAllocateHeap` hands out under `HEAP_ZERO_MEMORY`. -/
def zero_object : threadpool_object :=
  { refcount := 0, shutdown := false, type := TP_OBJECT_TYPE_SIMPLE, pool := 0, group := none,
    userdata := 0, group_cancel_callback := none, finalization_callback := none,
    may_run_long := false, priority := 0, is_group_member := false,
    num_pending_callbacks := 0, num_running_callbacks := 0, num_associated_callbacks := 0,
    update_serial := 0,
    u := { callback := 0,
           timer := { timer_initialized := false, timer_pending := false, timer_set := false,
                      timeout := 0, period := 0, window_length := 0 },
           wait := { signaled := 0, bucket := none, wait_pending := false, timeout := 0,
                     handle := 0, flags := 0 },
           io := { pending_count := 0, skipped_count := 0, completion_count := 0,
                   completion_max := 0, shutting_down := false, completions := [] } } }

/-- The function `TpAllocIoCompletion`.  `new_object` is the zeroed block of
the first `RtlAllocateHeap`, `completions` tells whether the second one, for
the array of 8 completions, hands out a block; the other arguments are those
of `tp_threadpool_lock` and `tp_ioqueue_lock`.  When the array cannot be
allocated the function returns the status of `tp_threadpool_lock`. -/
def TpAllocIoCompletion (s : State) (new_object : Option Ptr) (callback : Nat)
    (userdata : Nat) (environment : Option TP_CALLBACK_ENVIRON) (new_pool : Option Ptr)
    (thread_status : NTSTATUS) (completions : Bool) (port_status : NTSTATUS)
    (new_port : Nat) (io_thread_status : NTSTATUS) (file_status : NTSTATUS) :
    State × NTSTATUS × Option Ptr :=
  match new_object with
  | none => (s, STATUS_NO_MEMORY, none)
  | some object =>
    let s := s.set_object object zero_object
    match tp_threadpool_lock s environment new_pool thread_status with
    | (s, status, none) => (s, status, none)
    | (s, status, some pool) =>
      let o := s.objects object
      let s := s.set_object object
        { o with type := TP_OBJECT_TYPE_IO, u := { o.u with callback := callback } }
      if completions = false then ( tp_threadpool_unlock s pool, status, none)
      else
        let r := tp_ioqueue_lock s object port_status new_port io_thread_status file_status
        if r.2 ≠ STATUS_SUCCESS then ( tp_threadpool_unlock r.1 pool, r.2, none)
        else
          let s := { r.1 with live_objects := object :: r.1.live_objects }
          ( tp_object_initialize s object pool userdata environment thread_status,
            STATUS_SUCCESS, some object)

/-- The function `TpStartAsyncIoOperation`. -/
def TpStartAsyncIoOperation (s : State) ( io : Ptr) : State :=
  let o := s.objects io
  s.set_object io { o with u := { o.u with io := { o.u.io with
    pending_count := (o.u.io.pending_count + 1) % UINT_MOD } } }

/-- The function `TpCancelAsyncIoOperation`; waking the condition variables
does not change the state. -/
def TpCancelAsyncIoOperation (s : State) ( io : Ptr) : State :=
  let o := s.objects io
  s.set_object io { o with u := { o.u with io := { o.u.io with
    pending_count := (o.u.io.pending_count + UINT_MOD - 1) % UINT_MOD } } }

/-- The function `TpReleaseIoCompletion`. -/
def TpReleaseIoCompletion (s : State) ( io : Ptr) : State :=
  let o := s.objects io
  let s := s.set_object io
    { o with u := { o.u with io := { o.u.io with shutting_down := true } } }
  let can_destroy := decide (o.u.io.pending_count = 0 ∧ o.u.io.skipped_count = 0)
  if can_destroy = true then
    let s := tp_object_prepare_shutdown s io
    let s := s.set_object io { s.objects io with shutdown := true }
    ( tp_object_release s io).1
  else s

/-- The function `TpWaitForIoCompletion`; `others` lists what the other
threads do while the function sleeps, see `tp_object_wait`. -/
def TpWaitForIoCompletion (s : State) ( io : Ptr) (cancel_pending : Bool)
    (others : List (State → State)) : Option (State × List (State → State)) :=
  let s := if cancel_pending = true then tp_object_cancel s io else s
  tp_object_wait s io false others

/-- A state with one I/O object, at address 40, in the default pool at
address 1: the state after a first successful `TpAllocIoCompletion`. -/
def state_one_io : State :=
  ( TpAllocIoCompletion initial_state (some 40) 6 45 none (some 1) STATUS_SUCCESS true
    STATUS_SUCCESS 5 STATUS_SUCCESS STATUS_SUCCESS).1

/-- The state `state_one_io` after one operation was started on the file. -/
def state_io_started : State :=
  TpStartAsyncIoOperation state_one_io 40

/-- The state `state_one_io` after two operations were started on the file
and `tp_object_cancel` was called on the object. -/
def state_io_cancelled : State :=
  tp_object_cancel ( TpStartAsyncIoOperation ( TpStartAsyncIoOperation state_one_io 40) 40) 40

/-- The state `state_io_cancelled` after `TpReleaseIoCompletion`. -/
def state_io_released : State :=
  TpReleaseIoCompletion state_io_cancelled 40

/-- A call of `TpSetPoolMaxThreads` or of `TpSetPoolMinThreads` on a pool,
with its `DWORD` argument; `thread_status` gives the statuses of the thread
creations of the call. -/
inductive limit_call where
  | set_max (pool : Ptr) (maximum : Nat)
  | set_min (pool : Ptr) (minimum : Nat) (thread_status : Nat → NTSTATUS)

/-- The state after a call. -/
def limit_call.run (s : State) : limit_call → State
  | .set_max pool maximum => TpSetPoolMaxThreads s pool maximum
  | .set_min pool minimum thread_status =>
    (TpSetPoolMinThreads s pool minimum thread_status).1

/-- The state after a pool at address 1 was allocated and a work object at
address 10 was allocated in it and released again: the pool has one idle
worker and no object. -/
def state_idle_pool : State :=
  run_pool_calls initial_state
    [.alloc_pool (some 1),
     .alloc_work (some 10) 7 42 (some environment_pool1) none STATUS_SUCCESS,
     .release_work 10]

/-- The loop of `timerqueue_thread_proc` that determines the next timeout,
over the entries `other_timer` of the list of pending timers that are left;
the pair holds `timeout_lower` and `timeout_upper`.  The arithmetic is that
of `ULONGLONG`. -/
def timerqueue_next_timeout (objects : Ptr → threadpool_object) :
    List Ptr → Nat × Nat → Nat × Nat
  | [], r => r
  | other_timer :: rest, (timeout_lower, timeout_upper) =>
    if (objects other_timer).u.timer.timeout ≥ timeout_upper then (timeout_lower, timeout_upper)
    else
      let timeout_lower := (objects other_timer).u.timer.timeout
      let new_timeout :=
        (timeout_lower +
          ((objects other_timer).u.timer.window_length % (U64_MOD : Int)).toNat * 10000)
            % U64_MOD
      let timeout_upper := if new_timeout < timeout_upper then new_timeout else timeout_upper
      timerqueue_next_timeout objects rest (timeout_lower, timeout_upper)

/-- The value of `timeout_lower` with which the timer thread goes to sleep. -/
def timerqueue_timeout_lower (s : State) : Nat :=
  (timerqueue_next_timeout s.objects s.timerqueue.pending_timers
    (TIMEOUT_INFINITE, TIMEOUT_INFINITE)).1

/-- The state `state_two_timers` after timer 10 was set to expire at the
absolute time 500 with a window of 3 ms and timer 11 at the absolute
time 20000 with a window of 5 ms. -/
def state_timers_windows : State :=
  timer_call.run
    (timer_call.run state_two_timers (.set_timer 10 (some 500) 0 3 100 STATUS_SUCCESS))
    (.set_timer 11 (some 20000) 0 5 100 STATUS_SUCCESS)

/-- The state `state_two_timers` after timer 10 was set to expire at the
absolute time `2 ^ 63 - 1`, the largest `LONGLONG`. -/
def state_timer_far : State :=
  timer_call.run state_two_timers
    (.set_timer 10 (some 9223372036854775807) 0 0 100 STATUS_SUCCESS)

/-- The loop `while ((ptr = list_head( &timerqueue.pending_timers )))` of
`timerqueue_thread_proc` at the time `now`: turns of `timerqueue_expire`
until the list is empty or its head is not due.  The first argument bounds
the number of turns, and `thread_status i` is the status of the thread
creation that the submission may attempt when `i` turns are left. -/
def timerqueue_expire_loop (now : Nat) (thread_status : Nat → NTSTATUS) : Nat → State → State
  | 0, s => s
  | turns + 1, s =>
    match timerqueue_expire s now (thread_status turns) with
    | none => s
    | some t => timerqueue_expire_loop now thread_status turns t

/-- The timeout that the expiry loop gives to a periodic timer that was due
at the time `now`. -/
def timer_next_timeout (o : threadpool_object) (now : Nat) : Nat :=
  if (o.u.timer.timeout + (o.u.timer.period % (U64_MOD : Int)).toNat * 10000) % U64_MOD ≤ now
  then (now + 1) % U64_MOD
  else (o.u.timer.timeout + (o.u.timer.period % (U64_MOD : Int)).toNat * 10000) % U64_MOD

/-- A timer is pending and due at the time `now`. -/
def timer_due (s : State) (now : Nat) (x : Ptr) : Prop :=
  x ∈ s.timerqueue.pending_timers ∧ (s.objects x).u.timer.timeout ≤ now

/-- The state `state_two_timers` after timer 10 was set to expire once at
the absolute time 500 and timer 11 at the absolute time 300 and then every
2 ms. -/
def state_timers_periodic : State :=
  timer_call.run
    (timer_call.run state_two_timers (.set_timer 10 (some 500) 0 0 100 STATUS_SUCCESS))
    (.set_timer 11 (some 300) 2 0 100 STATUS_SUCCESS)

/-- The three lists of a pool, one after the other. -/
def threadpool.queue (p : threadpool) : List Ptr :=
  p.pools0 ++ p.pools1 ++ p.pools2

/-- The first part of the body of the inner loop of `threadpool_worker_proc`
for the item `object`, up to the point where `tp_object_execute` drops the
pool lock to call the callback.  The result carries the instance, the wait
result and the completion that the callback is called with. -/
def threadpool_worker_enter (s : State) (pool : Ptr) (object : Ptr) (threadid : Nat) :
    State × threadpool_instance × Nat × io_completion :=
  let o := s.objects object
  -- If further pending callbacks are queued, move the work item to
  -- the end of the pool list. Otherwise remove it from the pool.
  let s := s.set_pool pool ((s.pools pool).remove_entry object)
  let s := if o.num_pending_callbacks > 1 then tp_object_prio_queue s object else s
  tp_object_execute_enter s object threadid

/-- The last part of the body of the inner loop of `threadpool_worker_proc`,
from the point where `tp_object_execute` takes the pool lock again. -/
def threadpool_worker_finish (s : State) (pool : Ptr) (object : Ptr)
    (this : threadpool_instance) : State :=
  let s := tp_object_execute_leave s object this
  let p := s.pools pool
  let s := s.set_pool pool { p with num_busy_workers := p.num_busy_workers - 1 }
  ( tp_object_release s object).1

/-- A state together with two counts that the source does not keep: for
every pool, the number of its workers that have taken an item off the lists
and have not finished with it (`executing`), and the number of items that
`tp_object_cancel` has taken off its lists (`cancelled`). -/
structure queue_state where
  state : State
  executing : Ptr → Nat
  cancelled : Ptr → Nat

/-- What is done to the lists of the pools, one critical section each; `f`
stands for any other function of the file. -/
inductive queue_call where
  | alloc_pool (new_pool : Option Ptr)
  | object_init (object : Ptr) (pool : Ptr) (userdata : Nat)
      (environment : Option TP_CALLBACK_ENVIRON) (thread_status : NTSTATUS)
  | submit (object : Ptr) (signaled : Bool) (thread_status : NTSTATUS)
  | worker_enter (pool : Ptr) (object : Ptr) (threadid : Nat)
  | worker_finish (pool : Ptr) (object : Ptr) (this : threadpool_instance)
  | cancel (object : Ptr)
  | other (f : State → State)

/-- The state after a call: `tp_threadpool_alloc`, `tp_object_initialize`,
`tp_object_submit`, the two parts of a worker's turn, `tp_object_cancel`, or
`f`.  A new pool starts with no cancelled item; a worker that takes an item
is counted in `executing` until it has finished; a cancellation that finds
pending callbacks is counted in `cancelled`. -/
def queue_call.run (q : queue_state) : queue_call → queue_state
  | .alloc_pool new_pool =>
    { state := ( tp_threadpool_alloc q.state new_pool).1
      executing := q.executing
      cancelled :=
        match new_pool with
        | some a => update q.cancelled a 0
        | none => q.cancelled }
  | .object_init object pool userdata environment thread_status =>
    { state := tp_object_initialize q.state object pool userdata environment thread_status
      executing := q.executing
      cancelled := q.cancelled }
  | .submit object signaled thread_status =>
    { q with state := tp_object_submit q.state object signaled thread_status }
  | .worker_enter pool object threadid =>
    { state := (threadpool_worker_enter q.state pool object threadid).1
      executing := update q.executing pool (q.executing pool + 1)
      cancelled := q.cancelled }
  | .worker_finish pool object this =>
    { state := threadpool_worker_finish q.state pool object this
      executing := update q.executing pool (q.executing pool - 1)
      cancelled := q.cancelled }
  | .cancel object =>
    { state := tp_object_cancel q.state object
      executing := q.executing
      cancelled :=
        if (q.state.objects object).num_pending_callbacks ≠ 0 then
          update q.cancelled (q.state.objects object).pool
            (q.cancelled (q.state.objects object).pool + 1)
        else q.cancelled }
  | .other f => { q with state := f q.state }

/-- What the callers owe.  The block that the heap hands out for a pool is
not the pool of an object with pending callbacks or of a running worker; the
block of an object that is initialised is not linked in a list, and its
environment has passed `tp_threadpool_lock`; a worker takes the item that
`threadpool_get_next_item` returns and finishes only what it has taken; the
other functions of the file leave the lists, `num_busy_workers` and the
pool, the priority and the count of pending callbacks of the objects as they
are. -/
def queue_call.allowed (q : queue_state) : queue_call → Prop
  | .alloc_pool new_pool =>
    ∀ a, new_pool = some a →
      (∀ x, (q.state.objects x).pool = a → (q.state.objects x).num_pending_callbacks ≤ 0) ∧
      q.executing a = 0
  | .object_init object _ _ environment _ =>
    (∀ p, object ∉ (q.state.pools p).queue) ∧
    ∀ e, environment = some e → e.Version = 3 → e.CallbackPriority < 3
  | .submit _ _ _ => True
  | .worker_enter pool object _ => threadpool_get_next_item (q.state.pools pool) = some object
  | .worker_finish pool _ _ => 0 < q.executing pool
  | .cancel _ => True
  | .other f =>
    (∀ p, (∀ i, ((f q.state).pools p).pools i = (q.state.pools p).pools i) ∧
      ((f q.state).pools p).num_busy_workers = (q.state.pools p).num_busy_workers) ∧
    ∀ x, ((f q.state).objects x).pool = (q.state.objects x).pool ∧
      ((f q.state).objects x).priority = (q.state.objects x).priority ∧
      ((f q.state).objects x).num_pending_callbacks
        = (q.state.objects x).num_pending_callbacks

/-- The states that the calls reach from the initial state. -/
inductive queue_reachable : queue_state → Prop where
  | initial : queue_reachable ⟨initial_state, fun _ => 0, fun _ => 0⟩
  | step (q : queue_state) (c : queue_call) :
    queue_reachable q → c.allowed q → queue_reachable (c.run q)

/-- The lists of the pools hold exactly the objects with pending callbacks,
each once in its own pool and in the list of its priority; priorities index
the three lists; no count of pending callbacks is negative; and
`num_busy_workers` counts the linked items, the workers that are executing
and the cancelled items. -/
structure queues_exact (q : queue_state) : Prop where
  once : ∀ p x, (q.state.pools p).queue.count x =
    if (q.state.objects x).pool = p ∧ 0 < (q.state.objects x).num_pending_callbacks
    then 1 else 0
  own_list : ∀ p i x, x ∈ (q.state.pools p).pools i → (q.state.objects x).priority = i
  priority : ∀ x, (q.state.objects x).priority < 3
  pending : ∀ x, 0 ≤ (q.state.objects x).num_pending_callbacks
  busy : ∀ p, (q.state.pools p).num_busy_workers =
    ((q.state.pools p).queue.length : Int) + (q.executing p : Int) + (q.cancelled p : Int)

/-- The store `object->type = TP_OBJECT_TYPE_WORK` of `TpAllocWork`. -/
def work_type_store (object : Ptr) (s : State) : State :=
  s.set_object object { s.objects object with type := TP_OBJECT_TYPE_WORK }

/-- A pool at address 1 and a work object at address 10 in it, initialised
and not posted. -/
def queue_state_work : queue_state :=
  (queue_call.object_init 10 1 42 none STATUS_SUCCESS).run
    ((queue_call.other (work_type_store 10)).run
      ((queue_call.alloc_pool (some 1)).run ⟨initial_state, fun _ => 0, fun _ => 0⟩))

/-- The work object of `queue_state_work` posted twice. -/
def queue_state_posted : queue_state :=
  (queue_call.submit 10 false STATUS_SUCCESS).run
    ((queue_call.submit 10 false STATUS_SUCCESS).run queue_state_work)

/-- Status values of `NtWaitForMultipleObjects`, from the platform headers. -/
def STATUS_WAIT_0 : NTSTATUS := 0
def STATUS_TIMEOUT : NTSTATUS := 0x102

/-- The operation `list_move_tail( dst, src )`: all entries of `src` go to
the tail of `dst`, in their order; the result is the pair of the new `dst`
and the new `src`, which is empty. -/
def list_move_tail (dst src : List Ptr) : List Ptr × List Ptr :=
  (dst ++ src, [])

/-- The local variables of `waitqueue_thread_proc` that its first loop
fills: `timeout.QuadPart` and the arrays `objects`, `handles` and
`update_serials`, whose common length is `num_handles`. -/
structure waitqueue_locals where
  timeout : Nat
  objects : List Ptr
  handles : List Nat
  update_serials : List Int
  deriving DecidableEq

/-- The one-shot move of `waitqueue_thread_proc`, made in both places under
`WT_EXECUTEONLYONCE`: the wait leaves the list of the bucket that holds it
and goes to the tail of `reserved`. -/
def waitqueue_one_shot (s : State) (bucket : Ptr) (wait : Ptr) : State :=
  if (s.objects wait).u.wait.flags &&& WT_EXECUTEONLYONCE ≠ 0 then
    let b := s.buckets bucket
    let s := s.set_bucket bucket { b with
      waiting := list_remove b.waiting wait
      reserved := list_add_tail (list_remove b.reserved wait) wait }
    let o := s.objects wait
    s.set_object wait { o with u := { o.u with wait := { o.u.wait with wait_pending := false } } }
  else s

/-- One turn of the first loop of `waitqueue_thread_proc`, for the entry
`wait` of `bucket->waiting`.  `now` is the time read before the loop,
`threadid` the identifier of the bucket thread, `user` what a callback that
runs in this thread does with its instance, `thread_status` the status of the
thread creation that `tp_object_submit` may attempt.  The result is `none`
when the assertion `num_handles < MAXIMUM_WAITQUEUE_OBJECTS` fails; the two
assertions on the type and on `wait_pending` do not change the state. -/
def waitqueue_collect_turn (bucket : Ptr) (now : Nat) (threadid : Nat)
    (user : List instance_call) (thread_status : NTSTATUS)
    (r : State × waitqueue_locals) (wait : Ptr) : Option (State × waitqueue_locals) :=
  let s := r.1
  let l := r.2
  let o := s.objects wait
  if o.u.wait.timeout ≤ now then
    -- Wait object timed out.
    let s := waitqueue_one_shot s bucket wait
    if o.u.wait.flags &&& (WT_EXECUTEINWAITTHREAD ||| WT_EXECUTEINIOTHREAD) ≠ 0 then
      let o := s.objects wait
      let s := s.set_object wait { o with
        refcount := o.refcount + 1, num_pending_callbacks := o.num_pending_callbacks + 1 }
      let s := tp_object_execute s wait true threadid user
      some (( tp_object_release s wait).1, l)
    else some (tp_object_submit s wait false thread_status, l)
  else
    let timeout := if o.u.wait.timeout < l.timeout then o.u.wait.timeout else l.timeout
    if l.objects.length < MAXIMUM_WAITQUEUE_OBJECTS then
      let s := s.set_object wait { o with refcount := o.refcount + 1 }
      some (s,
        { timeout := timeout
          objects := l.objects ++ [wait]
          handles := l.handles ++ [o.u.wait.handle]
          update_serials := l.update_serials ++ [o.update_serial] })
    else none

/-- The turns of the first loop of `waitqueue_thread_proc` for the entries
`entries`, in order. -/
def waitqueue_collect_loop (bucket : Ptr) (now : Nat) (threadid : Nat)
    (user : List instance_call) (thread_status : NTSTATUS) :
    List Ptr → State × waitqueue_locals → Option (State × waitqueue_locals)
  | [], r => some r
  | wait :: rest, r =>
    match waitqueue_collect_turn bucket now threadid user thread_status r wait with
    | none => none
    | some r => waitqueue_collect_loop bucket now threadid user thread_status rest r

/-- The first loop of `waitqueue_thread_proc`, `LIST_FOR_EACH_ENTRY_SAFE` over
`bucket->waiting`: a turn unlinks no entry but its own, so the turns are
those for the entries that the list holds when the loop starts. -/
def waitqueue_thread_collect (s : State) (bucket : Ptr) (now : Nat) (threadid : Nat)
    (user : List instance_call) (thread_status : NTSTATUS) :
    Option (State × waitqueue_locals) :=
  waitqueue_collect_loop bucket now threadid user thread_status (s.buckets bucket).waiting
    (s, { timeout := TIMEOUT_INFINITE, objects := [], handles := [], update_serials := [] })

/-- The branch `Wait object signaled` of `waitqueue_thread_proc` up to the
call of `tp_object_execute`, for the wait `wait`: the one-shot move and the
dispatch.  The second component tells whether the callback is to be run in
the bucket thread; the result is `none` when the assertion
`wait->u.wait.bucket == bucket` fails. -/
def waitqueue_thread_signaled (s : State) (bucket : Ptr) (wait : Ptr)
    (thread_status : NTSTATUS) : Option (State × Bool) :=
  let o := s.objects wait
  if o.u.wait.bucket = some bucket then
    let s := waitqueue_one_shot s bucket wait
    if o.u.wait.flags &&& (WT_EXECUTEINWAITTHREAD ||| WT_EXECUTEINIOTHREAD) ≠ 0 then
      let o := s.objects wait
      some (s.set_object wait { o with
        num_pending_callbacks := o.num_pending_callbacks + 1
        u := { o.u with wait := { o.u.wait with signaled := o.u.wait.signaled + 1 } } }, true)
    else some (tp_object_submit s wait true thread_status, false)
  else none

/-- What `waitqueue_thread_proc` does with the status of a wait that was not
idle, before it releases its references: `l` holds the arrays built before
the wait, `status` is the result of `NtWaitForMultipleObjects`. -/
def waitqueue_thread_dispatch (s : State) (bucket : Ptr) (l : waitqueue_locals)
    (status : NTSTATUS) (threadid : Nat) (user : List instance_call)
    (thread_status : NTSTATUS) : Option State :=
  if status ≥ STATUS_WAIT_0 ∧ status < STATUS_WAIT_0 + l.objects.length then
    match l.objects.get? (status - STATUS_WAIT_0),
        l.update_serials.get? (status - STATUS_WAIT_0) with
    | some wait, some update_serial =>
      if (s.objects wait).u.wait.bucket ≠ none ∧
          (s.objects wait).update_serial = update_serial then
        -- Wait object signaled.
        match waitqueue_thread_signaled s bucket wait thread_status with
        | some (s, true) => some (tp_object_execute s wait true threadid user)
        | some (s, false) => some s
        | none => none
      else some s
    | _, _ => some s
  else some s

/-- The loop `while (num_handles) tp_object_release( objects[--num_handles] )`
of `waitqueue_thread_proc`. -/
def waitqueue_thread_release (s : State) (objects : List Ptr) : State :=
  objects.reverse.foldl (fun s wait => ( tp_object_release s wait).1) s

/-- The part of `waitqueue_thread_proc` between the return of a wait that was
not idle and the attempt to merge. -/
def waitqueue_thread_signal (s : State) (bucket : Ptr) (l : waitqueue_locals)
    (status : NTSTATUS) (threadid : Nat) (user : List instance_call)
    (thread_status : NTSTATUS) : Option State :=
  match waitqueue_thread_dispatch s bucket l status threadid user thread_status with
  | some s => some (waitqueue_thread_release s l.objects)
  | none => none

/-- The test of the inner loop of the merge in `waitqueue_thread_proc`. -/
def waitqueue_merge_target (s : State) (bucket : Ptr) (other_bucket : Ptr) : Bool :=
  decide (other_bucket ≠ bucket ∧ (s.buckets other_bucket).objcount ≠ 0 ∧
    (s.buckets other_bucket).alertable = (s.buckets bucket).alertable ∧
    (s.buckets other_bucket).objcount + (s.buckets bucket).objcount
      ≤ ((MAXIMUM_WAITQUEUE_OBJECTS * 2 / 3 : Nat) : Int))

/-- The loop `wait->u.wait.bucket = other_bucket` over a list of waits. -/
def waitqueue_set_bucket (s : State) (other_bucket : Ptr) (waits : List Ptr) : State :=
  waits.foldl (fun s wait =>
    let o := s.objects wait
    s.set_object wait
      { o with u := { o.u with wait := { o.u.wait with bucket := some other_bucket } } }) s

/-- The body of the merge in `waitqueue_thread_proc`, for the bucket
`other_bucket` that passed the test. -/
def waitqueue_merge_into (s : State) (bucket : Ptr) (other_bucket : Ptr) : State :=
  let ob := s.buckets other_bucket
  let s := s.set_bucket other_bucket { ob with
    objcount := ob.objcount + (s.buckets bucket).objcount }
  let b := s.buckets bucket
  let s := s.set_bucket bucket { b with objcount := 0 }
  -- Update reserved list.
  let s := waitqueue_set_bucket s other_bucket (s.buckets bucket).reserved
  let m := list_move_tail (s.buckets other_bucket).reserved (s.buckets bucket).reserved
  let s := s.set_bucket other_bucket { s.buckets other_bucket with reserved := m.1 }
  let s := s.set_bucket bucket { s.buckets bucket with reserved := m.2 }
  -- Update waiting list.
  let s := waitqueue_set_bucket s other_bucket (s.buckets bucket).waiting
  let m := list_move_tail (s.buckets other_bucket).waiting (s.buckets bucket).waiting
  let s := s.set_bucket other_bucket { s.buckets other_bucket with waiting := m.1 }
  let s := s.set_bucket bucket { s.buckets bucket with waiting := m.2 }
  -- Move bucket to the end, to keep the probability of
  -- newly added wait objects as small as possible.
  { s with waitqueue := { s.waitqueue with
      buckets := list_add_tail (list_remove s.waitqueue.buckets bucket) bucket } }

/-- The part `Try to merge bucket with other threads` of
`waitqueue_thread_proc`. -/
def waitqueue_thread_merge (s : State) (bucket : Ptr) : State :=
  if s.waitqueue.num_buckets > 1 ∧ (s.buckets bucket).objcount ≠ 0 ∧
      (s.buckets bucket).objcount ≤ ((MAXIMUM_WAITQUEUE_OBJECTS * 1 / 3 : Nat) : Int) then
    match s.waitqueue.buckets.find? (waitqueue_merge_target s bucket) with
    | some other_bucket => waitqueue_merge_into s bucket other_bucket
    | none => s
  else s

/-- The end of the idle wait of `waitqueue_thread_proc` and, when the loop is
left, the removal of the bucket from the list.  The second component tells
whether the thread ends. -/
def waitqueue_thread_idle (s : State) (bucket : Ptr) (status : NTSTATUS) : State × Bool :=
  if status = STATUS_TIMEOUT ∧ (s.buckets bucket).objcount = 0 then
    -- Remove this bucket from the list.
    ({ s with waitqueue := {
        buckets := list_remove s.waitqueue.buckets bucket
        num_buckets := s.waitqueue.num_buckets - 1 } }, true)
  else (s, false)

/-- The second state shows the wait service as the first does: the buckets,
the global list, and the bucket pointer and the flags of every wait are the
same. -/
def wait_view (s t : State) : Prop :=
  t.buckets = s.buckets ∧ t.waitqueue = s.waitqueue ∧
  ∀ x, ((t.objects x).u.wait.bucket = (s.objects x).u.wait.bucket ∧
    (t.objects x).u.wait.flags = (s.objects x).u.wait.flags)

/-- The calls on the wait service, one critical section of `waitqueue.cs`
each; `f` stands for any other function of the file. -/
inductive wait_call where
  | alloc (new_object : Option Ptr) (callback : Nat) (userdata : Nat)
      (environment : Option TP_CALLBACK_ENVIRON) (new_pool : Option Ptr)
      (thread_status : NTSTATUS) (new_bucket : Option Ptr) (event_status : NTSTATUS)
      (bucket_thread_status : NTSTATUS)
  | unlock (wait : Ptr)
  | set_wait (wait : Ptr) (handle : Nat) (timeout : Option Int) (now : Nat)
  | thread_collect (bucket : Ptr) (now : Nat) (threadid : Nat) (user : List instance_call)
      (thread_status : NTSTATUS)
  | thread_signal (bucket : Ptr) (l : waitqueue_locals) (status : NTSTATUS) (threadid : Nat)
      (user : List instance_call) (thread_status : NTSTATUS)
  | thread_merge (bucket : Ptr)
  | thread_idle (bucket : Ptr) (status : NTSTATUS)
  | other (f : State → State)

/-- The state after a call: `TpAllocWait`, `tp_waitqueue_unlock`,
`TpSetWaitEx`, the parts of a turn of the bucket thread, or `f`.  A call
whose assertion fails leaves the state as it is. -/
def wait_call.run (s : State) : wait_call → State
  | .alloc new_object callback userdata environment new_pool thread_status new_bucket
      event_status bucket_thread_status =>
    ( TpAllocWait s new_object callback userdata environment new_pool thread_status new_bucket
      event_status bucket_thread_status).1
  | .unlock wait => tp_waitqueue_unlock s wait
  | .set_wait wait handle timeout now =>
    match TpSetWaitEx s wait handle timeout now with
    | some r => r.1
    | none => s
  | .thread_collect bucket now threadid user thread_status =>
    match waitqueue_thread_collect s bucket now threadid user thread_status with
    | some r => r.1
    | none => s
  | .thread_signal bucket l status threadid user thread_status =>
    match waitqueue_thread_signal s bucket l status threadid user thread_status with
    | some t => t
    | none => s
  | .thread_merge bucket => waitqueue_thread_merge s bucket
  | .thread_idle bucket status => (waitqueue_thread_idle s bucket status).1
  | .other f => f s

/-- What the callers owe.  The blocks that the heap hands out are free: the
object is linked in no bucket, and the bucket is not in the global list; the
other functions of the file leave the wait service as it is. -/
def wait_call.allowed (s : State) : wait_call → Prop
  | .alloc new_object _ _ _ _ _ new_bucket _ _ =>
    (∀ a, new_object = some a →
      ∀ b, a ∉ (s.buckets b).reserved ∧ a ∉ (s.buckets b).waiting) ∧
    ∀ b, new_bucket = some b → b ∉ s.waitqueue.buckets
  | .other f => wait_view s (f s)
  | _ => True

/-- The states that the calls reach from the initial state. -/
inductive wait_reachable : State → Prop where
  | initial : wait_reachable initial_state
  | step (s : State) (c : wait_call) : wait_reachable s → c.allowed s → wait_reachable (c.run s)

/-- The buckets are exact: `objcount` counts the waits in the two lists and
is within the limit, no wait is linked twice, the waits in the lists of a
bucket are those whose bucket pointer names it, a bucket outside the global
list is empty, and every linked wait has the flags that `TpAllocWait` gives. -/
structure waitqueue_exact (s : State) : Prop where
  count : ∀ b, (s.buckets b).objcount =
    (((s.buckets b).reserved.length + (s.buckets b).waiting.length : Nat) : Int)
  limit : ∀ b, (s.buckets b).objcount ≤ (MAXIMUM_WAITQUEUE_OBJECTS : Int)
  nodup : ∀ b, ((s.buckets b).reserved ++ (s.buckets b).waiting).Nodup
  member : ∀ b x, x ∈ (s.buckets b).reserved ++ (s.buckets b).waiting →
    (s.objects x).u.wait.bucket = some b
  linked : ∀ b x, (s.objects x).u.wait.bucket = some b →
    x ∈ (s.buckets b).reserved ++ (s.buckets b).waiting
  unlisted : ∀ b, b ∉ s.waitqueue.buckets → (s.buckets b).objcount = 0
  flags : ∀ b x, x ∈ (s.buckets b).reserved ++ (s.buckets b).waiting →
    (s.objects x).u.wait.flags = WT_EXECUTEONLYONCE

/-- The wait 20 of the default pool registered in the bucket 30 by a first
`TpAllocWait` and bound to the handle 77 with a relative timeout of 50 at the
time 100, each as a call on the wait service. -/
def wait_state_armed : State :=
  (wait_call.set_wait 20 77 (some (-50)) 100).run
    ((wait_call.alloc (some 20) 9 44 none (some 1) STATUS_SUCCESS (some 30) STATUS_SUCCESS
      STATUS_SUCCESS).run initial_state)

/-- The state `wait_state_armed` after the bucket thread of the bucket 30 has
run its first loop at the time 120, on thread 5. -/
def wait_state_collected : State :=
  (wait_call.thread_collect 30 120 5 [] STATUS_SUCCESS).run wait_state_armed

/-- The arrays that the first loop builds in `wait_state_armed` at the time
120: the wait 20 with its handle 77 and its serial 1, to be woken at 150. -/
def wait_locals_armed : waitqueue_locals :=
  { timeout := 150, objects := [20], handles := [77], update_serials := [1] }

/-- The record of a wait object that `TpAllocWait` has registered in the
bucket `bucket`, pending or not. -/
def wait_record (bucket : Ptr) (wait_pending : Bool) : threadpool_object :=
  { initial_state.objects 0 with
    refcount := 1
    type := TP_OBJECT_TYPE_WAIT
    pool := 1
    priority := TP_CALLBACK_PRIORITY_NORMAL
    u := { (initial_state.objects 0).u with
      wait := { signaled := 0, bucket := some bucket, wait_pending := wait_pending,
                timeout := if wait_pending = true then TIMEOUT_INFINITE else 0,
                handle := if wait_pending = true then 77 else INVALID_HANDLE_VALUE,
                flags := WT_EXECUTEONLYONCE } } }

/-- Two buckets that are not alertable, as they are left when waits were
registered until a second bucket was opened and most were released again: the
bucket 30 holds the wait 20, the bucket 31 holds the waits 21 and 22, the
second of them pending. -/
def state_two_buckets : State :=
  { initial_state with
    objects := update (update (update initial_state.objects 20 (wait_record 30 false))
      21 (wait_record 31 false)) 22 (wait_record 31 true)
    buckets := update (update initial_state.buckets 30
        { objcount := 1, reserved := [20], waiting := [], alertable := false })
      31 { objcount := 2, reserved := [21], waiting := [22], alertable := false }
    waitqueue := { num_buckets := 2, buckets := [30, 31] } }

/-- The calls of group cancel callbacks in a log, in their order. -/
def group_cancel_calls (l : List call) : List call :=
  l.filter (fun c =>
    match c with
    | .group_cancel_callback _ _ _ => true
    | _ => false)

/-- The states in which the waits of the last loop of
`TpReleaseCleanupGroupMembers` return, one for each member in turn, as far
as the loop gets. -/
def release_members_wait_states (s : State) (members : List Ptr) (cancel_pending : Bool)
    (userdata : Nat) (others : List (State → State)) : List State :=
  match members with
  | [] => []
  | object :: rest =>
    match tp_object_wait s object true others with
    | none => []
    | some r =>
      r.1 :: release_members_wait_states
        ( release_members_finish r.1 object cancel_pending userdata) rest cancel_pending
        userdata r.2

/-- The pool record that `tp_object_submit` leaves in the object's pool:
`p` is the record before, `o` the object before. -/
def submit_pool (p : threadpool) (o : threadpool_object) (object : Ptr) (st : NTSTATUS) :
    threadpool :=
  let p :=
    if p.num_busy_workers ≥ p.num_workers ∧ p.num_workers < p.max_workers ∧
        st = STATUS_SUCCESS then
      { p with refcount := p.refcount + 1, num_workers := p.num_workers + 1 }
    else p
  if o.num_pending_callbacks = 0 then
    { p with num_busy_workers := p.num_busy_workers + 1 }.set_pools o.priority
      (p.pools o.priority ++ [object])
  else p

/-! ## Properties -/

@[simp] theorem update_same {α : Type} (f : Ptr → α) (a : Ptr) (v : α) :
    update f a v a = v := by
  simp [update]

theorem update_apply {α : Type} (f : Ptr → α) (a : Ptr) (v : α) (x : Ptr) :
    update f a v x = if x = a then v else f x := rfl

@[simp] theorem update_of_ne {α : Type} (f : Ptr → α) (a : Ptr) (v : α) (x : Ptr) (h : x ≠ a) :
    update f a v x = f x := by
  simp [update, h]

@[simp] theorem update_update {α : Type} (f : Ptr → α) (a : Ptr) (v w : α) :
    update (update f a v) a w = update f a w := by
  funext x
  simp only [update]
  split_ifs <;> rfl

@[simp] theorem update_self {α : Type} (f : Ptr → α) (a : Ptr) :
    update f a (f a) = f := by
  funext x
  simp only [update]
  split_ifs with h
  · rw [h]
  · rfl

theorem set_pools_pools_self (p : threadpool) (i : Nat) (l : List Ptr) (h : i < 3) :
    (p.set_pools i l).pools i = l := by
  have : i = 0 ∨ i = 1 ∨ i = 2 := by omega
  rcases this with h | h | h <;> subst h <;> simp [threadpool.set_pools, threadpool.pools]

theorem set_pools_pools_other (p : threadpool) (i j : Nat) (l : List Ptr) (h : j ≠ i) :
    (p.set_pools i l).pools j = p.pools j := by
  unfold threadpool.set_pools threadpool.pools
  split_ifs <;> first | rfl | omega

theorem tp_new_worker_thread_objects (s : State) (pool : Ptr) (st : NTSTATUS) :
    (tp_new_worker_thread s pool st).1.objects = s.objects := by
  unfold tp_new_worker_thread
  split_ifs <;> rfl

theorem tp_new_worker_thread_pools (s : State) (pool : Ptr) (st : NTSTATUS) :
    (tp_new_worker_thread s pool st).1.pools =
      if st = STATUS_SUCCESS then
        update s.pools pool { s.pools pool with
          refcount := (s.pools pool).refcount + 1
          num_workers := (s.pools pool).num_workers + 1 }
      else s.pools := by
  unfold tp_new_worker_thread
  split_ifs <;> rfl

theorem tp_object_prio_queue_objects (s : State) (object : Ptr) :
    (tp_object_prio_queue s object).objects = s.objects := rfl

theorem tp_object_prio_queue_pools (s : State) (object : Ptr) :
    (tp_object_prio_queue s object).pools =
      update s.pools (s.objects object).pool
        ({ s.pools (s.objects object).pool with
            num_busy_workers := (s.pools (s.objects object).pool).num_busy_workers + 1 }.set_pools
          (s.objects object).priority
          ((s.pools (s.objects object).pool).pools (s.objects object).priority ++ [object])) := rfl

/-- The object heap after `tp_object_submit`. -/
theorem tp_object_submit_objects (s : State) (object : Ptr) (signaled : Bool) (st : NTSTATUS) :
    (tp_object_submit s object signaled st).objects =
      update s.objects object { s.objects object with
        refcount := (s.objects object).refcount + 1
        num_pending_callbacks := (s.objects object).num_pending_callbacks + 1
        u := { (s.objects object).u with
          wait := { (s.objects object).u.wait with
            signaled := (s.objects object).u.wait.signaled +
              (if (s.objects object).type = TP_OBJECT_TYPE_WAIT ∧ signaled = true
                then 1 else 0) } } } := by
  unfold tp_object_submit
  by_cases hc : (s.pools (s.objects object).pool).num_busy_workers
        ≥ (s.pools (s.objects object).pool).num_workers ∧
      (s.pools (s.objects object).pool).num_workers
        < (s.pools (s.objects object).pool).max_workers <;>
  by_cases hp : (s.objects object).num_pending_callbacks = 0 <;>
  by_cases hw : (s.objects object).type = TP_OBJECT_TYPE_WAIT ∧ signaled = true <;>
  simp [hc, hp, hw, tp_new_worker_thread_objects, tp_object_prio_queue_objects]

/-- The pool heap after `tp_object_submit`. -/
theorem tp_object_submit_pools (s : State) (object : Ptr) (signaled : Bool) (st : NTSTATUS) :
    (tp_object_submit s object signaled st).pools =
      update s.pools (s.objects object).pool
        (submit_pool (s.pools (s.objects object).pool) (s.objects object) object st) := by
  unfold tp_object_submit submit_pool
  by_cases hc : (s.pools (s.objects object).pool).num_busy_workers
        ≥ (s.pools (s.objects object).pool).num_workers ∧
      (s.pools (s.objects object).pool).num_workers
        < (s.pools (s.objects object).pool).max_workers <;>
  by_cases hst : st = STATUS_SUCCESS <;>
  by_cases hp : (s.objects object).num_pending_callbacks = 0 <;>
  by_cases hw : (s.objects object).type = TP_OBJECT_TYPE_WAIT ∧ signaled = true <;>
  simp [hc, hp, hw, hst, tp_new_worker_thread_objects, tp_object_prio_queue_objects,
    tp_new_worker_thread_pools, tp_object_prio_queue_pools, threadpool.pools,
    threadpool.set_pools]

/-- C1: `tp_object_submit` adds exactly one reference and one pending
callback; the object is appended at the tail of the list of its own priority,
and `num_busy_workers` grows by one, exactly when no callback was pending
before, and otherwise no list changes; `u.wait.signaled` grows by one exactly
for a wait object submitted with `signaled` set. -/
theorem tp_object_submit_spec (s : State) (object : Ptr) (signaled : Bool)
    (thread_status : NTSTATUS) (hprio : (s.objects object).priority < 3) :
    ((tp_object_submit s object signaled thread_status).objects object).refcount
        = (s.objects object).refcount + 1 ∧
    ((tp_object_submit s object signaled thread_status).objects object).num_pending_callbacks
        = (s.objects object).num_pending_callbacks + 1 ∧
    ((s.objects object).num_pending_callbacks = 0 →
      ((tp_object_submit s object signaled thread_status).pools (s.objects object).pool).pools
          (s.objects object).priority
        = (s.pools (s.objects object).pool).pools (s.objects object).priority ++ [object] ∧
      (∀ i, i ≠ (s.objects object).priority →
        ((tp_object_submit s object signaled thread_status).pools (s.objects object).pool).pools i
          = (s.pools (s.objects object).pool).pools i) ∧
      ((tp_object_submit s object signaled thread_status).pools
          (s.objects object).pool).num_busy_workers
        = (s.pools (s.objects object).pool).num_busy_workers + 1) ∧
    ((s.objects object).num_pending_callbacks ≠ 0 →
      (∀ i,
        ((tp_object_submit s object signaled thread_status).pools (s.objects object).pool).pools i
          = (s.pools (s.objects object).pool).pools i) ∧
      ((tp_object_submit s object signaled thread_status).pools
          (s.objects object).pool).num_busy_workers
        = (s.pools (s.objects object).pool).num_busy_workers) ∧
    (((tp_object_submit s object signaled thread_status).pools (s.objects object).pool).pools
          (s.objects object).priority
        = (s.pools (s.objects object).pool).pools (s.objects object).priority ++ [object]
      ↔ (s.objects object).num_pending_callbacks = 0) ∧
    (∀ q i, q ≠ (s.objects object).pool →
      ((tp_object_submit s object signaled thread_status).pools q).pools i
        = (s.pools q).pools i) ∧
    (((tp_object_submit s object signaled thread_status).objects object).u.wait.signaled
        = (s.objects object).u.wait.signaled + 1
      ↔ ((s.objects object).type = TP_OBJECT_TYPE_WAIT ∧ signaled = true)) ∧
    (¬ ((s.objects object).type = TP_OBJECT_TYPE_WAIT ∧ signaled = true) →
      ((tp_object_submit s object signaled thread_status).objects object).u.wait.signaled
        = (s.objects object).u.wait.signaled) := by
  have hprio3 : (s.objects object).priority = 0 ∨ (s.objects object).priority = 1 ∨
      (s.objects object).priority = 2 := by omega
  simp only [tp_object_submit_objects, tp_object_submit_pools, update_same]
  refine ⟨trivial, trivial, ?_, ?_, ?_, ?_, ?_, ?_⟩
  · intro hp
    refine ⟨?_, ?_, ?_⟩
    · simp only [submit_pool, hp, if_true]
      rw [set_pools_pools_self _ _ _ hprio]
      split_ifs <;> rfl
    · intro i hi
      simp only [submit_pool, hp, if_true]
      rw [set_pools_pools_other _ _ _ _ hi]
      split_ifs <;> rfl
    · simp only [submit_pool, hp, if_true, threadpool.set_pools]
      split_ifs <;> rfl
  · intro hp
    simp only [submit_pool, hp, if_false]
    refine ⟨?_, ?_⟩
    · intro i
      split_ifs <;> rfl
    · split_ifs <;> rfl
  · by_cases hp : (s.objects object).num_pending_callbacks = 0
    · simp only [submit_pool, hp, if_true, iff_true]
      rw [set_pools_pools_self _ _ _ hprio]
      split_ifs <;> rfl
    · simp only [submit_pool, hp, if_false, iff_false]
      have hne : ∀ l : List Ptr, l ≠ l ++ [object] := by
        intro l h
        have := congrArg List.length h
        simp at this
      split_ifs <;> exact hne _
  · intro q i hq
    rw [update_of_ne _ _ _ _ hq]
  · by_cases hw : (s.objects object).type = TP_OBJECT_TYPE_WAIT ∧ signaled = true
    · simp [hw]
    · simp [hw]
  · intro hw
    simp [hw]

theorem tp_object_submit_spec_witness :
    (state_one_work.objects 10).priority < 3 ∧
    ((tp_object_submit state_one_work 10 true STATUS_SUCCESS).objects 10).refcount
      = (state_one_work.objects 10).refcount + 1 :=
  ⟨by decide, (tp_object_submit_spec state_one_work 10 true STATUS_SUCCESS (by decide)).1⟩

theorem threadpool_get_next_item_eq (p : threadpool) :
    threadpool_get_next_item p =
      match p.pools 0 with
      | x :: _ => some x
      | [] =>
        match p.pools 1 with
        | y :: _ => some y
        | [] => (p.pools 2).head? := by
  have hr : List.range 3 = [0, 1, 2] := by decide
  unfold threadpool_get_next_item list_head
  rw [hr]
  cases h0 : p.pools 0 <;> cases h1 : p.pools 1 <;> cases h2 : p.pools 2 <;>
    simp [List.findSome?, h0, h1, h2]

/-- C2: `threadpool_get_next_item` returns the head of the high list when it
is not empty, else the head of the normal list when it is not empty, else the
head of the low list, and nothing exactly when the three lists are empty.
Hence, when every queued object sits in the list of its own priority, the
item a worker takes next has high priority whenever an object of high
priority is queued, and does not have low priority whenever one of normal
priority is queued. -/
theorem threadpool_get_next_item_spec (s : State) (pool : Ptr) :
    ((s.pools pool).pools 0 ≠ [] →
      threadpool_get_next_item (s.pools pool) = ((s.pools pool).pools 0).head?) ∧
    ((s.pools pool).pools 0 = [] → (s.pools pool).pools 1 ≠ [] →
      threadpool_get_next_item (s.pools pool) = ((s.pools pool).pools 1).head?) ∧
    ((s.pools pool).pools 0 = [] → (s.pools pool).pools 1 = [] →
      threadpool_get_next_item (s.pools pool) = ((s.pools pool).pools 2).head?) ∧
    (threadpool_get_next_item (s.pools pool) = none ↔
      (s.pools pool).pools 0 = [] ∧ (s.pools pool).pools 1 = [] ∧ (s.pools pool).pools 2 = []) ∧
    ((∀ i x, x ∈ (s.pools pool).pools i → (s.objects x).priority = i) →
      ∀ next, threadpool_get_next_item (s.pools pool) = some next →
        ((∃ i x, x ∈ (s.pools pool).pools i ∧
            (s.objects x).priority = TP_CALLBACK_PRIORITY_HIGH) →
          (s.objects next).priority = TP_CALLBACK_PRIORITY_HIGH) ∧
        ((∃ i x, x ∈ (s.pools pool).pools i ∧
            (s.objects x).priority = TP_CALLBACK_PRIORITY_NORMAL) →
          (s.objects next).priority ≠ TP_CALLBACK_PRIORITY_LOW)) := by
  rw [threadpool_get_next_item_eq]
  refine ⟨?_, ?_, ?_, ?_, ?_⟩
  · intro h
    cases h0 : (s.pools pool).pools 0 with
    | nil => exact absurd h0 h
    | cons x l => rfl
  · intro h0 h
    rw [h0]
    cases h1 : (s.pools pool).pools 1 with
    | nil => exact absurd h1 h
    | cons x l => rfl
  · intro h0 h1
    rw [h0, h1]
  · cases h0 : (s.pools pool).pools 0 <;> cases h1 : (s.pools pool).pools 1 <;>
      cases h2 : (s.pools pool).pools 2 <;> simp
  · intro hq next hnext
    have hmem : ∀ i x, (s.objects x).priority = i → (∃ j, x ∈ (s.pools pool).pools j) →
        x ∈ (s.pools pool).pools i := by
      intro i x hx ⟨j, hj⟩
      have := hq j x hj
      rw [← hx, this]
      exact hj
    refine ⟨?_, ?_⟩
    · rintro ⟨i, x, hx, hp⟩
      have hx0 := hmem _ x hp ⟨i, hx⟩
      simp only [TP_CALLBACK_PRIORITY_HIGH] at hx0 ⊢
      cases h0 : (s.pools pool).pools 0 with
      | nil => rw [h0] at hx0; exact absurd hx0 (List.not_mem_nil _)
      | cons y l =>
        rw [h0] at hnext
        simp only [Option.some.injEq] at hnext
        subst hnext
        exact hq 0 y (by rw [h0]; exact List.mem_cons_self _ _)
    · rintro ⟨i, x, hx, hp⟩
      have hx1 := hmem _ x hp ⟨i, hx⟩
      simp only [TP_CALLBACK_PRIORITY_NORMAL, TP_CALLBACK_PRIORITY_LOW] at hx1 ⊢
      cases h0 : (s.pools pool).pools 0 with
      | cons y l =>
        rw [h0] at hnext
        simp only [Option.some.injEq] at hnext
        subst hnext
        rw [hq 0 y (by rw [h0]; exact List.mem_cons_self _ _)]
        decide
      | nil =>
        rw [h0] at hnext
        cases h1 : (s.pools pool).pools 1 with
        | nil => rw [h1] at hx1; exact absurd hx1 (List.not_mem_nil _)
        | cons y l =>
          rw [h1] at hnext
          simp only [Option.some.injEq] at hnext
          subst hnext
          rw [hq 1 y (by rw [h1]; exact List.mem_cons_self _ _)]
          decide

theorem threadpool_get_next_item_spec_witness :
    threadpool_get_next_item (state_two_queued.pools 1) = some 11 ∧
    (state_two_queued.pools 1).pools 1 = [10] ∧
    (state_two_queued.objects 11).priority = TP_CALLBACK_PRIORITY_HIGH := by
  have h0 : (state_two_queued.pools 1).pools0 = [11] := by decide
  have h1 : (state_two_queued.pools 1).pools1 = [10] := by decide
  have h2 : (state_two_queued.pools 1).pools2 = [] := by decide
  have hq : ∀ i x, x ∈ (state_two_queued.pools 1).pools i →
      (state_two_queued.objects x).priority = i := by
    intro i x hx
    unfold threadpool.pools at hx
    split_ifs at hx with hi0 hi1 hi2
    · rw [h0, List.mem_singleton] at hx
      subst hx; subst hi0; decide
    · rw [h1, List.mem_singleton] at hx
      subst hx; subst hi1; decide
    · rw [h2] at hx
      exact absurd hx (List.not_mem_nil _)
    · exact absurd hx (List.not_mem_nil _)
  have hnext : threadpool_get_next_item (state_two_queued.pools 1) = some 11 := by decide
  exact ⟨hnext, by decide,
    ((threadpool_get_next_item_spec state_two_queued 1).2.2.2.2 hq 11 hnext).1
      ⟨0, 11, by decide, by decide⟩⟩

theorem threadpool.same_queues_refl (p : threadpool) : p.same_queues p := rfl

theorem threadpool.same_queues_trans {p q r : threadpool} (h1 : p.same_queues q)
    (h2 : q.same_queues r) : p.same_queues r := by
  unfold threadpool.same_queues at *
  rw [h2, h1]

theorem threadpool_object.same_work_refl (o : threadpool_object) : o.same_work o := rfl

theorem threadpool_object.same_work_trans {o p q : threadpool_object} (h1 : o.same_work p)
    (h2 : p.same_work q) : o.same_work q := by
  unfold threadpool_object.same_work at *
  rw [h2, h1]

theorem tp_threadpool_release_fst (s : State) (pool : Ptr) :
    (tp_threadpool_release s pool).1 =
      { s with
        pools := update s.pools pool
          { s.pools pool with refcount := (s.pools pool).refcount - 1 }
        live_pools :=
          if (s.pools pool).refcount - 1 = 0 then s.live_pools.filter (fun x => x != pool)
          else s.live_pools } := by
  unfold tp_threadpool_release
  by_cases h : (s.pools pool).refcount - 1 = 0 <;> simp [h]

theorem tp_threadpool_unlock_eq (s : State) (pool : Ptr) :
    tp_threadpool_unlock s pool =
      { s with
        pools := update s.pools pool
          { s.pools pool with
            refcount := (s.pools pool).refcount - 1
            objcount := (s.pools pool).objcount - 1 }
        live_pools :=
          if (s.pools pool).refcount - 1 = 0 then s.live_pools.filter (fun x => x != pool)
          else s.live_pools } := by
  unfold tp_threadpool_unlock
  rw [tp_threadpool_release_fst]
  simp

theorem tp_group_release_fst (s : State) (group : Ptr) :
    (tp_group_release s group).1 =
      { s with
        groups := update s.groups group
          { s.groups group with refcount := (s.groups group).refcount - 1 }
        live_groups :=
          if (s.groups group).refcount - 1 = 0 then s.live_groups.filter (fun x => x != group)
          else s.live_groups } := by
  unfold tp_group_release
  by_cases h : (s.groups group).refcount - 1 = 0 <;> simp [h]

/-- The object heap after `tp_object_release`. -/
theorem tp_object_release_objects (s : State) (object : Ptr) :
    (tp_object_release s object).1.objects =
      update s.objects object { s.objects object with
        refcount := (s.objects object).refcount - 1
        is_group_member :=
          if (s.objects object).refcount - 1 = 0 ∧ (s.objects object).group ≠ none then false
          else (s.objects object).is_group_member } := by
  unfold tp_object_release
  by_cases h : (s.objects object).refcount - 1 = 0
  · cases hg : (s.objects object).group with
    | none => simp [h, hg, tp_threadpool_unlock_eq]
    | some g =>
      by_cases hm : (s.objects object).is_group_member = true
      · simp [h, hg, hm, tp_threadpool_unlock_eq, tp_group_release_fst]
      · simp [h, hg, hm, tp_threadpool_unlock_eq, tp_group_release_fst]
  · simp [h]

/-- The pool heap after `tp_object_release`. -/
theorem tp_object_release_pools (s : State) (object : Ptr) :
    (tp_object_release s object).1.pools =
      if (s.objects object).refcount - 1 = 0 then
        update s.pools (s.objects object).pool
          { s.pools (s.objects object).pool with
            refcount := (s.pools (s.objects object).pool).refcount - 1
            objcount := (s.pools (s.objects object).pool).objcount - 1 }
      else s.pools := by
  unfold tp_object_release
  by_cases h : (s.objects object).refcount - 1 = 0
  · cases hg : (s.objects object).group with
    | none => simp [h, hg, tp_threadpool_unlock_eq]
    | some g =>
      by_cases hm : (s.objects object).is_group_member = true
      · simp [h, hg, hm, tp_threadpool_unlock_eq, tp_group_release_fst]
      · simp [h, hg, hm, tp_threadpool_unlock_eq, tp_group_release_fst]
  · simp [h]

theorem tp_object_cancel_locked_objects (s : State) (object : Ptr) :
    (tp_object_cancel_locked s object).1.objects =
      update s.objects object (cancel_object (s.objects object)) := by
  unfold tp_object_cancel_locked cancel_object
  by_cases hp : (s.objects object).num_pending_callbacks = 0 <;>
  by_cases hw : (s.objects object).type = TP_OBJECT_TYPE_WAIT <;>
  by_cases hi : (s.objects object).type = TP_OBJECT_TYPE_IO <;>
  simp [hp, hw, hi]

theorem tp_object_cancel_locked_pools (s : State) (object : Ptr) :
    (tp_object_cancel_locked s object).1.pools =
      if (s.objects object).num_pending_callbacks ≠ 0 then
        update s.pools (s.objects object).pool
          ((s.pools (s.objects object).pool).remove_entry object)
      else s.pools := by
  unfold tp_object_cancel_locked
  by_cases hp : (s.objects object).num_pending_callbacks = 0 <;>
  by_cases hw : (s.objects object).type = TP_OBJECT_TYPE_WAIT <;>
  by_cases hi : (s.objects object).type = TP_OBJECT_TYPE_IO <;>
  simp [hp, hw, hi]

theorem tp_object_cancel_locked_snd (s : State) (object : Ptr) :
    (tp_object_cancel_locked s object).2 = (s.objects object).num_pending_callbacks := by
  unfold tp_object_cancel_locked
  by_cases hp : (s.objects object).num_pending_callbacks = 0 <;> simp [hp]

theorem tp_object_release_loop_objects_other (object x : Ptr) (hx : x ≠ object) (n : Nat) :
    ∀ s, (tp_object_release_loop s object n).objects x = s.objects x := by
  induction n with
  | zero => intro s; rfl
  | succ n ih =>
    intro s
    rw [tp_object_release_loop, ih, tp_object_release_objects, update_of_ne _ _ _ _ hx]

theorem tp_object_release_loop_objects (object : Ptr) (n : Nat) :
    ∀ s : State, (s.objects object).same_work ((tp_object_release_loop s object n).objects object) ∧
      ((tp_object_release_loop s object n).objects object).refcount
        = (s.objects object).refcount - n := by
  induction n with
  | zero => intro s; exact ⟨rfl, by simp [tp_object_release_loop]⟩
  | succ n ih =>
    intro s
    rw [tp_object_release_loop]
    obtain ⟨h1, h2⟩ := ih (tp_object_release s object).1
    rw [tp_object_release_objects, update_same] at h1 h2
    refine ⟨threadpool_object.same_work_trans ?_ h1, ?_⟩
    · rfl
    · rw [h2]
      push_cast
      ring

theorem tp_object_release_loop_pools (object : Ptr) (n : Nat) :
    ∀ (s : State) (q : Ptr), (s.pools q).same_queues ((tp_object_release_loop s object n).pools q) := by
  induction n with
  | zero => intro s q; rfl
  | succ n ih =>
    intro s q
    rw [tp_object_release_loop]
    refine threadpool.same_queues_trans ?_ (ih _ q)
    rw [tp_object_release_pools]
    split_ifs
    · by_cases hq : q = (s.objects object).pool
      · subst hq
        rw [update_same]
        rfl
      · rw [update_of_ne _ _ _ _ hq]
        rfl
    · rfl

theorem list_remove_not_mem (l : List Ptr) (x : Ptr) : x ∉ list_remove l x := by
  simp [list_remove]

theorem remove_entry_pools (p : threadpool) (object : Ptr) (i : Nat) :
    (p.remove_entry object).pools i = list_remove (p.pools i) object := by
  unfold threadpool.remove_entry threadpool.pools
  split_ifs <;> rfl

theorem same_queues_pools {p p' : threadpool} (h : p.same_queues p') (i : Nat) :
    p'.pools i = p.pools i := by
  unfold threadpool.same_queues at h
  rw [h]
  rfl

theorem tp_object_cancel_effect (s : State) (object : Ptr)
    (hpending : 0 ≤ (s.objects object).num_pending_callbacks) :
    ((tp_object_cancel s object).objects object).num_pending_callbacks = 0 ∧
    ((s.objects object).num_pending_callbacks ≠ 0 →
      ∀ i, object ∉ ((tp_object_cancel s object).pools (s.objects object).pool).pools i) ∧
    (∀ i, ((tp_object_cancel s object).pools (s.objects object).pool).pools i =
      if (s.objects object).num_pending_callbacks ≠ 0 then
        list_remove ((s.pools (s.objects object).pool).pools i) object
      else (s.pools (s.objects object).pool).pools i) ∧
    ((tp_object_cancel s object).objects object).refcount
      = (s.objects object).refcount - (s.objects object).num_pending_callbacks ∧
    ((s.objects object).type = TP_OBJECT_TYPE_WAIT →
      (s.objects object).num_pending_callbacks ≠ 0 →
      ((tp_object_cancel s object).objects object).u.wait.signaled = 0) ∧
    ((s.objects object).type = TP_OBJECT_TYPE_IO →
      ((tp_object_cancel s object).objects object).u.io.skipped_count
        = ((s.objects object).u.io.skipped_count + (s.objects object).u.io.pending_count)
            % UINT_MOD ∧
      ((s.objects object).u.io.skipped_count + (s.objects object).u.io.pending_count < UINT_MOD →
        ((tp_object_cancel s object).objects object).u.io.skipped_count
          = (s.objects object).u.io.skipped_count + (s.objects object).u.io.pending_count) ∧
      ((tp_object_cancel s object).objects object).u.io.pending_count = 0) ∧
    ((tp_object_cancel s object).objects object).num_running_callbacks
      = (s.objects object).num_running_callbacks ∧
    ((tp_object_cancel s object).objects object).num_associated_callbacks
      = (s.objects object).num_associated_callbacks := by
  obtain ⟨hsame, href⟩ := tp_object_release_loop_objects object
    (tp_object_cancel_locked s object).2.toNat (tp_object_cancel_locked s object).1
  have hpools := tp_object_release_loop_pools object
    (tp_object_cancel_locked s object).2.toNat (tp_object_cancel_locked s object).1
    (s.objects object).pool
  have hq : ∀ i, ((tp_object_cancel s object).pools (s.objects object).pool).pools i =
      if (s.objects object).num_pending_callbacks ≠ 0 then
        list_remove ((s.pools (s.objects object).pool).pools i) object
      else (s.pools (s.objects object).pool).pools i := by
    intro i
    unfold tp_object_cancel
    rw [same_queues_pools hpools i, tp_object_cancel_locked_pools]
    split_ifs
    · rw [update_same, remove_entry_pools]
    · rfl
  rw [tp_object_cancel_locked_objects, update_same] at hsame href
  rw [tp_object_cancel_locked_snd, Int.toNat_of_nonneg hpending] at href
  have hobj : (tp_object_cancel s object).objects object =
      { cancel_object (s.objects object) with
        refcount := ((tp_object_cancel s object).objects object).refcount
        is_group_member := ((tp_object_cancel s object).objects object).is_group_member } :=
    hsame
  have hc : ∀ o : threadpool_object,
      (cancel_object o).refcount = o.refcount ∧
      (cancel_object o).num_pending_callbacks = 0 ∧
      (o.type = TP_OBJECT_TYPE_WAIT → o.num_pending_callbacks ≠ 0 →
        (cancel_object o).u.wait.signaled = 0) ∧
      (o.type = TP_OBJECT_TYPE_IO →
        (cancel_object o).u.io.skipped_count
          = (o.u.io.skipped_count + o.u.io.pending_count) % UINT_MOD ∧
        (cancel_object o).u.io.pending_count = 0) ∧
      (cancel_object o).num_running_callbacks = o.num_running_callbacks ∧
      (cancel_object o).num_associated_callbacks = o.num_associated_callbacks := by
    intro o
    by_cases hp : o.num_pending_callbacks = 0 <;>
    by_cases hw : o.type = TP_OBJECT_TYPE_WAIT <;>
    by_cases hi : o.type = TP_OBJECT_TYPE_IO <;>
    simp [cancel_object, hp, hw, hi]
  obtain ⟨hc1, hc2, hc3, hc4, hc5, hc6⟩ := hc (s.objects object)
  refine ⟨?_, ?_, hq, ?_, ?_, ?_, ?_, ?_⟩
  · rw [hobj]
    exact hc2
  · intro hp i
    rw [hq i, if_pos hp]
    exact list_remove_not_mem _ _
  · show ((tp_object_release_loop _ object _).objects object).refcount = _
    rw [tp_object_cancel_locked_snd, href, hc1]
  · intro hw hp
    rw [hobj]
    exact hc3 hw hp
  · intro hi
    have h1 : ((tp_object_cancel s object).objects object).u.io.skipped_count
        = ((s.objects object).u.io.skipped_count + (s.objects object).u.io.pending_count)
            % UINT_MOD := by
      rw [hobj]
      exact (hc4 hi).1
    refine ⟨h1, ?_, ?_⟩
    · intro hlt
      rw [h1, Nat.mod_eq_of_lt hlt]
    · rw [hobj]
      exact (hc4 hi).2
  · rw [hobj]
    exact hc5
  · rw [hobj]
    exact hc6

/-- C3: `tp_object_cancel`, entered with a count of pending callbacks that
is not negative, leaves `num_pending_callbacks` at 0; when callbacks were
pending the object is unlinked from the lists of its pool (the other entries
keep their order) and otherwise the lists are unchanged; the reference count
drops by the number of callbacks that were pending; a wait object that had
pending callbacks gets `u.wait.signaled = 0`; an I/O object gets
`skipped_count` increased by the former `pending_count` (in `unsigned int`
arithmetic, so exactly when the sum fits in 32 bits) and `pending_count = 0`;
`num_running_callbacks` and `num_associated_callbacks` are unchanged. -/
theorem tp_object_cancel_spec (s : State) (object : Ptr)
    (hpending : 0 ≤ (s.objects object).num_pending_callbacks) :
    ((tp_object_cancel s object).objects object).num_pending_callbacks = 0 ∧
    ((s.objects object).num_pending_callbacks ≠ 0 →
      ∀ i, object ∉ ((tp_object_cancel s object).pools (s.objects object).pool).pools i) ∧
    (∀ i, ((tp_object_cancel s object).pools (s.objects object).pool).pools i =
      if (s.objects object).num_pending_callbacks ≠ 0 then
        list_remove ((s.pools (s.objects object).pool).pools i) object
      else (s.pools (s.objects object).pool).pools i) ∧
    ((tp_object_cancel s object).objects object).refcount
      = (s.objects object).refcount - (s.objects object).num_pending_callbacks ∧
    ((s.objects object).type = TP_OBJECT_TYPE_WAIT →
      (s.objects object).num_pending_callbacks ≠ 0 →
      ((tp_object_cancel s object).objects object).u.wait.signaled = 0) ∧
    ((s.objects object).type = TP_OBJECT_TYPE_IO →
      ((tp_object_cancel s object).objects object).u.io.skipped_count
        = ((s.objects object).u.io.skipped_count + (s.objects object).u.io.pending_count)
            % UINT_MOD ∧
      ((s.objects object).u.io.skipped_count + (s.objects object).u.io.pending_count < UINT_MOD →
        ((tp_object_cancel s object).objects object).u.io.skipped_count
          = (s.objects object).u.io.skipped_count + (s.objects object).u.io.pending_count) ∧
      ((tp_object_cancel s object).objects object).u.io.pending_count = 0) ∧
    ((tp_object_cancel s object).objects object).num_running_callbacks
      = (s.objects object).num_running_callbacks ∧
    ((tp_object_cancel s object).objects object).num_associated_callbacks
      = (s.objects object).num_associated_callbacks :=
  tp_object_cancel_effect s object hpending

theorem tp_object_cancel_spec_witness :
    0 ≤ (state_two_queued.objects 10).num_pending_callbacks ∧
    (state_two_queued.objects 10).num_pending_callbacks = 1 ∧
    (state_two_queued.objects 10).refcount = 2 ∧
    ((tp_object_cancel state_two_queued 10).objects 10).num_pending_callbacks = 0 ∧
    ((tp_object_cancel state_two_queued 10).objects 10).refcount
      = (state_two_queued.objects 10).refcount
        - (state_two_queued.objects 10).num_pending_callbacks :=
  ⟨by decide, by decide, by decide,
    (tp_object_cancel_spec state_two_queued 10 (by decide)).1,
    (tp_object_cancel_spec state_two_queued 10 (by decide)).2.2.2.1⟩

theorem tp_object_wait_finished (object : Ptr) (group_wait : Bool)
    (others : List (State → State)) :
    ∀ (s : State) (r : State × List (State → State)),
      tp_object_wait s object group_wait others = some r →
      object_is_finished (r.1.objects object) group_wait = true := by
  induction others with
  | nil =>
    intro s r h
    unfold tp_object_wait at h
    split_ifs at h with hf
    simp only [Option.some.injEq] at h
    rw [← h]
    exact hf
  | cons f rest ih =>
    intro s r h
    unfold tp_object_wait at h
    split_ifs at h with hf
    · simp only [Option.some.injEq] at h
      rw [← h]
      exact hf
    · exact ih (f s) r h

theorem tp_object_wait_of_finished (s : State) (object : Ptr) (group_wait : Bool)
    (others : List (State → State))
    (h : object_is_finished (s.objects object) group_wait = true) :
    tp_object_wait s object group_wait others = some (s, others) := by
  cases others <;> simp [tp_object_wait, h]

theorem object_is_finished_iff (o : threadpool_object) (group : Bool) :
    object_is_finished o group = true ↔
      o.num_pending_callbacks = 0 ∧
      (o.type = TP_OBJECT_TYPE_IO → o.u.io.pending_count = 0) ∧
      (group = true → o.num_running_callbacks = 0) ∧
      (group = false → o.num_associated_callbacks = 0) := by
  unfold object_is_finished
  by_cases hp : o.num_pending_callbacks = 0 <;>
  by_cases hi : o.type = TP_OBJECT_TYPE_IO <;>
  by_cases hc : o.u.io.pending_count = 0 <;>
  cases group <;> simp [hp, hi, hc]

/-- C4: `object_is_finished` is true exactly when no callback is pending,
an I/O object has no pending operation, and no callback is running (group
mode) or associated (the other mode); `tp_object_wait` returns at once in a
state where this holds, and every state in which it returns satisfies it for
the mode of the call. -/
theorem object_is_finished_spec (o : threadpool_object) (group : Bool) :
    (object_is_finished o group = true ↔
      o.num_pending_callbacks = 0 ∧
      (o.type = TP_OBJECT_TYPE_IO → o.u.io.pending_count = 0) ∧
      (group = true → o.num_running_callbacks = 0) ∧
      (group = false → o.num_associated_callbacks = 0)) ∧
    (∀ (s : State) (object : Ptr) (others : List (State → State)),
      s.objects object = o → object_is_finished o group = true →
      tp_object_wait s object group others = some (s, others)) ∧
    (∀ (s : State) (object : Ptr) (others : List (State → State))
        (r : State × List (State → State)),
      tp_object_wait s object group others = some r →
      object_is_finished (r.1.objects object) group = true) := by
  refine ⟨object_is_finished_iff o group, ?_, ?_⟩
  · intro s object others ho hf
    exact tp_object_wait_of_finished s object group others (by rw [ho]; exact hf)
  · intro s object others r h
    exact tp_object_wait_finished object group others s r h

theorem object_is_finished_spec_witness :
    object_is_finished (state_running.objects 10) true = false ∧
    (tp_object_wait state_running 10 true [worker_returns]).isSome = true ∧
    ((tp_object_wait state_running 10 true [worker_returns]).map
      (fun r => object_is_finished (r.1.objects 10) true)) = some true := by
  have h2 : (tp_object_wait state_running 10 true [worker_returns]).isSome = true := by decide
  refine ⟨by decide, h2, ?_⟩
  obtain ⟨r, hr⟩ := Option.isSome_iff_exists.mp h2
  rw [hr, Option.map_some']
  exact congrArg some
    ((object_is_finished_spec (state_running.objects 10) true).2.2 state_running 10
      [worker_returns] r hr)

theorem tp_object_prepare_shutdown_simple (s : State) (object : Ptr)
    (h : (s.objects object).type = TP_OBJECT_TYPE_SIMPLE) :
    tp_object_prepare_shutdown s object = s := by
  simp [tp_object_prepare_shutdown, h]

theorem tp_object_prepare_shutdown_work (s : State) (object : Ptr)
    (h : (s.objects object).type = TP_OBJECT_TYPE_WORK) :
    tp_object_prepare_shutdown s object = s := by
  simp [tp_object_prepare_shutdown, h]

theorem tp_new_worker_thread_fst (s : State) (pool : Ptr) (st : NTSTATUS) :
    (tp_new_worker_thread s pool st).1 =
      { s with pools := update s.pools pool { s.pools pool with
          refcount := (s.pools pool).refcount + (if st = STATUS_SUCCESS then 1 else 0)
          num_workers := (s.pools pool).num_workers + (if st = STATUS_SUCCESS then 1 else 0) } } := by
  unfold tp_new_worker_thread
  split_ifs <;> simp

theorem State.eta_objects_pools (s : State) :
    { s with objects := s.objects, pools := s.pools } = s := rfl

theorem TpDisassociateCallback_eq (s : State) (this : threadpool_instance) :
    TpDisassociateCallback s this this.threadid =
      if this.associated = true then
        (s.set_object this.object { s.objects this.object with
            num_associated_callbacks := (s.objects this.object).num_associated_callbacks - 1 },
          { this with associated := false })
      else (s, this) := by
  unfold TpDisassociateCallback
  cases h : this.associated <;> simp

/-- The thread that `TpCallbackMayRunLong` starts on the pool `p`: one when
all workers are busy, the pool may grow and the creation succeeds. -/
theorem TpCallbackMayRunLong_eq (s : State) (this : threadpool_instance) (st : NTSTATUS) :
    (TpCallbackMayRunLong s this this.threadid st).1 =
      (if this.may_run_long = false ∧
          (s.pools (s.objects this.object).pool).num_busy_workers
            ≥ (s.pools (s.objects this.object).pool).num_workers ∧
          (s.pools (s.objects this.object).pool).num_workers
            < (s.pools (s.objects this.object).pool).max_workers ∧ st = STATUS_SUCCESS then
        s.set_pool (s.objects this.object).pool { s.pools (s.objects this.object).pool with
          refcount := (s.pools (s.objects this.object).pool).refcount + 1
          num_workers := (s.pools (s.objects this.object).pool).num_workers + 1 }
      else s) ∧
    (TpCallbackMayRunLong s this this.threadid st).2.1 = { this with may_run_long := true } := by
  unfold TpCallbackMayRunLong
  cases hm : this.may_run_long
  · by_cases hb : (s.pools (s.objects this.object).pool).num_busy_workers
        ≥ (s.pools (s.objects this.object).pool).num_workers <;>
    by_cases hw : (s.pools (s.objects this.object).pool).num_workers
        < (s.pools (s.objects this.object).pool).max_workers <;>
    by_cases hst : st = STATUS_SUCCESS <;>
    simp [hb, hw, hst, tp_new_worker_thread_fst]
  · refine ⟨by simp, ?_⟩
    cases this
    simp_all

/-- The effect of the calls a callback makes on its instance: the
association count of the object drops by one if the instance was associated
and is not any more, and at most one worker thread is added to the pool of
the object. -/
theorem run_instance_calls_eq (calls : List instance_call) :
    ∀ (s : State) (this : threadpool_instance), ∃ d : Int,
      (d = 0 ∨ (d = 1 ∧ this.may_run_long = false ∧
        (s.pools (s.objects this.object).pool).num_busy_workers
          ≥ (s.pools (s.objects this.object).pool).num_workers ∧
        (s.pools (s.objects this.object).pool).num_workers
          < (s.pools (s.objects this.object).pool).max_workers)) ∧
      (run_instance_calls s this calls).1 = { s with
        objects := update s.objects this.object { s.objects this.object with
          num_associated_callbacks := (s.objects this.object).num_associated_callbacks -
            (if this.associated = true ∧ (run_instance_calls s this calls).2.associated = false
              then 1 else 0) }
        pools := update s.pools (s.objects this.object).pool
          { s.pools (s.objects this.object).pool with
            refcount := (s.pools (s.objects this.object).pool).refcount + d
            num_workers := (s.pools (s.objects this.object).pool).num_workers + d } } ∧
      (run_instance_calls s this calls).2.object = this.object ∧
      (run_instance_calls s this calls).2.threadid = this.threadid ∧
      (this.associated = false → (run_instance_calls s this calls).2.associated = false) := by
  induction calls with
  | nil =>
    intro s this
    refine ⟨0, Or.inl rfl, ?_, rfl, rfl, fun h => h⟩
    simp [run_instance_calls]
  | cons c rest ih =>
    intro s this
    cases c with
    | disassociate =>
      simp only [run_instance_calls, TpDisassociateCallback_eq]
      by_cases ha : this.associated = true
      · simp only [ha, if_true]
        obtain ⟨d, hd, hs, ho, ht, hassoc⟩ :=
          ih (s.set_object this.object { s.objects this.object with
              num_associated_callbacks := (s.objects this.object).num_associated_callbacks - 1 })
            { this with associated := false }
        have hfalse := hassoc rfl
        refine ⟨d, ?_, ?_, ho, ht, fun h => by simp at h⟩
        · simpa using hd
        · rw [hs, hfalse]
          simp
      · have := ih s this
        simpa [ha] using this
    | may_run_long st =>
      obtain ⟨h1, h2⟩ := TpCallbackMayRunLong_eq s this st
      simp only [run_instance_calls, h1, h2]
      by_cases hc : this.may_run_long = false ∧
          (s.pools (s.objects this.object).pool).num_busy_workers
            ≥ (s.pools (s.objects this.object).pool).num_workers ∧
          (s.pools (s.objects this.object).pool).num_workers
            < (s.pools (s.objects this.object).pool).max_workers ∧ st = STATUS_SUCCESS
      · rw [if_pos hc]
        obtain ⟨d, hd, hs, ho, ht, hassoc⟩ :=
          ih (s.set_pool (s.objects this.object).pool { s.pools (s.objects this.object).pool with
              refcount := (s.pools (s.objects this.object).pool).refcount + 1
              num_workers := (s.pools (s.objects this.object).pool).num_workers + 1 })
            { this with may_run_long := true }
        have hd0 : d = 0 := by
          rcases hd with h | ⟨_, h, _⟩
          · exact h
          · simp at h
        subst hd0
        refine ⟨1, Or.inr ⟨rfl, hc.1, hc.2.1, hc.2.2.1⟩, ?_, ho, ht, hassoc⟩
        rw [hs]
        simp
      · rw [if_neg hc]
        obtain ⟨d, hd, hs, ho, ht, hassoc⟩ := ih s { this with may_run_long := true }
        have hd0 : d = 0 := by
          rcases hd with h | ⟨_, h, _⟩
          · exact h
          · simp at h
        subst hd0
        refine ⟨0, Or.inl rfl, ?_, ho, ht, hassoc⟩
        rw [hs]

theorem tp_object_execute_locked_fst (o : threadpool_object) :
    (tp_object_execute_locked o).1 = { execute_object o with
      shutdown := o.shutdown
      num_associated_callbacks := o.num_associated_callbacks + 1
      num_running_callbacks := o.num_running_callbacks + 1 } := by
  obtain ⟨rc, sh, ty, pl, gr, ud, gcc, fc, mrl, pr, igm, np, nr, na, us,
    ⟨cb, tm, ⟨sg, bk, wp, tmo, hd, fl⟩, uio⟩⟩ := o
  cases ty <;> by_cases hs : sg = 0 <;>
    simp [tp_object_execute_locked, execute_object, hs, WAIT_OBJECT_0, WAIT_TIMEOUT]

theorem tp_object_execute_callback_eq (s : State) (object : Ptr) (wr : Nat)
    (c : io_completion) :
    tp_object_execute_callback s object wr c = { s with
      calls := s.calls ++ [match (s.objects object).type with
        | TP_OBJECT_TYPE_SIMPLE => call.callback object (s.objects object).userdata
        | TP_OBJECT_TYPE_WORK => call.callback object (s.objects object).userdata
        | TP_OBJECT_TYPE_TIMER => call.callback object (s.objects object).userdata
        | TP_OBJECT_TYPE_WAIT => call.wait_callback object (s.objects object).userdata wr
        | TP_OBJECT_TYPE_IO => call.io_callback object (s.objects object).userdata c] } := by
  unfold tp_object_execute_callback
  cases h : (s.objects object).type <;> simp [h]

theorem tp_object_execute_finalization_eq (s : State) (object : Ptr) :
    tp_object_execute_finalization s object = { s with
      calls := s.calls ++ (match (s.objects object).finalization_callback with
        | some fn => [call.finalization_callback fn (s.objects object).userdata]
        | none => []) } := by
  unfold tp_object_execute_finalization
  cases h : (s.objects object).finalization_callback <;> simp [h]

theorem tp_object_execute_leave_eq (s : State) (object : Ptr) (this : threadpool_instance) :
    tp_object_execute_leave s object this = { s with
      objects := update s.objects object { s.objects object with
        shutdown :=
          if (s.objects object).type = TP_OBJECT_TYPE_SIMPLE then true
          else (s.objects object).shutdown
        num_running_callbacks := (s.objects object).num_running_callbacks - 1
        num_associated_callbacks := (s.objects object).num_associated_callbacks -
          (if this.associated = true then 1 else 0) } } := by
  unfold tp_object_execute_leave
  by_cases ht : (s.objects object).type = TP_OBJECT_TYPE_SIMPLE <;>
  by_cases ha : this.associated = true <;>
  simp [ht, ha, tp_object_prepare_shutdown_simple]

theorem execute_calls_eq (o : threadpool_object) (object : Ptr) :
    execute_calls o object =
      [match o.type with
        | TP_OBJECT_TYPE_SIMPLE => call.callback object o.userdata
        | TP_OBJECT_TYPE_WORK => call.callback object o.userdata
        | TP_OBJECT_TYPE_TIMER => call.callback object o.userdata
        | TP_OBJECT_TYPE_WAIT => call.wait_callback object o.userdata
            (tp_object_execute_locked o).2.1
        | TP_OBJECT_TYPE_IO => call.io_callback object o.userdata
            (tp_object_execute_locked o).2.2] ++
      (match o.finalization_callback with
        | some fn => [call.finalization_callback fn o.userdata]
        | none => []) := by
  unfold execute_calls tp_object_execute_locked
  cases h : o.type <;> simp [h]

/-- The state after `tp_object_execute`: the object is updated as
`execute_object` says, the callbacks are called, and the pool of the object
gains at most one worker thread (through `TpCallbackMayRunLong`). -/
theorem tp_object_execute_eq (s : State) (object : Ptr) (wait_thread : Bool) (threadid : Nat)
    (user : List instance_call) : ∃ d : Int,
      (d = 0 ∨ (d = 1 ∧
        (s.pools (s.objects object).pool).num_busy_workers
          ≥ (s.pools (s.objects object).pool).num_workers ∧
        (s.pools (s.objects object).pool).num_workers
          < (s.pools (s.objects object).pool).max_workers)) ∧
      tp_object_execute s object wait_thread threadid user = { s with
        objects := update s.objects object (execute_object (s.objects object))
        pools := update s.pools (s.objects object).pool
          { s.pools (s.objects object).pool with
            refcount := (s.pools (s.objects object).pool).refcount + d
            num_workers := (s.pools (s.objects object).pool).num_workers + d }
        calls := s.calls ++ execute_calls (s.objects object) object } := by
  have hl := tp_object_execute_locked_fst (s.objects object)
  obtain ⟨d, hd, hs, ho, -, -⟩ := run_instance_calls_eq user
    ( tp_object_execute_callback (tp_object_execute_enter s object threadid).1 object
      (tp_object_execute_enter s object threadid).2.2.1
      (tp_object_execute_enter s object threadid).2.2.2)
    (tp_object_execute_enter s object threadid).2.1
  have ha : (run_instance_calls
      ( tp_object_execute_callback (tp_object_execute_enter s object threadid).1 object
        (tp_object_execute_enter s object threadid).2.2.1
        (tp_object_execute_enter s object threadid).2.2.2)
      (tp_object_execute_enter s object threadid).2.1 user).2.associated = true ∨
    (run_instance_calls
      ( tp_object_execute_callback (tp_object_execute_enter s object threadid).1 object
        (tp_object_execute_enter s object threadid).2.2.1
        (tp_object_execute_enter s object threadid).2.2.2)
      (tp_object_execute_enter s object threadid).2.1 user).2.associated = false := by
    cases (run_instance_calls _ _ user).2.associated <;> simp
  refine ⟨d, ?_, ?_⟩
  · rcases hd with h | ⟨h1, -, h2, h3⟩
    · exact Or.inl h
    · refine Or.inr ⟨h1, ?_, ?_⟩
      · simpa [tp_object_execute_enter, tp_object_execute_callback_eq, hl, execute_object]
          using h2
      · simpa [tp_object_execute_enter, tp_object_execute_callback_eq, hl, execute_object]
          using h3
  · unfold tp_object_execute
    simp only [tp_object_execute_leave_eq, tp_object_execute_finalization_eq]
    rw [hs]
    rcases ha with ha | ha <;> rw [ha] <;>
      simp [tp_object_execute_enter, tp_object_execute_callback_eq, hl, execute_object,
        execute_calls_eq]

/-- The object heap after a worker dispatch. -/
theorem threadpool_worker_dispatch_objects (s : State) (pool object : Ptr) (threadid : Nat)
    (user : List instance_call) :
    (threadpool_worker_dispatch s pool object threadid user).objects =
      update s.objects object { execute_object (s.objects object) with
        refcount := (s.objects object).refcount - 1
        is_group_member :=
          if (s.objects object).refcount - 1 = 0 ∧ (s.objects object).group ≠ none then false
          else (s.objects object).is_group_member } := by
  unfold threadpool_worker_dispatch
  simp only [tp_object_release_objects]
  by_cases hp : (s.objects object).num_pending_callbacks > 1
  · obtain ⟨d, -, he⟩ := tp_object_execute_eq
      ( tp_object_prio_queue (s.set_pool pool ((s.pools pool).remove_entry object)) object)
      object false threadid user
    simp only [if_pos hp, he]
    simp [tp_object_prio_queue_objects, execute_object]
  · obtain ⟨d, -, he⟩ := tp_object_execute_eq
      (s.set_pool pool ((s.pools pool).remove_entry object)) object false threadid user
    simp only [if_neg hp, he]
    simp [execute_object]

theorem submit_all_object (object : Ptr) (args : List (Bool × NTSTATUS)) :
    ∀ s : State,
      ((submit_all s object args).objects object).refcount
        = (s.objects object).refcount + args.length ∧
      ((submit_all s object args).objects object).num_pending_callbacks
        = (s.objects object).num_pending_callbacks + args.length := by
  induction args with
  | nil => intro s; simp [submit_all]
  | cons a rest ih =>
    intro s
    obtain ⟨h1, h2⟩ := ih (tp_object_submit s object a.1 a.2)
    simp only [submit_all, List.foldl_cons] at h1 h2 ⊢
    rw [h1, h2, tp_object_submit_objects, update_same]
    simp only [List.length_cons]
    push_cast
    constructor <;> ring

theorem dispatch_all_object (pool object : Ptr) (args : List (Nat × List instance_call)) :
    ∀ s : State,
      ((dispatch_all s pool object args).objects object).refcount
        = (s.objects object).refcount - args.length ∧
      ((dispatch_all s pool object args).objects object).num_pending_callbacks
        = (s.objects object).num_pending_callbacks - args.length := by
  induction args with
  | nil => intro s; simp [dispatch_all]
  | cons a rest ih =>
    intro s
    obtain ⟨h1, h2⟩ := ih (threadpool_worker_dispatch s pool object a.1 a.2)
    simp only [dispatch_all, List.foldl_cons] at h1 h2 ⊢
    rw [h1, h2, threadpool_worker_dispatch_objects, update_same]
    simp only [List.length_cons, execute_object]
    push_cast
    constructor <;> ring

/-- C5 (as amended): after `k` submissions of an object followed by `k`
worker dispatches of it, its reference count and its count of pending
callbacks have the values they had before the submissions.  After `k`
submissions followed by one `tp_object_cancel`, on an object whose count of
pending callbacks was not negative, no callback is pending and the reference
count is lower than before the submissions by the number of callbacks that
were pending before them; both are back to their former values exactly when
no callback was pending before the submissions. -/
theorem submit_release_balance (s : State) (pool object : Ptr)
    (submits : List (Bool × NTSTATUS)) (dispatches : List (Nat × List instance_call))
    (hk : dispatches.length = submits.length) :
    ((dispatch_all (submit_all s object submits) pool object dispatches).objects object).refcount
      = (s.objects object).refcount ∧
    ((dispatch_all (submit_all s object submits) pool object dispatches).objects
        object).num_pending_callbacks
      = (s.objects object).num_pending_callbacks ∧
    (0 ≤ (s.objects object).num_pending_callbacks →
      ((tp_object_cancel (submit_all s object submits) object).objects object).refcount
        = (s.objects object).refcount - (s.objects object).num_pending_callbacks ∧
      ((tp_object_cancel (submit_all s object submits) object).objects
          object).num_pending_callbacks = 0 ∧
      (((tp_object_cancel (submit_all s object submits) object).objects object).refcount
          = (s.objects object).refcount ∧
        ((tp_object_cancel (submit_all s object submits) object).objects
          object).num_pending_callbacks = (s.objects object).num_pending_callbacks
        ↔ (s.objects object).num_pending_callbacks = 0)) := by
  obtain ⟨hs1, hs2⟩ := submit_all_object object submits s
  obtain ⟨hd1, hd2⟩ := dispatch_all_object pool object dispatches (submit_all s object submits)
  refine ⟨?_, ?_, ?_⟩
  · rw [hd1, hs1, hk]
    ring
  · rw [hd2, hs2, hk]
    ring
  · intro hp
    have hp' : 0 ≤ ((submit_all s object submits).objects object).num_pending_callbacks := by
      rw [hs2]
      positivity
    obtain ⟨hc1, -, -, hc2, -⟩ := tp_object_cancel_effect (submit_all s object submits) object hp'
    rw [hs1, hs2] at hc2
    have hr : ((tp_object_cancel (submit_all s object submits) object).objects object).refcount
        = (s.objects object).refcount - (s.objects object).num_pending_callbacks := by
      rw [hc2]
      ring
    refine ⟨hr, hc1, ?_⟩
    rw [hr, hc1]
    constructor
    · rintro ⟨-, h⟩
      exact h.symm
    · intro h
      rw [h]
      simp

theorem submit_release_balance_witness :
    [((5 : Nat), ([] : List instance_call))].length = [(false, STATUS_SUCCESS)].length ∧
    (state_two_queued.objects 10).refcount = 2 ∧
    ((submit_all state_two_queued 10 [(false, STATUS_SUCCESS)]).objects 10).refcount = 3 ∧
    ((dispatch_all (submit_all state_two_queued 10 [(false, STATUS_SUCCESS)]) 1 10
      [(5, [])]).objects 10).refcount = (state_two_queued.objects 10).refcount :=
  ⟨rfl, by decide, by decide,
    (submit_release_balance state_two_queued 1 10 [(false, STATUS_SUCCESS)] [(5, [])] rfl).1⟩

/-- C5 as stated fails: object 10 of `state_two_queued` has one callback
pending and two references; after one more submission and a cancel it has no
callback pending and one reference. -/
theorem submit_cancel_not_restored :
    (state_two_queued.objects 10).refcount = 2 ∧
    (state_two_queued.objects 10).num_pending_callbacks = 1 ∧
    ((tp_object_cancel (submit_all state_two_queued 10 [(false, STATUS_SUCCESS)]) 10).objects
      10).refcount = 1 ∧
    ((tp_object_cancel (submit_all state_two_queued 10 [(false, STATUS_SUCCESS)]) 10).objects
      10).num_pending_callbacks = 0 ∧
    ¬ (((tp_object_cancel (submit_all state_two_queued 10 [(false, STATUS_SUCCESS)]) 10).objects
        10).refcount = (state_two_queued.objects 10).refcount ∧
      ((tp_object_cancel (submit_all state_two_queued 10 [(false, STATUS_SUCCESS)]) 10).objects
        10).num_pending_callbacks = (state_two_queued.objects 10).num_pending_callbacks) := by
  decide

theorem remove_entry_counters (p : threadpool) (object : Ptr) :
    (p.remove_entry object).num_workers = p.num_workers ∧
    (p.remove_entry object).max_workers = p.max_workers ∧
    (p.remove_entry object).num_busy_workers = p.num_busy_workers := ⟨rfl, rfl, rfl⟩

theorem set_pools_counters (p : threadpool) (i : Nat) (l : List Ptr) :
    (p.set_pools i l).num_workers = p.num_workers ∧
    (p.set_pools i l).max_workers = p.max_workers ∧
    (p.set_pools i l).num_busy_workers = p.num_busy_workers := ⟨rfl, rfl, rfl⟩

/-- The worker counters of any pool `q` after a worker dispatch on `pool`
of an object: the limit is unchanged, the pool of the object gains at most
one worker and one busy count (when the object is queued again), and `pool`
loses one busy count. -/
theorem threadpool_worker_dispatch_counters (s : State) (pool object : Ptr) (threadid : Nat)
    (user : List instance_call) (q : Ptr) : ∃ d : Int,
      (d = 0 ∨ (d = 1 ∧
        (s.pools (s.objects object).pool).num_workers
          < (s.pools (s.objects object).pool).max_workers)) ∧
      ((threadpool_worker_dispatch s pool object threadid user).pools q).max_workers
        = (s.pools q).max_workers ∧
      ((threadpool_worker_dispatch s pool object threadid user).pools q).num_workers
        = (s.pools q).num_workers + (if q = (s.objects object).pool then d else 0) ∧
      ((threadpool_worker_dispatch s pool object threadid user).pools q).num_busy_workers
        = (s.pools q).num_busy_workers
          + (if (s.objects object).num_pending_callbacks > 1 ∧ q = (s.objects object).pool
              then 1 else 0)
          - (if q = pool then 1 else 0) := by
  unfold threadpool_worker_dispatch
  simp only [tp_object_release_pools]
  by_cases hp : (s.objects object).num_pending_callbacks > 1
  · obtain ⟨d, hd, he⟩ := tp_object_execute_eq
      ( tp_object_prio_queue (s.set_pool pool ((s.pools pool).remove_entry object)) object)
      object false threadid user
    simp only [if_pos hp, he]
    refine ⟨d, ?_, ?_⟩
    · rcases hd with h | ⟨h1, -, h3⟩
      · exact Or.inl h
      · refine Or.inr ⟨h1, ?_⟩
        simp only [tp_object_prio_queue_objects, tp_object_prio_queue_pools, State.set_pool,
          update_same, update_apply] at h3
        split_ifs at h3 <;> simp_all [threadpool.set_pools, threadpool.remove_entry]
    · simp only [tp_object_prio_queue_objects, tp_object_prio_queue_pools, State.set_pool,
        update_same, update_apply, execute_object]
      by_cases h1 : q = (s.objects object).pool <;> by_cases h2 : q = pool <;>
        by_cases h3 : (s.objects object).pool = pool <;>
        by_cases h4 : (s.objects object).refcount - 1 = 0 <;>
        simp_all [threadpool.set_pools, threadpool.remove_entry, update_apply]
  · obtain ⟨d, hd, he⟩ := tp_object_execute_eq
      (s.set_pool pool ((s.pools pool).remove_entry object)) object false threadid user
    simp only [if_neg hp, he]
    refine ⟨d, ?_, ?_⟩
    · rcases hd with h | ⟨h1, -, h3⟩
      · exact Or.inl h
      · refine Or.inr ⟨h1, ?_⟩
        simp only [State.set_pool, update_same, update_apply] at h3
        split_ifs at h3 <;> simp_all [threadpool.remove_entry]
    · simp only [State.set_pool, update_same, update_apply, execute_object]
      by_cases h1 : q = (s.objects object).pool <;> by_cases h2 : q = pool <;>
        by_cases h3 : (s.objects object).pool = pool <;>
        by_cases h4 : (s.objects object).refcount - 1 = 0 <;>
        simp_all [threadpool.remove_entry, update_apply]

theorem tp_object_submit_counters (s : State) (object : Ptr) (signaled : Bool) (st : NTSTATUS)
    (q : Ptr) : ∃ d : Int,
      (d = 0 ∨ (d = 1 ∧ q = (s.objects object).pool ∧
        (s.pools q).num_workers < (s.pools q).max_workers)) ∧
      ((tp_object_submit s object signaled st).pools q).max_workers = (s.pools q).max_workers ∧
      ((tp_object_submit s object signaled st).pools q).num_workers
        = (s.pools q).num_workers + d ∧
      ((tp_object_submit s object signaled st).pools q).num_busy_workers
        = (s.pools q).num_busy_workers
          + (if (s.objects object).num_pending_callbacks = 0 ∧ q = (s.objects object).pool
              then 1 else 0) := by
  rw [tp_object_submit_pools]
  by_cases hq : q = (s.objects object).pool
  · subst hq
    rw [update_same]
    by_cases hc : (s.pools (s.objects object).pool).num_busy_workers
          ≥ (s.pools (s.objects object).pool).num_workers ∧
        (s.pools (s.objects object).pool).num_workers
          < (s.pools (s.objects object).pool).max_workers ∧ st = STATUS_SUCCESS
    · refine ⟨1, Or.inr ⟨rfl, rfl, hc.2.1⟩, ?_⟩
      by_cases hp : (s.objects object).num_pending_callbacks = 0 <;>
        simp [submit_pool, hc, hp, threadpool.set_pools]
    · refine ⟨0, Or.inl rfl, ?_⟩
      by_cases hp : (s.objects object).num_pending_callbacks = 0 <;>
        simp [submit_pool, hc, hp, threadpool.set_pools]
  · rw [update_of_ne _ _ _ _ hq]
    exact ⟨0, Or.inl rfl, rfl, by simp, by simp [hq]⟩

theorem tp_object_cancel_counters (s : State) (object : Ptr) (q : Ptr) :
    ((tp_object_cancel s object).pools q).max_workers = (s.pools q).max_workers ∧
    ((tp_object_cancel s object).pools q).num_workers = (s.pools q).num_workers ∧
    ((tp_object_cancel s object).pools q).num_busy_workers = (s.pools q).num_busy_workers := by
  have h := tp_object_release_loop_pools object (tp_object_cancel_locked s object).2.toNat
    (tp_object_cancel_locked s object).1 q
  unfold threadpool.same_queues at h
  have h2 : ((tp_object_cancel_locked s object).1.pools q).max_workers = (s.pools q).max_workers ∧
      ((tp_object_cancel_locked s object).1.pools q).num_workers = (s.pools q).num_workers ∧
      ((tp_object_cancel_locked s object).1.pools q).num_busy_workers
        = (s.pools q).num_busy_workers := by
    rw [tp_object_cancel_locked_pools]
    split_ifs
    · rw [update_apply]
      split_ifs with hq
      · subst hq
        exact ⟨rfl, rfl, rfl⟩
      · exact ⟨rfl, rfl, rfl⟩
    · exact ⟨rfl, rfl, rfl⟩
  unfold tp_object_cancel
  rw [h]
  exact h2

theorem threadpool_worker_exit_counters (s : State) (pool : Ptr) (q : Ptr) :
    ((threadpool_worker_exit s pool).pools q).max_workers = (s.pools q).max_workers ∧
    ((threadpool_worker_exit s pool).pools q).num_workers
      = (s.pools q).num_workers - (if q = pool then 1 else 0) ∧
    ((threadpool_worker_exit s pool).pools q).num_busy_workers
      = (s.pools q).num_busy_workers := by
  unfold threadpool_worker_exit
  rw [tp_threadpool_release_fst]
  by_cases hq : q = pool
  · subst hq
    simp
  · simp [hq]

theorem TpCallbackMayRunLong_counters (s : State) (this : threadpool_instance)
    (current_thread : Nat) (st : NTSTATUS) (q : Ptr) : ∃ d : Int,
      (d = 0 ∨ (d = 1 ∧ (s.pools q).num_workers < (s.pools q).max_workers)) ∧
      ((TpCallbackMayRunLong s this current_thread st).1.pools q).max_workers
        = (s.pools q).max_workers ∧
      ((TpCallbackMayRunLong s this current_thread st).1.pools q).num_workers
        = (s.pools q).num_workers + d ∧
      ((TpCallbackMayRunLong s this current_thread st).1.pools q).num_busy_workers
        = (s.pools q).num_busy_workers := by
  unfold TpCallbackMayRunLong
  by_cases ht : this.threadid = current_thread
  · by_cases hm : this.may_run_long = true
    · exact ⟨0, Or.inl rfl, by simp [ht, hm]⟩
    · by_cases hb : (s.pools (s.objects this.object).pool).num_busy_workers
          ≥ (s.pools (s.objects this.object).pool).num_workers
      · by_cases hw : (s.pools (s.objects this.object).pool).num_workers
            < (s.pools (s.objects this.object).pool).max_workers
        · by_cases hst : st = STATUS_SUCCESS
          · by_cases hq : q = (s.objects this.object).pool
            · subst hq
              exact ⟨1, Or.inr ⟨rfl, hw⟩, by simp [ht, hm, hb, hw, hst, tp_new_worker_thread_fst]⟩
            · exact ⟨0, Or.inl rfl,
                by simp [ht, hm, hb, hw, hst, tp_new_worker_thread_fst, hq]⟩
          · refine ⟨0, Or.inl rfl, ?_⟩
            have hn : (tp_new_worker_thread s (s.objects this.object).pool st).1 = s := by
              simp [tp_new_worker_thread, hst]
            simp [ht, hm, hb, hw, hn]
        · exact ⟨0, Or.inl rfl, by simp [ht, hm, hb, hw]⟩
      · exact ⟨0, Or.inl rfl, by simp [ht, hm, hb]⟩
  · exact ⟨0, Or.inl rfl, by simp [ht]⟩

theorem to_uint_of_range (w : Int) (h0 : 0 ≤ w) (h1 : w < 4294967296) :
    ((to_uint w : Nat) : Int) = w := by
  unfold to_uint UINT_MOD
  have : w % ((2 ^ 32 : Nat) : Int) = w := Int.emod_eq_of_lt h0 (by norm_num; exact h1)
  rw [this, Int.toNat_of_nonneg h0]

theorem to_int_of_small (n : Nat) (h : n < 2147483648) : to_int n = (n : Int) := by
  unfold to_int UINT_MOD
  have h1 : n % 2 ^ 32 = n := Nat.mod_eq_of_lt (by omega)
  rw [h1, if_pos (by omega)]

theorem c_max_int (a b : Int) : c_max a b = max a b := by
  unfold c_max
  split_ifs with h
  · exact (max_eq_left (le_of_lt h)).symm
  · exact (max_eq_right (not_lt.mp h)).symm

/-- The loop of `TpSetPoolMinThreads` only adds workers to `pool`. -/
theorem TpSetPoolMinThreads_loop_counters (pool : Ptr) (minimum : Nat)
    (thread_status : Nat → NTSTATUS) (fuel : Nat) :
    ∀ (i : Nat) (s : State) (q : Ptr),
      ((TpSetPoolMinThreads_loop pool minimum thread_status fuel i s).1.pools q).max_workers
        = (s.pools q).max_workers ∧
      ((TpSetPoolMinThreads_loop pool minimum thread_status fuel i s).1.pools q).min_workers
        = (s.pools q).min_workers ∧
      ((TpSetPoolMinThreads_loop pool minimum thread_status fuel i s).1.pools q).num_busy_workers
        = (s.pools q).num_busy_workers ∧
      (s.pools q).num_workers
        ≤ ((TpSetPoolMinThreads_loop pool minimum thread_status fuel i s).1.pools q).num_workers ∧
      (q ≠ pool →
        ((TpSetPoolMinThreads_loop pool minimum thread_status fuel i s).1.pools q).num_workers
          = (s.pools q).num_workers) := by
  induction fuel with
  | zero => intro i s q; simp [TpSetPoolMinThreads_loop]
  | succ fuel ih =>
    intro i s q
    unfold TpSetPoolMinThreads_loop
    by_cases hc : to_uint (s.pools pool).num_workers < minimum
    · simp only [if_pos hc]
      by_cases hst : thread_status i = STATUS_SUCCESS
      · have h2 : (tp_new_worker_thread s pool (thread_status i)).2 = STATUS_SUCCESS := by
          simp [tp_new_worker_thread, hst]
        simp only [h2, ne_eq, not_true_eq_false, if_false]
        obtain ⟨h3, h4, h5, h6, h7⟩ :=
          ih (i + 1) (tp_new_worker_thread s pool (thread_status i)).1 q
        have hn : ∀ x, (tp_new_worker_thread s pool (thread_status i)).1.pools x =
            update s.pools pool { s.pools pool with
              refcount := (s.pools pool).refcount + 1
              num_workers := (s.pools pool).num_workers + 1 } x := by
          intro x
          rw [tp_new_worker_thread_fst]
          simp [hst]
        rw [hn] at h3 h4 h5 h6 h7
        by_cases hq : q = pool
        · subst hq
          simp only [update_same] at h3 h4 h5 h6 h7
          refine ⟨h3, h4, h5, by omega, fun h => absurd rfl h⟩
        · simp only [update_of_ne _ _ _ _ hq] at h3 h4 h5 h6 h7
          exact ⟨h3, h4, h5, h6, h7⟩
      · have h2 : tp_new_worker_thread s pool (thread_status i) = (s, thread_status i) := by
          simp [tp_new_worker_thread, hst]
        simp [h2, hst]
    · simp [if_neg hc]

/-- The loop of `TpSetPoolMinThreads` does not take the number of workers,
when it is in the range of `DWORD`, above `minimum`. -/
theorem TpSetPoolMinThreads_loop_bound (pool : Ptr) (minimum : Nat)
    (thread_status : Nat → NTSTATUS) (fuel : Nat) (hmin : minimum < 4294967296) :
    ∀ (i : Nat) (s : State), 0 ≤ (s.pools pool).num_workers →
      (s.pools pool).num_workers < 4294967296 →
      ((TpSetPoolMinThreads_loop pool minimum thread_status fuel i s).1.pools pool).num_workers
        ≤ max (s.pools pool).num_workers (minimum : Int) := by
  induction fuel with
  | zero => intro i s _ _; simp [TpSetPoolMinThreads_loop]
  | succ fuel ih =>
    intro i s h0 h1
    unfold TpSetPoolMinThreads_loop
    by_cases hc : to_uint (s.pools pool).num_workers < minimum
    · simp only [if_pos hc]
      have hw : (s.pools pool).num_workers < (minimum : Int) := by
        rw [← to_uint_of_range _ h0 h1]
        exact_mod_cast hc
      by_cases hst : thread_status i = STATUS_SUCCESS
      · have h2 : (tp_new_worker_thread s pool (thread_status i)).2 = STATUS_SUCCESS := by
          simp [tp_new_worker_thread, hst]
        simp only [h2, ne_eq, not_true_eq_false, if_false]
        have h3 := ih (i + 1) (tp_new_worker_thread s pool (thread_status i)).1
        have hn : (tp_new_worker_thread s pool (thread_status i)).1.pools pool =
            { s.pools pool with
              refcount := (s.pools pool).refcount + 1
              num_workers := (s.pools pool).num_workers + 1 } := by
          rw [tp_new_worker_thread_fst]
          simp [hst]
        rw [hn] at h3
        have h4 := h3 (by simp only; omega) (by simp only; omega)
        simp only at h4
        have h5 : max ((s.pools pool).num_workers + 1) (minimum : Int) = (minimum : Int) :=
          max_eq_right (by omega)
        rw [h5] at h4
        exact le_trans h4 (le_max_right _ _)
      · have h2 : tp_new_worker_thread s pool (thread_status i) = (s, thread_status i) := by
          simp [tp_new_worker_thread, hst]
        simp [h2, hst]
    · simp [if_neg hc]

theorem TpSetPoolMaxThreads_counters (s : State) (pool : Ptr) (maximum : Nat) (q : Ptr) :
    ((TpSetPoolMaxThreads s pool maximum).pools q).num_workers = (s.pools q).num_workers ∧
    ((TpSetPoolMaxThreads s pool maximum).pools q).num_busy_workers
      = (s.pools q).num_busy_workers := by
  unfold TpSetPoolMaxThreads
  by_cases hq : q = pool
  · subst hq
    simp
  · simp [hq]

/-- C8 (as amended): after `tp_threadpool_alloc` the chain
`num_busy_workers ≤ num_workers ≤ max_workers` holds.  In every pool `q`,
`num_workers ≤ max_workers` is preserved by `tp_object_submit`, by a worker
dispatch, by a worker exit, by `tp_object_cancel`, by `TpCallbackMayRunLong`,
and by a call of `TpSetPoolMinThreads` that succeeds with a minimum below
`2 ^ 31` on a pool whose worker count is in the range of `int` and not
negative; `num_busy_workers ≤ num_workers` is preserved by the dispatch by a
worker of an object of its pool, by `tp_object_cancel`, by
`TpSetPoolMaxThreads`, by `TpSetPoolMinThreads` and by
`TpCallbackMayRunLong`. -/
theorem worker_bounds_preserved (s : State) (q : Ptr) :
    (∀ pool : Ptr, ((tp_threadpool_alloc s (some pool)).1.pools pool).worker_chain) ∧
    ((s.pools q).num_workers ≤ (s.pools q).max_workers →
      (∀ object signaled st,
        ((tp_object_submit s object signaled st).pools q).num_workers
          ≤ ((tp_object_submit s object signaled st).pools q).max_workers) ∧
      (∀ pool object threadid user,
        ((threadpool_worker_dispatch s pool object threadid user).pools q).num_workers
          ≤ ((threadpool_worker_dispatch s pool object threadid user).pools q).max_workers) ∧
      (∀ pool,
        ((threadpool_worker_exit s pool).pools q).num_workers
          ≤ ((threadpool_worker_exit s pool).pools q).max_workers) ∧
      (∀ object,
        ((tp_object_cancel s object).pools q).num_workers
          ≤ ((tp_object_cancel s object).pools q).max_workers) ∧
      (∀ this current_thread st,
        ((TpCallbackMayRunLong s this current_thread st).1.pools q).num_workers
          ≤ ((TpCallbackMayRunLong s this current_thread st).1.pools q).max_workers) ∧
      (∀ pool minimum thread_status,
        0 ≤ (s.pools pool).num_workers → (s.pools pool).num_workers < 2147483648 →
        minimum < 2147483648 → (TpSetPoolMinThreads s pool minimum thread_status).2 = true →
        ((TpSetPoolMinThreads s pool minimum thread_status).1.pools q).num_workers
          ≤ ((TpSetPoolMinThreads s pool minimum thread_status).1.pools q).max_workers)) ∧
    ((s.pools q).num_busy_workers ≤ (s.pools q).num_workers →
      (∀ pool object threadid user, (s.objects object).pool = pool →
        ((threadpool_worker_dispatch s pool object threadid user).pools q).num_busy_workers
          ≤ ((threadpool_worker_dispatch s pool object threadid user).pools q).num_workers) ∧
      (∀ object,
        ((tp_object_cancel s object).pools q).num_busy_workers
          ≤ ((tp_object_cancel s object).pools q).num_workers) ∧
      (∀ pool maximum,
        ((TpSetPoolMaxThreads s pool maximum).pools q).num_busy_workers
          ≤ ((TpSetPoolMaxThreads s pool maximum).pools q).num_workers) ∧
      (∀ pool minimum thread_status,
        ((TpSetPoolMinThreads s pool minimum thread_status).1.pools q).num_busy_workers
          ≤ ((TpSetPoolMinThreads s pool minimum thread_status).1.pools q).num_workers) ∧
      (∀ this current_thread st,
        ((TpCallbackMayRunLong s this current_thread st).1.pools q).num_busy_workers
          ≤ ((TpCallbackMayRunLong s this current_thread st).1.pools q).num_workers)) := by
  refine ⟨?_, ?_, ?_⟩
  · intro pool
    simp [tp_threadpool_alloc, threadpool.worker_chain]
  · intro hw
    refine ⟨?_, ?_, ?_, ?_, ?_, ?_⟩
    · intro object signaled st
      obtain ⟨d, hd, h1, h2, -⟩ := tp_object_submit_counters s object signaled st q
      rw [h1, h2]
      rcases hd with h | ⟨h, -, h'⟩ <;> omega
    · intro pool object threadid user
      obtain ⟨d, hd, h1, h2, -⟩ := threadpool_worker_dispatch_counters s pool object threadid user q
      rw [h1, h2]
      split_ifs with hq
      · subst hq
        rcases hd with h | ⟨h, h'⟩ <;> omega
      · omega
    · intro pool
      obtain ⟨h1, h2, -⟩ := threadpool_worker_exit_counters s pool q
      rw [h1, h2]
      split_ifs <;> omega
    · intro object
      obtain ⟨h1, h2, -⟩ := tp_object_cancel_counters s object q
      rw [h1, h2]
      exact hw
    · intro this current_thread st
      obtain ⟨d, hd, h1, h2, -⟩ := TpCallbackMayRunLong_counters s this current_thread st q
      rw [h1, h2]
      rcases hd with h | ⟨h, h'⟩ <;> omega
    · intro pool minimum thread_status h0 h1 hmin hok
      obtain ⟨l1, -, -, -, l5⟩ :=
        TpSetPoolMinThreads_loop_counters pool minimum thread_status minimum 0 s q
      have lb := TpSetPoolMinThreads_loop_bound pool minimum thread_status minimum (by omega)
        0 s h0 (by omega)
      unfold TpSetPoolMinThreads at hok ⊢
      by_cases hst : (TpSetPoolMinThreads_loop pool minimum thread_status minimum 0 s).2
          = STATUS_SUCCESS
      · simp only [hst, if_true]
        by_cases hq : q = pool
        · subst hq
          simp only [State.set_pool, update_same, c_max_int, to_int_of_small minimum hmin]
          rw [l1]
          exact le_trans lb (max_le (le_trans hw (le_max_right _ _)) (le_max_left _ _))
        · simp only [State.set_pool, update_of_ne _ _ _ _ hq]
          rw [l1, l5 hq]
          exact hw
      · simp [hst] at hok
  · intro hb
    refine ⟨?_, ?_, ?_, ?_, ?_⟩
    · intro pool object threadid user hpool
      obtain ⟨d, hd, -, h2, h3⟩ := threadpool_worker_dispatch_counters s pool object threadid user q
      rw [hpool] at h2 h3
      rw [h2, h3]
      have hd0 : 0 ≤ d := by rcases hd with h | ⟨h, -⟩ <;> omega
      by_cases hq : q = pool
      · subst hq
        by_cases hp : (s.objects object).num_pending_callbacks > 1
        · simp only [hp, if_true, and_self]
          omega
        · simp only [hp, if_true, false_and, if_false]
          omega
      · simp only [hq, if_false, and_false]
        omega
    · intro object
      obtain ⟨-, h2, h3⟩ := tp_object_cancel_counters s object q
      rw [h2, h3]
      exact hb
    · intro pool maximum
      obtain ⟨h2, h3⟩ := TpSetPoolMaxThreads_counters s pool maximum q
      rw [h2, h3]
      exact hb
    · intro pool minimum thread_status
      obtain ⟨-, -, l3, l4, -⟩ :=
        TpSetPoolMinThreads_loop_counters pool minimum thread_status minimum 0 s q
      unfold TpSetPoolMinThreads
      by_cases hst : (TpSetPoolMinThreads_loop pool minimum thread_status minimum 0 s).2
          = STATUS_SUCCESS
      · simp only [hst, if_true]
        by_cases hq : q = pool
        · subst hq
          simp only [State.set_pool, update_same]
          omega
        · simp only [State.set_pool, update_of_ne _ _ _ _ hq]
          omega
      · simp only [hst, if_false]
        omega
    · intro this current_thread st
      obtain ⟨d, hd, -, h2, h3⟩ := TpCallbackMayRunLong_counters s this current_thread st q
      rw [h2, h3]
      rcases hd with h | ⟨h, -⟩ <;> omega

theorem worker_bounds_preserved_witness :
    (state_two_queued.pools 1).num_workers ≤ (state_two_queued.pools 1).max_workers ∧
    (state_two_queued.pools 1).num_workers = 2 ∧
    ((tp_object_submit state_two_queued 10 false STATUS_SUCCESS).pools 1).num_workers
      ≤ ((tp_object_submit state_two_queued 10 false STATUS_SUCCESS).pools 1).max_workers :=
  ⟨by decide, by decide,
    ((worker_bounds_preserved state_two_queued 1).2.1 (by decide)).1 10 false STATUS_SUCCESS⟩

/-- C8 as stated fails.  The pool of `state_one_worker` satisfies the chain
with one worker, one busy count and a limit of one; posting the second work
object gives two busy counts for one worker.  The pool of `state_two_queued`
satisfies the chain with two workers; `TpSetPoolMaxThreads` with a maximum of
1 leaves two workers under a limit of one. -/
theorem worker_chain_not_preserved :
    (state_one_worker.pools 1).worker_chain ∧
    ¬ ((tp_object_submit state_one_worker 11 false STATUS_SUCCESS).pools 1).worker_chain ∧
    ((tp_object_submit state_one_worker 11 false STATUS_SUCCESS).pools 1).num_busy_workers = 2 ∧
    ((tp_object_submit state_one_worker 11 false STATUS_SUCCESS).pools 1).num_workers = 1 ∧
    (state_two_queued.pools 1).worker_chain ∧
    ¬ ((TpSetPoolMaxThreads state_two_queued 1 1).pools 1).worker_chain ∧
    ((TpSetPoolMaxThreads state_two_queued 1 1).pools 1).num_workers = 2 ∧
    ((TpSetPoolMaxThreads state_two_queued 1 1).pools 1).max_workers = 1 := by
  decide

theorem tp_waitqueue_lock_signaled (s : State) (wait : Ptr) (new_bucket : Option Ptr)
    (event_status thread_status : NTSTATUS) :
    ((tp_waitqueue_lock s wait new_bucket event_status thread_status).1.objects
      wait).u.wait.signaled = 0 := by
  unfold tp_waitqueue_lock
  simp only
  split
  · simp
  · split
    · simp
    · split_ifs <;> simp

theorem tp_object_cancel_objects_other (s : State) (object x : Ptr) (hx : x ≠ object) :
    (tp_object_cancel s object).objects x = s.objects x := by
  unfold tp_object_cancel
  rw [tp_object_release_loop_objects_other object x hx, tp_object_cancel_locked_objects,
    update_of_ne _ _ _ _ hx]

theorem tp_object_cancel_signaled (s : State) (object : Ptr) :
    ((tp_object_cancel s object).objects object).u.wait.signaled = 0 ∨
    ((tp_object_cancel s object).objects object).u.wait.signaled
      = (s.objects object).u.wait.signaled := by
  obtain ⟨hsame, -⟩ := tp_object_release_loop_objects object
    (tp_object_cancel_locked s object).2.toNat (tp_object_cancel_locked s object).1
  rw [tp_object_cancel_locked_objects, update_same] at hsame
  have hobj : (tp_object_cancel s object).objects object =
      { cancel_object (s.objects object) with
        refcount := ((tp_object_cancel s object).objects object).refcount
        is_group_member := ((tp_object_cancel s object).objects object).is_group_member } :=
    hsame
  rw [hobj]
  show (cancel_object (s.objects object)).u.wait.signaled = 0 ∨
    (cancel_object (s.objects object)).u.wait.signaled = (s.objects object).u.wait.signaled
  by_cases hp : (s.objects object).num_pending_callbacks = 0 <;>
  by_cases hw : (s.objects object).type = TP_OBJECT_TYPE_WAIT <;>
  by_cases hi : (s.objects object).type = TP_OBJECT_TYPE_IO <;>
  simp [cancel_object, hp, hw, hi]

theorem object_call_run_signaled (s : State) (c : object_call) (wait : Ptr)
    (h : 0 ≤ (s.objects wait).u.wait.signaled) :
    0 ≤ ((c.run s).objects wait).u.wait.signaled := by
  cases c with
  | submit object signaled st =>
    simp only [object_call.run, tp_object_submit_objects]
    by_cases hx : wait = object
    · subst hx
      simp only [update_same]
      split_ifs <;> omega
    · rw [update_of_ne _ _ _ _ hx]
      exact h
  | execute object wait_thread threadid user =>
    obtain ⟨d, -, he⟩ := tp_object_execute_eq s object wait_thread threadid user
    simp only [object_call.run, he]
    by_cases hx : wait = object
    · subst hx
      simp only [update_same, execute_object]
      split_ifs with hc
      · have := hc.2
        omega
      · exact h
    · rw [update_of_ne _ _ _ _ hx]
      exact h
  | cancel object =>
    simp only [object_call.run]
    by_cases hx : wait = object
    · subst hx
      rcases tp_object_cancel_signaled s wait with h1 | h1 <;> rw [h1]
      exact h
    · rw [tp_object_cancel_objects_other s object wait hx]
      exact h

/-- C10: for a wait object whose counter `u.wait.signaled` is not negative,
`tp_object_execute` calls the wait callback with `WAIT_OBJECT_0` exactly when
the counter is positive at entry, and then lowers it by one; it calls the
callback with `WAIT_TIMEOUT` and leaves the counter unchanged when it is 0.
Registration (`tp_waitqueue_lock`) sets the counter to 0, and no sequence of
calls of `tp_object_submit`, `tp_object_execute` and `tp_object_cancel`, on
this or on other objects, makes a counter negative that was not. -/
theorem wait_signaled_spec (s : State) (wait : Ptr) :
    ((s.objects wait).type = TP_OBJECT_TYPE_WAIT → 0 ≤ (s.objects wait).u.wait.signaled →
      ∀ wait_thread threadid user,
        (tp_object_execute s wait wait_thread threadid user).calls =
          s.calls ++ (call.wait_callback wait (s.objects wait).userdata
              (if 0 < (s.objects wait).u.wait.signaled then WAIT_OBJECT_0 else WAIT_TIMEOUT) ::
            (match (s.objects wait).finalization_callback with
              | some fn => [call.finalization_callback fn (s.objects wait).userdata]
              | none => [])) ∧
        ((tp_object_execute s wait wait_thread threadid user).objects wait).u.wait.signaled =
          (if 0 < (s.objects wait).u.wait.signaled then (s.objects wait).u.wait.signaled - 1
            else (s.objects wait).u.wait.signaled)) ∧
    (∀ new_bucket event_status thread_status,
      ((tp_waitqueue_lock s wait new_bucket event_status thread_status).1.objects
        wait).u.wait.signaled = 0) ∧
    (0 ≤ (s.objects wait).u.wait.signaled →
      ∀ calls : List object_call,
        0 ≤ ((run_object_calls s calls).objects wait).u.wait.signaled) := by
  refine ⟨?_, ?_, ?_⟩
  · intro ht h0 wait_thread threadid user
    obtain ⟨d, -, he⟩ := tp_object_execute_eq s wait wait_thread threadid user
    rw [he]
    simp only [update_same, execute_object, execute_calls, ht]
    have hiff : (s.objects wait).u.wait.signaled ≠ 0 ↔ 0 < (s.objects wait).u.wait.signaled := by
      omega
    by_cases hpos : 0 < (s.objects wait).u.wait.signaled
    · have hne : (s.objects wait).u.wait.signaled ≠ 0 := hiff.mpr hpos
      simp [hpos, hne]
    · have hz : (s.objects wait).u.wait.signaled = 0 := by omega
      simp [hz]
  · intro new_bucket event_status thread_status
    exact tp_waitqueue_lock_signaled s wait new_bucket event_status thread_status
  · intro h0 calls
    unfold run_object_calls
    induction calls generalizing s with
    | nil => exact h0
    | cons c rest ih =>
      rw [List.foldl_cons]
      exact ih (c.run s) (object_call_run_signaled s c wait h0)

theorem wait_signaled_spec_witness :
    (state_one_wait.objects 20).type = TP_OBJECT_TYPE_WAIT ∧
    (state_one_wait.objects 20).u.wait.signaled = 0 ∧
    ((run_object_calls state_one_wait
        [.submit 20 true STATUS_SUCCESS, .submit 20 false STATUS_SUCCESS,
          .execute 20 false 5 [], .execute 20 false 5 []]).objects 20).u.wait.signaled = 0 ∧
    0 ≤ ((run_object_calls state_one_wait
        [.submit 20 true STATUS_SUCCESS, .submit 20 false STATUS_SUCCESS,
          .execute 20 false 5 [], .execute 20 false 5 [], .cancel 20]).objects
        20).u.wait.signaled :=
  ⟨by decide, by decide, by decide,
    (wait_signaled_spec state_one_wait 20).2.2 (by decide) _⟩

theorem tp_object_release_calls (s : State) (object : Ptr) :
    (tp_object_release s object).1.calls = s.calls := by
  unfold tp_object_release
  by_cases h : (s.objects object).refcount - 1 = 0
  · cases hg : (s.objects object).group with
    | none => simp [h, hg, tp_threadpool_unlock_eq]
    | some g =>
      by_cases hm : (s.objects object).is_group_member = true
      · simp [h, hg, hm, tp_threadpool_unlock_eq, tp_group_release_fst]
      · simp [h, hg, hm, tp_threadpool_unlock_eq, tp_group_release_fst]
  · simp [h]

/-- The calls into user code and the record of the member after
`release_members_finish`. -/
theorem release_members_finish_eq (s : State) (object : Ptr) (cancel_pending : Bool)
    (userdata : Nat) :
    (release_members_finish s object cancel_pending userdata).calls =
      s.calls ++
        (match (s.objects object).group_cancel_callback with
          | some fn =>
            if cancel_pending = true ∧ (s.objects object).shutdown = false then
              [call.group_cancel_callback fn (s.objects object).userdata userdata]
            else []
          | none => []) ∧
    (s.objects object).same_work { (release_members_finish s object cancel_pending userdata).objects
        object with shutdown := (s.objects object).shutdown } ∧
    ((release_members_finish s object cancel_pending userdata).objects object).shutdown = true ∧
    ((release_members_finish s object cancel_pending userdata).objects object).refcount =
      (s.objects object).refcount -
        (if (s.objects object).shutdown = false ∧
            (s.objects object).type ≠ TP_OBJECT_TYPE_SIMPLE then 2 else 1) ∧
    (∀ x, x ≠ object →
      (release_members_finish s object cancel_pending userdata).objects x = s.objects x) := by
  unfold release_members_finish
  by_cases hsh : (s.objects object).shutdown = false <;>
  by_cases hc : cancel_pending = true <;>
  by_cases ht : (s.objects object).type = TP_OBJECT_TYPE_SIMPLE <;>
  cases hcb : (s.objects object).group_cancel_callback <;>
  refine ⟨?_, ?_, ?_, ?_, fun x hx => ?_⟩ <;>
  simp [hsh, hc, ht, hcb, tp_object_release_calls, tp_object_release_objects,
    threadpool_object.same_work, update_apply, *] <;>
  ring

/-- The last loop of `TpReleaseCleanupGroupMembers` reaches every member
once: when it returns, it has run on the members before `m`, then waited for
`m`, then finished `m`, then run on the members after `m`. -/
theorem release_members_wait_split (cancel_pending : Bool) (userdata : Nat) (m : Ptr)
    (post : List Ptr) (pre : List Ptr) :
    ∀ (s : State) (others : List (State → State)) (r : State × List (State → State)),
      release_members_wait s (pre ++ m :: post) cancel_pending userdata others = some r →
      ∃ s1 o1 s2 o2,
        release_members_wait s pre cancel_pending userdata others = some (s1, o1) ∧
        tp_object_wait s1 m true o1 = some (s2, o2) ∧
        release_members_wait ( release_members_finish s2 m cancel_pending userdata) post
          cancel_pending userdata o2 = some r := by
  induction pre with
  | nil =>
    intro s others r h
    simp only [List.nil_append, release_members_wait] at h
    cases hw : tp_object_wait s m true others with
    | none => rw [hw] at h; simp at h
    | some w =>
      rw [hw] at h
      exact ⟨s, others, w.1, w.2, by simp [release_members_wait], hw, h⟩
  | cons x pre ih =>
    intro s others r h
    simp only [List.cons_append, release_members_wait] at h
    cases hw : tp_object_wait s x true others with
    | none => rw [hw] at h; simp at h
    | some w =>
      rw [hw] at h
      obtain ⟨s1, o1, s2, o2, h1, h2, h3⟩ := ih _ _ r h
      refine ⟨s1, o1, s2, o2, ?_, h2, h3⟩
      simp only [release_members_wait, hw]
      exact h1

theorem tp_timerqueue_unlock_frame (s : State) (object : Ptr) :
    (tp_timerqueue_unlock s object).objects =
      update s.objects object { s.objects object with
        u := ((tp_timerqueue_unlock s object).objects object).u } ∧
    (tp_timerqueue_unlock s object).groups = s.groups ∧
    (tp_timerqueue_unlock s object).pools = s.pools ∧
    (tp_timerqueue_unlock s object).calls = s.calls := by
  unfold tp_timerqueue_unlock
  dsimp only
  split_ifs <;> simp

theorem tp_waitqueue_unlock_frame (s : State) (object : Ptr) :
    (tp_waitqueue_unlock s object).objects =
      update s.objects object { s.objects object with
        u := ((tp_waitqueue_unlock s object).objects object).u } ∧
    (tp_waitqueue_unlock s object).groups = s.groups ∧
    (tp_waitqueue_unlock s object).pools = s.pools ∧
    (tp_waitqueue_unlock s object).calls = s.calls := by
  unfold tp_waitqueue_unlock
  cases hb : (s.objects object).u.wait.bucket <;> simp [hb]

theorem tp_ioqueue_unlock_frame (s : State) (object : Ptr) :
    (tp_ioqueue_unlock s object).objects =
      update s.objects object { s.objects object with
        u := ((tp_ioqueue_unlock s object).objects object).u } ∧
    (tp_ioqueue_unlock s object).groups = s.groups ∧
    (tp_ioqueue_unlock s object).pools = s.pools ∧
    (tp_ioqueue_unlock s object).calls = s.calls := by
  unfold tp_ioqueue_unlock
  dsimp only
  split_ifs <;> simp

/-- `tp_object_prepare_shutdown` changes, in the heap of objects, pools and
groups, only the union member of the object. -/
theorem tp_object_prepare_shutdown_frame (s : State) (object : Ptr) :
    (tp_object_prepare_shutdown s object).objects =
      update s.objects object { s.objects object with
        u := ((tp_object_prepare_shutdown s object).objects object).u } ∧
    (tp_object_prepare_shutdown s object).groups = s.groups ∧
    (tp_object_prepare_shutdown s object).pools = s.pools ∧
    (tp_object_prepare_shutdown s object).calls = s.calls := by
  unfold tp_object_prepare_shutdown
  split_ifs
  · exact tp_timerqueue_unlock_frame s object
  · exact tp_waitqueue_unlock_frame s object
  · exact tp_ioqueue_unlock_frame s object
  · simp

/-- The effect of the first loop of `TpReleaseCleanupGroupMembers` on one
member. -/
theorem release_members_mark_eq (s : State) (this object : Ptr) :
    (release_members_mark s this object).objects =
      update s.objects object { s.objects object with
        refcount :=
          if (s.objects object).refcount + 1 = 1 then (s.objects object).refcount
          else (s.objects object).refcount + 1
        is_group_member := false
        u := ((release_members_mark s this object).objects object).u } ∧
    ((release_members_mark s this object).groups this).members =
      (if (s.objects object).refcount + 1 = 1 then list_remove (s.groups this).members object
        else (s.groups this).members) := by
  unfold release_members_mark
  by_cases hd : (s.objects object).refcount + 1 = 1
  · simp only [hd, if_true]
    simp
  · simp only [hd, if_false]
    obtain ⟨h1, h2, -, -⟩ := tp_object_prepare_shutdown_frame
      (s.set_object object { s.objects object with
        refcount := (s.objects object).refcount + 1, is_group_member := false }) object
    constructor
    · rw [h1]
      simp
    · rw [h2]
      rfl

theorem list_remove_subset (l : List Ptr) (x m : Ptr) (h : m ∈ list_remove l x) : m ∈ l := by
  unfold list_remove at h
  exact (List.mem_filter.mp h).1

theorem list_remove_mem_of_ne (l : List Ptr) (x m : Ptr) (h : m ∈ l) (hne : m ≠ x) :
    m ∈ list_remove l x := by
  unfold list_remove
  exact List.mem_filter.mpr ⟨h, by simpa using hne⟩

/-- The first loop of `TpReleaseCleanupGroupMembers`, run over the members
`l`: counters and shutdown flags are unchanged, every visited object loses
its membership flag, and the member list of the group loses only objects;
an object that is not visited keeps its record and stays in the list. -/
theorem release_members_mark_fold (this : Ptr) (l : List Ptr) :
    ∀ s : State,
      (∀ x, ((l.foldl (fun s object => release_members_mark s this object) s).objects
            x).num_pending_callbacks = (s.objects x).num_pending_callbacks) ∧
      (∀ x, (s.objects x).is_group_member = false →
        ((l.foldl (fun s object => release_members_mark s this object) s).objects
          x).is_group_member = false) ∧
      (∀ m ∈ l, ((l.foldl (fun s object => release_members_mark s this object) s).objects
          m).is_group_member = false) ∧
      (∀ m, m ∈ ((l.foldl (fun s object => release_members_mark s this object) s).groups
          this).members → m ∈ (s.groups this).members) ∧
      (∀ x, x ∉ l →
        (l.foldl (fun s object => release_members_mark s this object) s).objects x
          = s.objects x) ∧
      (∀ m, m ∉ l → m ∈ (s.groups this).members →
        m ∈ ((l.foldl (fun s object => release_members_mark s this object) s).groups
          this).members) := by
  induction l with
  | nil => intro s; simp
  | cons a l ih =>
    intro s
    obtain ⟨h1, h2, h3, h4, h5, h6⟩ := ih (release_members_mark s this a)
    obtain ⟨ho, hg⟩ := release_members_mark_eq s this a
    simp only [List.foldl_cons]
    refine ⟨?_, ?_, ?_, ?_, ?_, ?_⟩
    · intro x
      rw [h1 x, ho]
      by_cases hx : x = a
      · subst hx
        rw [update_same]
      · rw [update_of_ne _ _ _ _ hx]
    · intro x hx
      apply h2
      rw [ho]
      by_cases hxa : x = a
      · subst hxa
        rw [update_same]
      · rw [update_of_ne _ _ _ _ hxa]
        exact hx
    · intro m hm
      rcases List.mem_cons.mp hm with hma | hml
      · subst hma
        apply h2
        rw [ho, update_same]
      · exact h3 m hml
    · intro m hm
      have := h4 m hm
      rw [hg] at this
      split_ifs at this
      · exact list_remove_subset _ _ _ this
      · exact this
    · intro x hx
      have hxa : x ≠ a := fun h => hx (h ▸ List.mem_cons_self _ _)
      have hxl : x ∉ l := fun h => hx (List.mem_cons_of_mem _ h)
      rw [h5 x hxl, ho, update_of_ne _ _ _ _ hxa]
    · intro m hm hmem
      have hma : m ≠ a := fun h => hm (h ▸ List.mem_cons_self _ _)
      have hml : m ∉ l := fun h => hm (List.mem_cons_of_mem _ h)
      apply h6 m hml
      rw [hg]
      split_ifs
      · exact list_remove_mem_of_ne _ _ _ hmem hma
      · exact hmem

/-- A property that the other threads preserve holds when `tp_object_wait`
returns, and the actions it leaves over are among the given ones. -/
theorem tp_object_wait_preserves (P : State → Prop) (object : Ptr) (group_wait : Bool)
    (others : List (State → State)) :
    ∀ (s : State) (r : State × List (State → State)),
      (∀ f ∈ others, ∀ t, P t → P (f t)) → P s →
      tp_object_wait s object group_wait others = some r →
      P r.1 ∧ ∀ f ∈ r.2, f ∈ others := by
  induction others with
  | nil =>
    intro s r _ hs h
    unfold tp_object_wait at h
    split_ifs at h
    simp only [Option.some.injEq] at h
    rw [← h]
    exact ⟨hs, fun _ hf => hf⟩
  | cons f rest ih =>
    intro s r hP hs h
    unfold tp_object_wait at h
    split_ifs at h
    · simp only [Option.some.injEq] at h
      rw [← h]
      exact ⟨hs, fun _ hf => hf⟩
    · obtain ⟨h1, h2⟩ := ih (f s) r (fun f' hf' => hP f' (List.mem_cons_of_mem _ hf'))
        (hP f (List.mem_cons_self _ _) s hs) h
      exact ⟨h1, fun f' hf' => List.mem_cons_of_mem _ (h2 f' hf')⟩

theorem set_pools_mem (p : threadpool) (i j : Nat) (l : List Ptr) (x : Ptr)
    (h : x ∈ (p.set_pools i l).pools j) : (j = i ∧ x ∈ l) ∨ x ∈ p.pools j := by
  unfold threadpool.set_pools threadpool.pools at h
  unfold threadpool.pools
  dsimp only at h
  by_cases hj0 : j = 0
  · subst hj0
    rw [if_pos rfl] at h ⊢
    by_cases hi : i = 0
    · rw [if_pos hi] at h
      exact Or.inl ⟨hi.symm, h⟩
    · rw [if_neg hi] at h
      exact Or.inr h
  · rw [if_neg hj0] at h ⊢
    by_cases hj1 : j = 1
    · subst hj1
      rw [if_pos rfl] at h ⊢
      by_cases hi : i = 1
      · rw [if_pos hi] at h
        exact Or.inl ⟨hi.symm, h⟩
      · rw [if_neg hi] at h
        exact Or.inr h
    · rw [if_neg hj1] at h ⊢
      by_cases hj2 : j = 2
      · subst hj2
        rw [if_pos rfl] at h ⊢
        by_cases hi : i = 2
        · rw [if_pos hi] at h
          exact Or.inl ⟨hi.symm, h⟩
        · rw [if_neg hi] at h
          exact Or.inr h
      · rw [if_neg hj2] at h
        exact absurd h (List.not_mem_nil _)

/-- The record that `tp_object_initialize` stores first. -/
theorem tp_object_initialize_eq (t : State) (object pool : Ptr) (userdata : Nat)
    (environment : Option TP_CALLBACK_ENVIRON) (st : NTSTATUS) :
    ∃ O : threadpool_object, O.pool = pool ∧ O.refcount = 1 ∧ O.shutdown = false ∧
      O.type = (t.objects object).type ∧ O.num_pending_callbacks = 0 ∧
      O.priority = (match environment with
        | some e => if e.Version = 3 then e.CallbackPriority else TP_CALLBACK_PRIORITY_NORMAL
        | none => TP_CALLBACK_PRIORITY_NORMAL) ∧
      ∃ G : State → State,
        (∀ u : State, (G u).pools = u.pools ∧ (G u).live_pools = u.live_pools ∧
          (G u).live_objects = u.live_objects ∧
          (G u).default_threadpool = u.default_threadpool ∧
          (∀ x, x ≠ object → (G u).objects x = u.objects x) ∧
          (G u).objects object = { u.objects object with
            is_group_member := ((G u).objects object).is_group_member }) ∧
        tp_object_initialize t object pool userdata environment st =
          if (t.objects object).type = TP_OBJECT_TYPE_SIMPLE then
            (tp_object_release (G (tp_object_submit (t.set_object object O) object false st))
              object).1
          else G (t.set_object object O) := by
  cases environment with
  | none =>
    refine ⟨{ t.objects object with
        refcount := 1, shutdown := false, pool := pool, group := none, userdata := userdata,
        group_cancel_callback := none, finalization_callback := none, may_run_long := false,
        priority := TP_CALLBACK_PRIORITY_NORMAL, is_group_member := false,
        num_pending_callbacks := 0, num_running_callbacks := 0, num_associated_callbacks := 0,
        update_serial := 0 }, rfl, rfl, rfl, rfl, rfl, rfl, fun u => u,
      fun u => ⟨rfl, rfl, rfl, rfl, fun _ _ => rfl, rfl⟩, ?_⟩
    unfold tp_object_initialize
    by_cases hty : (t.objects object).type = TP_OBJECT_TYPE_SIMPLE
    · simp only [hty, decide_True, if_true]
    · simp only [hty, decide_False, if_false]
      rfl
  | some e =>
    refine ⟨{ t.objects object with
        refcount := 1, shutdown := false, pool := pool, group := e.CleanupGroup,
        userdata := userdata,
        group_cancel_callback := e.CleanupGroupCancelCallback,
        finalization_callback := e.FinalizationCallback, may_run_long := e.LongFunction,
        priority := if e.Version = 3 then e.CallbackPriority else TP_CALLBACK_PRIORITY_NORMAL,
        is_group_member := false,
        num_pending_callbacks := 0, num_running_callbacks := 0, num_associated_callbacks := 0,
        update_serial := 0 }, rfl, rfl, rfl, rfl, rfl, rfl,
      fun u => match e.CleanupGroup with
        | some group =>
          (u.set_group group { u.groups group with
            refcount := (u.groups group).refcount + 1
            members := list_add_tail (u.groups group).members object }).set_object object
              { u.objects object with is_group_member := true }
        | none => u, ?_, ?_⟩
    · intro u
      cases e.CleanupGroup with
      | none => exact ⟨rfl, rfl, rfl, rfl, fun _ _ => rfl, rfl⟩
      | some g =>
        refine ⟨rfl, rfl, rfl, rfl, fun x hx => ?_, ?_⟩
        · simp [update_of_ne _ _ _ _ hx]
        · simp
    · unfold tp_object_initialize
      by_cases hty : (t.objects object).type = TP_OBJECT_TYPE_SIMPLE
      · simp only [hty, decide_True, if_true]
        rfl
      · simp only [hty, decide_False, if_false]
        rfl

theorem cancel_object_fields (o : threadpool_object) :
    (cancel_object o).refcount = o.refcount ∧ (cancel_object o).shutdown = o.shutdown ∧
    (cancel_object o).type = o.type ∧ (cancel_object o).pool = o.pool ∧
    (cancel_object o).num_pending_callbacks = 0 := by
  unfold cancel_object
  by_cases hp : o.num_pending_callbacks = 0 <;>
  by_cases hi : o.type = TP_OBJECT_TYPE_IO <;>
  simp [hp, hi]

theorem threadpool_get_next_item_mem (p : threadpool) (object : Ptr)
    (h : threadpool_get_next_item p = some object) : ∃ i, object ∈ p.pools i := by
  rw [threadpool_get_next_item_eq] at h
  cases h0 : p.pools 0 with
  | cons x l =>
    rw [h0] at h
    simp only [Option.some.injEq] at h
    exact ⟨0, by rw [h0, h]; exact List.mem_cons_self _ _⟩
  | nil =>
    rw [h0] at h
    cases h1 : p.pools 1 with
    | cons x l =>
      rw [h1] at h
      simp only [Option.some.injEq] at h
      exact ⟨1, by rw [h1, h]; exact List.mem_cons_self _ _⟩
    | nil =>
      rw [h1] at h
      exact ⟨2, List.mem_of_mem_head? h⟩

theorem list_remove_mem (l : List Ptr) (x m : Ptr) (h : m ∈ list_remove l x) :
    m ∈ l ∧ m ≠ x :=
  ⟨list_remove_subset l x m h, fun e => list_remove_not_mem l x (e ▸ h)⟩

theorem TpCallbackMayRunLong_other_thread (s : State) (this : threadpool_instance)
    (current_thread : Nat) (st : NTSTATUS) (h : this.threadid ≠ current_thread) :
    TpCallbackMayRunLong s this current_thread st = (s, this, STATUS_UNSUCCESSFUL) := by
  unfold TpCallbackMayRunLong
  rw [if_pos h]

/-- C20: `TpCallbackMayRunLong` on the thread of the instance: an instance
that is already promoted gives `STATUS_SUCCESS` and the state and instance
unchanged; otherwise the instance is promoted and, when
`num_busy_workers >= num_workers` and `num_workers < max_workers`, the
function calls `tp_new_worker_thread` once and returns its status (the pool
has one worker more exactly when that call succeeded), when
`num_busy_workers >= num_workers` and `num_workers >= max_workers` the state
is unchanged and the status is `STATUS_TOO_MANY_THREADS`, and when
`num_busy_workers < num_workers` the state is unchanged and the status is
`STATUS_SUCCESS`.  On another thread the result is `STATUS_UNSUCCESSFUL`
with the state and the instance unchanged. -/
theorem TpCallbackMayRunLong_spec (s : State) (this : threadpool_instance)
    (current_thread : Nat) (st : NTSTATUS) :
    (this.threadid = current_thread → this.may_run_long = true →
      TpCallbackMayRunLong s this current_thread st = (s, this, STATUS_SUCCESS)) ∧
    (this.threadid = current_thread → this.may_run_long = false →
      (s.pools (s.objects this.object).pool).num_busy_workers
        ≥ (s.pools (s.objects this.object).pool).num_workers →
      (s.pools (s.objects this.object).pool).num_workers
        < (s.pools (s.objects this.object).pool).max_workers →
      TpCallbackMayRunLong s this current_thread st =
        ((tp_new_worker_thread s (s.objects this.object).pool st).1,
          { this with may_run_long := true },
          (tp_new_worker_thread s (s.objects this.object).pool st).2) ∧
      (TpCallbackMayRunLong s this current_thread st).2.2 = st ∧
      ((TpCallbackMayRunLong s this current_thread st).1.pools
          (s.objects this.object).pool).num_workers
        = (s.pools (s.objects this.object).pool).num_workers
          + (if st = STATUS_SUCCESS then 1 else 0) ∧
      (st ≠ STATUS_SUCCESS → (TpCallbackMayRunLong s this current_thread st).1 = s)) ∧
    (this.threadid = current_thread → this.may_run_long = false →
      (s.pools (s.objects this.object).pool).num_busy_workers
        ≥ (s.pools (s.objects this.object).pool).num_workers →
      (s.pools (s.objects this.object).pool).num_workers
        ≥ (s.pools (s.objects this.object).pool).max_workers →
      TpCallbackMayRunLong s this current_thread st =
        (s, { this with may_run_long := true }, STATUS_TOO_MANY_THREADS)) ∧
    (this.threadid = current_thread → this.may_run_long = false →
      (s.pools (s.objects this.object).pool).num_busy_workers
        < (s.pools (s.objects this.object).pool).num_workers →
      TpCallbackMayRunLong s this current_thread st =
        (s, { this with may_run_long := true }, STATUS_SUCCESS)) ∧
    (this.threadid ≠ current_thread →
      TpCallbackMayRunLong s this current_thread st = (s, this, STATUS_UNSUCCESSFUL)) := by
  refine ⟨?_, ?_, ?_, ?_, TpCallbackMayRunLong_other_thread s this current_thread st⟩
  · intro ht hm
    unfold TpCallbackMayRunLong
    rw [if_neg (not_not.mpr ht), if_pos hm]
  · intro ht hm hb hw
    have heq : TpCallbackMayRunLong s this current_thread st =
        ((tp_new_worker_thread s (s.objects this.object).pool st).1,
          { this with may_run_long := true },
          (tp_new_worker_thread s (s.objects this.object).pool st).2) := by
      unfold TpCallbackMayRunLong
      rw [if_neg (not_not.mpr ht), if_neg (by rw [hm]; exact Bool.noConfusion)]
      dsimp only
      rw [if_pos hb, if_pos hw]
    rw [heq]
    refine ⟨rfl, ?_, ?_, ?_⟩
    · unfold tp_new_worker_thread
      split_ifs <;> rfl
    · show ((tp_new_worker_thread s (s.objects this.object).pool st).1.pools _).num_workers = _
      rw [tp_new_worker_thread_fst]
      show (update s.pools _ _ _).num_workers = _
      rw [update_same]
    · intro hst
      show (tp_new_worker_thread s (s.objects this.object).pool st).1 = s
      unfold tp_new_worker_thread
      rw [if_neg hst]
  · intro ht hm hb hw
    unfold TpCallbackMayRunLong
    rw [if_neg (not_not.mpr ht), if_neg (by rw [hm]; exact Bool.noConfusion)]
    dsimp only
    rw [if_pos hb, if_neg (not_lt.mpr hw)]
  · intro ht hm hb
    unfold TpCallbackMayRunLong
    rw [if_neg (not_not.mpr ht), if_neg (by rw [hm]; exact Bool.noConfusion)]
    dsimp only
    rw [if_neg (not_le.mpr hb)]

theorem TpCallbackMayRunLong_spec_witness :
    (state_running.pools 1).num_busy_workers ≥ (state_running.pools 1).num_workers ∧
    (state_running.pools 1).num_workers < (state_running.pools 1).max_workers ∧
    (TpCallbackMayRunLong state_running
      { object := 10, threadid := 5, associated := true, may_run_long := false } 5
      STATUS_SUCCESS).2.2 = STATUS_SUCCESS ∧
    ((TpCallbackMayRunLong state_running
      { object := 10, threadid := 5, associated := true, may_run_long := false } 5
      STATUS_SUCCESS).1.pools 1).num_workers = (state_running.pools 1).num_workers + 1 := by
  have h := (TpCallbackMayRunLong_spec state_running
    { object := 10, threadid := 5, associated := true, may_run_long := false } 5
    STATUS_SUCCESS).2.1 rfl rfl (by decide) (by decide)
  exact ⟨by decide, by decide, h.2.1, h.2.2.1⟩

theorem tp_threadpool_lock_rejects (s : State) (e : TP_CALLBACK_ENVIRON)
    (new_pool : Option Ptr) (st : NTSTATUS) (hv : e.Version = 3)
    (hp : ¬ (e.CallbackPriority = TP_CALLBACK_PRIORITY_HIGH ∨
      e.CallbackPriority = TP_CALLBACK_PRIORITY_NORMAL ∨
      e.CallbackPriority = TP_CALLBACK_PRIORITY_LOW)) :
    tp_threadpool_lock s (some e) new_pool st = (s, STATUS_INVALID_PARAMETER, none) := by
  unfold tp_threadpool_lock
  dsimp only
  rw [if_pos ⟨hv, hp⟩]

theorem tp_threadpool_lock_accepts (s : State) (e : TP_CALLBACK_ENVIRON)
    (new_pool : Option Ptr) (st : NTSTATUS)
    (h : (tp_threadpool_lock s (some e) new_pool st).2.1 ≠ STATUS_INVALID_PARAMETER) :
    e.Version = 3 → e.CallbackPriority = TP_CALLBACK_PRIORITY_HIGH ∨
      e.CallbackPriority = TP_CALLBACK_PRIORITY_NORMAL ∨
      e.CallbackPriority = TP_CALLBACK_PRIORITY_LOW := by
  intro hv
  by_contra hp
  rw [tp_threadpool_lock_rejects s e new_pool st hv hp] at h
  exact h rfl

theorem tp_object_initialize_priority (t : State) (object pool : Ptr) (userdata : Nat)
    (environment : Option TP_CALLBACK_ENVIRON) (st : NTSTATUS) :
    (( tp_object_initialize t object pool userdata environment st).objects object).priority =
      match environment with
      | some e => if e.Version = 3 then e.CallbackPriority else TP_CALLBACK_PRIORITY_NORMAL
      | none => TP_CALLBACK_PRIORITY_NORMAL := by
  obtain ⟨O, -, -, -, -, -, hprio, G, hG, heq⟩ :=
    tp_object_initialize_eq t object pool userdata environment st
  rw [heq]
  refine Eq.trans ?_ (hprio.trans (by cases environment <;> rfl))
  split_ifs
  · rw [tp_object_release_objects, update_same]
    show ((G (tp_object_submit (t.set_object object O) object false st)).objects
      object).priority = _
    rw [(hG _).2.2.2.2.2]
    show ((tp_object_submit (t.set_object object O) object false st).objects
      object).priority = _
    rw [tp_object_submit_objects, update_same]
    show (update t.objects object O object).priority = _
    rw [update_same]
  · rw [(hG _).2.2.2.2.2]
    show (update t.objects object O object).priority = _
    rw [update_same]

theorem tp_threadpool_lock_valid (s : State) (environment : Option TP_CALLBACK_ENVIRON)
    (new_pool : Option Ptr) (st : NTSTATUS)
    (h : (tp_threadpool_lock s environment new_pool st).2.2 ≠ none) :
    ∀ e, environment = some e → e.Version = 3 →
      e.CallbackPriority = TP_CALLBACK_PRIORITY_HIGH ∨
      e.CallbackPriority = TP_CALLBACK_PRIORITY_NORMAL ∨
      e.CallbackPriority = TP_CALLBACK_PRIORITY_LOW := by
  intro e he hv
  subst he
  by_contra hp
  rw [tp_threadpool_lock_rejects s e new_pool st hv hp] at h
  exact h rfl

/-- C19: `tp_threadpool_lock` answers a version-3 environment whose
`CallbackPriority` is not high, normal or low with
`STATUS_INVALID_PARAMETER` and leaves the state as it was (no pool reference,
no worker, no change of `objcount`).  Whenever it hands out a pool for an
environment, `tp_object_initialize` with that environment leaves the object
with a priority that is high, normal or low, so below 3, the length of
`pools`: normal without a version-3 environment, the priority of the
environment with one.  So it is for the object that `TpAllocWork` returns. -/
theorem tp_threadpool_lock_priority_spec (s : State)
    (environment : Option TP_CALLBACK_ENVIRON) (new_pool : Option Ptr) (st : NTSTATUS) :
    (∀ e, environment = some e → e.Version = 3 →
      ¬ (e.CallbackPriority = TP_CALLBACK_PRIORITY_HIGH ∨
        e.CallbackPriority = TP_CALLBACK_PRIORITY_NORMAL ∨
        e.CallbackPriority = TP_CALLBACK_PRIORITY_LOW) →
      tp_threadpool_lock s environment new_pool st = (s, STATUS_INVALID_PARAMETER, none)) ∧
    ((tp_threadpool_lock s environment new_pool st).2.2 ≠ none →
      ∀ (t : State) (object pool : Ptr) (userdata : Nat) (submit_status : NTSTATUS),
        ((( tp_object_initialize t object pool userdata environment submit_status).objects
            object).priority = TP_CALLBACK_PRIORITY_HIGH ∨
          (( tp_object_initialize t object pool userdata environment submit_status).objects
            object).priority = TP_CALLBACK_PRIORITY_NORMAL ∨
          (( tp_object_initialize t object pool userdata environment submit_status).objects
            object).priority = TP_CALLBACK_PRIORITY_LOW) ∧
        (( tp_object_initialize t object pool userdata environment submit_status).objects
          object).priority < 3 ∧
        ((∀ e, environment = some e → e.Version ≠ 3) →
          (( tp_object_initialize t object pool userdata environment submit_status).objects
            object).priority = TP_CALLBACK_PRIORITY_NORMAL) ∧
        (∀ e, environment = some e → e.Version = 3 →
          (( tp_object_initialize t object pool userdata environment submit_status).objects
            object).priority = e.CallbackPriority)) ∧
    (∀ (new_object : Option Ptr) (callback userdata : Nat) (object : Ptr),
      (TpAllocWork s new_object callback userdata environment new_pool st).2.2 = some object →
      ((TpAllocWork s new_object callback userdata environment new_pool st).1.objects
        object).priority < 3) := by
  have hinit : (tp_threadpool_lock s environment new_pool st).2.2 ≠ none →
      ∀ (t : State) (object pool : Ptr) (userdata : Nat) (submit_status : NTSTATUS),
        ((( tp_object_initialize t object pool userdata environment submit_status).objects
            object).priority = TP_CALLBACK_PRIORITY_HIGH ∨
          (( tp_object_initialize t object pool userdata environment submit_status).objects
            object).priority = TP_CALLBACK_PRIORITY_NORMAL ∨
          (( tp_object_initialize t object pool userdata environment submit_status).objects
            object).priority = TP_CALLBACK_PRIORITY_LOW) ∧
        (( tp_object_initialize t object pool userdata environment submit_status).objects
          object).priority < 3 ∧
        ((∀ e, environment = some e → e.Version ≠ 3) →
          (( tp_object_initialize t object pool userdata environment submit_status).objects
            object).priority = TP_CALLBACK_PRIORITY_NORMAL) ∧
        (∀ e, environment = some e → e.Version = 3 →
          (( tp_object_initialize t object pool userdata environment submit_status).objects
            object).priority = e.CallbackPriority) := by
    intro h t object pool userdata submit_status
    have hv := tp_threadpool_lock_valid s environment new_pool st h
    rw [tp_object_initialize_priority]
    cases environment with
    | none =>
      refine ⟨Or.inr (Or.inl rfl), by decide, fun _ => rfl, fun e he => Option.noConfusion he⟩
    | some e =>
      dsimp only
      by_cases h3 : e.Version = 3
      · rw [if_pos h3]
        have hp := hv e rfl h3
        refine ⟨hp, ?_, fun hn => absurd h3 (hn e rfl), fun e2 he _ => ?_⟩
        · rcases hp with hp | hp | hp <;> rw [hp] <;> decide
        · cases he
          rfl
      · rw [if_neg h3]
        refine ⟨Or.inr (Or.inl rfl), by decide, fun _ => rfl, fun e2 he hv2 => ?_⟩
        cases he
        exact absurd hv2 h3
  refine ⟨?_, hinit, ?_⟩
  · intro e he hv hp
    subst he
    exact tp_threadpool_lock_rejects s e new_pool st hv hp
  · intro new_object callback userdata object hres
    cases new_object with
    | none => exact Option.noConfusion hres
    | some a =>
      unfold TpAllocWork at hres ⊢
      dsimp only at hres ⊢
      rcases hl : tp_threadpool_lock s environment new_pool st with ⟨s2, status, r⟩
      rw [hl] at hres hinit
      cases r with
      | none => exact Option.noConfusion hres
      | some q =>
        dsimp only at hres ⊢
        cases hres
        exact (hinit (by simp) _ _ _ _ _).2.1

theorem tp_threadpool_lock_priority_spec_witness :
    (tp_threadpool_lock initial_state (some environment_high) (some 1) STATUS_SUCCESS).2.2
      ≠ none ∧
    (( tp_object_initialize initial_state 10 1 42 (some environment_high)
      STATUS_SUCCESS).objects 10).priority = TP_CALLBACK_PRIORITY_HIGH ∧
    (( tp_object_initialize initial_state 10 1 42 (some environment_high)
      STATUS_SUCCESS).objects 10).priority < 3 := by
  have h := (tp_threadpool_lock_priority_spec initial_state (some environment_high) (some 1)
    STATUS_SUCCESS).2.1 (by decide) initial_state 10 1 42 STATUS_SUCCESS
  exact ⟨by decide, h.2.2.2 environment_high rfl rfl, h.2.1⟩

theorem TpSetPoolMinThreads_loop_status (pool : Ptr) (minimum : Nat)
    (thread_status : Nat → NTSTATUS) (fuel : Nat) :
    ∀ (i : Nat) (s : State),
      (TpSetPoolMinThreads_loop pool minimum thread_status fuel i s).2 ≠ STATUS_SUCCESS →
      ∃ j, thread_status j ≠ STATUS_SUCCESS := by
  induction fuel with
  | zero => intro i s h; exact absurd rfl h
  | succ n ih =>
    intro i s h
    unfold TpSetPoolMinThreads_loop at h
    by_cases hc : to_uint (s.pools pool).num_workers < minimum
    · rw [if_pos hc] at h
      dsimp only at h
      by_cases hst : thread_status i = STATUS_SUCCESS
      · have h2 : (tp_new_worker_thread s pool (thread_status i)).2 = STATUS_SUCCESS := by
          simp [tp_new_worker_thread, hst]
        rw [if_neg (not_not.mpr h2)] at h
        exact ih _ _ h
      · exact ⟨i, hst⟩
    · rw [if_neg hc] at h
      exact absurd rfl h

theorem TpSetPoolMinThreads_loop_reaches (pool : Ptr) (minimum : Nat)
    (thread_status : Nat → NTSTATUS) (fuel : Nat) :
    ∀ (i : Nat) (s : State), 0 ≤ (s.pools pool).num_workers →
      (s.pools pool).num_workers + fuel < 4294967296 →
      (minimum : Int) ≤ (s.pools pool).num_workers + fuel →
      (TpSetPoolMinThreads_loop pool minimum thread_status fuel i s).2 = STATUS_SUCCESS →
      (minimum : Int)
        ≤ ((TpSetPoolMinThreads_loop pool minimum thread_status fuel i s).1.pools
            pool).num_workers := by
  induction fuel with
  | zero =>
    intro i s _ _ h _
    simpa [TpSetPoolMinThreads_loop] using h
  | succ n ih =>
    intro i s h0 h1 h2 hs
    unfold TpSetPoolMinThreads_loop at hs ⊢
    have hu := to_uint_of_range _ h0 (by omega : (s.pools pool).num_workers < 4294967296)
    by_cases hc : to_uint (s.pools pool).num_workers < minimum
    · rw [if_pos hc] at hs ⊢
      dsimp only at hs ⊢
      by_cases hst : thread_status i = STATUS_SUCCESS
      · have h3 : (tp_new_worker_thread s pool (thread_status i)).2 = STATUS_SUCCESS := by
          simp [tp_new_worker_thread, hst]
        rw [if_neg (not_not.mpr h3)] at hs ⊢
        have hn : ((tp_new_worker_thread s pool (thread_status i)).1.pools pool).num_workers
            = (s.pools pool).num_workers + 1 := by
          rw [tp_new_worker_thread_fst]
          show (update s.pools pool _ pool).num_workers = _
          rw [update_same]
          simp [hst]
        apply ih (i + 1) _ (by rw [hn]; omega) (by rw [hn]; push_cast at h1 ⊢; omega)
          (by rw [hn]; push_cast at h2 ⊢; omega) hs
      · have h3 : (tp_new_worker_thread s pool (thread_status i)).2 ≠ STATUS_SUCCESS := by
          simp [tp_new_worker_thread, hst]
        rw [if_pos h3] at hs
        exact absurd hs h3
    · rw [if_neg hc]
      have : ¬ ((to_uint (s.pools pool).num_workers : Int) < (minimum : Int)) := by
        exact_mod_cast hc
      rw [hu] at this
      show (minimum : Int) ≤ (s.pools pool).num_workers
      omega

theorem TpSetTimerEx_locked_eq (s : State) (timer : Ptr) (timeout : Option Int) (period : Int)
    (window_length : Int) (now : Nat) :
    (TpSetTimerEx_locked s timer timeout period window_length now).1 =
      { s with
        objects := update s.objects timer { s.objects timer with
          u := { (s.objects timer).u with timer :=
            { timer_initialized := (s.objects timer).u.timer.timer_initialized
              timer_pending := (TpSetTimerEx_timestamp timeout period now).1.isSome
              timer_set := timeout.isSome
              timeout := (TpSetTimerEx_timestamp timeout period now).1.getD
                (s.objects timer).u.timer.timeout
              period := if (TpSetTimerEx_timestamp timeout period now).1.isSome = true
                then period else (s.objects timer).u.timer.period
              window_length := if (TpSetTimerEx_timestamp timeout period now).1.isSome = true
                then window_length else (s.objects timer).u.timer.window_length } } }
        timerqueue := { s.timerqueue with
          pending_timers :=
            match (TpSetTimerEx_timestamp timeout period now).1 with
            | some timestamp =>
              timer_list_insert
                (update s.objects timer { s.objects timer with
                  u := { (s.objects timer).u with timer :=
                    { timer_initialized := (s.objects timer).u.timer.timer_initialized
                      timer_pending := false
                      timer_set := timeout.isSome
                      timeout := timestamp
                      period := period
                      window_length := window_length } } })
                timestamp timer
                (if (s.objects timer).u.timer.timer_pending = true then
                  list_remove s.timerqueue.pending_timers timer
                else s.timerqueue.pending_timers)
            | none =>
              if (s.objects timer).u.timer.timer_pending = true then
                list_remove s.timerqueue.pending_timers timer
              else s.timerqueue.pending_timers } } ∧
    (TpSetTimerEx_locked s timer timeout period window_length now).2.1
      = (TpSetTimerEx_timestamp timeout period now).2 ∧
    (TpSetTimerEx_locked s timer timeout period window_length now).2.2
      = (s.objects timer).u.timer.timer_pending := by
  unfold TpSetTimerEx_locked
  generalize TpSetTimerEx_timestamp timeout period now = r
  rcases r with ⟨_ | ts, b⟩
  · cases hp : (s.objects timer).u.timer.timer_pending
    · refine ⟨?_, rfl, ?_⟩
      · simp [hp]
      · simp [hp]
    · refine ⟨?_, rfl, ?_⟩
      · simp [hp]
      · simp [hp]
  · cases hp : (s.objects timer).u.timer.timer_pending
    · refine ⟨?_, rfl, ?_⟩
      · simp [hp]
      · simp [hp]
    · refine ⟨?_, rfl, ?_⟩
      · simp [hp]
      · simp [hp]

theorem timer_list_insert_mem (objects : Ptr → threadpool_object) (timeout : Nat)
    (timer x : Ptr) :
    ∀ l : List Ptr, x ∈ timer_list_insert objects timeout timer l ↔ x = timer ∨ x ∈ l := by
  intro l
  induction l with
  | nil => simp [timer_list_insert]
  | cons a l ih =>
    unfold timer_list_insert
    split_ifs
    · simp
    · rw [List.mem_cons, ih, List.mem_cons]
      tauto

theorem timer_list_insert_nodup (objects : Ptr → threadpool_object) (timeout : Nat)
    (timer : Ptr) :
    ∀ l : List Ptr, timer ∉ l → l.Nodup → (timer_list_insert objects timeout timer l).Nodup := by
  intro l
  induction l with
  | nil => intro _ _; simp [timer_list_insert]
  | cons a l ih =>
    intro hn hd
    unfold timer_list_insert
    split_ifs
    · exact List.nodup_cons.mpr ⟨hn, hd⟩
    · rw [List.nodup_cons] at hd ⊢
      rw [List.mem_cons, not_or] at hn
      refine ⟨?_, ih hn.2 hd.2⟩
      rw [timer_list_insert_mem]
      intro h
      rcases h with h | h
      · exact hn.1 h.symm
      · exact hd.1 h

theorem timer_list_insert_sorted (objects : Ptr → threadpool_object) (timer : Ptr) :
    ∀ l : List Ptr,
      l.Pairwise (fun a b => (objects a).u.timer.timeout ≤ (objects b).u.timer.timeout) →
      (timer_list_insert objects (objects timer).u.timer.timeout timer l).Pairwise
        (fun a b => (objects a).u.timer.timeout ≤ (objects b).u.timer.timeout) := by
  intro l
  induction l with
  | nil => intro _; simp [timer_list_insert]
  | cons a l ih =>
    intro hs
    unfold timer_list_insert
    rw [List.pairwise_cons] at hs
    split_ifs with hlt
    · rw [List.pairwise_cons]
      refine ⟨?_, List.pairwise_cons.mpr hs⟩
      intro x hx
      rcases List.mem_cons.mp hx with e | e
      · rw [e]
        exact le_of_lt hlt
      · exact le_trans (le_of_lt hlt) (hs.1 x e)
    · rw [List.pairwise_cons]
      refine ⟨?_, ih hs.2⟩
      intro x hx
      rcases (timer_list_insert_mem _ _ _ _ _).mp hx with e | e
      · rw [e]
        exact not_lt.mp hlt
      · exact hs.1 x e

theorem list_remove_nodup (l : List Ptr) (x : Ptr) (h : l.Nodup) : (list_remove l x).Nodup :=
  h.filter _

theorem list_remove_pairwise (R : Ptr → Ptr → Prop) (l : List Ptr) (x : Ptr)
    (h : l.Pairwise R) : (list_remove l x).Pairwise R :=
  h.filter _

theorem list_remove_of_not_mem (l : List Ptr) (x : Ptr) (h : x ∉ l) : list_remove l x = l := by
  unfold list_remove
  apply List.filter_eq_self.mpr
  intro a ha
  have : a ≠ x := fun e => h (e ▸ ha)
  simp [this]

theorem tp_object_submit_timers (s : State) (object : Ptr) (signaled : Bool) (st : NTSTATUS) :
    (tp_object_submit s object signaled st).timerqueue = s.timerqueue ∧
    ∀ x, ((tp_object_submit s object signaled st).objects x).u.timer
      = (s.objects x).u.timer := by
  constructor
  · unfold tp_object_submit
    dsimp only
    split_ifs <;> simp [tp_new_worker_thread_fst, tp_object_prio_queue]
  · intro x
    rw [tp_object_submit_objects]
    by_cases hx : x = object
    · rw [hx, update_same]
    · rw [update_of_ne _ _ _ _ hx]

theorem TpSetTimerEx_timers (s : State) (timer : Ptr) (timeout : Option Int) (period : Int)
    (window_length : Int) (now : Nat) (st : NTSTATUS) :
    (TpSetTimerEx s timer timeout period window_length now st).1.timerqueue
      = (TpSetTimerEx_locked s timer timeout period window_length now).1.timerqueue ∧
    (∀ x, ((TpSetTimerEx s timer timeout period window_length now st).1.objects x).u.timer
      = ((TpSetTimerEx_locked s timer timeout period window_length now).1.objects x).u.timer) ∧
    (TpSetTimerEx s timer timeout period window_length now st).2
      = (s.objects timer).u.timer.timer_pending := by
  unfold TpSetTimerEx
  dsimp only
  refine ⟨?_, ?_, (TpSetTimerEx_locked_eq s timer timeout period window_length now).2.2⟩
  · split_ifs
    · exact (tp_object_submit_timers _ _ _ _).1
    · rfl
  · intro x
    split_ifs
    · exact (tp_object_submit_timers _ _ _ _).2 x
    · rfl

theorem tp_threadpool_lock_pool_frame (s : State) (pool new_pool : Option Ptr)
    (st : NTSTATUS) :
    (tp_threadpool_lock_pool s pool new_pool st).1.timerqueue = s.timerqueue ∧
    (tp_threadpool_lock_pool s pool new_pool st).1.objects = s.objects ∧
    (tp_threadpool_lock_pool s pool new_pool st).1.waitqueue = s.waitqueue ∧
    (tp_threadpool_lock_pool s pool new_pool st).1.buckets = s.buckets ∧
    (tp_threadpool_lock_pool s pool new_pool st).1.ioqueue = s.ioqueue := by
  have stage : ∀ (s1 : State) (q : Ptr) (r : State × NTSTATUS × Option Ptr),
      r = (if (if (s1.pools q).num_workers = 0 then tp_new_worker_thread s1 q st
              else (s1, STATUS_SUCCESS)).2 = STATUS_SUCCESS then
          ((if (s1.pools q).num_workers = 0 then tp_new_worker_thread s1 q st
              else (s1, STATUS_SUCCESS)).1.set_pool q
            { (if (s1.pools q).num_workers = 0 then tp_new_worker_thread s1 q st
                else (s1, STATUS_SUCCESS)).1.pools q with
              refcount := ((if (s1.pools q).num_workers = 0 then tp_new_worker_thread s1 q st
                else (s1, STATUS_SUCCESS)).1.pools q).refcount + 1
              objcount := ((if (s1.pools q).num_workers = 0 then tp_new_worker_thread s1 q st
                else (s1, STATUS_SUCCESS)).1.pools q).objcount + 1 },
            STATUS_SUCCESS, some q)
        else ((if (s1.pools q).num_workers = 0 then tp_new_worker_thread s1 q st
              else (s1, STATUS_SUCCESS)).1,
            (if (s1.pools q).num_workers = 0 then tp_new_worker_thread s1 q st
              else (s1, STATUS_SUCCESS)).2, none)) →
      r.1.timerqueue = s1.timerqueue ∧ r.1.objects = s1.objects ∧
      r.1.waitqueue = s1.waitqueue ∧ r.1.buckets = s1.buckets ∧
      r.1.ioqueue = s1.ioqueue := by
    intro s1 q r hr
    have hw : (tp_new_worker_thread s1 q st).1.timerqueue = s1.timerqueue ∧
        (tp_new_worker_thread s1 q st).1.objects = s1.objects ∧
        (tp_new_worker_thread s1 q st).1.waitqueue = s1.waitqueue ∧
        (tp_new_worker_thread s1 q st).1.buckets = s1.buckets ∧
        (tp_new_worker_thread s1 q st).1.ioqueue = s1.ioqueue := by
      rw [tp_new_worker_thread_fst]
      exact ⟨rfl, rfl, rfl, rfl, rfl⟩
    rw [hr]
    split_ifs <;> first | exact hw | exact ⟨rfl, rfl, rfl, rfl, rfl⟩
  cases pool with
  | some p => exact stage s p _ rfl
  | none =>
    cases hdef : s.default_threadpool with
    | some d =>
      refine stage s d _ ?_
      unfold tp_threadpool_lock_pool
      simp only [hdef]
    | none =>
      cases new_pool with
      | none =>
        unfold tp_threadpool_lock_pool
        simp [hdef, tp_threadpool_alloc]
      | some a =>
        refine stage { s with
            pools := update s.pools a
              { refcount := 1, objcount := 0, shutdown := false,
                pools0 := [], pools1 := [], pools2 := [],
                max_workers := 500, min_workers := 0, num_workers := 0,
                num_busy_workers := 0 },
            live_pools := a :: s.live_pools,
            default_threadpool := some a } a _ ?_
        unfold tp_threadpool_lock_pool
        simp only [hdef, tp_threadpool_alloc, State.set_pool]

theorem tp_threadpool_lock_frame (s : State) (environment : Option TP_CALLBACK_ENVIRON)
    (new_pool : Option Ptr) (st : NTSTATUS) :
    (tp_threadpool_lock s environment new_pool st).1.timerqueue = s.timerqueue ∧
    (tp_threadpool_lock s environment new_pool st).1.objects = s.objects ∧
    (tp_threadpool_lock s environment new_pool st).1.waitqueue = s.waitqueue ∧
    (tp_threadpool_lock s environment new_pool st).1.buckets = s.buckets ∧
    (tp_threadpool_lock s environment new_pool st).1.ioqueue = s.ioqueue := by
  cases environment with
  | none => exact tp_threadpool_lock_pool_frame s none new_pool st
  | some e =>
    unfold tp_threadpool_lock
    dsimp only
    split_ifs
    · exact ⟨rfl, rfl, rfl, rfl, rfl⟩
    · exact tp_threadpool_lock_pool_frame s e.Pool new_pool st

theorem tp_object_initialize_timers (t : State) (object pool : Ptr) (userdata : Nat)
    (environment : Option TP_CALLBACK_ENVIRON) (st : NTSTATUS)
    (hty : (t.objects object).type ≠ TP_OBJECT_TYPE_SIMPLE) :
    ( tp_object_initialize t object pool userdata environment st).timerqueue = t.timerqueue ∧
    ∀ x, (( tp_object_initialize t object pool userdata environment st).objects x).u
      = (t.objects x).u := by
  unfold tp_object_initialize
  simp only [hty, decide_False, if_false]
  cases environment with
  | none =>
    refine ⟨rfl, fun x => ?_⟩
    show (update t.objects object _ x).u = _
    by_cases hx : x = object
    · rw [hx, update_same]
    · rw [update_of_ne _ _ _ _ hx]
  | some e =>
    cases hg : e.CleanupGroup with
    | none =>
      simp only [hg]
      refine ⟨rfl, fun x => ?_⟩
      show (update t.objects object _ x).u = _
      by_cases hx : x = object
      · rw [hx, update_same]
      · rw [update_of_ne _ _ _ _ hx]
    | some g =>
      simp only [hg]
      refine ⟨rfl, fun x => ?_⟩
      show (update (update t.objects object _) object _ x).u = _
      by_cases hx : x = object
      · rw [hx, update_same]
        show (update t.objects object _ object).u = _
        rw [update_same]
      · rw [update_of_ne _ _ _ _ hx, update_of_ne _ _ _ _ hx]

/-- The list of pending timers without the timer that `TpSetTimerEx` is
called on: what the removal of the existing timeout leaves. -/
theorem timer_unlinked_not_mem (s : State) (timer : Ptr) (h : timer_linked s timer) :
    timer ∉ (if (s.objects timer).u.timer.timer_pending = true then
      list_remove s.timerqueue.pending_timers timer else s.timerqueue.pending_timers) := by
  split_ifs with hp
  · exact list_remove_not_mem _ _
  · exact fun hm => hp (h.1.mpr hm)

theorem TpSetTimerEx_state (s : State) (timer : Ptr) (timeout : Option Int) (period : Int)
    (window_length : Int) (now : Nat) (st : NTSTATUS) :
    (TpSetTimerEx s timer timeout period window_length now st).1 =
      if (TpSetTimerEx_timestamp timeout period now).2 = true then
        tp_object_submit (TpSetTimerEx_locked s timer timeout period window_length now).1
          timer false st
      else (TpSetTimerEx_locked s timer timeout period window_length now).1 := by
  unfold TpSetTimerEx
  dsimp only
  rw [(TpSetTimerEx_locked_eq s timer timeout period window_length now).2.1]

theorem TpSetTimerEx_locked_fields (s : State) (timer : Ptr) (timeout : Option Int)
    (period : Int) (window_length : Int) (now : Nat) :
    (TpSetTimerEx_locked s timer timeout period window_length now).1.pools = s.pools ∧
    ((TpSetTimerEx_locked s timer timeout period window_length now).1.objects
      timer).num_pending_callbacks = (s.objects timer).num_pending_callbacks ∧
    ((TpSetTimerEx_locked s timer timeout period window_length now).1.objects
      timer).refcount = (s.objects timer).refcount := by
  rw [(TpSetTimerEx_locked_eq s timer timeout period window_length now).1]
  refine ⟨rfl, ?_, ?_⟩
  · show (update s.objects timer _ timer).num_pending_callbacks = _
    rw [update_same]
  · show (update s.objects timer _ timer).refcount = _
    rw [update_same]

theorem TpSetTimerEx_timer_fields (s : State) (timer : Ptr) (timeout : Option Int)
    (period : Int) (window_length : Int) (now : Nat) (st : NTSTATUS) :
    ((TpSetTimerEx s timer timeout period window_length now st).1.objects timer).u.timer =
      { timer_initialized := (s.objects timer).u.timer.timer_initialized
        timer_pending := (TpSetTimerEx_timestamp timeout period now).1.isSome
        timer_set := timeout.isSome
        timeout := (TpSetTimerEx_timestamp timeout period now).1.getD
          (s.objects timer).u.timer.timeout
        period := if (TpSetTimerEx_timestamp timeout period now).1.isSome = true
          then period else (s.objects timer).u.timer.period
        window_length := if (TpSetTimerEx_timestamp timeout period now).1.isSome = true
          then window_length else (s.objects timer).u.timer.window_length } := by
  rw [(TpSetTimerEx_timers s timer timeout period window_length now st).2.1 timer,
    (TpSetTimerEx_locked_eq s timer timeout period window_length now).1]
  show (update s.objects timer _ timer).u.timer = _
  rw [update_same]

theorem TpSetTimerEx_pending (s : State) (timer : Ptr) (timeout : Option Int)
    (period : Int) (window_length : Int) (now : Nat) (st : NTSTATUS) (x : Ptr) :
    x ∈ (TpSetTimerEx s timer timeout period window_length now st).1.timerqueue.pending_timers
      ↔ (x = timer ∧ (TpSetTimerEx_timestamp timeout period now).1.isSome = true) ∨
        x ∈ (if (s.objects timer).u.timer.timer_pending = true then
          list_remove s.timerqueue.pending_timers timer else s.timerqueue.pending_timers) := by
  rw [(TpSetTimerEx_timers s timer timeout period window_length now st).1,
    (TpSetTimerEx_locked_eq s timer timeout period window_length now).1]
  cases hts : (TpSetTimerEx_timestamp timeout period now).1 with
  | none => simp
  | some ts =>
    show x ∈ timer_list_insert _ _ _ _ ↔ _
    rw [timer_list_insert_mem]
    simp

theorem TpSetTimerEx_submitted (s : State) (timer : Ptr) (timeout : Option Int)
    (period : Int) (window_length : Int) (now : Nat) (st : NTSTATUS) :
    ((TpSetTimerEx s timer timeout period window_length now st).1.objects
      timer).num_pending_callbacks = (s.objects timer).num_pending_callbacks +
        (if (TpSetTimerEx_timestamp timeout period now).2 = true then 1 else 0) := by
  rw [TpSetTimerEx_state]
  split_ifs
  · rw [tp_object_submit_objects, update_same]
    show ((TpSetTimerEx_locked s timer timeout period window_length now).1.objects
      timer).num_pending_callbacks + 1 = _
    rw [(TpSetTimerEx_locked_fields s timer timeout period window_length now).2.1]
  · rw [(TpSetTimerEx_locked_fields s timer timeout period window_length now).2.1]
    simp

/-- C12: the three special timeouts of `TpSetTimerEx`, for a timer that is
linked in the list of pending timers exactly when its flag `timer_pending` is
set.  With a null timeout the timer is not in the list afterwards,
`TpIsTimerSet` returns `FALSE` and nothing is submitted: the pools are as
before and so is the number of pending callbacks.  With a timeout of 0 and
period 0 the timer is not in the list and the call is one `tp_object_submit`
after the locked part: one more pending callback.  With a timeout of 0 and a
period `p` other than 0 the timer is in the list, once, with its flag set and
the timeout `now + p * 10000` of `ULONGLONG` arithmetic, which is that sum
when it is a `ULONGLONG`; and it is submitted once as well. -/
theorem TpSetTimerEx_special_spec (s : State) (timer : Ptr) (period window_length : Int)
    (now : Nat) (st : NTSTATUS) (h : timer_linked s timer) :
    (timer ∉ (TpSetTimerEx s timer none period window_length now st).1.timerqueue.pending_timers ∧
      TpIsTimerSet (TpSetTimerEx s timer none period window_length now st).1 timer = false ∧
      (TpSetTimerEx s timer none period window_length now st).1.pools = s.pools ∧
      ((TpSetTimerEx s timer none period window_length now st).1.objects
        timer).num_pending_callbacks = (s.objects timer).num_pending_callbacks) ∧
    (timer ∉ (TpSetTimerEx s timer (some 0) 0 window_length now st).1.timerqueue.pending_timers ∧
      (TpSetTimerEx s timer (some 0) 0 window_length now st).1 =
        tp_object_submit (TpSetTimerEx_locked s timer (some 0) 0 window_length now).1
          timer false st ∧
      ((TpSetTimerEx s timer (some 0) 0 window_length now st).1.objects
        timer).num_pending_callbacks = (s.objects timer).num_pending_callbacks + 1) ∧
    (period ≠ 0 →
      timer ∈ (TpSetTimerEx s timer (some 0) period window_length now st).1.timerqueue.pending_timers ∧
      (TpSetTimerEx s timer (some 0) period window_length now
        st).1.timerqueue.pending_timers.count timer = 1 ∧
      ((TpSetTimerEx s timer (some 0) period window_length now st).1.objects
        timer).u.timer.timer_pending = true ∧
      ((TpSetTimerEx s timer (some 0) period window_length now st).1.objects
        timer).u.timer.timeout = (((now : Int) + period * 10000) % (U64_MOD : Int)).toNat ∧
      (0 ≤ (now : Int) + period * 10000 → (now : Int) + period * 10000 < (U64_MOD : Int) →
        (((TpSetTimerEx s timer (some 0) period window_length now st).1.objects
          timer).u.timer.timeout : Int) = (now : Int) + period * 10000) ∧
      (TpSetTimerEx s timer (some 0) period window_length now st).1 =
        tp_object_submit (TpSetTimerEx_locked s timer (some 0) period window_length now).1
          timer false st ∧
      ((TpSetTimerEx s timer (some 0) period window_length now st).1.objects
        timer).num_pending_callbacks = (s.objects timer).num_pending_callbacks + 1) := by
  have hn := timer_unlinked_not_mem s timer h
  refine ⟨⟨?_, ?_, ?_, ?_⟩, ⟨?_, ?_, ?_⟩, ?_⟩
  · rw [TpSetTimerEx_pending]
    simpa [TpSetTimerEx_timestamp] using hn
  · unfold TpIsTimerSet
    rw [TpSetTimerEx_timer_fields]
    rfl
  · rw [TpSetTimerEx_state]
    simp only [TpSetTimerEx_timestamp, Bool.false_eq_true, if_false]
    exact (TpSetTimerEx_locked_fields s timer none period window_length now).1
  · rw [TpSetTimerEx_submitted]
    simp [TpSetTimerEx_timestamp]
  · rw [TpSetTimerEx_pending]
    simpa [TpSetTimerEx_timestamp] using hn
  · rw [TpSetTimerEx_state]
    simp [TpSetTimerEx_timestamp]
  · rw [TpSetTimerEx_submitted]
    simp [TpSetTimerEx_timestamp]
  · intro hp
    have hts : TpSetTimerEx_timestamp (some 0) period now =
        (some (((now : Int) + period * 10000) % (U64_MOD : Int)).toNat, true) := by
      simp [TpSetTimerEx_timestamp, hp]
    have hto : ((TpSetTimerEx s timer (some 0) period window_length now st).1.objects
        timer).u.timer.timeout = (((now : Int) + period * 10000) % (U64_MOD : Int)).toNat := by
      rw [TpSetTimerEx_timer_fields, hts]
      rfl
    refine ⟨?_, ?_, ?_, hto, ?_, ?_, ?_⟩
    · rw [TpSetTimerEx_pending, hts]
      exact Or.inl ⟨rfl, rfl⟩
    · rw [(TpSetTimerEx_timers s timer (some 0) period window_length now st).1,
        (TpSetTimerEx_locked_eq s timer (some 0) period window_length now).1, hts]
      apply List.count_eq_one_of_mem
      · apply timer_list_insert_nodup _ _ _ _ hn
        split_ifs
        · exact list_remove_nodup _ _ h.2
        · exact h.2
      · exact (timer_list_insert_mem _ _ _ _ _).mpr (Or.inl rfl)
    · rw [TpSetTimerEx_timer_fields, hts]
      rfl
    · intro h0 h1
      rw [hto, Int.emod_eq_of_lt h0 h1, Int.toNat_of_nonneg h0]
    · rw [TpSetTimerEx_state, hts]
      simp
    · rw [TpSetTimerEx_submitted, hts]
      simp

theorem state_timer_set_linked : timer_linked state_timer_set 10 := by
  refine ⟨?_, ?_⟩
  · decide
  · decide

theorem TpSetTimerEx_special_spec_witness :
    timer_linked state_timer_set 10 ∧
    10 ∈ state_timer_set.timerqueue.pending_timers ∧
    10 ∉ (TpSetTimerEx state_timer_set 10 none 0 0 100
      STATUS_SUCCESS).1.timerqueue.pending_timers ∧
    ((TpSetTimerEx state_timer_set 10 (some 0) 3 0 100 STATUS_SUCCESS).1.objects
      10).u.timer.timeout = 30100 :=
  ⟨state_timer_set_linked, by decide,
    (TpSetTimerEx_special_spec state_timer_set 10 0 0 100 STATUS_SUCCESS
      state_timer_set_linked).1.1,
    ((TpSetTimerEx_special_spec state_timer_set 10 3 0 100 STATUS_SUCCESS
      state_timer_set_linked).2.2 (by decide)).2.2.2.1.trans (by decide)⟩

/-- C13: the return value and the stored timestamp of `TpSetTimerEx`, for a
timer that is linked in the list of pending timers exactly when its flag
`timer_pending` is set and for every combination of arguments.  The call
returns `TRUE` exactly when the timer was in the list before the call, which
is when the flag was set and the call removed the timer from the list.  A
negative timeout `t` of the range of `LONGLONG` is stored as `now + |t|`, a
positive one is stored as it is; in both cases the timer is in the list
afterwards with that timeout. -/
theorem TpSetTimerEx_result_spec (s : State) (timer : Ptr) (timeout : Option Int)
    (period window_length : Int) (now : Nat) (st : NTSTATUS) (h : timer_linked s timer) :
    ((TpSetTimerEx s timer timeout period window_length now st).2 = true ↔
      timer ∈ s.timerqueue.pending_timers) ∧
    (TpSetTimerEx s timer timeout period window_length now st).2
      = (s.objects timer).u.timer.timer_pending ∧
    (∀ x, x ≠ timer →
      (x ∈ (TpSetTimerEx s timer timeout period window_length now
        st).1.timerqueue.pending_timers ↔ x ∈ s.timerqueue.pending_timers)) ∧
    (∀ t : Int, timeout = some t → t < 0 → -(2 : Int) ^ 63 ≤ t → now < 2 ^ 63 →
      ((TpSetTimerEx s timer timeout period window_length now st).1.objects
        timer).u.timer.timeout = now + t.natAbs ∧
      timer ∈ (TpSetTimerEx s timer timeout period window_length now
        st).1.timerqueue.pending_timers) ∧
    (∀ t : Int, timeout = some t → 0 < t → t < (2 : Int) ^ 63 →
      (((TpSetTimerEx s timer timeout period window_length now st).1.objects
        timer).u.timer.timeout : Int) = t ∧
      timer ∈ (TpSetTimerEx s timer timeout period window_length now
        st).1.timerqueue.pending_timers) := by
  have hr := (TpSetTimerEx_timers s timer timeout period window_length now st).2.2
  refine ⟨?_, hr, ?_, ?_, ?_⟩
  · rw [hr]
    exact h.1
  · intro x hx
    rw [TpSetTimerEx_pending]
    constructor
    · rintro (⟨e, _⟩ | hm)
      · exact absurd e hx
      · split_ifs at hm
        · exact (list_remove_mem _ _ _ hm).1
        · exact hm
    · intro hm
      right
      split_ifs
      · exact list_remove_mem_of_ne _ _ _ hm hx
      · exact hm
  · intro t ht hneg hlo hnow
    have hts : TpSetTimerEx_timestamp timeout period now = (some (now + t.natAbs), false) := by
      rw [ht]
      unfold TpSetTimerEx_timestamp
      dsimp only
      rw [if_pos hneg]
      have e : ((now : Int) - t) % (U64_MOD : Int) = ((now + t.natAbs : Nat) : Int) := by
        have h1 : (0 : Int) ≤ (now : Int) - t := by omega
        have h2 : (now : Int) - t < (U64_MOD : Int) := by
          norm_num [U64_MOD]
          omega
        rw [Int.emod_eq_of_lt h1 h2]
        omega
      rw [e, Int.toNat_ofNat]
    refine ⟨?_, ?_⟩
    · rw [TpSetTimerEx_timer_fields, hts]
      rfl
    · rw [TpSetTimerEx_pending, hts]
      exact Or.inl ⟨rfl, rfl⟩
  · intro t ht hpos hhi
    have hts : TpSetTimerEx_timestamp timeout period now = (some t.toNat, false) := by
      rw [ht]
      unfold TpSetTimerEx_timestamp
      dsimp only
      rw [if_neg (not_lt.mpr (le_of_lt hpos)), if_neg (ne_of_gt hpos)]
      have h2 : t < (U64_MOD : Int) := by
        norm_num [U64_MOD]
        omega
      rw [Int.emod_eq_of_lt (le_of_lt hpos) h2]
    refine ⟨?_, ?_⟩
    · rw [TpSetTimerEx_timer_fields, hts]
      exact Int.toNat_of_nonneg (le_of_lt hpos)
    · rw [TpSetTimerEx_pending, hts]
      exact Or.inl ⟨rfl, rfl⟩

theorem state_two_timers_linked : timer_linked state_two_timers 11 := by
  refine ⟨?_, ?_⟩
  · decide
  · decide

theorem TpSetTimerEx_result_spec_witness :
    timer_linked state_two_timers 11 ∧
    (TpSetTimerEx state_two_timers 11 (some (-50)) 0 0 100 STATUS_SUCCESS).2 = false ∧
    ((TpSetTimerEx state_two_timers 11 (some (-50)) 0 0 100 STATUS_SUCCESS).1.objects
      11).u.timer.timeout = 150 :=
  ⟨state_two_timers_linked,
    (TpSetTimerEx_result_spec state_two_timers 11 (some (-50)) 0 0 100 STATUS_SUCCESS
      state_two_timers_linked).2.1.trans (by decide),
    ((TpSetTimerEx_result_spec state_two_timers 11 (some (-50)) 0 0 100 STATUS_SUCCESS
      state_two_timers_linked).2.2.2.1 (-50) rfl (by decide) (by decide) (by decide)).1⟩

/-- The order of the list of pending timers survives a step that leaves a
sublist `rm` of it without `timer`, puts `timer` back in its place with the
timeout `ts` when `back` is set, and changes the timer members of no other
object. -/
theorem timers_sorted_relink (s t : State) (timer : Ptr) (ts : Nat)
    (objs : Ptr → threadpool_object) (rm : List Ptr) (back : Bool)
    (h : timers_sorted s) (hsub : rm.Sublist s.timerqueue.pending_timers)
    (hrm : timer ∉ rm)
    (hobjs : ∀ x, x ≠ timer → (objs x).u.timer.timeout = (s.objects x).u.timer.timeout)
    (hts : (objs timer).u.timer.timeout = ts)
    (hl : t.timerqueue.pending_timers =
      if back = true then timer_list_insert objs ts timer rm else rm)
    (ho : ∀ x, x ≠ timer → (t.objects x).u.timer = (s.objects x).u.timer)
    (ht : back = true → (t.objects timer).u.timer.timeout = ts ∧
      (t.objects timer).u.timer.timer_pending = true) :
    timers_sorted t := by
  have hne : ∀ x ∈ rm, x ≠ timer := fun x hx e => hrm (e ▸ hx)
  have hp1 : rm.Pairwise
      (fun a b => (objs a).u.timer.timeout ≤ (objs b).u.timer.timeout) := by
    refine (h.1.sublist hsub).imp_of_mem ?_
    intro a b ha hb hab
    rw [hobjs a (hne a ha), hobjs b (hne b hb)]
    exact hab
  have hflag : ∀ x ∈ rm, (t.objects x).u.timer.timer_pending = true := by
    intro x hx
    rw [ho x (hne x hx)]
    exact h.2.2 x (hsub.subset hx)
  have hto : ∀ x ∈ rm, (t.objects x).u.timer.timeout = (objs x).u.timer.timeout := by
    intro x hx
    rw [ho x (hne x hx), hobjs x (hne x hx)]
  cases back with
  | false =>
    simp only [Bool.false_eq_true, if_false] at hl
    refine ⟨?_, ?_, ?_⟩
    · rw [hl]
      refine hp1.imp_of_mem ?_
      intro a b ha hb hab
      rw [hto a ha, hto b hb]
      exact hab
    · rw [hl]
      exact h.2.1.sublist hsub
    · rw [hl]
      exact hflag
  | true =>
    simp only [if_true] at hl
    have ht := ht rfl
    have hto2 : ∀ x ∈ timer_list_insert objs ts timer rm,
        (t.objects x).u.timer.timeout = (objs x).u.timer.timeout := by
      intro x hx
      rcases (timer_list_insert_mem _ _ _ _ _).mp hx with e | e
      · rw [e, ht.1, hts]
      · exact hto x e
    refine ⟨?_, ?_, ?_⟩
    · rw [hl]
      have := timer_list_insert_sorted objs timer rm hp1
      rw [hts] at this
      refine this.imp_of_mem ?_
      intro a b ha hb hab
      rw [hto2 a ha, hto2 b hb]
      exact hab
    · rw [hl]
      exact timer_list_insert_nodup _ _ _ _ hrm (h.2.1.sublist hsub)
    · rw [hl]
      intro x hx
      rcases (timer_list_insert_mem _ _ _ _ _).mp hx with e | e
      · rw [e]
        exact ht.2
      · exact hflag x e

theorem list_remove_sublist (l : List Ptr) (x : Ptr) : (list_remove l x).Sublist l :=
  List.filter_sublist l

theorem timer_unlinked_sublist (s : State) (timer : Ptr) (h : timers_sorted s) :
    (if (s.objects timer).u.timer.timer_pending = true then
      list_remove s.timerqueue.pending_timers timer
      else s.timerqueue.pending_timers).Sublist s.timerqueue.pending_timers ∧
    timer ∉ (if (s.objects timer).u.timer.timer_pending = true then
      list_remove s.timerqueue.pending_timers timer else s.timerqueue.pending_timers) := by
  split_ifs with hp
  · exact ⟨list_remove_sublist _ _, list_remove_not_mem _ _⟩
  · exact ⟨List.Sublist.refl _, fun hm => hp (h.2.2 timer hm)⟩

theorem timers_sorted_set_timer (s : State) (timer : Ptr) (timeout : Option Int)
    (period window_length : Int) (now : Nat) (st : NTSTATUS) (h : timers_sorted s) :
    timers_sorted (TpSetTimerEx s timer timeout period window_length now st).1 := by
  have hu := timer_unlinked_sublist s timer h
  have hq := (TpSetTimerEx_timers s timer timeout period window_length now st).1
  have hobj := (TpSetTimerEx_timers s timer timeout period window_length now st).2.1
  have hf := TpSetTimerEx_timer_fields s timer timeout period window_length now st
  have hle := (TpSetTimerEx_locked_eq s timer timeout period window_length now).1
  have hoff : ∀ x, x ≠ timer →
      ((TpSetTimerEx s timer timeout period window_length now st).1.objects x).u.timer
        = (s.objects x).u.timer := by
    intro x hx
    rw [hobj x, hle]
    show (update s.objects timer _ x).u.timer = _
    rw [update_of_ne _ _ _ _ hx]
  cases hts : (TpSetTimerEx_timestamp timeout period now).1 with
  | none =>
    refine timers_sorted_relink s _ timer (s.objects timer).u.timer.timeout s.objects _ false
      h hu.1 hu.2 (fun _ _ => rfl) rfl ?_ hoff (fun e => absurd e (by decide))
    · rw [hq, hle, hts]
      rfl
  | some ts =>
    refine timers_sorted_relink s _ timer ts
      (update s.objects timer { s.objects timer with
        u := { (s.objects timer).u with timer :=
          { timer_initialized := (s.objects timer).u.timer.timer_initialized
            timer_pending := false
            timer_set := timeout.isSome
            timeout := ts
            period := period
            window_length := window_length } } })
      _ true h hu.1 hu.2 ?_ ?_ ?_ hoff ?_
    · intro x hx
      rw [update_of_ne _ _ _ _ hx]
    · rw [update_same]
    · rw [hq, hle, hts]
      rfl
    · intro _
      rw [hf, hts]
      exact ⟨rfl, rfl⟩

theorem timers_sorted_insert (s t : State) (timer : Ptr) (ts : Nat)
    (objs : Ptr → threadpool_object) (rm : List Ptr)
    (h : timers_sorted s) (hsub : rm.Sublist s.timerqueue.pending_timers)
    (hrm : timer ∉ rm)
    (hobjs : ∀ x, x ≠ timer → (objs x).u.timer.timeout = (s.objects x).u.timer.timeout)
    (hts : (objs timer).u.timer.timeout = ts)
    (hl : t.timerqueue.pending_timers = timer_list_insert objs ts timer rm)
    (ho : ∀ x, x ≠ timer → (t.objects x).u.timer = (s.objects x).u.timer)
    (ht : (t.objects timer).u.timer.timeout = ts ∧
      (t.objects timer).u.timer.timer_pending = true) :
    timers_sorted t :=
  timers_sorted_relink s t timer ts objs rm true h hsub hrm hobjs hts hl ho (fun _ => ht)

theorem timers_sorted_unlink (s t : State) (timer : Ptr) (rm : List Ptr)
    (h : timers_sorted s) (hsub : rm.Sublist s.timerqueue.pending_timers)
    (hrm : timer ∉ rm)
    (hl : t.timerqueue.pending_timers = rm)
    (ho : ∀ x, x ≠ timer → (t.objects x).u.timer = (s.objects x).u.timer) :
    timers_sorted t :=
  timers_sorted_relink s t timer (s.objects timer).u.timer.timeout s.objects rm false h hsub
    hrm (fun _ _ => rfl) rfl hl ho (fun e => absurd e (by decide))

theorem timers_sorted_unlock (s : State) (timer : Ptr) (h : timers_sorted s) :
    timers_sorted (tp_timerqueue_unlock s timer) := by
  have hu := timer_unlinked_sublist s timer h
  unfold tp_timerqueue_unlock
  dsimp only
  by_cases hi : (s.objects timer).u.timer.timer_initialized = true
  · rw [if_pos hi]
    refine timers_sorted_unlink s _ timer _ h hu.1 hu.2 rfl ?_
    intro x hx
    show (update s.objects timer _ x).u.timer = _
    rw [update_of_ne _ _ _ _ hx]
  · rw [if_neg hi]
    exact h

/-- The second half of a turn of the expiry loop, after the submission left
the state `s1`: the periodic timer goes back into the list with its next
timeout `next`. -/
theorem timers_sorted_requeue (s s1 : State) (timer : Ptr) (next : Nat)
    (h : timers_sorted s)
    (hq : s1.timerqueue.pending_timers = list_remove s.timerqueue.pending_timers timer)
    (ho : ∀ x, x ≠ timer → (s1.objects x).u.timer = (s.objects x).u.timer) (t : State)
    (he : (if (s1.objects timer).u.timer.period ≠ 0 ∧ (s1.objects timer).shutdown = false then
        some (({ s1.set_object timer
            { s1.objects timer with u := { (s1.objects timer).u with timer :=
              { (s1.objects timer).u.timer with timeout := next } } } with
          timerqueue := { (s1.set_object timer
            { s1.objects timer with u := { (s1.objects timer).u with timer :=
              { (s1.objects timer).u.timer with timeout := next } } }).timerqueue with
            pending_timers := timer_list_insert
              (update s1.objects timer
                { s1.objects timer with u := { (s1.objects timer).u with timer :=
                  { (s1.objects timer).u.timer with timeout := next } } })
              next timer s1.timerqueue.pending_timers } } : State).set_object timer
            { (update s1.objects timer
                { s1.objects timer with u := { (s1.objects timer).u with timer :=
                  { (s1.objects timer).u.timer with timeout := next } } } timer) with
              u := { (update s1.objects timer
                { s1.objects timer with u := { (s1.objects timer).u with timer :=
                  { (s1.objects timer).u.timer with timeout := next } } } timer).u with
                timer := { (update s1.objects timer
                  { s1.objects timer with u := { (s1.objects timer).u with timer :=
                    { (s1.objects timer).u.timer with timeout := next } } } timer).u.timer with
                  timer_pending := true } } })
      else some s1) = some t) :
    timers_sorted t := by
  have hsub := list_remove_sublist s.timerqueue.pending_timers timer
  have hrm := list_remove_not_mem s.timerqueue.pending_timers timer
  by_cases h2 : (s1.objects timer).u.timer.period ≠ 0 ∧ (s1.objects timer).shutdown = false
  · rw [if_pos h2] at he
    cases he
    refine timers_sorted_insert s _ timer next
      (update s1.objects timer
        { s1.objects timer with u := { (s1.objects timer).u with timer :=
          { (s1.objects timer).u.timer with timeout := next } } })
      (list_remove s.timerqueue.pending_timers timer) h hsub hrm ?_ ?_ ?_ ?_ ?_
    · intro x hx
      rw [update_of_ne _ _ _ _ hx, ho x hx]
    · rw [update_same]
    · show timer_list_insert _ _ _ s1.timerqueue.pending_timers = _
      rw [hq]
    · intro x hx
      show (update (update s1.objects timer _) timer _ x).u.timer = _
      rw [update_of_ne _ _ _ _ hx, update_of_ne _ _ _ _ hx, ho x hx]
    · constructor
      · show (update (update s1.objects timer _) timer _ timer).u.timer.timeout = _
        rw [update_same, update_same]
      · show (update (update s1.objects timer _) timer _ timer).u.timer.timer_pending = _
        rw [update_same]
  · rw [if_neg h2] at he
    cases he
    exact timers_sorted_unlink s _ timer _ h hsub hrm hq ho

theorem timers_sorted_expire (s t : State) (now : Nat) (st : NTSTATUS)
    (h : timers_sorted s) (he : timerqueue_expire s now st = some t) :
    timers_sorted t := by
  unfold timerqueue_expire at he
  cases hh : list_head s.timerqueue.pending_timers with
  | none =>
    rw [hh] at he
    cases he
  | some timer =>
    rw [hh] at he
    dsimp only at he
    by_cases h1 : (s.objects timer).u.timer.timeout > now
    · rw [if_pos h1] at he
      cases he
    · rw [if_neg h1] at he
      refine timers_sorted_requeue s _ timer _ h ?_ ?_ t he
      · exact congrArg timerqueue_t.pending_timers (tp_object_submit_timers _ timer false st).1
      · intro x hx
        rw [(tp_object_submit_timers _ timer false st).2]
        show (update s.objects timer _ x).u.timer = _
        rw [update_of_ne _ _ _ _ hx]

theorem tp_timerqueue_lock_frame (s : State) (timer : Ptr) (st : NTSTATUS) :
    (tp_timerqueue_lock s timer st).1.timerqueue.pending_timers
      = s.timerqueue.pending_timers ∧
    (∀ x, x ≠ timer → (tp_timerqueue_lock s timer st).1.objects x = s.objects x) ∧
    ((tp_timerqueue_lock s timer st).1.objects timer).type = (s.objects timer).type := by
  unfold tp_timerqueue_lock
  dsimp only
  by_cases hr : s.timerqueue.thread_running = false <;> by_cases hst : st = STATUS_SUCCESS
  all_goals
    simp only [State.set_object, hr, hst, if_true, if_false]
    refine ⟨?_, ?_, ?_⟩
    · trivial
    · intro x hx
      simp [update, hx]
    · simp [update]

theorem TpAllocTimer_frame (s : State) (object : Ptr) (callback userdata : Nat)
    (environment : Option TP_CALLBACK_ENVIRON) (new_pool : Option Ptr)
    (st tst : NTSTATUS) :
    (TpAllocTimer s (some object) callback userdata environment new_pool st
      tst).1.timerqueue.pending_timers = s.timerqueue.pending_timers ∧
    ∀ x, x ≠ object →
      ((TpAllocTimer s (some object) callback userdata environment new_pool st
        tst).1.objects x).u.timer = (s.objects x).u.timer := by
  have hf := tp_threadpool_lock_frame s environment new_pool st
  unfold TpAllocTimer
  dsimp only
  generalize tp_threadpool_lock s environment new_pool st = L at hf
  obtain ⟨s1, status, pool⟩ := L
  cases pool with
  | none =>
    dsimp only at hf ⊢
    exact ⟨by rw [hf.1], fun x _ => by rw [hf.2.1]⟩
  | some pool =>
    dsimp only at hf ⊢
    have hk := tp_timerqueue_lock_frame
      (s1.set_object object { s1.objects object with
        type := TP_OBJECT_TYPE_TIMER
        u := { (s1.objects object).u with callback := callback } }) object tst
    have hq : (tp_timerqueue_lock
        (s1.set_object object { s1.objects object with
          type := TP_OBJECT_TYPE_TIMER
          u := { (s1.objects object).u with callback := callback } }) object
        tst).1.timerqueue.pending_timers = s.timerqueue.pending_timers := by
      rw [hk.1]
      show s1.timerqueue.pending_timers = _
      rw [hf.1]
    have ho : ∀ x, x ≠ object → ((tp_timerqueue_lock
        (s1.set_object object { s1.objects object with
          type := TP_OBJECT_TYPE_TIMER
          u := { (s1.objects object).u with callback := callback } }) object
        tst).1.objects x).u.timer = (s.objects x).u.timer := by
      intro x hx
      rw [hk.2.1 x hx]
      show (update s1.objects object _ x).u.timer = _
      rw [update_of_ne _ _ _ _ hx, hf.2.1]
    have hty : ((tp_timerqueue_lock
        (s1.set_object object { s1.objects object with
          type := TP_OBJECT_TYPE_TIMER
          u := { (s1.objects object).u with callback := callback } }) object
        tst).1.objects object).type ≠ TP_OBJECT_TYPE_SIMPLE := by
      rw [hk.2.2]
      show (update s1.objects object _ object).type ≠ _
      rw [update_same]
      exact fun e => by cases e
    split_ifs with hs
    · rw [tp_threadpool_unlock_eq]
      exact ⟨hq, ho⟩
    · have hi := tp_object_initialize_timers
        { (tp_timerqueue_lock
            (s1.set_object object { s1.objects object with
              type := TP_OBJECT_TYPE_TIMER
              u := { (s1.objects object).u with callback := callback } }) object tst).1 with
          live_objects := object :: (tp_timerqueue_lock
            (s1.set_object object { s1.objects object with
              type := TP_OBJECT_TYPE_TIMER
              u := { (s1.objects object).u with callback := callback } }) object
            tst).1.live_objects }
        object pool userdata environment st hty
      refine ⟨?_, ?_⟩
      · show ( tp_object_initialize _ object pool userdata environment
          st).timerqueue.pending_timers = _
        rw [hi.1]
        exact hq
      · intro x hx
        show (( tp_object_initialize _ object pool userdata environment st).objects x).u.timer
          = _
        rw [hi.2 x]
        exact ho x hx

theorem timers_sorted_congr (s t : State) (h : timers_sorted s)
    (hl : t.timerqueue.pending_timers = s.timerqueue.pending_timers)
    (ho : ∀ x, (t.objects x).u.timer = (s.objects x).u.timer) : timers_sorted t := by
  unfold timers_sorted at *
  rw [hl]
  simp only [ho]
  exact h

theorem timers_sorted_step (s : State) (c : timer_call) (h : timers_sorted s)
    (ha : c.allowed s) : timers_sorted (c.run s) := by
  cases c with
  | alloc new_object callback userdata environment new_pool st tst =>
    cases new_object with
    | none => exact h
    | some object =>
      have hf := TpAllocTimer_frame s object callback userdata environment new_pool st tst
      exact timers_sorted_unlink s _ object _ h (List.Sublist.refl _) (ha object rfl) hf.1 hf.2
  | set_timer timer timeout period window_length now st =>
    exact timers_sorted_set_timer s timer timeout period window_length now st h
  | expire now st =>
    show timers_sorted ((timerqueue_expire s now st).getD s)
    cases he : timerqueue_expire s now st with
    | none => exact h
    | some t => exact timers_sorted_expire s t now st h he
  | unlock timer => exact timers_sorted_unlock s timer h
  | other f =>
    exact timers_sorted_congr s _ h ha.1 ha.2

theorem timer_reachable_sorted (s : State) (h : timer_reachable s) : timers_sorted s := by
  induction h with
  | initial => exact ⟨List.Pairwise.nil, List.nodup_nil, fun _ h => absurd h (List.not_mem_nil _)⟩
  | step s c _ ha ih => exact timers_sorted_step s c ih ha

theorem sorted_indexOf_lt (f : Ptr → Nat) :
    ∀ l : List Ptr, l.Pairwise (fun a b => f a ≤ f b) →
      ∀ a b, a ∈ l → b ∈ l → f a < f b → l.indexOf a < l.indexOf b := by
  intro l
  induction l with
  | nil => intro _ a b ha; cases ha
  | cons x xs ih =>
    intro hp a b ha hb hlt
    rw [List.pairwise_cons] at hp
    by_cases hax : a = x
    · have hbx : b ≠ x := by
        intro e
        rw [hax, e] at hlt
        exact lt_irrefl _ hlt
      rw [hax, List.indexOf_cons_self, List.indexOf_cons_ne _ (Ne.symm hbx)]
      exact Nat.succ_pos _
    · have ha2 : a ∈ xs := (List.mem_cons.mp ha).resolve_left hax
      by_cases hbx : b = x
      · have := hp.1 a ha2
        rw [hbx] at hlt
        exact absurd hlt (not_lt.mpr this)
      · have hb2 : b ∈ xs := (List.mem_cons.mp hb).resolve_left hbx
        rw [List.indexOf_cons_ne _ (Ne.symm hax), List.indexOf_cons_ne _ (Ne.symm hbx)]
        exact Nat.succ_lt_succ (ih hp.2 a b ha2 hb2 hlt)

theorem timerqueue_expire_pending (s t : State) (now : Nat) (st : NTSTATUS)
    (he : timerqueue_expire s now st = some t) :
    ∃ timer, list_head s.timerqueue.pending_timers = some timer ∧
      (s.objects timer).u.timer.timeout ≤ now ∧
      (t.timerqueue.pending_timers = list_remove s.timerqueue.pending_timers timer ∨
        ∃ objs ts, t.timerqueue.pending_timers =
          timer_list_insert objs ts timer (list_remove s.timerqueue.pending_timers timer)) := by
  unfold timerqueue_expire at he
  cases hh : list_head s.timerqueue.pending_timers with
  | none =>
    rw [hh] at he
    cases he
  | some timer =>
    rw [hh] at he
    dsimp only at he
    have hsq := fun t0 => (tp_object_submit_timers t0 timer false st).1
    by_cases h1 : (s.objects timer).u.timer.timeout > now
    · rw [if_pos h1] at he
      cases he
    · rw [if_neg h1] at he
      refine ⟨timer, rfl, not_lt.mp h1, ?_⟩
      split_ifs at he
      all_goals
        cases he
        first
        | exact Or.inl (congrArg timerqueue_t.pending_timers (hsq _))
        | exact Or.inr ⟨_, _, congrArg (timer_list_insert _ _ timer)
            (congrArg timerqueue_t.pending_timers (hsq _))⟩

/-- C11, amended: in every state that the calls on the timer queue reach, the
list `timerqueue.pending_timers` is in non-decreasing order of timeout, and
every allowed call (the insertion of `TpSetTimerEx`, the removal and the
re-insertion of the timer thread, the removal of `tp_timerqueue_unlock`)
leaves it so.  Of two pending timers the one with the strictly earlier
timeout stands before the other, and a turn of the timer thread takes the
head of the list, which is due and has the least timeout, and no other
timer. -/
theorem pending_timers_sorted_spec (s : State) (h : timer_reachable s) :
    s.timerqueue.pending_timers.Pairwise
      (fun a b => (s.objects a).u.timer.timeout ≤ (s.objects b).u.timer.timeout) ∧
    (∀ c : timer_call, c.allowed s →
      (c.run s).timerqueue.pending_timers.Pairwise
        (fun a b => ((c.run s).objects a).u.timer.timeout
          ≤ ((c.run s).objects b).u.timer.timeout)) ∧
    (∀ A B, A ∈ s.timerqueue.pending_timers → B ∈ s.timerqueue.pending_timers →
      (s.objects A).u.timer.timeout < (s.objects B).u.timer.timeout →
      reached_before s A B) ∧
    (∀ now st t, timerqueue_expire s now st = some t →
      ∃ timer, list_head s.timerqueue.pending_timers = some timer ∧
        (s.objects timer).u.timer.timeout ≤ now ∧
        (∀ x ∈ s.timerqueue.pending_timers,
          (s.objects timer).u.timer.timeout ≤ (s.objects x).u.timer.timeout) ∧
        ∀ x, x ≠ timer →
          (x ∈ t.timerqueue.pending_timers ↔ x ∈ s.timerqueue.pending_timers)) := by
  have hs := timer_reachable_sorted s h
  refine ⟨hs.1, fun c hc => (timers_sorted_step s c hs hc).1,
    fun A B hA hB hlt => sorted_indexOf_lt _ _ hs.1 A B hA hB hlt, ?_⟩
  intro now st t he
  obtain ⟨timer, hh, hdue, hl⟩ := timerqueue_expire_pending s t now st he
  refine ⟨timer, hh, hdue, ?_, ?_⟩
  · intro x hx
    unfold list_head at hh
    cases hp : s.timerqueue.pending_timers with
    | nil =>
      rw [hp] at hx
      cases hx
    | cons a l =>
      rw [hp] at hh hx
      have hs1 := hs.1
      rw [hp, List.pairwise_cons] at hs1
      simp only [List.head?_cons, Option.some.injEq] at hh
      rcases List.mem_cons.mp hx with e | e
      · rw [e, hh]
      · rw [← hh]
        exact hs1.1 x e
  · intro x hx
    have hrm : x ∈ list_remove s.timerqueue.pending_timers timer
        ↔ x ∈ s.timerqueue.pending_timers :=
      ⟨fun hm => (list_remove_mem _ _ _ hm).1, fun hm => list_remove_mem_of_ne _ _ _ hm hx⟩
    rcases hl with e | ⟨objs, ts, e⟩
    · rw [e]
      exact hrm
    · rw [e, timer_list_insert_mem]
      constructor
      · rintro (e1 | e1)
        · exact absurd e1 hx
        · exact hrm.mp e1
      · exact fun hm => Or.inr (hrm.mpr hm)

theorem state_two_timers_reachable : timer_reachable state_two_timers :=
  timer_reachable.step _ _
    (timer_reachable.step _ _ timer_reachable.initial
      (fun a ha => by cases ha; decide))
    (fun a ha => by cases ha; decide)

theorem pending_timers_sorted_spec_witness :
    timer_reachable state_timers_ordered ∧
    (state_timers_ordered.objects 11).u.timer.timeout
      < (state_timers_ordered.objects 10).u.timer.timeout ∧
    reached_before state_timers_ordered 11 10 :=
  ⟨timer_reachable.step _ _
      (timer_reachable.step _ _ state_two_timers_reachable trivial) trivial,
    by decide,
    (pending_timers_sorted_spec state_timers_ordered
      (timer_reachable.step _ _
        (timer_reachable.step _ _ state_two_timers_reachable trivial) trivial)).2.2.1
      11 10 (by decide) (by decide) (by decide)⟩

/-- C11 as stated fails on timers with the same timeout: after both timers
of `state_two_timers` were set to the absolute time 500, timer 10 first, both
are pending and the timeout of timer 11 is not later than that of timer 10,
but timer 10 is the head of the list and the timer thread reaches it
first. -/
theorem pending_timers_tie_counterexample :
    timer_reachable state_timers_tied ∧
    state_timers_tied.timerqueue.pending_timers = [10, 11] ∧
    (state_timers_tied.objects 11).u.timer.timeout
      ≤ (state_timers_tied.objects 10).u.timer.timeout ∧
    ¬ (∀ A B, A ∈ state_timers_tied.timerqueue.pending_timers →
      B ∈ state_timers_tied.timerqueue.pending_timers →
      (state_timers_tied.objects A).u.timer.timeout
        ≤ (state_timers_tied.objects B).u.timer.timeout →
      reached_before state_timers_tied A B) :=
  ⟨timer_reachable.step _ _
      (timer_reachable.step _ _ state_two_timers_reachable trivial) trivial,
    by decide, by decide,
    fun hall => absurd (hall 11 10 (by decide) (by decide) (by decide))
      (by unfold reached_before; decide)⟩

theorem list_add_tail_getLast (l : List Ptr) (x : Ptr) :
    (list_add_tail l x).getLast? = some x := by
  unfold list_add_tail
  simp

theorem list_remove_add_count (l : List Ptr) (x : Ptr) :
    (list_add_tail (list_remove l x) x).count x = 1 := by
  unfold list_add_tail
  rw [List.count_append, List.count_eq_zero_of_not_mem (list_remove_not_mem l x)]
  simp

/-- The state that `TpSetWaitEx` leaves when the wait is linked again: the
wait leaves both lists of its bucket and goes to the tail of one of them. -/
theorem TpSetWaitEx_relink (s : State) (wait : Ptr) (handle : Nat) (timeout : Option Int)
    (now : Nat) (bucket : Ptr) (hb : (s.objects wait).u.wait.bucket = some bucket)
    (hc : handle ≠ 0 ∨ (s.objects wait).u.wait.wait_pending = true) :
    ∃ t, TpSetWaitEx s wait handle timeout now
        = some (t, (s.objects wait).u.wait.wait_pending) ∧
      (t.buckets bucket).objcount = (s.buckets bucket).objcount ∧
      (t.buckets bucket).waiting =
        (if handle ≠ 0 then list_add_tail (list_remove (s.buckets bucket).waiting wait) wait
          else list_remove (s.buckets bucket).waiting wait) ∧
      (t.buckets bucket).reserved =
        (if handle ≠ 0 then list_remove (s.buckets bucket).reserved wait
          else list_add_tail (list_remove (s.buckets bucket).reserved wait) wait) ∧
      (t.objects wait).u.wait.bucket = some bucket ∧
      (t.objects wait).u.wait.handle = handle ∧
      (t.objects wait).u.wait.wait_pending = decide (handle ≠ 0) ∧
      (handle ≠ 0 → (t.objects wait).u.wait.timeout =
        match timeout with
        | some x =>
          if x < 0 then (((now : Int) - x) % (U64_MOD : Int)).toNat
          else (x % (U64_MOD : Int)).toNat
        | none => TIMEOUT_INFINITE) ∧
      (t.objects wait).update_serial = (s.objects wait).update_serial +
        (if (s.objects wait).u.wait.handle = handle then 0 else 1) := by
  unfold TpSetWaitEx
  simp only [hb, State.set_object, State.set_bucket, update_same]
  rw [if_pos hc]
  by_cases hh : handle = 0
  · subst hh
    by_cases hs : (s.objects wait).u.wait.handle = 0 <;>
      cases timeout <;> simp [hs, update_same]
  · by_cases hs : (s.objects wait).u.wait.handle = handle <;>
      cases timeout <;> simp [hh, hs, update_same]

/-- The state that `TpSetWaitEx` leaves when there is nothing to link: only
the stored handle changes. -/
theorem TpSetWaitEx_idle (s : State) (wait : Ptr) (timeout : Option Int)
    (now : Nat) (bucket : Ptr) (hb : (s.objects wait).u.wait.bucket = some bucket)
    (hp : (s.objects wait).u.wait.wait_pending = false) :
    ∃ t, TpSetWaitEx s wait 0 timeout now = some (t, false) ∧
      t.buckets = s.buckets ∧
      (t.objects wait).u.wait.bucket = some bucket ∧
      (t.objects wait).u.wait.wait_pending = false ∧
      (t.objects wait).update_serial = (s.objects wait).update_serial := by
  refine ⟨s.set_object wait { s.objects wait with
      u := { (s.objects wait).u with
        wait := { (s.objects wait).u.wait with handle := 0 } } }, ?_, rfl, ?_, ?_, ?_⟩
  · unfold TpSetWaitEx
    simp [hb, hp]
  · simp [hb]
  · simp [hp]
  · simp

/-- C14: `TpSetWaitEx` on a registered wait returns the value `wait_pending`
had before the call, keeps the wait in its bucket and leaves the bucket's
`objcount` as it was.  After a call with a non-null handle the wait is the
last entry of the bucket's list `waiting`, linked there once and not linked
in `reserved`, with `wait_pending` set and the timeout `TIMEOUT_INFINITE` for
a null timeout pointer, `now + |t|` for a negative timeout `t` and `t` for
any other.  After a call with a null handle the wait is linked once in
`reserved` and not in `waiting`, with `wait_pending` clear. -/
theorem TpSetWaitEx_spec (s : State) (wait : Ptr) (handle : Nat) (timeout : Option Int)
    (now : Nat) (h : wait_registered s wait) :
    ∃ bucket t, (s.objects wait).u.wait.bucket = some bucket ∧
      TpSetWaitEx s wait handle timeout now
        = some (t, (s.objects wait).u.wait.wait_pending) ∧
      (t.objects wait).u.wait.bucket = some bucket ∧
      (t.buckets bucket).objcount = (s.buckets bucket).objcount ∧
      (handle ≠ 0 →
        (t.buckets bucket).waiting.getLast? = some wait ∧
        (t.buckets bucket).waiting.count wait = 1 ∧
        wait ∉ (t.buckets bucket).reserved ∧
        (t.objects wait).u.wait.wait_pending = true ∧
        (timeout = none → (t.objects wait).u.wait.timeout = TIMEOUT_INFINITE) ∧
        (∀ x : Int, timeout = some x → x < 0 → -(2 : Int) ^ 63 ≤ x → now < 2 ^ 63 →
          (t.objects wait).u.wait.timeout = now + x.natAbs) ∧
        (∀ x : Int, timeout = some x → 0 ≤ x → x < (2 : Int) ^ 63 →
          ((t.objects wait).u.wait.timeout : Int) = x)) ∧
      (handle = 0 →
        wait ∈ (t.buckets bucket).reserved ∧
        (t.buckets bucket).reserved.count wait = 1 ∧
        wait ∉ (t.buckets bucket).waiting ∧
        (t.objects wait).u.wait.wait_pending = false) := by
  obtain ⟨bucket, hb, hp1, hp0⟩ := h
  by_cases hc : handle ≠ 0 ∨ (s.objects wait).u.wait.wait_pending = true
  · obtain ⟨t, he, hobj, hw, hr, hbk, _, hpd, hto, _⟩ :=
      TpSetWaitEx_relink s wait handle timeout now bucket hb hc
    refine ⟨bucket, t, hb, he, hbk, hobj, ?_, ?_⟩
    · intro hne
      rw [if_pos hne] at hw hr
      have hto := hto hne
      refine ⟨?_, ?_, ?_, ?_, ?_, ?_, ?_⟩
      · rw [hw]
        exact list_add_tail_getLast _ _
      · rw [hw]
        exact list_remove_add_count _ _
      · rw [hr]
        exact list_remove_not_mem _ _
      · rw [hpd]
        simp [hne]
      · intro e
        rw [hto, e]
      · intro x e hneg hlo hnow
        rw [hto, e]
        dsimp only
        rw [if_pos hneg]
        have h1 : (0 : Int) ≤ (now : Int) - x := by omega
        have h2 : (now : Int) - x < (U64_MOD : Int) := by
          norm_num [U64_MOD]
          omega
        rw [Int.emod_eq_of_lt h1 h2]
        omega
      · intro x e h0 hhi
        rw [hto, e]
        dsimp only
        rw [if_neg (not_lt.mpr h0)]
        have h2 : x < (U64_MOD : Int) := by
          norm_num [U64_MOD]
          omega
        rw [Int.emod_eq_of_lt h0 h2]
        exact Int.toNat_of_nonneg h0
    · intro h0
      rw [if_neg (not_not.mpr h0)] at hw hr
      refine ⟨?_, ?_, ?_, ?_⟩
      · rw [hr]
        unfold list_add_tail
        simp
      · rw [hr]
        exact list_remove_add_count _ _
      · rw [hw]
        exact list_remove_not_mem _ _
      · rw [hpd]
        simp [h0]
  · rw [not_or, not_not, Bool.not_eq_true] at hc
    obtain ⟨h0, hp⟩ := hc
    subst h0
    obtain ⟨t, he, hbs, hbk, hpd, _⟩ := TpSetWaitEx_idle s wait timeout now bucket hb hp
    refine ⟨bucket, t, hb, ?_, hbk, by rw [hbs], fun hne => absurd rfl hne, fun _ => ?_⟩
    · rw [he, hp]
    · have := hp0 hp
      rw [hbs]
      exact ⟨List.count_pos_iff.mp (by rw [this.1]; exact Nat.one_pos), this.1, this.2, hpd⟩

theorem state_one_wait_registered : wait_registered state_one_wait 20 :=
  ⟨30, by decide, by decide, by decide⟩

theorem TpSetWaitEx_spec_witness :
    wait_registered state_one_wait 20 ∧
    ∃ bucket t, (state_one_wait.objects 20).u.wait.bucket = some bucket ∧
      TpSetWaitEx state_one_wait 20 77 (some (-50)) 100
        = some (t, (state_one_wait.objects 20).u.wait.wait_pending) ∧
      (t.buckets bucket).waiting.getLast? = some 20 ∧
      (t.objects 20).u.wait.timeout = 150 :=
  ⟨state_one_wait_registered,
    (TpSetWaitEx_spec state_one_wait 20 77 (some (-50)) 100 state_one_wait_registered).imp
      (fun _ h => h.imp (fun _ h => ⟨h.1, h.2.1, (h.2.2.2.2.1 (by decide)).1,
        (h.2.2.2.2.1 (by decide)).2.2.2.2.2.1 (-50) rfl (by decide) (by decide)
          (by decide)⟩))⟩

/-- C15, amended: `TpSetWaitEx` on a registered wait adds exactly 1 to the
object's `update_serial` when the handle argument differs from the handle
stored before the call and the handle argument is non-null or the wait was
pending; it leaves `update_serial` as it was in every other case, so when
the handle is the same, and when a null handle is given to a wait that is
not pending. -/
theorem TpSetWaitEx_update_serial_spec (s : State) (wait : Ptr) (handle : Nat)
    (timeout : Option Int) (now : Nat) (h : wait_registered s wait) :
    ∃ t, TpSetWaitEx s wait handle timeout now
        = some (t, (s.objects wait).u.wait.wait_pending) ∧
      (t.objects wait).update_serial = (s.objects wait).update_serial +
        (if (s.objects wait).u.wait.handle ≠ handle ∧
            (handle ≠ 0 ∨ (s.objects wait).u.wait.wait_pending = true) then 1 else 0) ∧
      ((s.objects wait).u.wait.handle = handle →
        (t.objects wait).update_serial = (s.objects wait).update_serial) ∧
      ((s.objects wait).u.wait.handle ≠ handle → handle ≠ 0 →
        (t.objects wait).update_serial = (s.objects wait).update_serial + 1) := by
  obtain ⟨bucket, hb, _, _⟩ := h
  have key : ∃ t, TpSetWaitEx s wait handle timeout now
        = some (t, (s.objects wait).u.wait.wait_pending) ∧
      (t.objects wait).update_serial = (s.objects wait).update_serial +
        (if (s.objects wait).u.wait.handle ≠ handle ∧
            (handle ≠ 0 ∨ (s.objects wait).u.wait.wait_pending = true) then 1 else 0) := by
    by_cases hc : handle ≠ 0 ∨ (s.objects wait).u.wait.wait_pending = true
    · obtain ⟨t, he, _, _, _, _, _, _, _, hus⟩ :=
        TpSetWaitEx_relink s wait handle timeout now bucket hb hc
      refine ⟨t, he, ?_⟩
      rw [hus]
      by_cases hs : (s.objects wait).u.wait.handle = handle
      · simp [hs]
      · simp [hs, hc]
    · have hc2 := hc
      rw [not_or, not_not, Bool.not_eq_true] at hc2
      obtain ⟨h0, hp⟩ := hc2
      subst h0
      obtain ⟨t, he, _, _, _, hus⟩ := TpSetWaitEx_idle s wait timeout now bucket hb hp
      refine ⟨t, ?_, ?_⟩
      · rw [he, hp]
      · rw [hus, if_neg (fun hh => hc hh.2)]
        simp
  obtain ⟨t, he, hus⟩ := key
  refine ⟨t, he, hus, ?_, ?_⟩
  · intro hs
    rw [hus, if_neg (fun hh => hh.1 hs)]
    simp
  · intro hs hne
    rw [hus, if_pos ⟨hs, Or.inl hne⟩]

theorem state_wait_armed_registered : wait_registered state_wait_armed 20 :=
  ⟨30, by decide, by decide, by decide⟩

theorem TpSetWaitEx_update_serial_spec_witness :
    wait_registered state_wait_armed 20 ∧
    (state_wait_armed.objects 20).u.wait.handle = 77 ∧
    ∃ t, TpSetWaitEx state_wait_armed 20 0 none 100
        = some (t, (state_wait_armed.objects 20).u.wait.wait_pending) ∧
      (t.objects 20).update_serial = (state_wait_armed.objects 20).update_serial + 1 :=
  ⟨state_wait_armed_registered, by decide,
    (TpSetWaitEx_update_serial_spec state_wait_armed 20 0 none 100
      state_wait_armed_registered).imp
      (fun _ h => ⟨h.1, h.2.1.trans (by decide)⟩)⟩

/-- C15 as stated fails for a null handle given to a wait that is not
pending: the wait of `state_one_wait` holds the handle `INVALID_HANDLE_VALUE`
and is not pending, the null handle differs from it, and the call returns
with `update_serial` unchanged. -/
theorem TpSetWaitEx_update_serial_counterexample :
    wait_registered state_one_wait 20 ∧
    (state_one_wait.objects 20).u.wait.handle ≠ 0 ∧
    (TpSetWaitEx state_one_wait 20 0 none 100).map
        (fun r => (r.1.objects 20).update_serial)
      = some (state_one_wait.objects 20).update_serial ∧
    (TpSetWaitEx state_one_wait 20 0 none 100).map
        (fun r => (r.1.objects 20).update_serial)
      ≠ some ((state_one_wait.objects 20).update_serial + 1) :=
  ⟨⟨30, by decide, by decide, by decide⟩, by decide, by decide, by decide⟩

/-- The loop of `array_reserve` ends within the turns it is given: the
capacity it returns does not satisfy the loop condition. -/
theorem array_reserve_loop_ends (count max_capacity : Nat) (hmax : max_capacity < UINT_MOD) :
    ∀ turns new_capacity, UINT_MOD ≤ new_capacity * 2 ^ turns →
      ¬ (array_reserve_loop count max_capacity turns new_capacity < count ∧
        array_reserve_loop count max_capacity turns new_capacity ≤ max_capacity / 2) := by
  intro turns
  induction turns with
  | zero =>
    intro c hc
    unfold array_reserve_loop
    rw [pow_zero, mul_one] at hc
    intro h
    have := h.2
    omega
  | succ n ih =>
    intro c hc
    unfold array_reserve_loop
    by_cases hcond : c < count ∧ c ≤ max_capacity / 2
    · rw [if_pos hcond]
      have hlt : c * 2 < UINT_MOD := by
        have := hcond.2
        omega
      rw [Nat.mod_eq_of_lt hlt]
      apply ih
      rw [pow_succ] at hc
      calc UINT_MOD ≤ c * (2 ^ n * 2) := hc
        _ = c * 2 * 2 ^ n := by ring
    · rw [if_neg hcond]
      exact hcond

theorem array_reserve_ends (capacity count max_capacity : Nat)
    (hmax : max_capacity < UINT_MOD) :
    ¬ (array_reserve_loop count max_capacity 32 (c_max 4 capacity) < count ∧
      array_reserve_loop count max_capacity 32 (c_max 4 capacity) ≤ max_capacity / 2) := by
  apply array_reserve_loop_ends count max_capacity hmax
  have h4 : 1 ≤ c_max 4 capacity := by
    unfold c_max
    split_ifs <;> omega
  calc UINT_MOD = 1 * 2 ^ 32 := by norm_num [UINT_MOD]
    _ ≤ c_max 4 capacity * 2 ^ 32 := Nat.mul_le_mul_right _ h4

/-- C16 at the failing input: the I/O object 40 of `state_io_started` is not
shut down, is not shutting down and has one operation pending; one packet
arrives for it and the reallocation succeeds.  The turn of the I/O thread
takes the operation off `pending_count`, but it stores the packet twice and
submits the object twice: `completion_count` and `num_pending_callbacks` grow
by 2. -/
theorem ioqueue_thread_proc_stores_twice :
    (state_io_started.objects 40).shutdown = false ∧
    (state_io_started.objects 40).u.io.shutting_down = false ∧
    (state_io_started.objects 40).u.io.pending_count = 1 ∧
    (state_io_started.objects 40).u.io.completion_count = 0 ∧
    (state_io_started.objects 40).num_pending_callbacks = 0 ∧
    ((ioqueue_thread_proc state_io_started (some 40) 7 9 24 (2 ^ 64 - 1) true
      STATUS_SUCCESS).objects 40).u.io.pending_count = 0 ∧
    ((ioqueue_thread_proc state_io_started (some 40) 7 9 24 (2 ^ 64 - 1) true
      STATUS_SUCCESS).objects 40).u.io.completion_count = 2 ∧
    ((ioqueue_thread_proc state_io_started (some 40) 7 9 24 (2 ^ 64 - 1) true
      STATUS_SUCCESS).objects 40).u.io.completions = [⟨9, 7⟩, ⟨9, 7⟩] ∧
    ((ioqueue_thread_proc state_io_started (some 40) 7 9 24 (2 ^ 64 - 1) true
      STATUS_SUCCESS).objects 40).num_pending_callbacks = 2 := by
  decide

/-- C17 at the failing input: `tp_object_cancel` has moved the two pending
operations of the I/O object 40 to `skipped_count` and the object was not
released.  The next packet for the object is not swallowed: the turn of the
I/O thread stores a completion and submits the object, and `skipped_count`
stays 2.  After `TpReleaseIoCompletion` the two packets are swallowed: the
first is skipped and the second destroys the object. -/
theorem ioqueue_thread_proc_not_swallowed :
    (state_io_cancelled.objects 40).u.io.pending_count = 0 ∧
    (state_io_cancelled.objects 40).u.io.skipped_count = 2 ∧
    (state_io_cancelled.objects 40).u.io.completion_count = 0 ∧
    (state_io_cancelled.objects 40).num_pending_callbacks = 0 ∧
    ((ioqueue_thread_proc state_io_cancelled (some 40) 7 9 24 (2 ^ 64 - 1) true
      STATUS_SUCCESS).objects 40).u.io.completion_count = 1 ∧
    ((ioqueue_thread_proc state_io_cancelled (some 40) 7 9 24 (2 ^ 64 - 1) true
      STATUS_SUCCESS).objects 40).num_pending_callbacks = 1 ∧
    ((ioqueue_thread_proc state_io_cancelled (some 40) 7 9 24 (2 ^ 64 - 1) true
      STATUS_SUCCESS).objects 40).u.io.skipped_count = 2 ∧
    ((ioqueue_thread_proc state_io_released (some 40) 7 9 24 (2 ^ 64 - 1) true
      STATUS_SUCCESS).objects 40).u.io.completion_count = 0 ∧
    ((ioqueue_thread_proc state_io_released (some 40) 7 9 24 (2 ^ 64 - 1) true
      STATUS_SUCCESS).objects 40).num_pending_callbacks = 0 ∧
    ((ioqueue_thread_proc state_io_released (some 40) 7 9 24 (2 ^ 64 - 1) true
      STATUS_SUCCESS).objects 40).u.io.skipped_count = 1 ∧
    ((ioqueue_thread_proc
      ( ioqueue_thread_proc state_io_released (some 40) 7 9 24 (2 ^ 64 - 1) true STATUS_SUCCESS)
      (some 40) 8 9 24 (2 ^ 64 - 1) true STATUS_SUCCESS).objects 40).num_pending_callbacks = 0 ∧
    40 ∉ ( ioqueue_thread_proc
      ( ioqueue_thread_proc state_io_released (some 40) 7 9 24 (2 ^ 64 - 1) true STATUS_SUCCESS)
      (some 40) 8 9 24 (2 ^ 64 - 1) true STATUS_SUCCESS).live_objects := by
  decide

theorem threadpool_get_next_item_none (p : threadpool) :
    threadpool_get_next_item p = none ↔ p.pools 0 = [] ∧ p.pools 1 = [] ∧ p.pools 2 = [] := by
  rw [threadpool_get_next_item_eq]
  cases h0 : p.pools 0 <;> cases h1 : p.pools 1 <;> cases h2 : p.pools 2 <;> simp

/-- C22: on a pool that is not shut down, a worker whose sleep timed out
leaves its loop exactly when the three lists are empty and the pool has more
workers than `max( min_workers, 1 )` or has `min_workers` 0 and `objcount` 0;
a worker that was woken up does not leave.  When such a worker, one of the
counted workers of the pool, ends, the count of workers does not fall below
`min_workers`, and it stays at 1 or more when `objcount` is not 0. -/
theorem threadpool_worker_leaves_spec (s : State) (pool : Ptr)
    (hs : (s.pools pool).shutdown = false) :
    (threadpool_worker_leaves (s.pools pool) true = true ↔
      ((s.pools pool).pools 0 = [] ∧ (s.pools pool).pools 1 = [] ∧
        (s.pools pool).pools 2 = []) ∧
      ((s.pools pool).num_workers > max (s.pools pool).min_workers 1 ∨
        ((s.pools pool).min_workers = 0 ∧ (s.pools pool).objcount = 0))) ∧
    threadpool_worker_leaves (s.pools pool) false = false ∧
    (threadpool_worker_leaves (s.pools pool) true = true → 0 < (s.pools pool).num_workers →
      ((threadpool_worker_exit s pool).pools pool).num_workers
        = (s.pools pool).num_workers - 1 ∧
      ((threadpool_worker_exit s pool).pools pool).min_workers = (s.pools pool).min_workers ∧
      ((threadpool_worker_exit s pool).pools pool).min_workers
        ≤ ((threadpool_worker_exit s pool).pools pool).num_workers ∧
      ((s.pools pool).objcount ≠ 0 →
        1 ≤ ((threadpool_worker_exit s pool).pools pool).num_workers)) := by
  have key : threadpool_worker_leaves (s.pools pool) true = true ↔
      ((s.pools pool).pools 0 = [] ∧ (s.pools pool).pools 1 = [] ∧
        (s.pools pool).pools 2 = []) ∧
      ((s.pools pool).num_workers > max (s.pools pool).min_workers 1 ∨
        ((s.pools pool).min_workers = 0 ∧ (s.pools pool).objcount = 0)) := by
    unfold threadpool_worker_leaves
    rw [if_neg (by rw [hs]; decide), decide_eq_true_iff, threadpool_get_next_item_none,
      c_max_int]
    simp
  refine ⟨key, ?_, ?_⟩
  · unfold threadpool_worker_leaves
    rw [if_neg (by rw [hs]; decide)]
    simp
  · intro hl hw
    have hc := (key.mp hl).2
    have hn : ((threadpool_worker_exit s pool).pools pool).num_workers
        = (s.pools pool).num_workers - 1 := by
      rw [(threadpool_worker_exit_counters s pool pool).2.1, if_pos rfl]
    have hm : ((threadpool_worker_exit s pool).pools pool).min_workers
        = (s.pools pool).min_workers := by
      unfold threadpool_worker_exit
      rw [tp_threadpool_release_fst]
      simp
    refine ⟨hn, hm, ?_, ?_⟩
    · rw [hn, hm]
      rcases hc with h | ⟨h, _⟩
      · have := le_max_left (s.pools pool).min_workers 1
        omega
      · omega
    · intro ho
      rw [hn]
      rcases hc with h | ⟨_, h⟩
      · have := le_max_right (s.pools pool).min_workers 1
        omega
      · exact absurd h ho

theorem threadpool_worker_leaves_spec_witness :
    (state_idle_pool.pools 1).shutdown = false ∧
    (state_idle_pool.pools 1).num_workers = 1 ∧
    threadpool_worker_leaves (state_idle_pool.pools 1) true = true ∧
    ((threadpool_worker_exit state_idle_pool 1).pools 1).num_workers = 0 ∧
    ((threadpool_worker_exit state_idle_pool 1).pools 1).min_workers
      ≤ ((threadpool_worker_exit state_idle_pool 1).pools 1).num_workers :=
  ⟨by decide, by decide, by decide,
    ((threadpool_worker_leaves_spec state_idle_pool 1 (by decide)).2.2 (by decide)
      (by decide)).1.trans (by decide),
    ((threadpool_worker_leaves_spec state_idle_pool 1 (by decide)).2.2 (by decide)
      (by decide)).2.2.1⟩

/-- C29 at the failing input: `tp_object_cancel` has moved the two pending
operations of the I/O object 40 to `skipped_count`; the array of completions
was never reserved and `completion_max` is 0.  The packet that arrives next
is stored at index 0 without a call of `array_reserve`: afterwards
`completion_count` is 1 and `completion_max` is still 0. -/
theorem ioqueue_thread_proc_exceeds_capacity :
    (state_io_cancelled.objects 40).num_pending_callbacks = 0 ∧
    (state_io_cancelled.objects 40).u.io.completion_count = 0 ∧
    (state_io_cancelled.objects 40).u.io.completion_max = 0 ∧
    ((ioqueue_thread_proc state_io_cancelled (some 40) 7 9 24 (2 ^ 64 - 1) true
      STATUS_SUCCESS).objects 40).num_pending_callbacks = 1 ∧
    ((ioqueue_thread_proc state_io_cancelled (some 40) 7 9 24 (2 ^ 64 - 1) true
      STATUS_SUCCESS).objects 40).u.io.completion_count = 1 ∧
    ((ioqueue_thread_proc state_io_cancelled (some 40) 7 9 24 (2 ^ 64 - 1) true
      STATUS_SUCCESS).objects 40).u.io.completion_max = 0 ∧
    ¬ (((ioqueue_thread_proc state_io_cancelled (some 40) 7 9 24 (2 ^ 64 - 1) true
        STATUS_SUCCESS).objects 40).u.io.completion_count
      ≤ ((ioqueue_thread_proc state_io_cancelled (some 40) 7 9 24 (2 ^ 64 - 1) true
        STATUS_SUCCESS).objects 40).u.io.completion_max) := by
  decide

/-- The loop that determines the next timeout, started with
`timeout_lower ≤ timeout_upper` on a sorted rest of the list whose windows
are not negative and do not overflow. -/
theorem timerqueue_next_timeout_bounds (objects : Ptr → threadpool_object) :
    ∀ (l : List Ptr) (lower upper : Nat),
      l.Pairwise (fun a b => (objects a).u.timer.timeout ≤ (objects b).u.timer.timeout) →
      (∀ x ∈ l, 0 ≤ (objects x).u.timer.window_length ∧
        ((objects x).u.timer.timeout : Int) + (objects x).u.timer.window_length * 10000
          < (U64_MOD : Int)) →
      lower ≤ upper →
      ((timerqueue_next_timeout objects l (lower, upper)).1 = lower ∨
        ∃ y ∈ l, (timerqueue_next_timeout objects l (lower, upper)).1
            = (objects y).u.timer.timeout ∧
          (objects y).u.timer.timeout < upper) ∧
      (∀ x ∈ l, ((timerqueue_next_timeout objects l (lower, upper)).1 : Int)
        ≤ ((objects x).u.timer.timeout : Int) + (objects x).u.timer.window_length * 10000) ∧
      (∀ h r, l = h :: r → (objects h).u.timer.timeout < upper →
        ∃ y ∈ l, (timerqueue_next_timeout objects l (lower, upper)).1
            = (objects y).u.timer.timeout ∧
          (objects h).u.timer.timeout ≤ (objects y).u.timer.timeout) := by
  intro l
  induction l with
  | nil =>
    intro lower upper _ _ _
    refine ⟨Or.inl rfl, fun x hx => absurd hx (List.not_mem_nil _), ?_⟩
    intro h r e
    cases e
  | cons a l ih =>
    intro lower upper hs hw hle
    rw [List.pairwise_cons] at hs
    have hwa := hw a (List.mem_cons_self _ _)
    unfold timerqueue_next_timeout
    by_cases hb : (objects a).u.timer.timeout ≥ upper
    · rw [if_pos hb]
      refine ⟨Or.inl rfl, ?_, ?_⟩
      · intro x hx
        have hx2 := hw x hx
        have hax : (objects a).u.timer.timeout ≤ (objects x).u.timer.timeout := by
          rcases List.mem_cons.mp hx with e | e
          · rw [e]
          · exact hs.1 x e
        show ((lower : Nat) : Int) ≤ _
        have h1 : (lower : Int) ≤ ((objects x).u.timer.timeout : Int) := by
          exact_mod_cast le_trans hle (le_trans hb hax)
        have := hx2.1
        omega
      · intro h r e hlt
        cases e
        exact absurd hb (not_le.mpr hlt)
    · rw [if_neg hb]
      dsimp only
      have hlt : (objects a).u.timer.timeout < upper := not_le.mp hb
      have hnew : ((objects a).u.timer.timeout +
          ((objects a).u.timer.window_length % (U64_MOD : Int)).toNat * 10000) % U64_MOD
          = (objects a).u.timer.timeout + (objects a).u.timer.window_length.toNat * 10000 := by
        have hwlt : (objects a).u.timer.window_length < (U64_MOD : Int) := by
          have := hwa.2
          have h0 : (0 : Int) ≤ ((objects a).u.timer.timeout : Int) := Int.ofNat_nonneg _
          omega
        rw [Int.emod_eq_of_lt hwa.1 hwlt]
        apply Nat.mod_eq_of_lt
        have := hwa.2
        have h2 : (((objects a).u.timer.window_length.toNat : Nat) : Int)
            = (objects a).u.timer.window_length := Int.toNat_of_nonneg hwa.1
        have h3 : (U64_MOD : Int) = ((U64_MOD : Nat) : Int) := rfl
        omega
      rw [hnew]
      have hle1 : (objects a).u.timer.timeout ≤
          (if (objects a).u.timer.timeout + (objects a).u.timer.window_length.toNat * 10000
              < upper
            then (objects a).u.timer.timeout + (objects a).u.timer.window_length.toNat * 10000
            else upper) := by
        split_ifs <;> omega
      have hup1 : (if (objects a).u.timer.timeout
            + (objects a).u.timer.window_length.toNat * 10000 < upper
            then (objects a).u.timer.timeout + (objects a).u.timer.window_length.toNat * 10000
            else upper) ≤ upper := by
        split_ifs <;> omega
      have hup2 : (if (objects a).u.timer.timeout
            + (objects a).u.timer.window_length.toNat * 10000 < upper
            then (objects a).u.timer.timeout + (objects a).u.timer.window_length.toNat * 10000
            else upper)
          ≤ (objects a).u.timer.timeout + (objects a).u.timer.window_length.toNat * 10000 := by
        split_ifs <;> omega
      obtain ⟨i1, i2, _⟩ := ih (objects a).u.timer.timeout _ hs.2
        (fun x hx => hw x (List.mem_cons_of_mem _ hx)) hle1
      have hfin : (timerqueue_next_timeout objects l ((objects a).u.timer.timeout,
            if (objects a).u.timer.timeout
              + (objects a).u.timer.window_length.toNat * 10000 < upper
            then (objects a).u.timer.timeout + (objects a).u.timer.window_length.toNat * 10000
            else upper)).1 = (objects a).u.timer.timeout ∨
          ∃ y ∈ l, (timerqueue_next_timeout objects l ((objects a).u.timer.timeout,
              if (objects a).u.timer.timeout
                + (objects a).u.timer.window_length.toNat * 10000 < upper
              then (objects a).u.timer.timeout
                + (objects a).u.timer.window_length.toNat * 10000
              else upper)).1 = (objects y).u.timer.timeout ∧
            (objects y).u.timer.timeout < (if (objects a).u.timer.timeout
                + (objects a).u.timer.window_length.toNat * 10000 < upper
              then (objects a).u.timer.timeout
                + (objects a).u.timer.window_length.toNat * 10000
              else upper) := i1
      refine ⟨?_, ?_, ?_⟩
      · right
        rcases hfin with e | ⟨y, hy, e, hy2⟩
        · exact ⟨a, List.mem_cons_self _ _, e, hlt⟩
        · exact ⟨y, List.mem_cons_of_mem _ hy, e, lt_of_lt_of_le hy2 hup1⟩
      · intro x hx
        rcases List.mem_cons.mp hx with e | e
        · rw [e]
          have h2 : (((objects a).u.timer.window_length.toNat : Nat) : Int)
              = (objects a).u.timer.window_length := Int.toNat_of_nonneg hwa.1
          rcases hfin with e1 | ⟨y, hy, e1, hy2⟩
          · rw [e1]
            have := hwa.1
            omega
          · rw [e1]
            have h3 := lt_of_lt_of_le hy2 hup2
            omega
        · exact i2 x e
      · intro h r e _
        cases e
        rcases hfin with e1 | ⟨y, hy, e1, _⟩
        · exact ⟨a, List.mem_cons_self _ _, e1, le_refl _⟩
        · exact ⟨y, List.mem_cons_of_mem _ hy, e1, hs.1 y hy⟩

/-- C24, amended: for a list of pending timers that is sorted by timeout,
with every timeout earlier than `TIMEOUT_INFINITE`, no negative window and
no overflow of `timeout + window_length * 10000`, the value `timeout_lower`
that the timer thread computes is `TIMEOUT_INFINITE` exactly when no timer is
pending.  When a timer is pending, `timeout_lower` is the timeout of a
pending timer and is not earlier than the earliest pending timeout; and for
every pending timer it is not later than the end of the timer's window. -/
theorem timerqueue_timeout_lower_spec (s : State)
    (hs : s.timerqueue.pending_timers.Pairwise
      (fun a b => (s.objects a).u.timer.timeout ≤ (s.objects b).u.timer.timeout))
    (hw : ∀ x ∈ s.timerqueue.pending_timers,
      (s.objects x).u.timer.timeout < TIMEOUT_INFINITE ∧
      0 ≤ (s.objects x).u.timer.window_length ∧
      ((s.objects x).u.timer.timeout : Int) + (s.objects x).u.timer.window_length * 10000
        < (U64_MOD : Int)) :
    (timerqueue_timeout_lower s = TIMEOUT_INFINITE ↔ s.timerqueue.pending_timers = []) ∧
    (s.timerqueue.pending_timers ≠ [] →
      (∃ y ∈ s.timerqueue.pending_timers,
        timerqueue_timeout_lower s = (s.objects y).u.timer.timeout) ∧
      ∃ e ∈ s.timerqueue.pending_timers,
        (∀ x ∈ s.timerqueue.pending_timers,
          (s.objects e).u.timer.timeout ≤ (s.objects x).u.timer.timeout) ∧
        (s.objects e).u.timer.timeout ≤ timerqueue_timeout_lower s) ∧
    (∀ x ∈ s.timerqueue.pending_timers,
      (timerqueue_timeout_lower s : Int)
        ≤ ((s.objects x).u.timer.timeout : Int)
          + (s.objects x).u.timer.window_length * 10000) := by
  obtain ⟨_, h2, h3⟩ := timerqueue_next_timeout_bounds s.objects s.timerqueue.pending_timers
    TIMEOUT_INFINITE TIMEOUT_INFINITE hs (fun x hx => (hw x hx).2) (le_refl _)
  have hne : s.timerqueue.pending_timers ≠ [] →
      (∃ y ∈ s.timerqueue.pending_timers,
        timerqueue_timeout_lower s = (s.objects y).u.timer.timeout) ∧
      ∃ e ∈ s.timerqueue.pending_timers,
        (∀ x ∈ s.timerqueue.pending_timers,
          (s.objects e).u.timer.timeout ≤ (s.objects x).u.timer.timeout) ∧
        (s.objects e).u.timer.timeout ≤ timerqueue_timeout_lower s := by
    intro hn
    cases hl : s.timerqueue.pending_timers with
    | nil => exact absurd hl hn
    | cons a r =>
      have ha : a ∈ s.timerqueue.pending_timers := by
        rw [hl]
        exact List.mem_cons_self _ _
      obtain ⟨y, hy, e, hle⟩ := h3 a r hl (hw a ha).1
      rw [← hl]
      refine ⟨⟨y, hy, e⟩, a, ha, ?_, ?_⟩
      · intro x hx
        rw [hl] at hx hs
        rw [List.pairwise_cons] at hs
        rcases List.mem_cons.mp hx with e1 | e1
        · rw [e1]
        · exact hs.1 x e1
      · show _ ≤ (timerqueue_next_timeout s.objects s.timerqueue.pending_timers
          (TIMEOUT_INFINITE, TIMEOUT_INFINITE)).1
        rw [e]
        exact hle
  refine ⟨⟨?_, ?_⟩, hne, h2⟩
  · intro hinf
    by_contra hn
    obtain ⟨⟨y, hy, e⟩, _⟩ := hne hn
    have := (hw y hy).1
    omega
  · intro hnil
    unfold timerqueue_timeout_lower
    rw [hnil]
    rfl

theorem timerqueue_timeout_lower_spec_witness :
    state_timers_windows.timerqueue.pending_timers = [10, 11] ∧
    timerqueue_timeout_lower state_timers_windows = 20000 ∧
    (timerqueue_timeout_lower state_timers_windows : Int)
      ≤ ((state_timers_windows.objects 10).u.timer.timeout : Int)
        + (state_timers_windows.objects 10).u.timer.window_length * 10000 :=
  ⟨by decide, by decide,
    (timerqueue_timeout_lower_spec state_timers_windows (by decide)
      (by unfold TIMEOUT_INFINITE U64_MOD; decide)).2.2 10 (by decide)⟩

/-- C24 as stated fails for a timer whose timeout is `TIMEOUT_INFINITE`: the
list of `state_timer_far` holds timer 10 with the timeout `2 ^ 63 - 1` and
the window 0, it is sorted and nothing overflows, and the timer thread
computes `TIMEOUT_INFINITE` for `timeout_lower` although a timer is
pending. -/
theorem timerqueue_timeout_lower_counterexample :
    state_timer_far.timerqueue.pending_timers = [10] ∧
    (state_timer_far.objects 10).u.timer.timeout = 9223372036854775807 ∧
    (state_timer_far.objects 10).u.timer.window_length = 0 ∧
    timerqueue_timeout_lower state_timer_far = TIMEOUT_INFINITE ∧
    ¬ (timerqueue_timeout_lower state_timer_far = TIMEOUT_INFINITE ↔
      state_timer_far.timerqueue.pending_timers = []) := by
  unfold TIMEOUT_INFINITE
  decide

/-- The second half of a turn of the expiry loop, after the submission left
the state `s1`. -/
theorem timerqueue_requeue_turn (s1 : State) (timer : Ptr) (next : Nat) (t : State)
    (he : (if (s1.objects timer).u.timer.period ≠ 0 ∧ (s1.objects timer).shutdown = false then
        some (({ s1.set_object timer
            { s1.objects timer with u := { (s1.objects timer).u with timer :=
              { (s1.objects timer).u.timer with timeout := next } } } with
          timerqueue := { (s1.set_object timer
            { s1.objects timer with u := { (s1.objects timer).u with timer :=
              { (s1.objects timer).u.timer with timeout := next } } }).timerqueue with
            pending_timers := timer_list_insert
              (update s1.objects timer
                { s1.objects timer with u := { (s1.objects timer).u with timer :=
                  { (s1.objects timer).u.timer with timeout := next } } })
              next timer s1.timerqueue.pending_timers } } : State).set_object timer
            { (update s1.objects timer
                { s1.objects timer with u := { (s1.objects timer).u with timer :=
                  { (s1.objects timer).u.timer with timeout := next } } } timer) with
              u := { (update s1.objects timer
                { s1.objects timer with u := { (s1.objects timer).u with timer :=
                  { (s1.objects timer).u.timer with timeout := next } } } timer).u with
                timer := { (update s1.objects timer
                  { s1.objects timer with u := { (s1.objects timer).u with timer :=
                    { (s1.objects timer).u.timer with timeout := next } } } timer).u.timer with
                  timer_pending := true } } })
      else some s1) = some t) :
    (∀ x, x ≠ timer → t.objects x = s1.objects x) ∧
    (t.objects timer).num_pending_callbacks = (s1.objects timer).num_pending_callbacks ∧
    (t.objects timer).refcount = (s1.objects timer).refcount ∧
    (t.objects timer).shutdown = (s1.objects timer).shutdown ∧
    (t.objects timer).u.timer.period = (s1.objects timer).u.timer.period ∧
    (if (s1.objects timer).u.timer.period ≠ 0 ∧ (s1.objects timer).shutdown = false then
      (∃ objs, t.timerqueue.pending_timers
        = timer_list_insert objs next timer s1.timerqueue.pending_timers) ∧
      (t.objects timer).u.timer.timer_pending = true ∧
      (t.objects timer).u.timer.timeout = next
    else
      t.timerqueue.pending_timers = s1.timerqueue.pending_timers ∧
      (t.objects timer).u.timer = (s1.objects timer).u.timer) := by
  by_cases h2 : (s1.objects timer).u.timer.period ≠ 0 ∧ (s1.objects timer).shutdown = false
  · rw [if_pos h2] at he
    rw [if_pos h2]
    cases he
    refine ⟨?_, ?_, ?_, ?_, ?_, ⟨_, rfl⟩, ?_, ?_⟩
    · intro x hx
      show update (update s1.objects timer _) timer _ x = _
      rw [update_of_ne _ _ _ _ hx, update_of_ne _ _ _ _ hx]
    · show (update (update s1.objects timer _) timer _ timer).num_pending_callbacks = _
      rw [update_same, update_same]
    · show (update (update s1.objects timer _) timer _ timer).refcount = _
      rw [update_same, update_same]
    · show (update (update s1.objects timer _) timer _ timer).shutdown = _
      rw [update_same, update_same]
    · show (update (update s1.objects timer _) timer _ timer).u.timer.period = _
      rw [update_same, update_same]
    · show (update (update s1.objects timer _) timer _ timer).u.timer.timer_pending = _
      rw [update_same]
    · show (update (update s1.objects timer _) timer _ timer).u.timer.timeout = _
      rw [update_same, update_same]
  · rw [if_neg h2] at he
    rw [if_neg h2]
    cases he
    exact ⟨fun _ _ => rfl, rfl, rfl, rfl, rfl, rfl, rfl⟩

/-- One turn of the expiry loop: the head of the list, which is due, is
submitted once; a periodic timer that is not shut down goes back into the
list with its next timeout, any other timer stays out of the list. -/
theorem timerqueue_expire_turn (s t : State) (now : Nat) (st : NTSTATUS)
    (he : timerqueue_expire s now st = some t) :
    ∃ timer, list_head s.timerqueue.pending_timers = some timer ∧
      (s.objects timer).u.timer.timeout ≤ now ∧
      (∀ x, x ≠ timer → t.objects x = s.objects x) ∧
      (t.objects timer).num_pending_callbacks = (s.objects timer).num_pending_callbacks + 1 ∧
      (t.objects timer).refcount = (s.objects timer).refcount + 1 ∧
      (t.objects timer).shutdown = (s.objects timer).shutdown ∧
      (t.objects timer).u.timer.period = (s.objects timer).u.timer.period ∧
      (if (s.objects timer).u.timer.period ≠ 0 ∧ (s.objects timer).shutdown = false then
        (∃ objs, t.timerqueue.pending_timers
          = timer_list_insert objs (timer_next_timeout (s.objects timer) now) timer
              (list_remove s.timerqueue.pending_timers timer)) ∧
        (t.objects timer).u.timer.timer_pending = true ∧
        (t.objects timer).u.timer.timeout = timer_next_timeout (s.objects timer) now
      else
        t.timerqueue.pending_timers = list_remove s.timerqueue.pending_timers timer ∧
        (t.objects timer).u.timer.timer_pending = false ∧
        (t.objects timer).u.timer.timeout = (s.objects timer).u.timer.timeout) := by
  unfold timerqueue_expire at he
  cases hh : list_head s.timerqueue.pending_timers with
  | none =>
    rw [hh] at he
    cases he
  | some timer =>
    rw [hh] at he
    dsimp only at he
    by_cases h1 : (s.objects timer).u.timer.timeout > now
    · rw [if_pos h1] at he
      cases he
    · rw [if_neg h1] at he
      have hq := (tp_object_submit_timers
        ({ s with timerqueue := { s.timerqueue with
            pending_timers := list_remove s.timerqueue.pending_timers timer } }.set_object timer
          { s.objects timer with u := { (s.objects timer).u with timer :=
            { (s.objects timer).u.timer with timer_pending := false } } }) timer false st).1
      have ho := tp_object_submit_objects
        ({ s with timerqueue := { s.timerqueue with
            pending_timers := list_remove s.timerqueue.pending_timers timer } }.set_object timer
          { s.objects timer with u := { (s.objects timer).u with timer :=
            { (s.objects timer).u.timer with timer_pending := false } } }) timer false st
      obtain ⟨k1, k2, k6, k3, k4, k5⟩ := timerqueue_requeue_turn _ timer _ t he
      rw [ho] at k1 k2 k3 k4 k5 k6
      rw [hq] at k5
      simp only [State.set_object, update_same] at k1 k2 k3 k4 k5 k6
      refine ⟨timer, rfl, not_lt.mp h1, ?_, ?_, ?_, k3, k4, ?_⟩
      · intro x hx
        rw [k1 x hx, update_of_ne _ _ _ _ hx, update_of_ne _ _ _ _ hx]
      · rw [k2]
      · rw [k6]
      · by_cases h2 : (s.objects timer).u.timer.period ≠ 0 ∧ (s.objects timer).shutdown = false
        · rw [if_pos h2] at k5 ⊢
          exact k5
        · rw [if_neg h2] at k5 ⊢
          refine ⟨k5.1, ?_, ?_⟩
          · rw [k5.2]
          · rw [k5.2]

theorem timer_list_insert_perm (objects : Ptr → threadpool_object) (timeout : Nat)
    (timer : Ptr) :
    ∀ l : List Ptr, (timer_list_insert objects timeout timer l).Perm (timer :: l) := by
  intro l
  induction l with
  | nil => exact List.Perm.refl _
  | cons a l ih =>
    unfold timer_list_insert
    split_ifs
    · exact List.Perm.refl _
    · exact (List.Perm.cons a ih).trans (List.Perm.swap timer a l)

theorem timer_next_timeout_later (o : threadpool_object) (now : Nat)
    (hnow : now + 1 < U64_MOD) : now < timer_next_timeout o now := by
  unfold timer_next_timeout
  split_ifs with h
  · rw [Nat.mod_eq_of_lt hnow]
    exact Nat.lt_succ_self _
  · exact not_le.mp h

theorem timerqueue_expire_none (s : State) (now : Nat) (st : NTSTATUS)
    (h : ∀ x ∈ s.timerqueue.pending_timers, now < (s.objects x).u.timer.timeout) :
    timerqueue_expire s now st = none := by
  unfold timerqueue_expire
  cases hh : list_head s.timerqueue.pending_timers with
  | none => rfl
  | some timer =>
    have hm : timer ∈ s.timerqueue.pending_timers := by
      unfold list_head at hh
      exact List.mem_of_mem_head? hh
    dsimp only
    rw [if_pos (h timer hm)]

theorem timerqueue_expire_none_later (s : State) (now : Nat) (st : NTSTATUS)
    (hs : timers_sorted s) (he : timerqueue_expire s now st = none) :
    ∀ x ∈ s.timerqueue.pending_timers, now < (s.objects x).u.timer.timeout := by
  unfold timerqueue_expire at he
  cases hl : s.timerqueue.pending_timers with
  | nil => intro x hx; cases hx
  | cons a l =>
    have hh : list_head s.timerqueue.pending_timers = some a := by
      rw [hl]
      rfl
    rw [hh] at he
    dsimp only at he
    have h1 : (s.objects a).u.timer.timeout > now := by
      by_contra hc
      rw [if_neg hc] at he
      split_ifs at he
    have hp := hs.1
    rw [hl, List.pairwise_cons] at hp
    intro x hx
    rcases List.mem_cons.mp hx with e | e
    · rw [e]
      exact h1
    · exact lt_of_lt_of_le h1 (hp.1 x e)

/-- A pass of the expiry loop that is given at least as many turns as there
are due timers. -/
theorem timerqueue_expire_loop_pass (now : Nat) (thread_status : Nat → NTSTATUS)
    (hnow : now + 1 < U64_MOD) :
    ∀ (turns : Nat) (s : State), timers_sorted s →
      s.timerqueue.pending_timers.countP
        (fun x => decide ((s.objects x).u.timer.timeout ≤ now)) ≤ turns →
      (∀ st, timerqueue_expire (timerqueue_expire_loop now thread_status turns s) now st
        = none) ∧
      (∀ x, timer_due s now x →
        ((timerqueue_expire_loop now thread_status turns s).objects x).num_pending_callbacks
          = (s.objects x).num_pending_callbacks + 1 ∧
        ((timerqueue_expire_loop now thread_status turns s).objects x).refcount
          = (s.objects x).refcount + 1 ∧
        (if (s.objects x).u.timer.period ≠ 0 ∧ (s.objects x).shutdown = false then
          x ∈ (timerqueue_expire_loop now thread_status turns s).timerqueue.pending_timers ∧
          ((timerqueue_expire_loop now thread_status turns s).objects x).u.timer.timer_pending
            = true ∧
          ((timerqueue_expire_loop now thread_status turns s).objects x).u.timer.timeout
            = timer_next_timeout (s.objects x) now
        else
          x ∉ (timerqueue_expire_loop now thread_status turns s).timerqueue.pending_timers ∧
          ((timerqueue_expire_loop now thread_status turns s).objects x).u.timer.timer_pending
            = false)) ∧
      (∀ x, ¬ timer_due s now x →
        (timerqueue_expire_loop now thread_status turns s).objects x = s.objects x ∧
        (x ∈ (timerqueue_expire_loop now thread_status turns s).timerqueue.pending_timers
          ↔ x ∈ s.timerqueue.pending_timers)) ∧
      timers_sorted (timerqueue_expire_loop now thread_status turns s) ∧
      ∀ x ∈ (timerqueue_expire_loop now thread_status turns s).timerqueue.pending_timers,
        now < ((timerqueue_expire_loop now thread_status turns s).objects x).u.timer.timeout := by
  -- a state in which no pending timer is due
  have idle : ∀ s : State, timers_sorted s →
      (∀ x ∈ s.timerqueue.pending_timers, now < (s.objects x).u.timer.timeout) →
      (∀ st, timerqueue_expire s now st = none) ∧
      (∀ x, timer_due s now x →
        (s.objects x).num_pending_callbacks = (s.objects x).num_pending_callbacks + 1 ∧
        (s.objects x).refcount = (s.objects x).refcount + 1 ∧
        (if (s.objects x).u.timer.period ≠ 0 ∧ (s.objects x).shutdown = false then
          x ∈ s.timerqueue.pending_timers ∧ (s.objects x).u.timer.timer_pending = true ∧
          (s.objects x).u.timer.timeout = timer_next_timeout (s.objects x) now
        else
          x ∉ s.timerqueue.pending_timers ∧ (s.objects x).u.timer.timer_pending = false)) ∧
      (∀ x, ¬ timer_due s now x →
        s.objects x = s.objects x ∧
        (x ∈ s.timerqueue.pending_timers ↔ x ∈ s.timerqueue.pending_timers)) ∧
      timers_sorted s ∧
      ∀ x ∈ s.timerqueue.pending_timers, now < (s.objects x).u.timer.timeout := by
    intro s hs hl
    refine ⟨fun st => timerqueue_expire_none s now st hl, ?_, fun _ _ => ⟨rfl, Iff.rfl⟩, hs, hl⟩
    intro x hx
    exact absurd hx.2 (not_le.mpr (hl x hx.1))
  intro turns
  induction turns with
  | zero =>
    intro s hs hd
    apply idle s hs
    intro x hx
    by_contra hc
    have : 0 < s.timerqueue.pending_timers.countP
        (fun x => decide ((s.objects x).u.timer.timeout ≤ now)) :=
      List.countP_pos_iff.mpr ⟨x, hx, by simpa using hc⟩
    omega
  | succ n ih =>
    intro s hs hd
    unfold timerqueue_expire_loop
    cases he : timerqueue_expire s now (thread_status n) with
    | none =>
      exact idle s hs (timerqueue_expire_none_later s now _ hs he)
    | some s1 =>
      dsimp only
      obtain ⟨timer, hh, hdue, hoff, hpend, href, hshut, hper, hcase⟩ :=
        timerqueue_expire_turn s s1 now _ he
      have hs1 := timers_sorted_expire s s1 now _ hs he
      -- the list of the state before the turn
      obtain ⟨tl, hl⟩ : ∃ tl, s.timerqueue.pending_timers = timer :: tl := by
        unfold list_head at hh
        cases hp : s.timerqueue.pending_timers with
        | nil =>
          rw [hp] at hh
          cases hh
        | cons a l =>
          rw [hp] at hh
          simp only [List.head?_cons, Option.some.injEq] at hh
          exact ⟨l, by rw [hh]⟩
      have hnd := hs.2.1
      rw [hl, List.nodup_cons] at hnd
      have hrm : list_remove s.timerqueue.pending_timers timer = tl := by
        rw [hl]
        unfold list_remove
        rw [List.filter_cons_of_neg (by simp)]
        exact list_remove_of_not_mem tl timer hnd.1
      have htm : timer ∈ s.timerqueue.pending_timers := by
        rw [hl]
        exact List.mem_cons_self _ _
      -- the list after the turn
      have hmem : ∀ x, x ≠ timer →
          (x ∈ s1.timerqueue.pending_timers ↔ x ∈ s.timerqueue.pending_timers) := by
        intro x hx
        have hrest : x ∈ tl ↔ x ∈ s.timerqueue.pending_timers := by
          rw [hl, List.mem_cons]
          exact ⟨Or.inr, fun h => h.resolve_left hx⟩
        split_ifs at hcase with hc
        · obtain ⟨⟨objs, e⟩, _, _⟩ := hcase
          rw [e, timer_list_insert_mem, hrm]
          exact ⟨fun h => hrest.mp (h.resolve_left hx), fun h => Or.inr (hrest.mpr h)⟩
        · rw [hcase.1, hrm]
          exact hrest
      have hnot : ¬ timer_due s1 now timer := by
        intro hd1
        split_ifs at hcase with hc
        · have := timer_next_timeout_later (s.objects timer) now hnow
          have h2 := hd1.2
          rw [hcase.2.2] at h2
          omega
        · have h1 := hd1.1
          rw [hcase.1, hrm] at h1
          exact hnd.1 h1
      have hdue_iff : ∀ x, x ≠ timer → (timer_due s1 now x ↔ timer_due s now x) := by
        intro x hx
        unfold timer_due
        rw [hmem x hx, hoff x hx]
      -- one due timer less
      have hcount : s1.timerqueue.pending_timers.countP
          (fun x => decide ((s1.objects x).u.timer.timeout ≤ now)) ≤ n := by
        have h1 : s.timerqueue.pending_timers.countP
            (fun x => decide ((s.objects x).u.timer.timeout ≤ now))
            = tl.countP (fun x => decide ((s.objects x).u.timer.timeout ≤ now)) + 1 := by
          rw [hl, List.countP_cons_of_pos]
          simpa using hdue
        have h2 : tl.countP (fun x => decide ((s1.objects x).u.timer.timeout ≤ now))
            = tl.countP (fun x => decide ((s.objects x).u.timer.timeout ≤ now)) := by
          apply List.countP_congr
          intro x hx
          have hne : x ≠ timer := fun e => hnd.1 (e ▸ hx)
          rw [hoff x hne]
        have h3 : s1.timerqueue.pending_timers.countP
            (fun x => decide ((s1.objects x).u.timer.timeout ≤ now))
            = tl.countP (fun x => decide ((s1.objects x).u.timer.timeout ≤ now)) := by
          split_ifs at hcase with hc
          · obtain ⟨⟨objs, e⟩, _, e2⟩ := hcase
            rw [e, hrm, (timer_list_insert_perm objs _ timer tl).countP_eq,
              List.countP_cons_of_neg]
            have := timer_next_timeout_later (s.objects timer) now hnow
            rw [e2]
            simpa using this
          · rw [hcase.1, hrm]
        omega
      obtain ⟨i1, i2, i3, i4, i5⟩ := ih s1 hs1 hcount
      refine ⟨i1, ?_, ?_, i4, i5⟩
      · intro x hx
        by_cases hxt : x = timer
        · subst hxt
          obtain ⟨e1, e2⟩ := i3 x hnot
          rw [e1, hpend, href]
          refine ⟨rfl, rfl, ?_⟩
          split_ifs at hcase ⊢ with hc
          · obtain ⟨⟨objs, e⟩, f1, f2⟩ := hcase
            refine ⟨e2.mpr ?_, f1, f2⟩
            rw [e]
            exact (timer_list_insert_mem _ _ _ _ _).mpr (Or.inl rfl)
          · refine ⟨fun hm => ?_, hcase.2.1⟩
            have := e2.mp hm
            rw [hcase.1, hrm] at this
            exact hnd.1 this
        · have := i2 x ((hdue_iff x hxt).mpr hx)
          rw [hoff x hxt] at this
          exact this
      · intro x hx
        have hxt : x ≠ timer := fun e => hx (e ▸ ⟨htm, hdue⟩)
        obtain ⟨e1, e2⟩ := i3 x (fun h => hx ((hdue_iff x hxt).mp h))
        exact ⟨e1.trans (hoff x hxt), e2.trans (hmem x hxt)⟩

theorem timer_next_timeout_eq (o : threadpool_object) (now : Nat)
    (hp : 0 ≤ o.u.timer.period)
    (ho : (o.u.timer.timeout : Int) + o.u.timer.period * 10000 < (U64_MOD : Int))
    (hnow : now + 1 < U64_MOD) :
    ((now : Int) < (o.u.timer.timeout : Int) + o.u.timer.period * 10000 →
      (timer_next_timeout o now : Int) = (o.u.timer.timeout : Int) + o.u.timer.period * 10000) ∧
    ((o.u.timer.timeout : Int) + o.u.timer.period * 10000 ≤ (now : Int) →
      timer_next_timeout o now = now + 1) := by
  have hplt : o.u.timer.period < (U64_MOD : Int) := by
    have h0 : (0 : Int) ≤ (o.u.timer.timeout : Int) := Int.ofNat_nonneg _
    omega
  have h2 : ((o.u.timer.period.toNat : Nat) : Int) = o.u.timer.period := Int.toNat_of_nonneg hp
  have h3 : (U64_MOD : Int) = ((U64_MOD : Nat) : Int) := rfl
  have hto : (o.u.timer.timeout + (o.u.timer.period % (U64_MOD : Int)).toNat * 10000) % U64_MOD
      = o.u.timer.timeout + o.u.timer.period.toNat * 10000 := by
    rw [Int.emod_eq_of_lt hp hplt]
    apply Nat.mod_eq_of_lt
    omega
  unfold timer_next_timeout
  rw [hto, Nat.mod_eq_of_lt hnow]
  constructor
  · intro h
    rw [if_neg (by omega)]
    push_cast
    omega
  · intro h
    rw [if_pos (by omega)]

/-- C23: one pass of the expiry loop of the timer thread at the time `now`,
on a sorted list of pending timers, with `now + 1` a `ULONGLONG`, periods of
due timers that are not negative and no overflow of
`timeout + period * 10000`, and at least as many turns as there are pending
timers.  The pass ends: afterwards the loop condition fails.  Every timer
that was pending with `timeout ≤ now` was submitted exactly once (one more
pending callback, one more reference); with a period other than 0 and not
shut down it is in the list once, with `timer_pending` set and the timeout
`timeout + period * 10000` when that is later than `now` and `now + 1`
otherwise; as a one-shot or shut-down timer it is not in the list and
`timer_pending` is clear.  No other object is changed and no other timer
enters or leaves the list.  The list stays sorted and every pending timer
has `timeout > now`. -/
theorem timerqueue_expire_loop_spec (s : State) (now : Nat) (thread_status : Nat → NTSTATUS)
    (turns : Nat) (hs : timers_sorted s) (hnow : now + 1 < U64_MOD)
    (hp : ∀ x, timer_due s now x → 0 ≤ (s.objects x).u.timer.period ∧
      ((s.objects x).u.timer.timeout : Int) + (s.objects x).u.timer.period * 10000
        < (U64_MOD : Int))
    (ht : s.timerqueue.pending_timers.length ≤ turns) :
    (∀ st, timerqueue_expire (timerqueue_expire_loop now thread_status turns s) now st
      = none) ∧
    (∀ x ∈ s.timerqueue.pending_timers, (s.objects x).u.timer.timeout ≤ now →
      ((timerqueue_expire_loop now thread_status turns s).objects x).num_pending_callbacks
        = (s.objects x).num_pending_callbacks + 1 ∧
      ((timerqueue_expire_loop now thread_status turns s).objects x).refcount
        = (s.objects x).refcount + 1 ∧
      ((s.objects x).u.timer.period ≠ 0 → (s.objects x).shutdown = false →
        (timerqueue_expire_loop now thread_status turns s).timerqueue.pending_timers.count x
          = 1 ∧
        ((timerqueue_expire_loop now thread_status turns s).objects x).u.timer.timer_pending
          = true ∧
        ((now : Int) < ((s.objects x).u.timer.timeout : Int)
            + (s.objects x).u.timer.period * 10000 →
          (((timerqueue_expire_loop now thread_status turns s).objects x).u.timer.timeout : Int)
            = ((s.objects x).u.timer.timeout : Int) + (s.objects x).u.timer.period * 10000) ∧
        (((s.objects x).u.timer.timeout : Int) + (s.objects x).u.timer.period * 10000
            ≤ (now : Int) →
          ((timerqueue_expire_loop now thread_status turns s).objects x).u.timer.timeout
            = now + 1)) ∧
      ((s.objects x).u.timer.period = 0 ∨ (s.objects x).shutdown = true →
        x ∉ (timerqueue_expire_loop now thread_status turns s).timerqueue.pending_timers ∧
        ((timerqueue_expire_loop now thread_status turns s).objects x).u.timer.timer_pending
          = false)) ∧
    (∀ x, ¬ (x ∈ s.timerqueue.pending_timers ∧ (s.objects x).u.timer.timeout ≤ now) →
      (timerqueue_expire_loop now thread_status turns s).objects x = s.objects x ∧
      (x ∈ (timerqueue_expire_loop now thread_status turns s).timerqueue.pending_timers
        ↔ x ∈ s.timerqueue.pending_timers)) ∧
    (timerqueue_expire_loop now thread_status turns s).timerqueue.pending_timers.Pairwise
      (fun a b =>
        ((timerqueue_expire_loop now thread_status turns s).objects a).u.timer.timeout
          ≤ ((timerqueue_expire_loop now thread_status turns s).objects b).u.timer.timeout) ∧
    (∀ x ∈ (timerqueue_expire_loop now thread_status turns s).timerqueue.pending_timers,
      now < ((timerqueue_expire_loop now thread_status turns s).objects x).u.timer.timeout) := by
  obtain ⟨p1, p2, p3, p4, p5⟩ := timerqueue_expire_loop_pass now thread_status hnow turns s hs
    (le_trans (List.countP_le_length _) ht)
  refine ⟨p1, ?_, p3, p4.1, p5⟩
  intro x hx hdue
  obtain ⟨q1, q2, q3⟩ := p2 x ⟨hx, hdue⟩
  obtain ⟨h1, h2⟩ := hp x ⟨hx, hdue⟩
  refine ⟨q1, q2, ?_, ?_⟩
  · intro hper hshut
    rw [if_pos ⟨hper, hshut⟩] at q3
    have hn := timer_next_timeout_eq (s.objects x) now h1 h2 hnow
    refine ⟨List.count_eq_one_of_mem p4.2.1 q3.1, q3.2.1, ?_, ?_⟩
    · intro hlt
      rw [q3.2.2]
      exact hn.1 hlt
    · intro hle
      rw [q3.2.2]
      exact hn.2 hle
  · intro hc
    rw [if_neg (by
      intro hh
      rcases hc with e | e
      · exact hh.1 e
      · rw [hh.2] at e
        cases e)] at q3
    exact q3

theorem state_timers_periodic_reachable : timer_reachable state_timers_periodic :=
  timer_reachable.step _ _
    (timer_reachable.step _ _ state_two_timers_reachable trivial) trivial

theorem timerqueue_expire_loop_spec_witness :
    state_timers_periodic.timerqueue.pending_timers = [11, 10] ∧
    (state_timers_periodic.objects 10).num_pending_callbacks = 0 ∧
    ((timerqueue_expire_loop 1000 (fun _ => STATUS_SUCCESS) 2
      state_timers_periodic).objects 10).num_pending_callbacks = 1 ∧
    (((timerqueue_expire_loop 1000 (fun _ => STATUS_SUCCESS) 2
      state_timers_periodic).objects 11).u.timer.timeout : Int) = 20300 :=
  ⟨by decide, by decide,
    ((timerqueue_expire_loop_spec state_timers_periodic 1000 (fun _ => STATUS_SUCCESS) 2
      (timer_reachable_sorted _ state_timers_periodic_reachable)
      (by unfold U64_MOD; decide)
      (by
        intro x hx
        have hm : x ∈ [11, 10] := hx.1
        simp only [List.mem_cons, List.mem_singleton, List.not_mem_nil, or_false] at hm
        rcases hm with rfl | rfl <;> (unfold U64_MOD; decide))
      (by decide)).2.1 10 (by decide) (by decide)).1.trans (by decide),
    (((timerqueue_expire_loop_spec state_timers_periodic 1000 (fun _ => STATUS_SUCCESS) 2
      (timer_reachable_sorted _ state_timers_periodic_reachable)
      (by unfold U64_MOD; decide)
      (by
        intro x hx
        have hm : x ∈ [11, 10] := hx.1
        simp only [List.mem_cons, List.mem_singleton, List.not_mem_nil, or_false] at hm
        rcases hm with rfl | rfl <;> (unfold U64_MOD; decide))
      (by decide)).2.1 11 (by decide) (by decide)).2.2.1 (by decide) (by decide)).2.2.1
      (by decide) |>.trans (by decide)⟩

theorem threadpool_worker_dispatch_split (s : State) (pool object : Ptr) (threadid : Nat)
    (user : List instance_call) :
    threadpool_worker_dispatch s pool object threadid user =
      threadpool_worker_finish
        ( tp_object_execute_finalization
          (run_instance_calls
            ( tp_object_execute_callback (threadpool_worker_enter s pool object threadid).1
              object (threadpool_worker_enter s pool object threadid).2.2.1
              (threadpool_worker_enter s pool object threadid).2.2.2)
            (threadpool_worker_enter s pool object threadid).2.1 user).1 object)
        pool object
        (run_instance_calls
          ( tp_object_execute_callback (threadpool_worker_enter s pool object threadid).1
            object (threadpool_worker_enter s pool object threadid).2.2.1
            (threadpool_worker_enter s pool object threadid).2.2.2)
          (threadpool_worker_enter s pool object threadid).2.1 user).2 := rfl

theorem queue_remove_entry (p : threadpool) (x : Ptr) :
    (p.remove_entry x).queue = list_remove p.queue x := by
  simp [threadpool.queue, threadpool.remove_entry, list_remove, List.filter_append]

theorem list_remove_count (l : List Ptr) (x y : Ptr) :
    (list_remove l x).count y = if y = x then 0 else l.count y := by
  unfold list_remove
  split_ifs with h
  · subst h
    exact List.count_eq_zero_of_not_mem (by simp)
  · exact List.count_filter (by simpa using h)

theorem list_remove_length (l : List Ptr) (x : Ptr) :
    (list_remove l x).length + l.count x = l.length := by
  unfold list_remove
  induction l with
  | nil => rfl
  | cons a l ih =>
    by_cases h : a = x
    · subst h
      simp only [List.filter_cons, bne_self_eq_false, Bool.false_eq_true, if_false,
        List.count_cons_self, List.length_cons]
      omega
    · have h1 : (a != x) = true := by simpa using h
      simp only [List.filter_cons, h1, if_true, List.length_cons]
      rw [List.count_cons_of_ne (Ne.symm h)]
      omega

theorem queue_set_pools (p : threadpool) (i : Nat) (x : Ptr) (h : i < 3) :
    (∀ y, (p.set_pools i (p.pools i ++ [x])).queue.count y
      = p.queue.count y + (if y = x then 1 else 0)) ∧
    (p.set_pools i (p.pools i ++ [x])).queue.length = p.queue.length + 1 := by
  have : i = 0 ∨ i = 1 ∨ i = 2 := by omega
  rcases this with e | e | e <;> subst e
  all_goals
    constructor
    · intro y
      by_cases hy : y = x
      · subst hy
        simp [threadpool.queue, threadpool.set_pools, threadpool.pools, List.count_append]
        omega
      · simp [threadpool.queue, threadpool.set_pools, threadpool.pools, List.count_append,
          List.count_cons, hy, Ne.symm hy]
    · simp [threadpool.queue, threadpool.set_pools, threadpool.pools]
      omega

theorem queue_of_pools (p p1 : threadpool) (h : ∀ i, p1.pools i = p.pools i) :
    p1.queue = p.queue := by
  have h0 := h 0
  have h1 := h 1
  have h2 := h 2
  simp only [threadpool.pools, if_true, OfNat.ofNat_ne_zero, OfNat.ofNat_ne_one,
    if_false, one_ne_zero] at h0 h1 h2
  unfold threadpool.queue
  rw [h0, h1, h2]

theorem mem_queue (p : threadpool) (x : Ptr) : x ∈ p.queue ↔ ∃ i, x ∈ p.pools i := by
  unfold threadpool.queue
  simp only [List.mem_append]
  constructor
  · rintro ((h | h) | h)
    · exact ⟨0, h⟩
    · exact ⟨1, h⟩
    · exact ⟨2, h⟩
  · rintro ⟨i, h⟩
    unfold threadpool.pools at h
    split_ifs at h
    · exact Or.inl (Or.inl h)
    · exact Or.inl (Or.inr h)
    · exact Or.inr h
    · cases h

theorem queues_exact_view (q : queue_state) (t : State) (h : queues_exact q)
    (hp : ∀ p, (∀ i, (t.pools p).pools i = (q.state.pools p).pools i) ∧
      (t.pools p).num_busy_workers = (q.state.pools p).num_busy_workers)
    (ho : ∀ x, (t.objects x).pool = (q.state.objects x).pool ∧
      (t.objects x).priority = (q.state.objects x).priority ∧
      (t.objects x).num_pending_callbacks = (q.state.objects x).num_pending_callbacks) :
    queues_exact ⟨t, q.executing, q.cancelled⟩ := by
  have hq : ∀ p, (t.pools p).queue = (q.state.pools p).queue :=
    fun p => queue_of_pools _ _ (hp p).1
  refine ⟨?_, ?_, ?_, ?_, ?_⟩
  · intro p x
    show (t.pools p).queue.count x = if (t.objects x).pool = p ∧
      0 < (t.objects x).num_pending_callbacks then 1 else 0
    rw [hq p, (ho x).1, (ho x).2.2]
    exact h.once p x
  · intro p i x hx
    show (t.objects x).priority = i
    rw [(ho x).2.1]
    apply h.own_list p i x
    rw [← (hp p).1 i]
    exact hx
  · intro x
    show (t.objects x).priority < 3
    rw [(ho x).2.1]
    exact h.priority x
  · intro x
    show 0 ≤ (t.objects x).num_pending_callbacks
    rw [(ho x).2.2]
    exact h.pending x
  · intro p
    show (t.pools p).num_busy_workers = ((t.pools p).queue.length : Int) + _ + _
    rw [hq p, (hp p).2]
    exact h.busy p

theorem submit_pool_queue (p : threadpool) (o : threadpool_object) (a : Ptr) (st : NTSTATUS)
    (hprio : o.priority < 3) :
    (∀ y, (submit_pool p o a st).queue.count y
      = p.queue.count y + (if o.num_pending_callbacks = 0 ∧ y = a then 1 else 0)) ∧
    (submit_pool p o a st).queue.length
      = p.queue.length + (if o.num_pending_callbacks = 0 then 1 else 0) ∧
    (submit_pool p o a st).num_busy_workers
      = p.num_busy_workers + (if o.num_pending_callbacks = 0 then 1 else 0) := by
  have key : ∀ p1 : threadpool, p1.queue = p.queue → (∀ i, p1.pools i = p.pools i) →
      p1.num_busy_workers = p.num_busy_workers →
      (∀ y, (if o.num_pending_callbacks = 0 then
          { p1 with num_busy_workers := p1.num_busy_workers + 1 }.set_pools o.priority
            (p1.pools o.priority ++ [a])
        else p1).queue.count y
        = p.queue.count y + (if o.num_pending_callbacks = 0 ∧ y = a then 1 else 0)) ∧
      (if o.num_pending_callbacks = 0 then
          { p1 with num_busy_workers := p1.num_busy_workers + 1 }.set_pools o.priority
            (p1.pools o.priority ++ [a])
        else p1).queue.length
        = p.queue.length + (if o.num_pending_callbacks = 0 then 1 else 0) ∧
      (if o.num_pending_callbacks = 0 then
          { p1 with num_busy_workers := p1.num_busy_workers + 1 }.set_pools o.priority
            (p1.pools o.priority ++ [a])
        else p1).num_busy_workers
        = p.num_busy_workers + (if o.num_pending_callbacks = 0 then 1 else 0) := by
    intro p1 hq _ hb
    by_cases h0 : o.num_pending_callbacks = 0
    · simp only [h0, if_true, true_and]
      have hs := queue_set_pools { p1 with num_busy_workers := p1.num_busy_workers + 1 }
        o.priority a hprio
      refine ⟨?_, ?_, ?_⟩
      · intro y
        rw [← hq]
        exact hs.1 y
      · rw [← hq]
        exact hs.2
      · show p1.num_busy_workers + 1 = _
        rw [hb]
    · simp only [h0, if_false, false_and, add_zero]
      exact ⟨fun y => by rw [hq], by rw [hq], hb⟩
  exact key
    (if p.num_busy_workers ≥ p.num_workers ∧ p.num_workers < p.max_workers ∧
        st = STATUS_SUCCESS then
      { p with refcount := p.refcount + 1, num_workers := p.num_workers + 1 }
    else p)
    (by split_ifs <;> rfl) (fun i => by split_ifs <;> rfl) (by split_ifs <;> rfl)

theorem submit_pool_mem (p : threadpool) (o : threadpool_object) (a : Ptr) (st : NTSTATUS)
    (i : Nat) (x : Ptr) (hx : x ∈ (submit_pool p o a st).pools i) :
    x ∈ p.pools i ∨ (x = a ∧ i = o.priority) := by
  have key : ∀ p1 : threadpool, (∀ j, p1.pools j = p.pools j) →
      x ∈ (if o.num_pending_callbacks = 0 then
          { p1 with num_busy_workers := p1.num_busy_workers + 1 }.set_pools o.priority
            (p1.pools o.priority ++ [a])
        else p1).pools i → x ∈ p.pools i ∨ (x = a ∧ i = o.priority) := by
    intro p1 hp1 hm
    split_ifs at hm
    · by_cases hi : i = o.priority
      · by_cases h3 : o.priority < 3
        · rw [hi, set_pools_pools_self _ _ _ h3, List.mem_append, List.mem_singleton] at hm
          rcases hm with h1 | h1
          · left
            rw [hi, ← hp1]
            exact h1
          · exact Or.inr ⟨h1, hi⟩
        · left
          rw [← hp1]
          unfold threadpool.set_pools threadpool.pools at hm
          unfold threadpool.pools
          split_ifs at hm ⊢ <;> first | exact hm | omega
      · rw [set_pools_pools_other _ _ _ _ hi] at hm
        left
        rw [← hp1]
        exact hm
    · left
      rw [← hp1]
      exact hm
  exact key
    (if p.num_busy_workers ≥ p.num_workers ∧ p.num_workers < p.max_workers ∧
        st = STATUS_SUCCESS then
      { p with refcount := p.refcount + 1, num_workers := p.num_workers + 1 }
    else p)
    (fun j => by split_ifs <;> rfl) hx

theorem queues_exact_submit (q : queue_state) (object : Ptr) (signaled : Bool)
    (st : NTSTATUS) (h : queues_exact q) :
    queues_exact ⟨tp_object_submit q.state object signaled st, q.executing, q.cancelled⟩ := by
  have hpools := tp_object_submit_pools q.state object signaled st
  have hobjs := tp_object_submit_objects q.state object signaled st
  obtain ⟨c1, c2, c3⟩ := submit_pool_queue (q.state.pools (q.state.objects object).pool)
    (q.state.objects object) object st (h.priority object)
  have hpend := h.pending object
  refine ⟨?_, ?_, ?_, ?_, ?_⟩
  · intro p x
    show ((tp_object_submit q.state object signaled st).pools p).queue.count x
      = if ((tp_object_submit q.state object signaled st).objects x).pool = p ∧
        0 < ((tp_object_submit q.state object signaled st).objects x).num_pending_callbacks
        then 1 else 0
    rw [hpools, hobjs]
    have hold := h.once p x
    by_cases hp : p = (q.state.objects object).pool
    · rw [hp, update_same, c1 x]
      rw [hp] at hold
      rw [hold]
      by_cases hx : x = object
      · subst hx
        rw [update_same]
        simp only [and_true, true_and]
        by_cases h0 : (q.state.objects x).num_pending_callbacks = 0
        · rw [h0]
          simp
        · have : 0 < (q.state.objects x).num_pending_callbacks := by omega
          have h2 : 0 < (q.state.objects x).num_pending_callbacks + 1 := by omega
          simp [this, h2, h0]
      · rw [update_of_ne _ _ _ _ hx]
        simp [hx]
    · rw [update_of_ne _ _ _ _ hp, hold]
      by_cases hx : x = object
      · subst hx
        rw [update_same]
        have : ¬ (q.state.objects x).pool = p := fun e => hp e.symm
        simp [this]
      · rw [update_of_ne _ _ _ _ hx]
  · intro p i x hx
    have hpr : ((tp_object_submit q.state object signaled st).objects x).priority
        = (q.state.objects x).priority := by
      rw [hobjs]
      by_cases hx : x = object
      · subst hx
        rw [update_same]
      · rw [update_of_ne _ _ _ _ hx]
    show ((tp_object_submit q.state object signaled st).objects x).priority = i
    rw [hpr]
    change x ∈ ((tp_object_submit q.state object signaled st).pools p).pools i at hx
    rw [hpools] at hx
    by_cases hp : p = (q.state.objects object).pool
    · rw [hp, update_same] at hx
      rcases submit_pool_mem _ _ _ _ i x hx with h1 | ⟨h1, h2⟩
      · exact h.own_list _ i x h1
      · rw [h1, h2]
    · rw [update_of_ne _ _ _ _ hp] at hx
      exact h.own_list p i x hx
  · intro x
    show ((tp_object_submit q.state object signaled st).objects x).priority < 3
    rw [hobjs]
    by_cases hx : x = object
    · subst hx
      rw [update_same]
      exact h.priority x
    · rw [update_of_ne _ _ _ _ hx]
      exact h.priority x
  · intro x
    show 0 ≤ ((tp_object_submit q.state object signaled st).objects x).num_pending_callbacks
    rw [hobjs]
    by_cases hx : x = object
    · subst hx
      rw [update_same]
      show 0 ≤ (q.state.objects x).num_pending_callbacks + 1
      omega
    · rw [update_of_ne _ _ _ _ hx]
      exact h.pending x
  · intro p
    show ((tp_object_submit q.state object signaled st).pools p).num_busy_workers
      = (((tp_object_submit q.state object signaled st).pools p).queue.length : Int)
        + (q.executing p : Int) + (q.cancelled p : Int)
    rw [hpools]
    have hold := h.busy p
    by_cases hp : p = (q.state.objects object).pool
    · rw [hp, update_same, c2, c3]
      rw [hp] at hold
      rw [hold]
      push_cast
      split_ifs <;> ring
    · rw [update_of_ne _ _ _ _ hp]
      exact hold

theorem tp_object_release_view (s : State) (object : Ptr) :
    (∀ p, (∀ i, ((tp_object_release s object).1.pools p).pools i = (s.pools p).pools i) ∧
      ((tp_object_release s object).1.pools p).num_busy_workers
        = (s.pools p).num_busy_workers) ∧
    ∀ x, ((tp_object_release s object).1.objects x).pool = (s.objects x).pool ∧
      ((tp_object_release s object).1.objects x).priority = (s.objects x).priority ∧
      ((tp_object_release s object).1.objects x).num_pending_callbacks
        = (s.objects x).num_pending_callbacks := by
  constructor
  · intro p
    rw [tp_object_release_pools]
    split_ifs
    · by_cases hp : p = (s.objects object).pool
      · subst hp
        rw [update_same]
        exact ⟨fun _ => rfl, rfl⟩
      · rw [update_of_ne _ _ _ _ hp]
        exact ⟨fun _ => rfl, rfl⟩
    · exact ⟨fun _ => rfl, rfl⟩
  · intro x
    rw [tp_object_release_objects]
    by_cases hx : x = object
    · subst hx
      rw [update_same]
      exact ⟨rfl, rfl, rfl⟩
    · rw [update_of_ne _ _ _ _ hx]
      exact ⟨rfl, rfl, rfl⟩

theorem threadpool_worker_enter_eq (s : State) (pool object : Ptr) (threadid : Nat)
    (hpo : (s.objects object).pool = pool) :
    (threadpool_worker_enter s pool object threadid).1.pools =
      update s.pools pool
        (if (s.objects object).num_pending_callbacks > 1 then
          { (s.pools pool).remove_entry object with
            num_busy_workers := (s.pools pool).num_busy_workers + 1 }.set_pools
            (s.objects object).priority
            (((s.pools pool).remove_entry object).pools (s.objects object).priority ++ [object])
        else (s.pools pool).remove_entry object) ∧
    (threadpool_worker_enter s pool object threadid).1.objects =
      update s.objects object (tp_object_execute_locked (s.objects object)).1 := by
  unfold threadpool_worker_enter tp_object_execute_enter
  by_cases h1 : (s.objects object).num_pending_callbacks > 1
  · simp only [h1, if_true]
    constructor
    · show (tp_object_prio_queue _ object).pools = _
      rw [tp_object_prio_queue_pools]
      simp only [State.set_pool, hpo, update_same, update_update]
      rfl
    · rfl
  · simp only [h1, if_false]
    exact ⟨rfl, rfl⟩

theorem execute_locked_fields (o : threadpool_object) :
    (tp_object_execute_locked o).1.pool = o.pool ∧
    (tp_object_execute_locked o).1.priority = o.priority ∧
    (tp_object_execute_locked o).1.num_pending_callbacks = o.num_pending_callbacks - 1 := by
  rw [tp_object_execute_locked_fst]
  exact ⟨rfl, rfl, rfl⟩

/-- The record of the pool after a worker has taken the item `object`. -/
theorem threadpool_worker_enter_pool (s : State) (pool object : Ptr) (threadid : Nat)
    (hpo : (s.objects object).pool = pool) (hprio : (s.objects object).priority < 3) :
    ∃ P : threadpool,
      (threadpool_worker_enter s pool object threadid).1.pools = update s.pools pool P ∧
      (∀ y, P.queue.count y = (if y = object then 0 else (s.pools pool).queue.count y)
        + (if (s.objects object).num_pending_callbacks > 1 ∧ y = object then 1 else 0)) ∧
      P.queue.length + (s.pools pool).queue.count object = (s.pools pool).queue.length
        + (if (s.objects object).num_pending_callbacks > 1 then 1 else 0) ∧
      P.num_busy_workers = (s.pools pool).num_busy_workers
        + (if (s.objects object).num_pending_callbacks > 1 then 1 else 0) ∧
      ∀ i x, x ∈ P.pools i →
        x ∈ (s.pools pool).pools i ∨ (x = object ∧ i = (s.objects object).priority) := by
  have hR : ∀ y, ((s.pools pool).remove_entry object).queue.count y
      = if y = object then 0 else (s.pools pool).queue.count y := by
    intro y
    rw [queue_remove_entry, list_remove_count]
  have hRlen : ((s.pools pool).remove_entry object).queue.length
      + (s.pools pool).queue.count object = (s.pools pool).queue.length := by
    rw [queue_remove_entry]
    exact list_remove_length _ _
  have hRmem : ∀ i x, x ∈ ((s.pools pool).remove_entry object).pools i →
      x ∈ (s.pools pool).pools i := by
    intro i x hx
    rw [remove_entry_pools] at hx
    exact (list_remove_mem _ _ _ hx).1
  by_cases h1 : (s.objects object).num_pending_callbacks > 1
  · have hS := queue_set_pools { (s.pools pool).remove_entry object with
        num_busy_workers := (s.pools pool).num_busy_workers + 1 }
      (s.objects object).priority object hprio
    refine ⟨_, ((threadpool_worker_enter_eq s pool object threadid hpo).1.trans
      (by rw [if_pos h1])), ?_, ?_, ?_, ?_⟩
    · intro y
      refine (hS.1 y).trans ?_
      rw [← hR y]
      simp only [h1, true_and]
      rfl
    · have e2 := hS.2
      have e3 : ({ (s.pools pool).remove_entry object with
          num_busy_workers := (s.pools pool).num_busy_workers + 1 } : threadpool).queue.length
          = ((s.pools pool).remove_entry object).queue.length := rfl
      rw [e3] at e2
      rw [if_pos h1]
      refine Eq.trans (congrArg (fun n => n + (s.pools pool).queue.count object) e2) ?_
      show ((s.pools pool).remove_entry object).queue.length + 1
        + (s.pools pool).queue.count object = _
      omega
    · rw [if_pos h1]
      rfl
    · intro i x hx
      rcases set_pools_mem _ _ _ _ _ hx with ⟨e1, e2⟩ | e
      · rw [List.mem_append, List.mem_singleton] at e2
        rcases e2 with e2 | e2
        · exact Or.inl (hRmem i x (e1 ▸ e2))
        · exact Or.inr ⟨e2, e1⟩
      · exact Or.inl (hRmem i x e)
  · refine ⟨_, ((threadpool_worker_enter_eq s pool object threadid hpo).1.trans
      (by rw [if_neg h1])), ?_, ?_, ?_, ?_⟩
    · intro y
      rw [hR y]
      simp [h1]
    · rw [if_neg h1]
      exact hRlen
    · rw [if_neg h1]
      show (s.pools pool).num_busy_workers = _
      omega
    · intro i x hx
      exact Or.inl (hRmem i x hx)

theorem queues_exact_enter (q : queue_state) (pool object : Ptr) (threadid : Nat)
    (h : queues_exact q)
    (ha : threadpool_get_next_item (q.state.pools pool) = some object) :
    queues_exact ⟨(threadpool_worker_enter q.state pool object threadid).1,
      update q.executing pool (q.executing pool + 1), q.cancelled⟩ := by
  obtain ⟨i0, hi0⟩ := threadpool_get_next_item_mem _ _ ha
  have hmem : object ∈ (q.state.pools pool).queue := (mem_queue _ _).mpr ⟨i0, hi0⟩
  have hcnt := h.once pool object
  have hpos : 0 < (q.state.pools pool).queue.count object := List.count_pos_iff.mpr hmem
  have hin : (q.state.objects object).pool = pool ∧
      0 < (q.state.objects object).num_pending_callbacks := by
    by_contra hc
    rw [if_neg hc] at hcnt
    omega
  rw [if_pos hin] at hcnt
  have hobjs := (threadpool_worker_enter_eq q.state pool object threadid hin.1).2
  obtain ⟨P, hpools, hPc, hPl, hPb, hPm⟩ :=
    threadpool_worker_enter_pool q.state pool object threadid hin.1 (h.priority object)
  obtain ⟨f1, f2, f3⟩ := execute_locked_fields (q.state.objects object)
  have hnew : ∀ x, ((threadpool_worker_enter q.state pool object threadid).1.objects x).pool
        = (q.state.objects x).pool ∧
      ((threadpool_worker_enter q.state pool object threadid).1.objects x).priority
        = (q.state.objects x).priority ∧
      ((threadpool_worker_enter q.state pool object threadid).1.objects x).num_pending_callbacks
        = (q.state.objects x).num_pending_callbacks - (if x = object then 1 else 0) := by
    intro x
    rw [hobjs]
    by_cases hx : x = object
    · subst hx
      rw [update_same, if_pos rfl]
      exact ⟨f1, f2, f3⟩
    · rw [update_of_ne _ _ _ _ hx, if_neg hx]
      exact ⟨rfl, rfl, by omega⟩
  refine ⟨?_, ?_, ?_, ?_, ?_⟩
  · intro p x
    show ((threadpool_worker_enter q.state pool object threadid).1.pools p).queue.count x
      = if ((threadpool_worker_enter q.state pool object threadid).1.objects x).pool = p ∧
        0 < ((threadpool_worker_enter q.state pool object threadid).1.objects
          x).num_pending_callbacks then 1 else 0
    rw [(hnew x).1, (hnew x).2.2, hpools]
    have hold := h.once p x
    by_cases hp : p = pool
    · subst hp
      rw [update_same, hPc x]
      by_cases hx : x = object
      · subst hx
        simp only [if_true, and_true, zero_add]
        by_cases h1 : (q.state.objects x).num_pending_callbacks > 1
        · rw [if_pos h1, if_pos ⟨hin.1, by omega⟩]
        · rw [if_neg h1, if_neg (fun hh => by omega)]
      · simp only [hx, if_false, and_false, add_zero, sub_zero]
        exact hold
    · rw [update_of_ne _ _ _ _ hp, hold]
      by_cases hx : x = object
      · subst hx
        have hne : ¬ (q.state.objects x).pool = p := fun e => hp (e.symm.trans hin.1)
        rw [if_neg (fun hh => hne hh.1), if_neg (fun hh => hne hh.1)]
      · rw [if_neg hx, sub_zero]
  · intro p i x hx
    show ((threadpool_worker_enter q.state pool object threadid).1.objects x).priority = i
    rw [(hnew x).2.1]
    change x ∈ ((threadpool_worker_enter q.state pool object threadid).1.pools p).pools i at hx
    rw [hpools] at hx
    by_cases hp : p = pool
    · subst hp
      rw [update_same] at hx
      rcases hPm i x hx with e | ⟨e1, e2⟩
      · exact h.own_list p i x e
      · rw [e1, e2]
    · rw [update_of_ne _ _ _ _ hp] at hx
      exact h.own_list p i x hx
  · intro x
    show ((threadpool_worker_enter q.state pool object threadid).1.objects x).priority < 3
    rw [(hnew x).2.1]
    exact h.priority x
  · intro x
    show 0 ≤ ((threadpool_worker_enter q.state pool object threadid).1.objects
      x).num_pending_callbacks
    rw [(hnew x).2.2]
    have := h.pending x
    by_cases hx : x = object
    · subst hx
      rw [if_pos rfl]
      omega
    · rw [if_neg hx]
      omega
  · intro p
    show ((threadpool_worker_enter q.state pool object threadid).1.pools p).num_busy_workers
      = (((threadpool_worker_enter q.state pool object threadid).1.pools p).queue.length : Int)
        + ((update q.executing pool (q.executing pool + 1) p : Nat) : Int)
        + (q.cancelled p : Int)
    rw [hpools]
    have hold := h.busy p
    by_cases hp : p = pool
    · subst hp
      rw [update_same, update_same, hPb, hold]
      push_cast
      split_ifs at hPl ⊢ <;> omega
    · rw [update_of_ne _ _ _ _ hp, update_of_ne _ _ _ _ hp]
      exact hold

theorem tp_object_release_loop_view (object : Ptr) (n : Nat) :
    ∀ s : State,
    (∀ p, (∀ i, ((tp_object_release_loop s object n).pools p).pools i = (s.pools p).pools i) ∧
      ((tp_object_release_loop s object n).pools p).num_busy_workers
        = (s.pools p).num_busy_workers) ∧
    ∀ x, ((tp_object_release_loop s object n).objects x).pool = (s.objects x).pool ∧
      ((tp_object_release_loop s object n).objects x).priority = (s.objects x).priority ∧
      ((tp_object_release_loop s object n).objects x).num_pending_callbacks
        = (s.objects x).num_pending_callbacks := by
  induction n with
  | zero => intro s; exact ⟨fun _ => ⟨fun _ => rfl, rfl⟩, fun _ => ⟨rfl, rfl, rfl⟩⟩
  | succ n ih =>
    intro s
    rw [tp_object_release_loop]
    obtain ⟨a1, a2⟩ := ih (tp_object_release s object).1
    obtain ⟨b1, b2⟩ := tp_object_release_view s object
    constructor
    · intro p
      exact ⟨fun i => ((a1 p).1 i).trans ((b1 p).1 i), (a1 p).2.trans (b1 p).2⟩
    · intro x
      exact ⟨(a2 x).1.trans (b2 x).1, (a2 x).2.1.trans (b2 x).2.1,
        (a2 x).2.2.trans (b2 x).2.2⟩

theorem queues_exact_finish (q : queue_state) (pool object : Ptr) (this : threadpool_instance)
    (h : queues_exact q) (ha : 0 < q.executing pool) :
    queues_exact ⟨threadpool_worker_finish q.state pool object this,
      update q.executing pool (q.executing pool - 1), q.cancelled⟩ := by
  have hl := tp_object_execute_leave_eq q.state object this
  have key : queues_exact ⟨((tp_object_execute_leave q.state object this).set_pool pool
      { (tp_object_execute_leave q.state object this).pools pool with
        num_busy_workers :=
          ((tp_object_execute_leave q.state object this).pools pool).num_busy_workers - 1 }),
      update q.executing pool (q.executing pool - 1), q.cancelled⟩ := by
    rw [hl]
    have hq : ∀ p, ((update q.state.pools pool { q.state.pools pool with
        num_busy_workers := (q.state.pools pool).num_busy_workers - 1 }) p).queue
        = (q.state.pools p).queue := by
      intro p
      by_cases hp : p = pool
      · subst hp
        rw [update_same]
        rfl
      · rw [update_of_ne _ _ _ _ hp]
    have ho : ∀ x, ((update q.state.objects object { q.state.objects object with
        shutdown :=
          if (q.state.objects object).type = TP_OBJECT_TYPE_SIMPLE then true
          else (q.state.objects object).shutdown
        num_running_callbacks := (q.state.objects object).num_running_callbacks - 1
        num_associated_callbacks := (q.state.objects object).num_associated_callbacks -
          (if this.associated = true then 1 else 0) }) x).pool = (q.state.objects x).pool ∧
        ((update q.state.objects object { q.state.objects object with
        shutdown :=
          if (q.state.objects object).type = TP_OBJECT_TYPE_SIMPLE then true
          else (q.state.objects object).shutdown
        num_running_callbacks := (q.state.objects object).num_running_callbacks - 1
        num_associated_callbacks := (q.state.objects object).num_associated_callbacks -
          (if this.associated = true then 1 else 0) }) x).priority
          = (q.state.objects x).priority ∧
        ((update q.state.objects object { q.state.objects object with
        shutdown :=
          if (q.state.objects object).type = TP_OBJECT_TYPE_SIMPLE then true
          else (q.state.objects object).shutdown
        num_running_callbacks := (q.state.objects object).num_running_callbacks - 1
        num_associated_callbacks := (q.state.objects object).num_associated_callbacks -
          (if this.associated = true then 1 else 0) }) x).num_pending_callbacks
          = (q.state.objects x).num_pending_callbacks := by
      intro x
      by_cases hx : x = object
      · subst hx
        rw [update_same]
        exact ⟨rfl, rfl, rfl⟩
      · rw [update_of_ne _ _ _ _ hx]
        exact ⟨rfl, rfl, rfl⟩
    refine ⟨?_, ?_, ?_, ?_, ?_⟩
    · intro p x
      refine Eq.trans (congrArg (List.count x) (hq p)) ?_
      refine (h.once p x).trans ?_
      rw [← (ho x).1, ← (ho x).2.2]
      rfl
    · intro p i x hx
      refine ((ho x).2.1).trans (h.own_list p i x ?_)
      have hx2 : x ∈ ((update q.state.pools pool { q.state.pools pool with
        num_busy_workers := (q.state.pools pool).num_busy_workers - 1 }) p).pools i := hx
      by_cases hp : p = pool
      · subst hp
        rw [update_same] at hx2
        exact hx2
      · rw [update_of_ne _ _ _ _ hp] at hx2
        exact hx2
    · intro x
      exact lt_of_eq_of_lt (ho x).2.1 (h.priority x)
    · intro x
      exact le_of_le_of_eq (h.pending x) (ho x).2.2.symm
    · intro p
      show ((update q.state.pools pool { q.state.pools pool with
        num_busy_workers := (q.state.pools pool).num_busy_workers - 1 }) p).num_busy_workers
        = (((update q.state.pools pool { q.state.pools pool with
        num_busy_workers := (q.state.pools pool).num_busy_workers - 1 }) p).queue.length : Int)
          + ((update q.executing pool (q.executing pool - 1) p : Nat) : Int)
          + (q.cancelled p : Int)
      rw [hq p]
      have hold := h.busy p
      by_cases hp : p = pool
      · subst hp
        rw [update_same, update_same]
        show (q.state.pools p).num_busy_workers - 1 = _
        rw [hold]
        omega
      · rw [update_of_ne _ _ _ _ hp, update_of_ne _ _ _ _ hp]
        exact hold
  obtain ⟨b1, b2⟩ := tp_object_release_view ((tp_object_execute_leave q.state object this).set_pool
    pool { (tp_object_execute_leave q.state object this).pools pool with
      num_busy_workers :=
        ((tp_object_execute_leave q.state object this).pools pool).num_busy_workers - 1 }) object
  exact queues_exact_view _ _ key b1 b2

theorem cancel_object_priority (o : threadpool_object) :
    (cancel_object o).priority = o.priority := by
  unfold cancel_object
  by_cases hp : o.num_pending_callbacks = 0 <;>
  by_cases hi : o.type = TP_OBJECT_TYPE_IO <;>
  simp [hp, hi]

theorem queues_exact_cancel_locked (q : queue_state) (object : Ptr) (h : queues_exact q) :
    queues_exact ⟨(tp_object_cancel_locked q.state object).1, q.executing,
      if (q.state.objects object).num_pending_callbacks ≠ 0 then
        update q.cancelled (q.state.objects object).pool
          (q.cancelled (q.state.objects object).pool + 1)
      else q.cancelled⟩ := by
  have hpools := tp_object_cancel_locked_pools q.state object
  have hobjs := tp_object_cancel_locked_objects q.state object
  obtain ⟨-, -, -, f1, f2⟩ := cancel_object_fields (q.state.objects object)
  have f3 := cancel_object_priority (q.state.objects object)
  have hnew : ∀ x, ((tp_object_cancel_locked q.state object).1.objects x).pool
        = (q.state.objects x).pool ∧
      ((tp_object_cancel_locked q.state object).1.objects x).priority
        = (q.state.objects x).priority ∧
      ((tp_object_cancel_locked q.state object).1.objects x).num_pending_callbacks
        = if x = object then 0 else (q.state.objects x).num_pending_callbacks := by
    intro x
    rw [hobjs]
    by_cases hx : x = object
    · subst hx
      rw [update_same, if_pos rfl]
      exact ⟨f1, f3, f2⟩
    · rw [update_of_ne _ _ _ _ hx, if_neg hx]
      exact ⟨rfl, rfl, rfl⟩
  have hpend := h.pending object
  by_cases h0 : (q.state.objects object).num_pending_callbacks ≠ 0
  · rw [if_pos h0] at hpools
    have hpos : 0 < (q.state.objects object).num_pending_callbacks := by omega
    have hone : (q.state.pools (q.state.objects object).pool).queue.count object = 1 := by
      rw [h.once, if_pos ⟨rfl, hpos⟩]
    refine ⟨?_, ?_, ?_, ?_, ?_⟩
    · intro p x
      show ((tp_object_cancel_locked q.state object).1.pools p).queue.count x
        = if ((tp_object_cancel_locked q.state object).1.objects x).pool = p ∧
          0 < ((tp_object_cancel_locked q.state object).1.objects x).num_pending_callbacks
          then 1 else 0
      rw [(hnew x).1, (hnew x).2.2, hpools]
      have hold := h.once p x
      by_cases hp : p = (q.state.objects object).pool
      · subst hp
        rw [update_same, queue_remove_entry, list_remove_count]
        by_cases hx : x = object
        · subst hx
          simp
        · rw [if_neg hx, if_neg hx]
          exact hold
      · rw [update_of_ne _ _ _ _ hp, hold]
        by_cases hx : x = object
        · subst hx
          rw [if_neg (fun hh => hp hh.1.symm), if_neg (fun hh => hp hh.1.symm)]
        · rw [if_neg hx]
    · intro p i x hx
      show ((tp_object_cancel_locked q.state object).1.objects x).priority = i
      rw [(hnew x).2.1]
      change x ∈ ((tp_object_cancel_locked q.state object).1.pools p).pools i at hx
      rw [hpools] at hx
      by_cases hp : p = (q.state.objects object).pool
      · subst hp
        rw [update_same, remove_entry_pools] at hx
        exact h.own_list _ i x (list_remove_mem _ _ _ hx).1
      · rw [update_of_ne _ _ _ _ hp] at hx
        exact h.own_list p i x hx
    · intro x
      show ((tp_object_cancel_locked q.state object).1.objects x).priority < 3
      rw [(hnew x).2.1]
      exact h.priority x
    · intro x
      show 0 ≤ ((tp_object_cancel_locked q.state object).1.objects x).num_pending_callbacks
      rw [(hnew x).2.2]
      split_ifs
      · exact le_refl 0
      · exact h.pending x
    · intro p
      show ((tp_object_cancel_locked q.state object).1.pools p).num_busy_workers
        = (((tp_object_cancel_locked q.state object).1.pools p).queue.length : Int)
          + (q.executing p : Int)
          + (((if (q.state.objects object).num_pending_callbacks ≠ 0 then
              update q.cancelled (q.state.objects object).pool
                (q.cancelled (q.state.objects object).pool + 1)
            else q.cancelled) p : Nat) : Int)
      rw [if_pos h0, hpools]
      have hold := h.busy p
      by_cases hp : p = (q.state.objects object).pool
      · subst hp
        rw [update_same, update_same, queue_remove_entry]
        have hlen := list_remove_length (q.state.pools (q.state.objects object).pool).queue object
        show (q.state.pools (q.state.objects object).pool).num_busy_workers = _
        rw [hold]
        push_cast
        omega
      · rw [update_of_ne _ _ _ _ hp, update_of_ne _ _ _ _ hp]
        exact hold
  · have h00 : (q.state.objects object).num_pending_callbacks = 0 := not_not.mp h0
    rw [if_neg h0] at hpools
    rw [if_neg h0]
    refine queues_exact_view q _ h ?_ ?_
    · intro p
      rw [hpools]
      exact ⟨fun _ => rfl, rfl⟩
    · intro x
      refine ⟨(hnew x).1, (hnew x).2.1, (hnew x).2.2.trans ?_⟩
      by_cases hx : x = object
      · subst hx
        rw [if_pos rfl, h00]
      · rw [if_neg hx]

theorem queues_exact_cancel (q : queue_state) (object : Ptr) (h : queues_exact q) :
    queues_exact ⟨tp_object_cancel q.state object, q.executing,
      if (q.state.objects object).num_pending_callbacks ≠ 0 then
        update q.cancelled (q.state.objects object).pool
          (q.cancelled (q.state.objects object).pool + 1)
      else q.cancelled⟩ := by
  obtain ⟨b1, b2⟩ := tp_object_release_loop_view object
    (tp_object_cancel_locked q.state object).2.toNat (tp_object_cancel_locked q.state object).1
  exact queues_exact_view _ _ (queues_exact_cancel_locked q object h) b1 b2

theorem queues_exact_alloc (q : queue_state) (new_pool : Option Ptr) (h : queues_exact q)
    (ha : ∀ a, new_pool = some a →
      (∀ x, (q.state.objects x).pool = a → (q.state.objects x).num_pending_callbacks ≤ 0) ∧
      q.executing a = 0) :
    queues_exact ⟨(tp_threadpool_alloc q.state new_pool).1, q.executing,
      match new_pool with
      | some a => update q.cancelled a 0
      | none => q.cancelled⟩ := by
  cases new_pool with
  | none => exact h
  | some a =>
    obtain ⟨ha1, ha2⟩ := ha a rfl
    have hpools : (tp_threadpool_alloc q.state (some a)).1.pools = update q.state.pools a
        { refcount := 1, objcount := 0, shutdown := false,
          pools0 := [], pools1 := [], pools2 := [],
          max_workers := 500, min_workers := 0, num_workers := 0, num_busy_workers := 0 } := rfl
    have hobjs : (tp_threadpool_alloc q.state (some a)).1.objects = q.state.objects := rfl
    refine ⟨?_, ?_, ?_, ?_, ?_⟩
    · intro p x
      show ((tp_threadpool_alloc q.state (some a)).1.pools p).queue.count x
        = if ((tp_threadpool_alloc q.state (some a)).1.objects x).pool = p ∧
          0 < ((tp_threadpool_alloc q.state (some a)).1.objects x).num_pending_callbacks
          then 1 else 0
      rw [hpools, hobjs]
      by_cases hp : p = a
      · subst hp
        rw [update_same, if_neg]
        · rfl
        · intro hh
          have := ha1 x hh.1
          omega
      · rw [update_of_ne _ _ _ _ hp]
        exact h.once p x
    · intro p i x hx
      change x ∈ ((tp_threadpool_alloc q.state (some a)).1.pools p).pools i at hx
      rw [hpools] at hx
      by_cases hp : p = a
      · subst hp
        rw [update_same] at hx
        unfold threadpool.pools at hx
        split_ifs at hx <;> simp at hx
      · rw [update_of_ne _ _ _ _ hp] at hx
        exact h.own_list p i x hx
    · exact h.priority
    · exact h.pending
    · intro p
      show ((tp_threadpool_alloc q.state (some a)).1.pools p).num_busy_workers
        = (((tp_threadpool_alloc q.state (some a)).1.pools p).queue.length : Int)
          + (q.executing p : Int) + ((update q.cancelled a 0 p : Nat) : Int)
      rw [hpools]
      by_cases hp : p = a
      · subst hp
        rw [update_same, update_same, ha2]
        rfl
      · rw [update_of_ne _ _ _ _ hp, update_of_ne _ _ _ _ hp]
        exact h.busy p

theorem queues_exact_set_object (q : queue_state) (object : Ptr) (O : threadpool_object)
    (h : queues_exact q) (hfree : ∀ p, object ∉ (q.state.pools p).queue)
    (hprio : O.priority < 3) (hpend : O.num_pending_callbacks = 0) :
    queues_exact ⟨q.state.set_object object O, q.executing, q.cancelled⟩ := by
  have hobjs : (q.state.set_object object O).objects = update q.state.objects object O := rfl
  have hpools : (q.state.set_object object O).pools = q.state.pools := rfl
  refine ⟨?_, ?_, ?_, ?_, ?_⟩
  · intro p x
    show ((q.state.set_object object O).pools p).queue.count x
      = if ((q.state.set_object object O).objects x).pool = p ∧
        0 < ((q.state.set_object object O).objects x).num_pending_callbacks then 1 else 0
    rw [hpools, hobjs]
    by_cases hx : x = object
    · subst hx
      rw [update_same, hpend, List.count_eq_zero_of_not_mem (hfree p)]
      simp
    · rw [update_of_ne _ _ _ _ hx]
      exact h.once p x
  · intro p i x hx
    show ((q.state.set_object object O).objects x).priority = i
    rw [hobjs]
    have hx2 : x ∈ (q.state.pools p).pools i := hx
    by_cases hxo : x = object
    · subst hxo
      exact absurd ((mem_queue _ _).mpr ⟨i, hx2⟩) (hfree p)
    · rw [update_of_ne _ _ _ _ hxo]
      exact h.own_list p i x hx2
  · intro x
    show ((q.state.set_object object O).objects x).priority < 3
    rw [hobjs]
    by_cases hx : x = object
    · subst hx
      rw [update_same]
      exact hprio
    · rw [update_of_ne _ _ _ _ hx]
      exact h.priority x
  · intro x
    show 0 ≤ ((q.state.set_object object O).objects x).num_pending_callbacks
    rw [hobjs]
    by_cases hx : x = object
    · subst hx
      rw [update_same, hpend]
    · rw [update_of_ne _ _ _ _ hx]
      exact h.pending x
  · exact h.busy

theorem queues_exact_init (q : queue_state) (object pool : Ptr) (userdata : Nat)
    (environment : Option TP_CALLBACK_ENVIRON) (st : NTSTATUS) (h : queues_exact q)
    (hfree : ∀ p, object ∉ (q.state.pools p).queue)
    (henv : ∀ e, environment = some e → e.Version = 3 → e.CallbackPriority < 3) :
    queues_exact ⟨ tp_object_initialize q.state object pool userdata environment st,
      q.executing, q.cancelled⟩ := by
  obtain ⟨O, -, -, -, -, hpend, hprio, G, hG, heq⟩ :=
    tp_object_initialize_eq q.state object pool userdata environment st
  have hO : O.priority < 3 := by
    rw [hprio]
    cases environment with
    | none => decide
    | some e =>
      dsimp only
      by_cases hv : e.Version = 3
      · rw [if_pos hv]
        exact henv e rfl hv
      · rw [if_neg hv]
        decide
  have h1 := queues_exact_set_object q object O h hfree hO hpend
  have hGv : ∀ u : State,
      (∀ p, (∀ i, ((G u).pools p).pools i = (u.pools p).pools i) ∧
        ((G u).pools p).num_busy_workers = (u.pools p).num_busy_workers) ∧
      ∀ x, ((G u).objects x).pool = (u.objects x).pool ∧
        ((G u).objects x).priority = (u.objects x).priority ∧
        ((G u).objects x).num_pending_callbacks = (u.objects x).num_pending_callbacks := by
    intro u
    obtain ⟨g1, -, -, -, g2, g3⟩ := hG u
    constructor
    · intro p
      rw [g1]
      exact ⟨fun _ => rfl, rfl⟩
    · intro x
      by_cases hx : x = object
      · subst hx
        rw [g3]
        exact ⟨rfl, rfl, rfl⟩
      · rw [g2 x hx]
        exact ⟨rfl, rfl, rfl⟩
  rw [heq]
  by_cases hty : (q.state.objects object).type = TP_OBJECT_TYPE_SIMPLE
  · rw [if_pos hty]
    have h2 := queues_exact_submit ⟨q.state.set_object object O, q.executing, q.cancelled⟩
      object false st h1
    have h3 := queues_exact_view
      ⟨tp_object_submit (q.state.set_object object O) object false st, q.executing, q.cancelled⟩
      (G (tp_object_submit (q.state.set_object object O) object false st)) h2
      (hGv _).1 (hGv _).2
    obtain ⟨b1, b2⟩ := tp_object_release_view
      (G (tp_object_submit (q.state.set_object object O) object false st)) object
    exact queues_exact_view
      ⟨G (tp_object_submit (q.state.set_object object O) object false st), q.executing,
        q.cancelled⟩ _ h3 b1 b2
  · rw [if_neg hty]
    exact queues_exact_view ⟨q.state.set_object object O, q.executing, q.cancelled⟩
      (G (q.state.set_object object O)) h1 (hGv _).1 (hGv _).2

theorem queues_exact_initial : queues_exact ⟨initial_state, fun _ => 0, fun _ => 0⟩ := by
  refine ⟨?_, ?_, ?_, ?_, ?_⟩
  · intro p x
    show (([] : List Ptr) ++ [] ++ []).count x = if _ ∧ (0 : Int) < 0 then 1 else 0
    simp
  · intro p i x hx
    have hx2 : x ∈ (initial_state.pools p).pools i := hx
    unfold threadpool.pools at hx2
    split_ifs at hx2 <;> exact absurd hx2 (List.not_mem_nil x)
  · intro x
    show (0 : Nat) < 3
    decide
  · intro x
    exact le_refl (0 : Int)
  · intro p
    rfl

theorem queue_reachable_exact (q : queue_state) (h : queue_reachable q) : queues_exact q := by
  induction h with
  | initial => exact queues_exact_initial
  | step q c _ ha ih =>
    cases c with
    | alloc_pool new_pool =>
      cases new_pool with
      | none => exact ih
      | some a => exact queues_exact_alloc q (some a) ih ha
    | object_init object pool userdata environment st =>
      exact queues_exact_init q object pool userdata environment st ih ha.1 ha.2
    | submit object signaled st => exact queues_exact_submit q object signaled st ih
    | worker_enter pool object threadid => exact queues_exact_enter q pool object threadid ih ha
    | worker_finish pool object this => exact queues_exact_finish q pool object this ih ha
    | cancel object => exact queues_exact_cancel q object ih
    | other f => exact queues_exact_view q (f q.state) ih ha.1 ha.2

theorem threadpool_get_next_item_head (p : threadpool) (object : Ptr)
    (h : threadpool_get_next_item p = some object) :
    ∃ i, list_head (p.pools i) = some object := by
  rw [threadpool_get_next_item_eq] at h
  cases h0 : p.pools 0 with
  | cons x l =>
    rw [h0] at h
    exact ⟨0, by rw [h0]; exact h⟩
  | nil =>
    rw [h0] at h
    cases h1 : p.pools 1 with
    | cons x l =>
      rw [h1] at h
      exact ⟨1, by rw [h1]; exact h⟩
    | nil =>
      rw [h1] at h
      exact ⟨2, h⟩

theorem set_pools_pools (p : threadpool) (i j : Nat) (l : List Ptr) (h : i < 3) :
    (p.set_pools i l).pools j = if j = i then l else p.pools j := by
  by_cases hj : j = i
  · subst hj
    rw [if_pos rfl, set_pools_pools_self p j l h]
  · rw [if_neg hj, set_pools_pools_other p i j l hj]

/-- The lists of the object's pool after `tp_object_submit`: the object is
appended to the list of its priority when it had no pending callback. -/
theorem tp_object_submit_lists (s : State) (object : Ptr) (signaled : Bool) (st : NTSTATUS)
    (hprio : (s.objects object).priority < 3) (i : Nat) :
    ((tp_object_submit s object signaled st).pools (s.objects object).pool).pools i =
      if (s.objects object).num_pending_callbacks = 0 ∧ i = (s.objects object).priority then
        list_add_tail ((s.pools (s.objects object).pool).pools i) object
      else (s.pools (s.objects object).pool).pools i := by
  rw [tp_object_submit_pools, update_same]
  unfold submit_pool
  have key : ∀ p1 : threadpool, (∀ j, p1.pools j = (s.pools (s.objects object).pool).pools j) →
      (if (s.objects object).num_pending_callbacks = 0 then
          { p1 with num_busy_workers := p1.num_busy_workers + 1 }.set_pools
            (s.objects object).priority (p1.pools (s.objects object).priority ++ [object])
        else p1).pools i =
      if (s.objects object).num_pending_callbacks = 0 ∧ i = (s.objects object).priority then
        list_add_tail ((s.pools (s.objects object).pool).pools i) object
      else (s.pools (s.objects object).pool).pools i := by
    intro p1 hp1
    by_cases h0 : (s.objects object).num_pending_callbacks = 0
    · rw [if_pos h0, set_pools_pools _ _ _ _ hprio]
      by_cases hi : i = (s.objects object).priority
      · rw [if_pos hi, if_pos ⟨h0, hi⟩, hp1, hi]
        rfl
      · rw [if_neg hi, if_neg (fun hh => hi hh.2)]
        exact hp1 i
    · rw [if_neg h0, if_neg (fun hh => h0 hh.1)]
      exact hp1 i
  dsimp only
  by_cases hc : (s.pools (s.objects object).pool).num_busy_workers
      ≥ (s.pools (s.objects object).pool).num_workers ∧
      (s.pools (s.objects object).pool).num_workers
        < (s.pools (s.objects object).pool).max_workers ∧ st = STATUS_SUCCESS
  · rw [if_pos hc]
    exact key _ (fun _ => rfl)
  · rw [if_neg hc]
    exact key _ (fun _ => rfl)

/-- The lists of the pool after a worker has taken the item `object`: the
item is removed, and appended to the list of its priority when more than one
callback was pending. -/
theorem threadpool_worker_enter_lists (s : State) (pool object : Ptr) (threadid : Nat)
    (hpo : (s.objects object).pool = pool) (hprio : (s.objects object).priority < 3)
    (i : Nat) :
    ((threadpool_worker_enter s pool object threadid).1.pools pool).pools i =
      if (s.objects object).num_pending_callbacks > 1 ∧ i = (s.objects object).priority then
        list_add_tail (list_remove ((s.pools pool).pools i) object) object
      else list_remove ((s.pools pool).pools i) object := by
  rw [(threadpool_worker_enter_eq s pool object threadid hpo).1, update_same]
  by_cases h1 : (s.objects object).num_pending_callbacks > 1
  · rw [if_pos h1, set_pools_pools _ _ _ _ hprio]
    by_cases hi : i = (s.objects object).priority
    · rw [if_pos hi, if_pos ⟨h1, hi⟩, remove_entry_pools, hi]
      rfl
    · rw [if_neg hi, if_neg (fun hh => hi hh.2)]
      exact remove_entry_pools _ _ _
  · rw [if_neg h1, if_neg (fun hh => h1 hh.1)]
    exact remove_entry_pools _ _ _

theorem queues_exact_step (q : queue_state) (c : queue_call) (h : queues_exact q)
    (ha : c.allowed q) : queues_exact (c.run q) := by
  cases c with
  | alloc_pool new_pool =>
    cases new_pool with
    | none => exact h
    | some a => exact queues_exact_alloc q (some a) h ha
  | object_init object pool userdata environment st =>
    exact queues_exact_init q object pool userdata environment st h ha.1 ha.2
  | submit object signaled st => exact queues_exact_submit q object signaled st h
  | worker_enter pool object threadid => exact queues_exact_enter q pool object threadid h ha
  | worker_finish pool object this => exact queues_exact_finish q pool object this h ha
  | cancel object => exact queues_exact_cancel q object h
  | other f => exact queues_exact_view q (f q.state) h ha.1 ha.2

theorem queues_exact_not_mem (q : queue_state) (h : queues_exact q) (x : Ptr)
    (h0 : (q.state.objects x).num_pending_callbacks = 0) (p : Ptr) :
    x ∉ (q.state.pools p).queue := by
  apply List.count_eq_zero.mp
  rw [h.once p x, if_neg]
  intro hh
  omega

theorem work_type_store_allowed (q : queue_state) (object : Ptr) :
    (queue_call.other (work_type_store object)).allowed q := by
  refine ⟨fun p => ⟨fun i => rfl, rfl⟩, fun x => ?_⟩
  show ((update q.state.objects object _) x).pool = _ ∧ ((update q.state.objects object _) x).priority = _
    ∧ ((update q.state.objects object _) x).num_pending_callbacks = _
  by_cases hx : x = object
  · subst hx
    rw [update_same]
    exact ⟨rfl, rfl, rfl⟩
  · rw [update_of_ne _ _ _ _ hx]
    exact ⟨rfl, rfl, rfl⟩

theorem queue_state_work_reachable : queue_reachable queue_state_work := by
  have h1 : queue_reachable ((queue_call.alloc_pool (some 1)).run
      ⟨initial_state, fun _ => 0, fun _ => 0⟩) :=
    queue_reachable.step _ _ queue_reachable.initial
      (fun a _ => ⟨fun x _ => le_refl (0 : Int), rfl⟩)
  have h2 := queue_reachable.step _ (queue_call.other (work_type_store 10)) h1
    (work_type_store_allowed _ 10)
  refine queue_reachable.step _ _ h2 ⟨?_, fun e he => by cases he⟩
  exact queues_exact_not_mem _ (queue_reachable_exact _ h2) 10 (by decide)

theorem queue_state_posted_reachable : queue_reachable queue_state_posted :=
  queue_reachable.step _ _ (queue_reachable.step _ _ queue_state_work_reachable trivial) trivial

/-- C21.  In every state that the calls on the pool lists reach, an object
stands in the lists of a pool exactly once when the pool is its own and its
count of pending callbacks is positive, and not at all otherwise, in
particular when the count is 0; it stands in the list of its priority; and
every allowed call leaves this so.  `tp_object_submit` appends the object to
the list of its priority exactly when the count was 0 and leaves the lists
alone otherwise; a worker takes the head of a list, removes it, and appends
it to the list of the same priority exactly when its count is greater than
1, before the count is decremented; `tp_object_cancel` leaves the object in
no list with a count of 0. -/
theorem pool_queue_once_spec (q : queue_state) (h : queue_reachable q) :
    (∀ p x, (q.state.pools p).queue.count x =
      if (q.state.objects x).pool = p ∧ 0 < (q.state.objects x).num_pending_callbacks
      then 1 else 0) ∧
    (∀ p x, (q.state.objects x).num_pending_callbacks = 0 → x ∉ (q.state.pools p).queue) ∧
    (∀ p i x, x ∈ (q.state.pools p).pools i → (q.state.objects x).priority = i) ∧
    (∀ c : queue_call, c.allowed q → ∀ p x, ((c.run q).state.pools p).queue.count x =
      if ((c.run q).state.objects x).pool = p ∧
        0 < ((c.run q).state.objects x).num_pending_callbacks then 1 else 0) ∧
    (∀ object signaled st i,
      ((tp_object_submit q.state object signaled st).pools (q.state.objects object).pool).pools i =
        if (q.state.objects object).num_pending_callbacks = 0 ∧
            i = (q.state.objects object).priority then
          list_add_tail ((q.state.pools (q.state.objects object).pool).pools i) object
        else (q.state.pools (q.state.objects object).pool).pools i) ∧
    (∀ pool object threadid, threadpool_get_next_item (q.state.pools pool) = some object →
      list_head ((q.state.pools pool).pools (q.state.objects object).priority) = some object ∧
      (∀ i, ((threadpool_worker_enter q.state pool object threadid).1.pools pool).pools i =
        if (q.state.objects object).num_pending_callbacks > 1 ∧
            i = (q.state.objects object).priority then
          list_add_tail (list_remove ((q.state.pools pool).pools i) object) object
        else list_remove ((q.state.pools pool).pools i) object) ∧
      ((threadpool_worker_enter q.state pool object threadid).1.objects
          object).num_pending_callbacks
        = (q.state.objects object).num_pending_callbacks - 1) ∧
    (∀ object,
      (∀ p, object ∉ ((tp_object_cancel q.state object).pools p).queue) ∧
      ((tp_object_cancel q.state object).objects object).num_pending_callbacks = 0) := by
  have hq := queue_reachable_exact q h
  refine ⟨hq.once, fun p x h0 => queues_exact_not_mem q hq x h0 p, hq.own_list,
    fun c hc => (queues_exact_step q c hq hc).once, ?_, ?_, ?_⟩
  · intro object signaled st i
    exact tp_object_submit_lists q.state object signaled st (hq.priority object) i
  · intro pool object threadid hn
    obtain ⟨i0, hi0⟩ := threadpool_get_next_item_head _ _ hn
    have hmem0 : object ∈ (q.state.pools pool).pools i0 := by
      unfold list_head at hi0
      exact List.mem_of_mem_head? hi0
    have hprio := hq.own_list pool i0 object hmem0
    have hcount : 0 < (q.state.pools pool).queue.count object :=
      List.count_pos_iff.mpr ((mem_queue _ _).mpr ⟨i0, hmem0⟩)
    have hpo : (q.state.objects object).pool = pool := by
      by_contra hc
      rw [hq.once pool object, if_neg (fun hh => hc hh.1)] at hcount
      omega
    refine ⟨by rw [hprio]; exact hi0,
      threadpool_worker_enter_lists q.state pool object threadid hpo (hq.priority object), ?_⟩
    rw [(threadpool_worker_enter_eq q.state pool object threadid hpo).2, update_same]
    exact (execute_locked_fields _).2.2
  · intro object
    have hc := queues_exact_cancel q object hq
    have h0 : ((tp_object_cancel q.state object).objects object).num_pending_callbacks = 0 :=
      (tp_object_cancel_effect q.state object (hq.pending object)).1
    exact ⟨fun p => queues_exact_not_mem _ hc object h0 p, h0⟩

theorem pool_queue_once_spec_witness :
    queue_reachable queue_state_posted ∧
    (queue_state_posted.state.objects 10).num_pending_callbacks = 2 ∧
    (queue_state_posted.state.pools 1).queue.count 10 = 1 :=
  ⟨queue_state_posted_reachable, by decide,
    ((pool_queue_once_spec queue_state_posted queue_state_posted_reachable).1 1 10).trans
      (by decide)⟩

theorem list_remove_append (a b : List Ptr) (x : Ptr) :
    list_remove (a ++ b) x = list_remove a x ++ list_remove b x := by
  unfold list_remove
  exact List.filter_append _ _

theorem list_remove_perm_add (l : List Ptr) (x : Ptr) (hn : l.Nodup) (hx : x ∈ l) :
    (list_remove l x ++ [x]).Perm l := by
  induction l with
  | nil => cases hx
  | cons a l ih =>
    have hn2 := List.nodup_cons.mp hn
    by_cases ha : a = x
    · subst ha
      have : list_remove (a :: l) a = l := by
        unfold list_remove
        rw [List.filter_cons_of_neg (by simp)]
        exact list_remove_of_not_mem l a hn2.1
      rw [this]
      exact (List.perm_append_comm).trans (List.Perm.refl _)
    · have hx2 : x ∈ l := by
        rcases List.mem_cons.mp hx with e | e
        · exact absurd e.symm ha
        · exact e
      have : list_remove (a :: l) x = a :: list_remove l x := by
        unfold list_remove
        rw [List.filter_cons_of_pos (by simpa using ha)]
      rw [this]
      exact List.Perm.cons a (ih hn2.2 hx2)

theorem wait_view_refl (s : State) : wait_view s s :=
  ⟨rfl, rfl, fun _ => ⟨rfl, rfl⟩⟩

theorem wait_view_trans {s t u : State} (h1 : wait_view s t) (h2 : wait_view t u) :
    wait_view s u :=
  ⟨h2.1.trans h1.1, h2.2.1.trans h1.2.1,
    fun x => ⟨(h2.2.2 x).1.trans (h1.2.2 x).1, (h2.2.2 x).2.trans (h1.2.2 x).2⟩⟩

theorem wait_view_set_object (s : State) (object : Ptr) (O : threadpool_object)
    (hb : O.u.wait.bucket = (s.objects object).u.wait.bucket)
    (hf : O.u.wait.flags = (s.objects object).u.wait.flags) :
    wait_view s (s.set_object object O) := by
  refine ⟨rfl, rfl, fun x => ?_⟩
  show ((update s.objects object O x).u.wait.bucket = _ ∧ (update s.objects object O x).u.wait.flags = _)
  by_cases hx : x = object
  · subst hx
    rw [update_same]
    exact ⟨hb, hf⟩
  · rw [update_of_ne _ _ _ _ hx]
    exact ⟨rfl, rfl⟩

theorem tp_object_submit_waits (s : State) (object : Ptr) (signaled : Bool) (st : NTSTATUS) :
    wait_view s (tp_object_submit s object signaled st) := by
  refine ⟨?_, ?_, fun x => ?_⟩
  · unfold tp_object_submit
    dsimp only
    split_ifs <;> simp [tp_new_worker_thread_fst, tp_object_prio_queue]
  · unfold tp_object_submit
    dsimp only
    split_ifs <;> simp [tp_new_worker_thread_fst, tp_object_prio_queue]
  · rw [tp_object_submit_objects]
    by_cases hx : x = object
    · rw [hx, update_same]
      exact ⟨rfl, rfl⟩
    · rw [update_of_ne _ _ _ _ hx]
      exact ⟨rfl, rfl⟩

theorem tp_object_release_waits (s : State) (object : Ptr) :
    wait_view s (tp_object_release s object).1 := by
  refine ⟨?_, ?_, fun x => ?_⟩
  · unfold tp_object_release
    by_cases h : (s.objects object).refcount - 1 = 0
    · cases hg : (s.objects object).group with
      | none => simp [h, hg, tp_threadpool_unlock_eq]
      | some g =>
        by_cases hm : (s.objects object).is_group_member = true
        · simp [h, hg, hm, tp_threadpool_unlock_eq, tp_group_release_fst]
        · simp [h, hg, hm, tp_threadpool_unlock_eq, tp_group_release_fst]
    · simp [h]
  · unfold tp_object_release
    by_cases h : (s.objects object).refcount - 1 = 0
    · cases hg : (s.objects object).group with
      | none => simp [h, hg, tp_threadpool_unlock_eq]
      | some g =>
        by_cases hm : (s.objects object).is_group_member = true
        · simp [h, hg, hm, tp_threadpool_unlock_eq, tp_group_release_fst]
        · simp [h, hg, hm, tp_threadpool_unlock_eq, tp_group_release_fst]
    · simp [h]
  · rw [tp_object_release_objects]
    by_cases hx : x = object
    · rw [hx, update_same]
      exact ⟨rfl, rfl⟩
    · rw [update_of_ne _ _ _ _ hx]
      exact ⟨rfl, rfl⟩

theorem waitqueue_thread_release_waits (objects : List Ptr) (s : State) :
    wait_view s (waitqueue_thread_release s objects) := by
  unfold waitqueue_thread_release
  generalize objects.reverse = l
  induction l generalizing s with
  | nil => exact wait_view_refl s
  | cons a l ih =>
    rw [List.foldl_cons]
    exact wait_view_trans (tp_object_release_waits s a) (ih _)

theorem waitqueue_exact_view {s t : State} (h : waitqueue_exact s) (hv : wait_view s t) :
    waitqueue_exact t := by
  obtain ⟨hb, hw, ho⟩ := hv
  refine ⟨?_, ?_, ?_, ?_, ?_, ?_, ?_⟩
  · intro b
    rw [hb]
    exact h.count b
  · intro b
    rw [hb]
    exact h.limit b
  · intro b
    rw [hb]
    exact h.nodup b
  · intro b x hx
    rw [hb] at hx
    rw [(ho x).1]
    exact h.member b x hx
  · intro b x hx
    rw [(ho x).1] at hx
    rw [hb]
    exact h.linked b x hx
  · intro b hn
    rw [hw] at hn
    rw [hb]
    exact h.unlisted b hn
  · intro b x hx
    rw [hb] at hx
    rw [(ho x).2]
    exact h.flags b x hx

/-- The entries of one bucket are linked in another order or in the other
list, with the same count. -/
theorem waitqueue_exact_relink {s t : State} (h : waitqueue_exact s) (b : Ptr)
    (B : waitqueue_bucket) (hB : t.buckets = update s.buckets b B)
    (hc : B.objcount = (s.buckets b).objcount)
    (hp : (B.reserved ++ B.waiting).Perm ((s.buckets b).reserved ++ (s.buckets b).waiting))
    (hw : t.waitqueue.buckets = s.waitqueue.buckets)
    (ho : ∀ x, ((t.objects x).u.wait.bucket = (s.objects x).u.wait.bucket ∧
      (t.objects x).u.wait.flags = (s.objects x).u.wait.flags)) :
    waitqueue_exact t := by
  have hlen : B.reserved.length + B.waiting.length
      = (s.buckets b).reserved.length + (s.buckets b).waiting.length := by
    have := hp.length_eq
    rw [List.length_append, List.length_append] at this
    exact this
  have hmem : ∀ c x, x ∈ (t.buckets c).reserved ++ (t.buckets c).waiting ↔
      x ∈ (s.buckets c).reserved ++ (s.buckets c).waiting := by
    intro c x
    rw [hB]
    by_cases hcb : c = b
    · subst hcb
      rw [update_same]
      exact hp.mem_iff
    · rw [update_of_ne _ _ _ _ hcb]
  refine ⟨?_, ?_, ?_, ?_, ?_, ?_, ?_⟩
  · intro c
    rw [hB]
    by_cases hcb : c = b
    · subst hcb
      rw [update_same, hc, hlen]
      exact h.count c
    · rw [update_of_ne _ _ _ _ hcb]
      exact h.count c
  · intro c
    rw [hB]
    by_cases hcb : c = b
    · subst hcb
      rw [update_same, hc]
      exact h.limit c
    · rw [update_of_ne _ _ _ _ hcb]
      exact h.limit c
  · intro c
    rw [hB]
    by_cases hcb : c = b
    · subst hcb
      rw [update_same]
      exact hp.nodup_iff.mpr (h.nodup c)
    · rw [update_of_ne _ _ _ _ hcb]
      exact h.nodup c
  · intro c x hx
    rw [(ho x).1]
    exact h.member c x ((hmem c x).mp hx)
  · intro c x hx
    rw [(ho x).1] at hx
    exact (hmem c x).mpr (h.linked c x hx)
  · intro c hn
    rw [hw] at hn
    rw [hB]
    by_cases hcb : c = b
    · subst hcb
      rw [update_same, hc]
      exact h.unlisted c hn
    · rw [update_of_ne _ _ _ _ hcb]
      exact h.unlisted c hn
  · intro c x hx
    rw [(ho x).2]
    exact h.flags c x ((hmem c x).mp hx)

theorem waitqueue_exact_lists_nil {s : State} (h : waitqueue_exact s) (b : Ptr)
    (h0 : (s.buckets b).objcount = 0) :
    (s.buckets b).reserved = [] ∧ (s.buckets b).waiting = [] := by
  have hc := h.count b
  rw [h0] at hc
  have : (s.buckets b).reserved.length + (s.buckets b).waiting.length = 0 := by omega
  exact ⟨List.length_eq_zero.mp (by omega), List.length_eq_zero.mp (by omega)⟩

theorem waitqueue_exact_initial : waitqueue_exact initial_state := by
  refine ⟨?_, ?_, ?_, ?_, ?_, ?_, ?_⟩
  · intro b
    rfl
  · intro b
    show (0 : Int) ≤ _
    decide
  · intro b
    exact List.nodup_nil
  · intro b x hx
    exact absurd hx (List.not_mem_nil x)
  · intro b x hx
    cases hx
  · intro b _
    rfl
  · intro b x hx
    exact absurd hx (List.not_mem_nil x)

/-- The state that `TpSetWaitEx` leaves, as the wait service sees it. -/
theorem TpSetWaitEx_waits (s : State) (wait : Ptr) (handle : Nat) (timeout : Option Int)
    (now : Nat) (bucket : Ptr) (hb : (s.objects wait).u.wait.bucket = some bucket) :
    ∃ (t : State) (r : Bool), TpSetWaitEx s wait handle timeout now = some (t, r) ∧
      t.waitqueue = s.waitqueue ∧
      t.buckets = update s.buckets bucket (t.buckets bucket) ∧
      t.objects = update s.objects wait (t.objects wait) ∧
      (t.objects wait).u.wait.bucket = some bucket ∧
      (t.objects wait).u.wait.flags = (s.objects wait).u.wait.flags ∧
      (t.buckets bucket).objcount = (s.buckets bucket).objcount ∧
      (((t.buckets bucket).reserved = (s.buckets bucket).reserved ∧
          (t.buckets bucket).waiting = (s.buckets bucket).waiting) ∨
        ((t.buckets bucket).reserved = list_remove (s.buckets bucket).reserved wait ∧
          (t.buckets bucket).waiting
            = list_add_tail (list_remove (s.buckets bucket).waiting wait) wait) ∨
        ((t.buckets bucket).reserved
            = list_add_tail (list_remove (s.buckets bucket).reserved wait) wait ∧
          (t.buckets bucket).waiting = list_remove (s.buckets bucket).waiting wait)) := by
  unfold TpSetWaitEx
  simp only [hb, State.set_object, State.set_bucket, update_same]
  by_cases hc : handle ≠ 0 ∨ (s.objects wait).u.wait.wait_pending = true
  · rw [if_pos hc]
    by_cases hh : handle = 0
    · subst hh
      by_cases hs : (s.objects wait).u.wait.handle = 0 <;>
        cases timeout <;> simp [hs, hc, update_same, update_update]
    · by_cases hs : (s.objects wait).u.wait.handle = handle <;>
        cases timeout <;> simp [hh, hs, update_same, update_update]
  · rw [if_neg hc]
    have hc2 := hc
    rw [not_or, not_not, Bool.not_eq_true] at hc2
    simp [hc2.1, hc2.2, update_same, update_update]

theorem waitqueue_relink_perm (R W : List Ptr) (w : Ptr) (hn : (R ++ W).Nodup)
    (hw : w ∈ R ++ W) :
    (list_remove R w ++ list_add_tail (list_remove W w) w).Perm (R ++ W) ∧
    (list_add_tail (list_remove R w) w ++ list_remove W w).Perm (R ++ W) := by
  have h := list_remove_perm_add (R ++ W) w hn hw
  rw [list_remove_append] at h
  unfold list_add_tail
  constructor
  · rw [← List.append_assoc]
    exact h
  · refine List.Perm.trans ?_ h
    rw [List.append_assoc, List.append_assoc]
    exact List.Perm.append_left _ List.perm_append_comm

theorem waitqueue_exact_set_wait {s : State} (h : waitqueue_exact s) (wait : Ptr)
    (handle : Nat) (timeout : Option Int) (now : Nat) (r : State × Bool)
    (hr : TpSetWaitEx s wait handle timeout now = some r) : waitqueue_exact r.1 := by
  cases hb : (s.objects wait).u.wait.bucket with
  | none =>
    unfold TpSetWaitEx at hr
    simp [hb] at hr
  | some bucket =>
    obtain ⟨t, r0, he, hw, hbk, hobj, hob, hof, hc, hl⟩ :=
      TpSetWaitEx_waits s wait handle timeout now bucket hb
    rw [he] at hr
    have hrt : r.1 = t := by
      have := Option.some.inj hr
      rw [← this]
    rw [hrt]
    have hmem := h.linked bucket wait hb
    have hp := waitqueue_relink_perm _ _ wait (h.nodup bucket) hmem
    refine waitqueue_exact_relink h bucket (t.buckets bucket) hbk hc ?_ (by rw [hw]) ?_
    · rcases hl with ⟨e1, e2⟩ | ⟨e1, e2⟩ | ⟨e1, e2⟩
      · rw [e1, e2]
      · rw [e1, e2]
        exact hp.1
      · rw [e1, e2]
        exact hp.2
    · intro x
      rw [hobj]
      by_cases hx : x = wait
      · subst hx
        rw [update_same]
        exact ⟨hob.trans hb.symm, hof⟩
      · rw [update_of_ne _ _ _ _ hx]
        exact ⟨rfl, rfl⟩

theorem waitqueue_one_shot_objects (s : State) (bucket wait : Ptr) (x : Ptr) :
    ((waitqueue_one_shot s bucket wait).objects x).u.wait.bucket = (s.objects x).u.wait.bucket ∧
    ((waitqueue_one_shot s bucket wait).objects x).u.wait.flags = (s.objects x).u.wait.flags ∧
    ((waitqueue_one_shot s bucket wait).objects x).u.wait.signaled
      = (s.objects x).u.wait.signaled ∧
    ((waitqueue_one_shot s bucket wait).objects x).num_pending_callbacks
      = (s.objects x).num_pending_callbacks ∧
    ((waitqueue_one_shot s bucket wait).objects x).type = (s.objects x).type ∧
    ((waitqueue_one_shot s bucket wait).objects x).refcount = (s.objects x).refcount := by
  unfold waitqueue_one_shot
  by_cases hf : (s.objects wait).u.wait.flags &&& WT_EXECUTEONLYONCE ≠ 0
  · rw [if_pos hf]
    show ((update s.objects wait _ x).u.wait.bucket = _ ∧ (update s.objects wait _ x).u.wait.flags = _
      ∧ (update s.objects wait _ x).u.wait.signaled = _
      ∧ (update s.objects wait _ x).num_pending_callbacks = _
      ∧ (update s.objects wait _ x).type = _ ∧ (update s.objects wait _ x).refcount = _)
    by_cases hx : x = wait
    · subst hx
      rw [update_same]
      exact ⟨rfl, rfl, rfl, rfl, rfl, rfl⟩
    · rw [update_of_ne _ _ _ _ hx]
      exact ⟨rfl, rfl, rfl, rfl, rfl, rfl⟩
  · rw [if_neg hf]
    exact ⟨rfl, rfl, rfl, rfl, rfl, rfl⟩

theorem waitqueue_exact_one_shot {s : State} (h : waitqueue_exact s) (bucket wait : Ptr)
    (hb : (s.objects wait).u.wait.bucket = some bucket) :
    waitqueue_exact (waitqueue_one_shot s bucket wait) := by
  have ho := waitqueue_one_shot_objects s bucket wait
  by_cases hf : (s.objects wait).u.wait.flags &&& WT_EXECUTEONLYONCE ≠ 0
  · have hp := waitqueue_relink_perm _ _ wait (h.nodup bucket) (h.linked bucket wait hb)
    refine waitqueue_exact_relink h bucket { s.buckets bucket with
      waiting := list_remove (s.buckets bucket).waiting wait
      reserved := list_add_tail (list_remove (s.buckets bucket).reserved wait) wait }
      ?_ rfl hp.2 ?_ (fun x => ⟨(ho x).1, (ho x).2.1⟩)
    · unfold waitqueue_one_shot
      rw [if_pos hf]
      rfl
    · unfold waitqueue_one_shot
      rw [if_pos hf]
      rfl
  · have : waitqueue_one_shot s bucket wait = s := by
      unfold waitqueue_one_shot
      rw [if_neg hf]
    rw [this]
    exact h

/-- A wait leaves its bucket. -/
theorem waitqueue_exact_remove {s t : State} (h : waitqueue_exact s) (wait b : Ptr)
    (hb : (s.objects wait).u.wait.bucket = some b) (B : waitqueue_bucket)
    (hB : t.buckets = update s.buckets b B)
    (hc : B.objcount = (s.buckets b).objcount - 1)
    (hR : B.reserved = list_remove (s.buckets b).reserved wait)
    (hWt : B.waiting = list_remove (s.buckets b).waiting wait)
    (hw : t.waitqueue.buckets = s.waitqueue.buckets)
    (hobj : ∀ x, ((t.objects x).u.wait.bucket
        = if x = wait then none else (s.objects x).u.wait.bucket) ∧
      (t.objects x).u.wait.flags = (s.objects x).u.wait.flags) :
    waitqueue_exact t := by
  have hmem := h.linked b wait hb
  have hnd := h.nodup b
  have hone : ((s.buckets b).reserved ++ (s.buckets b).waiting).count wait = 1 :=
    List.count_eq_one_of_mem hnd hmem
  have hlen := list_remove_length ((s.buckets b).reserved ++ (s.buckets b).waiting) wait
  rw [list_remove_append, List.length_append, List.length_append, hone] at hlen
  have hcount := h.count b
  have hlisted : b ∈ s.waitqueue.buckets := by
    by_contra hn
    have h0 := h.unlisted b hn
    have hl := (waitqueue_exact_lists_nil h b h0)
    rw [hl.1, hl.2] at hmem
    cases hmem
  have hmem2 : ∀ c x, x ∈ (t.buckets c).reserved ++ (t.buckets c).waiting ↔
      (x ∈ (s.buckets c).reserved ++ (s.buckets c).waiting ∧ x ≠ wait) := by
    intro c x
    rw [hB]
    by_cases hcb : c = b
    · subst hcb
      rw [update_same, hR, hWt, ← list_remove_append]
      constructor
      · exact list_remove_mem _ _ _
      · intro hh
        exact list_remove_mem_of_ne _ _ _ hh.1 hh.2
    · rw [update_of_ne _ _ _ _ hcb]
      constructor
      · intro hx
        refine ⟨hx, fun e => ?_⟩
        have := h.member c x hx
        rw [e, hb] at this
        exact hcb (Option.some.inj this).symm
      · exact fun hh => hh.1
  refine ⟨?_, ?_, ?_, ?_, ?_, ?_, ?_⟩
  · intro c
    rw [hB]
    by_cases hcb : c = b
    · subst hcb
      rw [update_same, hc, hR, hWt, hcount]
      push_cast
      omega
    · rw [update_of_ne _ _ _ _ hcb]
      exact h.count c
  · intro c
    rw [hB]
    by_cases hcb : c = b
    · subst hcb
      rw [update_same, hc]
      have := h.limit c
      omega
    · rw [update_of_ne _ _ _ _ hcb]
      exact h.limit c
  · intro c
    rw [hB]
    by_cases hcb : c = b
    · subst hcb
      rw [update_same, hR, hWt, ← list_remove_append]
      exact list_remove_nodup _ _ hnd
    · rw [update_of_ne _ _ _ _ hcb]
      exact h.nodup c
  · intro c x hx
    have hx2 := (hmem2 c x).mp hx
    rw [(hobj x).1, if_neg hx2.2]
    exact h.member c x hx2.1
  · intro c x hx
    rw [(hobj x).1] at hx
    by_cases hxw : x = wait
    · rw [if_pos hxw] at hx
      cases hx
    · rw [if_neg hxw] at hx
      exact (hmem2 c x).mpr ⟨h.linked c x hx, hxw⟩
  · intro c hn
    rw [hw] at hn
    have hcb : c ≠ b := fun e => hn (e ▸ hlisted)
    rw [hB, update_of_ne _ _ _ _ hcb]
    exact h.unlisted c hn
  · intro c x hx
    have hx2 := (hmem2 c x).mp hx
    rw [(hobj x).2]
    exact h.flags c x hx2.1

theorem waitqueue_exact_unlock {s : State} (h : waitqueue_exact s) (wait : Ptr) :
    waitqueue_exact (tp_waitqueue_unlock s wait) := by
  cases hb : (s.objects wait).u.wait.bucket with
  | none =>
    have he : tp_waitqueue_unlock s wait = s := by
      unfold tp_waitqueue_unlock
      simp only [hb]
    rw [he]
    exact h
  | some b =>
    have he : tp_waitqueue_unlock s wait = (s.set_bucket b { s.buckets b with
        reserved := list_remove (s.buckets b).reserved wait
        waiting := list_remove (s.buckets b).waiting wait
        objcount := (s.buckets b).objcount - 1 }).set_object wait { s.objects wait with
          u := { (s.objects wait).u with
            wait := { (s.objects wait).u.wait with bucket := none } } } := by
      unfold tp_waitqueue_unlock
      simp only [hb]
    rw [he]
    refine waitqueue_exact_remove h wait b hb { s.buckets b with
        reserved := list_remove (s.buckets b).reserved wait
        waiting := list_remove (s.buckets b).waiting wait
        objcount := (s.buckets b).objcount - 1 } rfl rfl rfl rfl rfl ?_
    intro x
    show ((update s.objects wait _ x).u.wait.bucket = _ ∧ (update s.objects wait _ x).u.wait.flags = _)
    by_cases hx : x = wait
    · subst hx
      rw [update_same, if_pos rfl]
      exact ⟨rfl, rfl⟩
    · rw [update_of_ne _ _ _ _ hx, if_neg hx]
      exact ⟨rfl, rfl⟩

/-- A wait that is linked nowhere joins the list `reserved` of a bucket that
is not full. -/
theorem waitqueue_exact_add {s t : State} (h : waitqueue_exact s) (wait b : Ptr)
    (hfree : ∀ c, wait ∉ (s.buckets c).reserved ++ (s.buckets c).waiting)
    (hlim : (s.buckets b).objcount < (MAXIMUM_WAITQUEUE_OBJECTS : Int))
    (B : waitqueue_bucket) (hB : t.buckets = update s.buckets b B)
    (hc : B.objcount = (s.buckets b).objcount + 1)
    (hR : B.reserved = list_add_tail (s.buckets b).reserved wait)
    (hWt : B.waiting = (s.buckets b).waiting)
    (hw : ∀ c, c ∉ t.waitqueue.buckets → c ∉ s.waitqueue.buckets ∧ c ≠ b)
    (hobj : ∀ x, ((t.objects x).u.wait.bucket
        = if x = wait then some b else (s.objects x).u.wait.bucket) ∧
      (t.objects x).u.wait.flags
        = if x = wait then WT_EXECUTEONLYONCE else (s.objects x).u.wait.flags) :
    waitqueue_exact t := by
  have hmem2 : ∀ c x, x ∈ (t.buckets c).reserved ++ (t.buckets c).waiting ↔
      (x ∈ (s.buckets c).reserved ++ (s.buckets c).waiting ∨ (c = b ∧ x = wait)) := by
    intro c x
    rw [hB]
    by_cases hcb : c = b
    · subst hcb
      rw [update_same, hR, hWt]
      unfold list_add_tail
      simp only [List.mem_append, List.mem_singleton, true_and]
      tauto
    · rw [update_of_ne _ _ _ _ hcb]
      simp [hcb]
  refine ⟨?_, ?_, ?_, ?_, ?_, ?_, ?_⟩
  · intro c
    rw [hB]
    by_cases hcb : c = b
    · subst hcb
      rw [update_same, hc, hR, hWt, h.count c]
      unfold list_add_tail
      rw [List.length_append]
      push_cast
      simp only [List.length_singleton]
      push_cast
      ring
    · rw [update_of_ne _ _ _ _ hcb]
      exact h.count c
  · intro c
    rw [hB]
    by_cases hcb : c = b
    · subst hcb
      rw [update_same, hc]
      omega
    · rw [update_of_ne _ _ _ _ hcb]
      exact h.limit c
  · intro c
    rw [hB]
    by_cases hcb : c = b
    · subst hcb
      rw [update_same, hR, hWt]
      unfold list_add_tail
      rw [List.append_assoc]
      refine (List.perm_middle.nodup_iff).mpr ?_
      exact List.nodup_cons.mpr ⟨hfree c, h.nodup c⟩
    · rw [update_of_ne _ _ _ _ hcb]
      exact h.nodup c
  · intro c x hx
    rw [(hobj x).1]
    rcases (hmem2 c x).mp hx with hx2 | ⟨e1, e2⟩
    · have hne : x ≠ wait := fun e => hfree c (e ▸ hx2)
      rw [if_neg hne]
      exact h.member c x hx2
    · rw [if_pos e2, e1]
  · intro c x hx
    rw [(hobj x).1] at hx
    by_cases hxw : x = wait
    · rw [if_pos hxw] at hx
      exact (hmem2 c x).mpr (Or.inr ⟨(Option.some.inj hx).symm, hxw⟩)
    · rw [if_neg hxw] at hx
      exact (hmem2 c x).mpr (Or.inl (h.linked c x hx))
  · intro c hn
    obtain ⟨h1, h2⟩ := hw c hn
    rw [hB, update_of_ne _ _ _ _ h2]
    exact h.unlisted c h1
  · intro c x hx
    rw [(hobj x).2]
    rcases (hmem2 c x).mp hx with hx2 | ⟨_, e2⟩
    · have hne : x ≠ wait := fun e => hfree c (e ▸ hx2)
      rw [if_neg hne]
      exact h.flags c x hx2
    · rw [if_pos e2]

/-- The record of an object that is linked nowhere is overwritten, with no
bucket pointer. -/
theorem waitqueue_exact_set_free {s : State} (h : waitqueue_exact s) (object : Ptr)
    (O : threadpool_object)
    (hfree : ∀ c, object ∉ (s.buckets c).reserved ++ (s.buckets c).waiting)
    (hO : O.u.wait.bucket = none) :
    waitqueue_exact (s.set_object object O) := by
  refine ⟨h.count, h.limit, h.nodup, ?_, ?_, h.unlisted, ?_⟩
  · intro c x hx
    have hx2 : x ∈ (s.buckets c).reserved ++ (s.buckets c).waiting := hx
    have hne : x ≠ object := fun e => hfree c (e ▸ hx2)
    show (update s.objects object O x).u.wait.bucket = some c
    rw [update_of_ne _ _ _ _ hne]
    exact h.member c x hx2
  · intro c x hx
    have hx2 : (update s.objects object O x).u.wait.bucket = some c := hx
    by_cases hxo : x = object
    · subst hxo
      rw [update_same, hO] at hx2
      cases hx2
    · rw [update_of_ne _ _ _ _ hxo] at hx2
      exact h.linked c x hx2
  · intro c x hx
    have hx2 : x ∈ (s.buckets c).reserved ++ (s.buckets c).waiting := hx
    have hne : x ≠ object := fun e => hfree c (e ▸ hx2)
    show (update s.objects object O x).u.wait.flags = _
    rw [update_of_ne _ _ _ _ hne]
    exact h.flags c x hx2

theorem tp_waitqueue_lock_exact {s : State} (h : waitqueue_exact s) (wait : Ptr)
    (new_bucket : Option Ptr) (event_status thread_status : NTSTATUS)
    (hfree : ∀ c, wait ∉ (s.buckets c).reserved ++ (s.buckets c).waiting)
    (hflags : (s.objects wait).u.wait.flags = WT_EXECUTEONLYONCE)
    (hnew : ∀ b, new_bucket = some b → b ∉ s.waitqueue.buckets) :
    waitqueue_exact (tp_waitqueue_lock s wait new_bucket event_status thread_status).1 := by
  have h1 := waitqueue_exact_set_free h wait { s.objects wait with
    u := { (s.objects wait).u with wait := { (s.objects wait).u.wait with
      signaled := 0, bucket := none, wait_pending := false, timeout := 0,
      handle := INVALID_HANDLE_VALUE } } } hfree rfl
  have hobj1 : ∀ (b : Ptr) (x : Ptr), ((update (update s.objects wait { s.objects wait with
      u := { (s.objects wait).u with wait := { (s.objects wait).u.wait with
        signaled := 0, bucket := none, wait_pending := false, timeout := 0,
        handle := INVALID_HANDLE_VALUE } } }) wait { s.objects wait with
      u := { (s.objects wait).u with wait := { (s.objects wait).u.wait with
        signaled := 0, bucket := some b, wait_pending := false, timeout := 0,
        handle := INVALID_HANDLE_VALUE } } } x).u.wait.bucket
        = if x = wait then some b else ((s.set_object wait { s.objects wait with
      u := { (s.objects wait).u with wait := { (s.objects wait).u.wait with
        signaled := 0, bucket := none, wait_pending := false, timeout := 0,
        handle := INVALID_HANDLE_VALUE } } }).objects x).u.wait.bucket) ∧
      (update (update s.objects wait { s.objects wait with
      u := { (s.objects wait).u with wait := { (s.objects wait).u.wait with
        signaled := 0, bucket := none, wait_pending := false, timeout := 0,
        handle := INVALID_HANDLE_VALUE } } }) wait { s.objects wait with
      u := { (s.objects wait).u with wait := { (s.objects wait).u.wait with
        signaled := 0, bucket := some b, wait_pending := false, timeout := 0,
        handle := INVALID_HANDLE_VALUE } } } x).u.wait.flags
        = if x = wait then WT_EXECUTEONLYONCE else ((s.set_object wait { s.objects wait with
      u := { (s.objects wait).u with wait := { (s.objects wait).u.wait with
        signaled := 0, bucket := none, wait_pending := false, timeout := 0,
        handle := INVALID_HANDLE_VALUE } } }).objects x).u.wait.flags := by
    intro b x
    by_cases hx : x = wait
    · subst hx
      rw [update_same, if_pos rfl, if_pos rfl]
      exact ⟨rfl, hflags⟩
    · rw [update_of_ne _ _ _ _ hx, if_neg hx, if_neg hx]
      exact ⟨rfl, rfl⟩
  unfold tp_waitqueue_lock
  dsimp only
  split
  · rename_i bucket hfind
    have hp := List.find?_some hfind
    have hin := List.mem_of_find?_eq_some hfind
    simp only [decide_eq_true_eq] at hp
    refine waitqueue_exact_add h1 wait bucket hfree hp.1 { s.buckets bucket with
      reserved := list_add_tail (s.buckets bucket).reserved wait
      objcount := (s.buckets bucket).objcount + 1 } rfl rfl rfl rfl ?_ (hobj1 bucket)
    intro c hn
    exact ⟨hn, fun e => hn (e ▸ hin)⟩
  · cases new_bucket with
    | none => exact h1
    | some bucket =>
      dsimp only
      have hnl : bucket ∉ s.waitqueue.buckets := hnew bucket rfl
      have hnil := waitqueue_exact_lists_nil h bucket (h.unlisted bucket hnl)
      have h2 : waitqueue_exact ((s.set_object wait { s.objects wait with
          u := { (s.objects wait).u with wait := { (s.objects wait).u.wait with
            signaled := 0, bucket := none, wait_pending := false, timeout := 0,
            handle := INVALID_HANDLE_VALUE } } }).set_bucket bucket
          { objcount := 0
            alertable := decide ((s.objects wait).u.wait.flags &&& WT_EXECUTEINIOTHREAD ≠ 0)
            reserved := [], waiting := [] }) := by
        refine waitqueue_exact_relink h1 bucket _ rfl (h.unlisted bucket hnl).symm ?_ rfl
          (fun x => ⟨rfl, rfl⟩)
        show ([] ++ [] : List Ptr).Perm ((s.buckets bucket).reserved ++ (s.buckets bucket).waiting)
        rw [hnil.1, hnil.2]
      by_cases he : event_status ≠ STATUS_SUCCESS
      · rw [if_pos he]
        exact h2
      · rw [if_neg he]
        by_cases ht : thread_status = STATUS_SUCCESS
        · rw [if_pos ht]
          refine waitqueue_exact_add h2 wait bucket ?_ ?_ _ rfl rfl rfl rfl ?_ ?_
          · intro c
            show wait ∉ (update s.buckets bucket _ c).reserved ++ (update s.buckets bucket _ c).waiting
            by_cases hcb : c = bucket
            · subst hcb
              rw [update_same]
              exact List.not_mem_nil _
            · rw [update_of_ne _ _ _ _ hcb]
              exact hfree c
          · show (update s.buckets bucket _ bucket).objcount < _
            rw [update_same]
            show (0 : Int) < _
            decide
          · intro c hn
            have hn2 : c ∉ list_add_tail s.waitqueue.buckets bucket := hn
            unfold list_add_tail at hn2
            rw [List.mem_append, List.mem_singleton, not_or] at hn2
            exact hn2
          · exact hobj1 bucket
        · rw [if_neg ht]
          exact h2

theorem wait_flags_not_in_thread (flags : Nat) (h : flags = WT_EXECUTEONLYONCE) :
    ¬ (flags &&& (WT_EXECUTEINWAITTHREAD ||| WT_EXECUTEINIOTHREAD) ≠ 0) := by
  subst h
  decide

/-- One turn of the first loop on a linked wait of the bucket, with room in
the arrays: the turn returns, the buckets stay exact, no bucket pointer
changes and at most one entry is stored. -/
theorem waitqueue_collect_turn_exact (bucket : Ptr) (now threadid : Nat)
    (user : List instance_call) (st : NTSTATUS) (r : State × waitqueue_locals) (wait : Ptr)
    (h : waitqueue_exact r.1) (hb : (r.1.objects wait).u.wait.bucket = some bucket)
    (hlen : r.2.objects.length < MAXIMUM_WAITQUEUE_OBJECTS) :
    ∃ r1, waitqueue_collect_turn bucket now threadid user st r wait = some r1 ∧
      waitqueue_exact r1.1 ∧
      (∀ x, (r1.1.objects x).u.wait.bucket = (r.1.objects x).u.wait.bucket) ∧
      r1.2.objects.length ≤ r.2.objects.length + 1 ∧
      (r.2.objects.length = r.2.update_serials.length →
        r1.2.objects.length = r1.2.update_serials.length) := by
  have hfl := h.flags bucket wait (h.linked bucket wait hb)
  have hnt := wait_flags_not_in_thread _ hfl
  unfold waitqueue_collect_turn
  dsimp only
  by_cases hto : (r.1.objects wait).u.wait.timeout ≤ now
  · rw [if_pos hto, if_neg hnt]
    refine ⟨_, rfl, ?_, ?_, Nat.le_succ _, ?_⟩
    · exact waitqueue_exact_view (waitqueue_exact_one_shot h bucket wait hb)
        (tp_object_submit_waits _ _ _ _)
    · intro x
      exact ((tp_object_submit_waits (waitqueue_one_shot r.1 bucket wait) wait false
        st).2.2 x).1.trans (waitqueue_one_shot_objects r.1 bucket wait x).1
    · exact fun e => e
  · rw [if_neg hto, if_pos hlen]
    refine ⟨_, rfl, ?_, ?_, ?_, ?_⟩
    · exact waitqueue_exact_view h (wait_view_set_object _ _ _ rfl rfl)
    · intro x
      exact ((wait_view_set_object r.1 wait { r.1.objects wait with
        refcount := (r.1.objects wait).refcount + 1 } rfl rfl).2.2 x).1
    · show (r.2.objects ++ [wait]).length ≤ _
      rw [List.length_append]
      exact le_refl _
    · intro e
      show (r.2.objects ++ [wait]).length = (r.2.update_serials ++ [_]).length
      rw [List.length_append, List.length_append, e]
      rfl

theorem waitqueue_collect_loop_exact (bucket : Ptr) (now threadid : Nat)
    (user : List instance_call) (st : NTSTATUS) (entries : List Ptr) :
    ∀ r : State × waitqueue_locals, waitqueue_exact r.1 →
      (∀ x ∈ entries, (r.1.objects x).u.wait.bucket = some bucket) →
      r.2.objects.length + entries.length ≤ MAXIMUM_WAITQUEUE_OBJECTS →
      ∃ r1, waitqueue_collect_loop bucket now threadid user st entries r = some r1 ∧
        waitqueue_exact r1.1 ∧
        r1.2.objects.length ≤ r.2.objects.length + entries.length ∧
        (r.2.objects.length = r.2.update_serials.length →
          r1.2.objects.length = r1.2.update_serials.length) := by
  induction entries with
  | nil =>
    intro r h _ _
    exact ⟨r, rfl, h, le_refl _, fun e => e⟩
  | cons wait rest ih =>
    intro r h hb hlen
    rw [List.length_cons] at hlen
    obtain ⟨r1, he, h1, hb1, hl1, hs1⟩ := waitqueue_collect_turn_exact bucket now threadid user st
      r wait h (hb wait (List.mem_cons_self _ _)) (by omega)
    obtain ⟨r2, he2, h2, hl2, hs2⟩ := ih r1 h1
      (fun x hx => (hb1 x).trans (hb x (List.mem_cons_of_mem _ hx))) (by omega)
    refine ⟨r2, ?_, h2, ?_, fun e => hs2 (hs1 e)⟩
    · rw [waitqueue_collect_loop, he]
      exact he2
    · rw [List.length_cons]
      omega

/-- The first loop of the bucket thread on exact buckets: no assertion
fails, the buckets stay exact, and at most `MAXIMUM_WAITQUEUE_OBJECTS` entries
are stored, as many serials as objects. -/
theorem waitqueue_thread_collect_exact (s : State) (bucket : Ptr) (now threadid : Nat)
    (user : List instance_call) (st : NTSTATUS) (h : waitqueue_exact s) :
    ∃ r1, waitqueue_thread_collect s bucket now threadid user st = some r1 ∧
      waitqueue_exact r1.1 ∧ r1.2.objects.length ≤ MAXIMUM_WAITQUEUE_OBJECTS ∧
      r1.2.objects.length = r1.2.update_serials.length := by
  have hc := h.count bucket
  have hl := h.limit bucket
  have hwl : (s.buckets bucket).waiting.length ≤ MAXIMUM_WAITQUEUE_OBJECTS := by
    rw [hc] at hl
    have := Int.ofNat_le.mp hl
    omega
  obtain ⟨r1, he, h1, hl1, hs1⟩ := waitqueue_collect_loop_exact bucket now threadid user st
    (s.buckets bucket).waiting
    (s, { timeout := TIMEOUT_INFINITE, objects := [], handles := [], update_serials := [] }) h
    (fun x hx => h.member bucket x (List.mem_append_right _ hx))
    (by
      show 0 + _ ≤ _
      omega)
  refine ⟨r1, he, h1, ?_, hs1 rfl⟩
  have : r1.2.objects.length ≤ 0 + (s.buckets bucket).waiting.length := hl1
  omega

theorem waitqueue_thread_signaled_exact {s : State} (h : waitqueue_exact s)
    (bucket wait : Ptr) (st : NTSTATUS) (r : State × Bool)
    (hr : waitqueue_thread_signaled s bucket wait st = some r) :
    waitqueue_exact r.1 ∧ r.2 = false := by
  unfold waitqueue_thread_signaled at hr
  dsimp only at hr
  by_cases hb : (s.objects wait).u.wait.bucket = some bucket
  · have hfl := h.flags bucket wait (h.linked bucket wait hb)
    rw [if_pos hb, if_neg (wait_flags_not_in_thread _ hfl)] at hr
    have := Option.some.inj hr
    rw [← this]
    exact ⟨waitqueue_exact_view (waitqueue_exact_one_shot h bucket wait hb)
      (tp_object_submit_waits _ _ _ _), rfl⟩
  · rw [if_neg hb] at hr
    cases hr

theorem waitqueue_thread_dispatch_exact {s : State} (h : waitqueue_exact s)
    (bucket : Ptr) (l : waitqueue_locals) (status : NTSTATUS) (threadid : Nat)
    (user : List instance_call) (st : NTSTATUS) (t : State)
    (ht : waitqueue_thread_dispatch s bucket l status threadid user st = some t) :
    waitqueue_exact t := by
  unfold waitqueue_thread_dispatch at ht
  split at ht
  · split at ht
    · split at ht
      · split at ht
        · rename_i s1 hs
          have := (waitqueue_thread_signaled_exact h bucket _ st _ hs).2
          cases this
        · rename_i s1 hs
          have h1 := (waitqueue_thread_signaled_exact h bucket _ st _ hs).1
          rw [← Option.some.inj ht]
          exact h1
        · cases ht
      · rw [← Option.some.inj ht]
        exact h
    · rw [← Option.some.inj ht]
      exact h
  · rw [← Option.some.inj ht]
    exact h

theorem waitqueue_thread_signal_exact {s : State} (h : waitqueue_exact s)
    (bucket : Ptr) (l : waitqueue_locals) (status : NTSTATUS) (threadid : Nat)
    (user : List instance_call) (st : NTSTATUS) (t : State)
    (ht : waitqueue_thread_signal s bucket l status threadid user st = some t) :
    waitqueue_exact t := by
  unfold waitqueue_thread_signal at ht
  cases hd : waitqueue_thread_dispatch s bucket l status threadid user st with
  | none =>
    rw [hd] at ht
    cases ht
  | some s1 =>
    rw [hd] at ht
    rw [← Option.some.inj ht]
    exact waitqueue_exact_view (waitqueue_thread_dispatch_exact h bucket l status threadid
      user st s1 hd) (waitqueue_thread_release_waits _ _)

theorem waitqueue_exact_idle {s : State} (h : waitqueue_exact s) (bucket : Ptr)
    (status : NTSTATUS) : waitqueue_exact (waitqueue_thread_idle s bucket status).1 := by
  unfold waitqueue_thread_idle
  by_cases hc : status = STATUS_TIMEOUT ∧ (s.buckets bucket).objcount = 0
  · rw [if_pos hc]
    refine ⟨h.count, h.limit, h.nodup, h.member, h.linked, ?_, h.flags⟩
    intro c hn
    have hn2 : c ∉ list_remove s.waitqueue.buckets bucket := hn
    by_cases hcb : c = bucket
    · rw [hcb]
      exact hc.2
    · exact h.unlisted c (fun hm => hn2 (list_remove_mem_of_ne _ _ _ hm hcb))
  · rw [if_neg hc]
    exact h

theorem waitqueue_set_bucket_cons (s : State) (other a : Ptr) (l : List Ptr) :
    waitqueue_set_bucket s other (a :: l) =
      waitqueue_set_bucket (s.set_object a { s.objects a with
        u := { (s.objects a).u with
          wait := { (s.objects a).u.wait with bucket := some other } } }) other l := rfl

theorem waitqueue_set_bucket_frame (other : Ptr) (l : List Ptr) :
    ∀ s : State, (waitqueue_set_bucket s other l).buckets = s.buckets ∧
      (waitqueue_set_bucket s other l).waitqueue = s.waitqueue := by
  induction l with
  | nil => intro s; exact ⟨rfl, rfl⟩
  | cons a l ih =>
    intro s
    rw [waitqueue_set_bucket_cons]
    exact ih _

theorem waitqueue_set_bucket_objects (other : Ptr) (l : List Ptr) :
    ∀ (s : State) (x : Ptr),
      ((waitqueue_set_bucket s other l).objects x).u.wait.bucket
        = (if x ∈ l then some other else (s.objects x).u.wait.bucket) ∧
      ((waitqueue_set_bucket s other l).objects x).u.wait.flags
        = (s.objects x).u.wait.flags := by
  induction l with
  | nil =>
    intro s x
    exact ⟨by simp [waitqueue_set_bucket], rfl⟩
  | cons a l ih =>
    intro s x
    rw [waitqueue_set_bucket_cons]
    obtain ⟨h1, h2⟩ := ih (s.set_object a { s.objects a with
        u := { (s.objects a).u with
          wait := { (s.objects a).u.wait with bucket := some other } } }) x
    rw [h1, h2]
    show ((if x ∈ l then some other else (update s.objects a _ x).u.wait.bucket) = _ ∧
      (update s.objects a _ x).u.wait.flags = _)
    by_cases hx : x = a
    · subst hx
      rw [update_same]
      simp
    · rw [update_of_ne _ _ _ _ hx]
      simp [hx]

/-- The state that the body of the merge leaves, as the wait service sees
it. -/
theorem waitqueue_merge_into_eq (s : State) (bucket other : Ptr) (hne : other ≠ bucket) :
    (waitqueue_merge_into s bucket other).buckets other =
      { objcount := (s.buckets other).objcount + (s.buckets bucket).objcount
        reserved := (s.buckets other).reserved ++ (s.buckets bucket).reserved
        waiting := (s.buckets other).waiting ++ (s.buckets bucket).waiting
        alertable := (s.buckets other).alertable } ∧
    (waitqueue_merge_into s bucket other).buckets bucket =
      { objcount := 0, reserved := [], waiting := []
        alertable := (s.buckets bucket).alertable } ∧
    (∀ c, c ≠ other → c ≠ bucket →
      (waitqueue_merge_into s bucket other).buckets c = s.buckets c) ∧
    (waitqueue_merge_into s bucket other).waitqueue.buckets
      = list_add_tail (list_remove s.waitqueue.buckets bucket) bucket ∧
    (waitqueue_merge_into s bucket other).waitqueue.num_buckets = s.waitqueue.num_buckets ∧
    ∀ x, ((waitqueue_merge_into s bucket other).objects x).u.wait.bucket
        = (if x ∈ (s.buckets bucket).reserved ++ (s.buckets bucket).waiting then some other
          else (s.objects x).u.wait.bucket) ∧
      ((waitqueue_merge_into s bucket other).objects x).u.wait.flags
        = (s.objects x).u.wait.flags := by
  have hne2 : bucket ≠ other := fun e => hne e.symm
  unfold waitqueue_merge_into list_move_tail
  simp only [State.set_bucket, (waitqueue_set_bucket_frame _ _ _).1,
    (waitqueue_set_bucket_frame _ _ _).2, update_same, update_of_ne _ _ _ _ hne,
    update_of_ne _ _ _ _ hne2]
  refine ⟨trivial, trivial, ?_, trivial, trivial, ?_⟩
  · intro c h1 h2
    simp only [update_of_ne _ _ _ _ h1, update_of_ne _ _ _ _ h2]
  · intro x
    simp only [(waitqueue_set_bucket_objects _ _ _ _).1, (waitqueue_set_bucket_objects _ _ _ _).2,
      List.mem_append]
    by_cases h1 : x ∈ (s.buckets bucket).reserved <;>
      by_cases h2 : x ∈ (s.buckets bucket).waiting <;> simp [h1, h2]

theorem waitqueue_merge_target_spec (s : State) (bucket other : Ptr)
    (h : s.waitqueue.buckets.find? (waitqueue_merge_target s bucket) = some other) :
    other ∈ s.waitqueue.buckets ∧ other ≠ bucket ∧ (s.buckets other).objcount ≠ 0 ∧
    (s.buckets other).alertable = (s.buckets bucket).alertable ∧
    (s.buckets other).objcount + (s.buckets bucket).objcount
      ≤ ((MAXIMUM_WAITQUEUE_OBJECTS * 2 / 3 : Nat) : Int) := by
  have hp := List.find?_some h
  unfold waitqueue_merge_target at hp
  simp only [decide_eq_true_eq] at hp
  exact ⟨List.mem_of_find?_eq_some h, hp⟩

theorem waitqueue_exact_merge_into {s : State} (h : waitqueue_exact s) (bucket other : Ptr)
    (hin : other ∈ s.waitqueue.buckets) (hne : other ≠ bucket)
    (hsum : (s.buckets other).objcount + (s.buckets bucket).objcount
      ≤ ((MAXIMUM_WAITQUEUE_OBJECTS * 2 / 3 : Nat) : Int)) :
    waitqueue_exact (waitqueue_merge_into s bucket other) := by
  obtain ⟨ho, hb, hc, hl, -, hobj⟩ := waitqueue_merge_into_eq s bucket other hne
  have hdis : ∀ x, x ∈ (s.buckets other).reserved ++ (s.buckets other).waiting →
      x ∈ (s.buckets bucket).reserved ++ (s.buckets bucket).waiting → False := by
    intro x h1 h2
    have e1 := h.member other x h1
    have e2 := h.member bucket x h2
    rw [e1] at e2
    exact hne (Option.some.inj e2)
  have hperm : (((s.buckets other).reserved ++ (s.buckets bucket).reserved) ++
      ((s.buckets other).waiting ++ (s.buckets bucket).waiting)).Perm
      (((s.buckets other).reserved ++ (s.buckets other).waiting) ++
        ((s.buckets bucket).reserved ++ (s.buckets bucket).waiting)) := by
    rw [List.append_assoc, List.append_assoc]
    refine List.Perm.append_left _ ?_
    rw [← List.append_assoc, ← List.append_assoc]
    exact List.Perm.append_right _ List.perm_append_comm
  have hmem2 : ∀ c x, x ∈ ((waitqueue_merge_into s bucket other).buckets c).reserved
        ++ ((waitqueue_merge_into s bucket other).buckets c).waiting ↔
      ((c = other ∧ (x ∈ (s.buckets other).reserved ++ (s.buckets other).waiting ∨
          x ∈ (s.buckets bucket).reserved ++ (s.buckets bucket).waiting)) ∨
        (c ≠ other ∧ c ≠ bucket ∧ x ∈ (s.buckets c).reserved ++ (s.buckets c).waiting)) := by
    intro c x
    by_cases hco : c = other
    · subst hco
      rw [ho]
      show x ∈ ((s.buckets c).reserved ++ (s.buckets bucket).reserved)
        ++ ((s.buckets c).waiting ++ (s.buckets bucket).waiting) ↔ _
      rw [hperm.mem_iff, List.mem_append]
      simp
    · by_cases hcb : c = bucket
      · subst hcb
        rw [hb]
        simp [hco]
      · rw [hc c hco hcb]
        simp [hco, hcb]
  refine ⟨?_, ?_, ?_, ?_, ?_, ?_, ?_⟩
  · intro c
    by_cases hco : c = other
    · subst hco
      rw [ho]
      show (s.buckets c).objcount + (s.buckets bucket).objcount
        = (((((s.buckets c).reserved ++ (s.buckets bucket).reserved).length
          + ((s.buckets c).waiting ++ (s.buckets bucket).waiting).length : Nat)) : Int)
      rw [h.count c, h.count bucket, List.length_append, List.length_append]
      push_cast
      ring
    · by_cases hcb : c = bucket
      · subst hcb
        rw [hb]
        rfl
      · rw [hc c hco hcb]
        exact h.count c
  · intro c
    by_cases hco : c = other
    · subst hco
      rw [ho]
      show (s.buckets c).objcount + (s.buckets bucket).objcount ≤ _
      refine le_trans hsum ?_
      decide
    · by_cases hcb : c = bucket
      · subst hcb
        rw [hb]
        show (0 : Int) ≤ _
        decide
      · rw [hc c hco hcb]
        exact h.limit c
  · intro c
    by_cases hco : c = other
    · subst hco
      rw [ho]
      refine hperm.nodup_iff.mpr ?_
      refine List.Nodup.append (h.nodup c) (h.nodup bucket) ?_
      intro x h1 h2
      exact hdis x h1 h2
    · by_cases hcb : c = bucket
      · subst hcb
        rw [hb]
        exact List.nodup_nil
      · rw [hc c hco hcb]
        exact h.nodup c
  · intro c x hx
    rw [(hobj x).1]
    rcases (hmem2 c x).mp hx with ⟨e, h1 | h1⟩ | ⟨h1, h2, h3⟩
    · have : x ∉ (s.buckets bucket).reserved ++ (s.buckets bucket).waiting :=
        fun h2 => hdis x h1 h2
      rw [if_neg this, e]
      exact h.member other x h1
    · rw [if_pos h1, e]
    · have : x ∉ (s.buckets bucket).reserved ++ (s.buckets bucket).waiting := by
        intro h4
        have e1 := h.member c x h3
        have e2 := h.member bucket x h4
        rw [e1] at e2
        exact h2 (Option.some.inj e2)
      rw [if_neg this]
      exact h.member c x h3
  · intro c x hx
    rw [(hobj x).1] at hx
    by_cases hxb : x ∈ (s.buckets bucket).reserved ++ (s.buckets bucket).waiting
    · rw [if_pos hxb] at hx
      have e : c = other := (Option.some.inj hx).symm
      exact (hmem2 c x).mpr (Or.inl ⟨e, Or.inr hxb⟩)
    · rw [if_neg hxb] at hx
      have hx2 := h.linked c x hx
      by_cases hco : c = other
      · exact (hmem2 c x).mpr (Or.inl ⟨hco, Or.inl (hco ▸ hx2)⟩)
      · have hcb : c ≠ bucket := fun e => hxb (e ▸ hx2)
        exact (hmem2 c x).mpr (Or.inr ⟨hco, hcb, hx2⟩)
  · intro c hn
    rw [hl] at hn
    unfold list_add_tail at hn
    rw [List.mem_append, List.mem_singleton, not_or] at hn
    have hcb : c ≠ bucket := hn.2
    have hcl : c ∉ s.waitqueue.buckets :=
      fun hm => hn.1 (list_remove_mem_of_ne _ _ _ hm hcb)
    have hco : c ≠ other := fun e => hcl (e ▸ hin)
    rw [hc c hco hcb]
    exact h.unlisted c hcl
  · intro c x hx
    rw [(hobj x).2]
    rcases (hmem2 c x).mp hx with ⟨_, h1 | h1⟩ | ⟨_, _, h3⟩
    · exact h.flags other x h1
    · exact h.flags bucket x h1
    · exact h.flags c x h3

theorem waitqueue_exact_merge {s : State} (h : waitqueue_exact s) (bucket : Ptr) :
    waitqueue_exact (waitqueue_thread_merge s bucket) := by
  unfold waitqueue_thread_merge
  split_ifs with hc
  · cases hf : s.waitqueue.buckets.find? (waitqueue_merge_target s bucket) with
    | none => exact h
    | some other =>
      obtain ⟨h1, h2, -, -, h5⟩ := waitqueue_merge_target_spec s bucket other hf
      exact waitqueue_exact_merge_into h bucket other h1 h2 h5
  · exact h

theorem tp_waitqueue_lock_type (s : State) (wait : Ptr) (new_bucket : Option Ptr)
    (event_status thread_status : NTSTATUS) :
    ((tp_waitqueue_lock s wait new_bucket event_status thread_status).1.objects wait).type
      = (s.objects wait).type := by
  unfold tp_waitqueue_lock
  dsimp only
  split
  · show threadpool_object.type (update _ wait _ wait) = _
    rw [update_same]
  · cases new_bucket with
    | none =>
      show threadpool_object.type (update _ wait _ wait) = _
      rw [update_same]
    | some bucket =>
      dsimp only
      split_ifs
      · show threadpool_object.type (update _ wait _ wait) = _
        rw [update_same]
      · show threadpool_object.type (update _ wait _ wait) = _
        rw [update_same]
      · show threadpool_object.type (update _ wait _ wait) = _
        rw [update_same]

theorem tp_object_initialize_waits (t : State) (object pool : Ptr) (userdata : Nat)
    (environment : Option TP_CALLBACK_ENVIRON) (st : NTSTATUS)
    (hty : (t.objects object).type ≠ TP_OBJECT_TYPE_SIMPLE) :
    wait_view t ( tp_object_initialize t object pool userdata environment st) := by
  have hu := (tp_object_initialize_timers t object pool userdata environment st hty).2
  refine ⟨?_, ?_, fun x => by rw [hu x]; exact ⟨rfl, rfl⟩⟩
  · unfold tp_object_initialize
    simp only [hty, decide_False, if_false]
    cases environment with
    | none => rfl
    | some e =>
      cases hg : e.CleanupGroup with
      | none =>
        simp only [hg]
        rfl
      | some g =>
        simp only [hg]
        rfl
  · unfold tp_object_initialize
    simp only [hty, decide_False, if_false]
    cases environment with
    | none => rfl
    | some e =>
      cases hg : e.CleanupGroup with
      | none =>
        simp only [hg]
        rfl
      | some g =>
        simp only [hg]
        rfl

theorem waitqueue_exact_alloc {s : State} (h : waitqueue_exact s) (new_object : Option Ptr)
    (callback userdata : Nat) (environment : Option TP_CALLBACK_ENVIRON)
    (new_pool : Option Ptr) (st : NTSTATUS) (new_bucket : Option Ptr) (est bst : NTSTATUS)
    (hfree : ∀ a, new_object = some a →
      ∀ b, a ∉ (s.buckets b).reserved ∧ a ∉ (s.buckets b).waiting)
    (hnew : ∀ b, new_bucket = some b → b ∉ s.waitqueue.buckets) :
    waitqueue_exact ( TpAllocWait s new_object callback userdata environment new_pool st
      new_bucket est bst).1 := by
  cases new_object with
  | none => exact h
  | some object =>
    have hf := tp_threadpool_lock_frame s environment new_pool st
    unfold TpAllocWait tp_alloc_wait
    dsimp only
    generalize tp_threadpool_lock s environment new_pool st = L at hf
    obtain ⟨s1, status, pool⟩ := L
    have hv1 : wait_view s s1 := ⟨hf.2.2.2.1, hf.2.2.1, fun x => by rw [hf.2.1]; exact ⟨rfl, rfl⟩⟩
    have h1 := waitqueue_exact_view h hv1
    cases pool with
    | none => exact h1
    | some pool =>
      dsimp only
      have hfree1 : ∀ c, object ∉ (s1.buckets c).reserved ++ (s1.buckets c).waiting := by
        intro c hm
        have hb : s1.buckets = s.buckets := hf.2.2.2.1
        rw [hb] at hm
        rcases List.mem_append.mp hm with e | e
        · exact (hfree object rfl c).1 e
        · exact (hfree object rfl c).2 e
      have hnone : (s1.objects object).u.wait.bucket = none := by
        cases hb : (s1.objects object).u.wait.bucket with
        | none => rfl
        | some c => exact absurd (h1.linked c object hb) (hfree1 c)
      have h2 := waitqueue_exact_set_free h1 object { s1.objects object with
        type := TP_OBJECT_TYPE_WAIT
        u := { (s1.objects object).u with
          callback := callback
          wait := { (s1.objects object).u.wait with flags := WT_EXECUTEONLYONCE } } }
        hfree1 hnone
      have h3 := tp_waitqueue_lock_exact h2 object new_bucket est bst hfree1
        (by
          show (update s1.objects object _ object).u.wait.flags = _
          rw [update_same])
        (fun b hb => by
          have := hnew b hb
          have hw : s1.waitqueue = s.waitqueue := hf.2.2.1
          show b ∉ s1.waitqueue.buckets
          rw [hw]
          exact this)
      have hty : ((tp_waitqueue_lock (s1.set_object object { s1.objects object with
          type := TP_OBJECT_TYPE_WAIT
          u := { (s1.objects object).u with
            callback := callback
            wait := { (s1.objects object).u.wait with flags := WT_EXECUTEONLYONCE } } })
          object new_bucket est bst).1.objects object).type ≠ TP_OBJECT_TYPE_SIMPLE := by
        rw [tp_waitqueue_lock_type]
        show (update s1.objects object _ object).type ≠ _
        rw [update_same]
        exact fun e => by cases e
      split_ifs with hs
      · rw [tp_threadpool_unlock_eq]
        exact waitqueue_exact_view h3 ⟨rfl, rfl, fun _ => ⟨rfl, rfl⟩⟩
      · refine waitqueue_exact_view (s := { (tp_waitqueue_lock (s1.set_object object
            { s1.objects object with
              type := TP_OBJECT_TYPE_WAIT
              u := { (s1.objects object).u with
                callback := callback
                wait := { (s1.objects object).u.wait with flags := WT_EXECUTEONLYONCE } } })
            object new_bucket est bst).1 with
          live_objects := object :: (tp_waitqueue_lock (s1.set_object object
            { s1.objects object with
              type := TP_OBJECT_TYPE_WAIT
              u := { (s1.objects object).u with
                callback := callback
                wait := { (s1.objects object).u.wait with flags := WT_EXECUTEONLYONCE } } })
            object new_bucket est bst).1.live_objects }) ?_ ?_
        · exact waitqueue_exact_view h3 ⟨rfl, rfl, fun _ => ⟨rfl, rfl⟩⟩
        · exact tp_object_initialize_waits _ object pool userdata environment st hty

theorem waitqueue_exact_step (s : State) (c : wait_call) (h : waitqueue_exact s)
    (ha : c.allowed s) : waitqueue_exact (c.run s) := by
  cases c with
  | alloc new_object callback userdata environment new_pool st new_bucket est bst =>
    exact waitqueue_exact_alloc h new_object callback userdata environment new_pool st
      new_bucket est bst ha.1 ha.2
  | unlock wait => exact waitqueue_exact_unlock h wait
  | set_wait wait handle timeout now =>
    show waitqueue_exact (match TpSetWaitEx s wait handle timeout now with
      | some r => r.1
      | none => s)
    cases hr : TpSetWaitEx s wait handle timeout now with
    | none => exact h
    | some r => exact waitqueue_exact_set_wait h wait handle timeout now r hr
  | thread_collect bucket now threadid user st =>
    show waitqueue_exact (match waitqueue_thread_collect s bucket now threadid user st with
      | some r => r.1
      | none => s)
    obtain ⟨r1, he, h1, -, -⟩ := waitqueue_thread_collect_exact s bucket now threadid user st h
    rw [he]
    exact h1
  | thread_signal bucket l status threadid user st =>
    show waitqueue_exact (match waitqueue_thread_signal s bucket l status threadid user st with
      | some t => t
      | none => s)
    cases hr : waitqueue_thread_signal s bucket l status threadid user st with
    | none => exact h
    | some t => exact waitqueue_thread_signal_exact h bucket l status threadid user st t hr
  | thread_merge bucket => exact waitqueue_exact_merge h bucket
  | thread_idle bucket status => exact waitqueue_exact_idle h bucket status
  | other f => exact waitqueue_exact_view h ha

theorem wait_reachable_exact (s : State) (h : wait_reachable s) : waitqueue_exact s := by
  induction h with
  | initial => exact waitqueue_exact_initial
  | step s c _ ha ih => exact waitqueue_exact_step s c ih ha

theorem tp_waitqueue_lock_full (s : State) (wait : Ptr) (new_bucket : Option Ptr)
    (event_status thread_status : NTSTATUS) (b : Ptr) (hb : new_bucket ≠ some b)
    (hfull : ¬ (s.buckets b).objcount < (MAXIMUM_WAITQUEUE_OBJECTS : Int)) :
    (tp_waitqueue_lock s wait new_bucket event_status thread_status).1.buckets b
      = s.buckets b := by
  unfold tp_waitqueue_lock
  dsimp only
  split
  · rename_i bucket hfind
    have hp := List.find?_some hfind
    simp only [decide_eq_true_eq] at hp
    have hne : b ≠ bucket := fun e => hfull (e ▸ hp.1)
    exact (update_of_ne _ bucket _ b hne).trans rfl
  · cases new_bucket with
    | none => rfl
    | some bucket =>
      have hne : b ≠ bucket := fun e => hb (by rw [e])
      dsimp only
      split_ifs
      · exact (update_of_ne _ bucket _ b hne).trans rfl
      · exact (update_of_ne _ bucket _ b hne).trans
          ((update_of_ne _ bucket _ b hne).trans rfl)
      · exact (update_of_ne _ bucket _ b hne).trans rfl

theorem wait_state_armed_reachable : wait_reachable wait_state_armed :=
  wait_reachable.step _ _
    (wait_reachable.step _ _ wait_reachable.initial
      ⟨fun _ _ _ => ⟨List.not_mem_nil _, List.not_mem_nil _⟩, fun _ _ => List.not_mem_nil _⟩)
    trivial

/-- C25.  In every state that the calls on the wait service reach, the
`objcount` of each bucket is the number of waits in its list `reserved` plus
the number in its list `waiting` and is at most `MAXIMUM_WAITQUEUE_OBJECTS`,
and every allowed call (`TpAllocWait` with `tp_waitqueue_lock`,
`tp_waitqueue_unlock`, `TpSetWaitEx`, the first loop of the bucket thread with
its one-shot moves, its handling of a signal, the merge, the end of the
thread) leaves it so.  `tp_waitqueue_lock` leaves a bucket that is not below
the limit as it is.  Every linked wait has the flags `WT_EXECUTEONLYONCE`, so
no callback runs inside the first loop; the loop returns without a failed
assertion `num_handles < MAXIMUM_WAITQUEUE_OBJECTS` and stores at most
`MAXIMUM_WAITQUEUE_OBJECTS` handles. -/
theorem waitqueue_objcount_spec (s : State) (h : wait_reachable s) :
    (∀ b, (s.buckets b).objcount =
      (((s.buckets b).reserved.length + (s.buckets b).waiting.length : Nat) : Int)) ∧
    (∀ b, (s.buckets b).objcount ≤ (MAXIMUM_WAITQUEUE_OBJECTS : Int)) ∧
    (∀ c : wait_call, c.allowed s →
      (∀ b, ((c.run s).buckets b).objcount =
        ((((c.run s).buckets b).reserved.length + ((c.run s).buckets b).waiting.length : Nat)
          : Int)) ∧
      ∀ b, ((c.run s).buckets b).objcount ≤ (MAXIMUM_WAITQUEUE_OBJECTS : Int)) ∧
    (∀ wait new_bucket event_status thread_status b, new_bucket ≠ some b →
      ¬ (s.buckets b).objcount < (MAXIMUM_WAITQUEUE_OBJECTS : Int) →
      (tp_waitqueue_lock s wait new_bucket event_status thread_status).1.buckets b
        = s.buckets b) ∧
    (∀ b x, x ∈ (s.buckets b).reserved ++ (s.buckets b).waiting →
      (s.objects x).u.wait.flags = WT_EXECUTEONLYONCE) ∧
    (∀ bucket now threadid user thread_status,
      ∃ r, waitqueue_thread_collect s bucket now threadid user thread_status = some r ∧
        r.2.objects.length ≤ MAXIMUM_WAITQUEUE_OBJECTS) := by
  have hs := wait_reachable_exact s h
  refine ⟨hs.count, hs.limit, ?_, ?_, hs.flags, ?_⟩
  · intro c hc
    have h1 := waitqueue_exact_step s c hs hc
    exact ⟨h1.count, h1.limit⟩
  · intro wait new_bucket event_status thread_status b hb hfull
    exact tp_waitqueue_lock_full s wait new_bucket event_status thread_status b hb hfull
  · intro bucket now threadid user thread_status
    obtain ⟨r, he, -, hl, -⟩ :=
      waitqueue_thread_collect_exact s bucket now threadid user thread_status hs
    exact ⟨r, he, hl⟩

theorem waitqueue_objcount_spec_witness :
    wait_reachable wait_state_armed ∧
    (wait_state_armed.buckets 30).waiting = [20] ∧
    (wait_state_armed.buckets 30).objcount = 1 ∧
    ∃ r, waitqueue_thread_collect wait_state_armed 30 120 5 [] STATUS_SUCCESS = some r ∧
      r.2.objects.length ≤ MAXIMUM_WAITQUEUE_OBJECTS :=
  ⟨wait_state_armed_reachable, by decide,
    ((waitqueue_objcount_spec wait_state_armed wait_state_armed_reachable).1 30).trans
      (by decide),
    (waitqueue_objcount_spec wait_state_armed wait_state_armed_reachable).2.2.2.2.2
      30 120 5 [] STATUS_SUCCESS⟩

theorem list_find_first (p : Ptr → Bool) (l1 : List Ptr) (a : Ptr) (l2 : List Ptr)
    (h1 : ∀ c ∈ l1, p c = false) (ha : p a = true) : (l1 ++ a :: l2).find? p = some a := by
  induction l1 with
  | nil =>
    rw [List.nil_append, List.find?_cons, ha]
  | cons b l ih =>
    rw [List.cons_append, List.find?_cons, h1 b (List.mem_cons_self _ _)]
    exact ih (fun c hc => h1 c (List.mem_cons_of_mem _ hc))

theorem waitqueue_thread_merge_none (s : State) (bucket : Ptr)
    (h : ∀ c ∈ s.waitqueue.buckets, waitqueue_merge_target s bucket c = false) :
    waitqueue_thread_merge s bucket = s := by
  unfold waitqueue_thread_merge
  have hf : s.waitqueue.buckets.find? (waitqueue_merge_target s bucket) = none :=
    List.find?_eq_none.mpr (fun c hc => by rw [h c hc]; decide)
  rw [hf]
  split_ifs <;> rfl

theorem waitqueue_merge_target_iff (s : State) (bucket c : Ptr) :
    waitqueue_merge_target s bucket c = true ↔
      (c ≠ bucket ∧ (s.buckets c).objcount ≠ 0 ∧
        (s.buckets c).alertable = (s.buckets bucket).alertable ∧
        (s.buckets c).objcount + (s.buckets bucket).objcount
          ≤ ((2 * MAXIMUM_WAITQUEUE_OBJECTS / 3 : Nat) : Int)) := by
  unfold waitqueue_merge_target
  rw [decide_eq_true_eq]
  have e : (MAXIMUM_WAITQUEUE_OBJECTS * 2 / 3 : Nat) = 2 * MAXIMUM_WAITQUEUE_OBJECTS / 3 := by
    decide
  rw [e]

/-- C26.  The bucket thread of `bucket` leaves the state as it is unless
`num_buckets > 1` and the `objcount` of its bucket is at least 1 and at most
`MAXIMUM_WAITQUEUE_OBJECTS / 3`, and unless some bucket of the global list is
a target: another bucket with a non-zero `objcount`, the same alertability
and a sum of the two counts of at most `2 * MAXIMUM_WAITQUEUE_OBJECTS / 3`.
Otherwise it merges into the first target in list order: the lists of the
target get the entries of the lists of `bucket` at their tail, `reserved` to
`reserved` and `waiting` to `waiting`, every moved wait points to the target,
no other bucket pointer and no other bucket changes, `bucket` is left with
`objcount` 0 and two empty lists, the sum of the two counts is the same, and
the waits of the two buckets after the merge are those before it, each as
often as before. -/
theorem waitqueue_thread_merge_spec (s : State) (bucket : Ptr)
    (h : 0 ≤ (s.buckets bucket).objcount) (target : Ptr → Prop)
    (htarget : ∀ c, target c ↔
      (c ≠ bucket ∧ (s.buckets c).objcount ≠ 0 ∧
        (s.buckets c).alertable = (s.buckets bucket).alertable ∧
        (s.buckets c).objcount + (s.buckets bucket).objcount
          ≤ ((2 * MAXIMUM_WAITQUEUE_OBJECTS / 3 : Nat) : Int))) :
    (¬ (s.waitqueue.num_buckets > 1 ∧ 1 ≤ (s.buckets bucket).objcount ∧
        (s.buckets bucket).objcount ≤ ((MAXIMUM_WAITQUEUE_OBJECTS / 3 : Nat) : Int)) →
      waitqueue_thread_merge s bucket = s) ∧
    ((∀ c ∈ s.waitqueue.buckets, ¬ target c) → waitqueue_thread_merge s bucket = s) ∧
    (s.waitqueue.num_buckets > 1 → 1 ≤ (s.buckets bucket).objcount →
      (s.buckets bucket).objcount ≤ ((MAXIMUM_WAITQUEUE_OBJECTS / 3 : Nat) : Int) →
      ∀ l1 other l2, s.waitqueue.buckets = l1 ++ other :: l2 →
        (∀ c ∈ l1, ¬ target c) → target other →
        ((waitqueue_thread_merge s bucket).buckets other).reserved
          = (s.buckets other).reserved ++ (s.buckets bucket).reserved ∧
        ((waitqueue_thread_merge s bucket).buckets other).waiting
          = (s.buckets other).waiting ++ (s.buckets bucket).waiting ∧
        ((waitqueue_thread_merge s bucket).buckets other).objcount
          = (s.buckets other).objcount + (s.buckets bucket).objcount ∧
        ((waitqueue_thread_merge s bucket).buckets bucket).objcount = 0 ∧
        ((waitqueue_thread_merge s bucket).buckets bucket).reserved = [] ∧
        ((waitqueue_thread_merge s bucket).buckets bucket).waiting = [] ∧
        (∀ x ∈ (s.buckets bucket).reserved ++ (s.buckets bucket).waiting,
          ((waitqueue_thread_merge s bucket).objects x).u.wait.bucket = some other) ∧
        (∀ x, x ∉ (s.buckets bucket).reserved ++ (s.buckets bucket).waiting →
          ((waitqueue_thread_merge s bucket).objects x).u.wait.bucket
            = (s.objects x).u.wait.bucket) ∧
        (∀ c, c ≠ other → c ≠ bucket →
          (waitqueue_thread_merge s bucket).buckets c = s.buckets c) ∧
        ((waitqueue_thread_merge s bucket).buckets other).objcount
            + ((waitqueue_thread_merge s bucket).buckets bucket).objcount
          = (s.buckets other).objcount + (s.buckets bucket).objcount ∧
        ((((waitqueue_thread_merge s bucket).buckets other).reserved
            ++ ((waitqueue_thread_merge s bucket).buckets other).waiting)
          ++ (((waitqueue_thread_merge s bucket).buckets bucket).reserved
            ++ ((waitqueue_thread_merge s bucket).buckets bucket).waiting)).Perm
          (((s.buckets other).reserved ++ (s.buckets other).waiting)
            ++ ((s.buckets bucket).reserved ++ (s.buckets bucket).waiting))) := by
  have e3 : (MAXIMUM_WAITQUEUE_OBJECTS * 1 / 3 : Nat) = MAXIMUM_WAITQUEUE_OBJECTS / 3 := by
    decide
  have hfalse : ∀ c, ¬ target c → waitqueue_merge_target s bucket c = false := by
    intro c hc
    cases ht : waitqueue_merge_target s bucket c with
    | false => rfl
    | true => exact absurd ((htarget c).mpr ((waitqueue_merge_target_iff s bucket c).mp ht)) hc
  refine ⟨?_, ?_, ?_⟩
  · intro hc
    unfold waitqueue_thread_merge
    rw [e3, if_neg]
    intro hh
    refine hc ⟨hh.1, ?_, hh.2.2⟩
    have := hh.2.1
    omega
  · intro hn
    exact waitqueue_thread_merge_none s bucket (fun c hc => hfalse c (hn c hc))
  · intro hnum h1 h21 l1 other l2 hl hl1 hother
    have hcond : s.waitqueue.num_buckets > 1 ∧ (s.buckets bucket).objcount ≠ 0 ∧
        (s.buckets bucket).objcount ≤ ((MAXIMUM_WAITQUEUE_OBJECTS * 1 / 3 : Nat) : Int) := by
      rw [e3]
      exact ⟨hnum, by omega, h21⟩
    have hfind : s.waitqueue.buckets.find? (waitqueue_merge_target s bucket) = some other := by
      rw [hl]
      exact list_find_first _ l1 other l2 (fun c hc => hfalse c (hl1 c hc))
        ((waitqueue_merge_target_iff s bucket other).mpr ((htarget other).mp hother))
    have he : waitqueue_thread_merge s bucket = waitqueue_merge_into s bucket other := by
      unfold waitqueue_thread_merge
      rw [if_pos hcond, hfind]
    have hne : other ≠ bucket := ((htarget other).mp hother).1
    obtain ⟨ho, hb, hc, -, -, hobj⟩ := waitqueue_merge_into_eq s bucket other hne
    rw [he, ho, hb]
    refine ⟨rfl, rfl, rfl, rfl, rfl, rfl, ?_, ?_, hc, ?_, ?_⟩
    · intro x hx
      rw [(hobj x).1, if_pos hx]
    · intro x hx
      rw [(hobj x).1, if_neg hx]
    · show (s.buckets other).objcount + (s.buckets bucket).objcount + 0 = _
      omega
    · show ((((s.buckets other).reserved ++ (s.buckets bucket).reserved)
        ++ ((s.buckets other).waiting ++ (s.buckets bucket).waiting)) ++ ([] ++ [])).Perm _
      rw [List.append_nil, List.append_nil, List.append_assoc, List.append_assoc]
      refine List.Perm.append_left _ ?_
      rw [← List.append_assoc, ← List.append_assoc]
      exact List.Perm.append_right _ List.perm_append_comm

theorem waitqueue_thread_merge_spec_witness :
    0 ≤ (state_two_buckets.buckets 31).objcount ∧
    state_two_buckets.waitqueue.buckets = [30, 31] ∧
    ((waitqueue_thread_merge state_two_buckets 31).buckets 30).reserved = [20, 21] ∧
    ((waitqueue_thread_merge state_two_buckets 31).buckets 30).waiting = [22] ∧
    ((waitqueue_thread_merge state_two_buckets 31).buckets 30).objcount = 3 ∧
    ((waitqueue_thread_merge state_two_buckets 31).buckets 31).objcount = 0 :=
  ⟨by decide, rfl,
    ((waitqueue_thread_merge_spec state_two_buckets 31 (by decide)
      (fun c => c ≠ 31 ∧ (state_two_buckets.buckets c).objcount ≠ 0 ∧
        (state_two_buckets.buckets c).alertable = (state_two_buckets.buckets 31).alertable ∧
        (state_two_buckets.buckets c).objcount + (state_two_buckets.buckets 31).objcount
          ≤ ((2 * MAXIMUM_WAITQUEUE_OBJECTS / 3 : Nat) : Int))
      (fun _ => Iff.rfl)).2.2 (by decide) (by decide) (by decide) [] 30 [31] rfl
        (fun c hc => absurd hc (List.not_mem_nil c)) (by decide)).1.trans (by decide),
    by decide, by decide, by decide⟩

/-- The branch `Wait object signaled` on a wait of the bucket: both counters
of the wait grow by one, on either path. -/
theorem waitqueue_thread_signaled_counts (s : State) (bucket wait : Ptr) (st : NTSTATUS)
    (hb : (s.objects wait).u.wait.bucket = some bucket)
    (hty : (s.objects wait).type = TP_OBJECT_TYPE_WAIT) :
    ∃ r, waitqueue_thread_signaled s bucket wait st = some r ∧
      (r.1.objects wait).u.wait.signaled = (s.objects wait).u.wait.signaled + 1 ∧
      (r.1.objects wait).num_pending_callbacks = (s.objects wait).num_pending_callbacks + 1 ∧
      (r.2 = true ↔ (s.objects wait).u.wait.flags
        &&& (WT_EXECUTEINWAITTHREAD ||| WT_EXECUTEINIOTHREAD) ≠ 0) := by
  obtain ⟨-, -, h3, h4, h5, -⟩ := waitqueue_one_shot_objects s bucket wait wait
  unfold waitqueue_thread_signaled
  dsimp only
  rw [if_pos hb]
  by_cases hf : (s.objects wait).u.wait.flags
      &&& (WT_EXECUTEINWAITTHREAD ||| WT_EXECUTEINIOTHREAD) ≠ 0
  · rw [if_pos hf]
    refine ⟨_, rfl, ?_, ?_, ?_⟩
    · show (threadpool_object.u (update _ wait _ wait)).wait.signaled = _
      rw [update_same]
      show ((waitqueue_one_shot s bucket wait).objects wait).u.wait.signaled + 1 = _
      rw [h3]
    · show threadpool_object.num_pending_callbacks (update _ wait _ wait) = _
      rw [update_same]
      show ((waitqueue_one_shot s bucket wait).objects wait).num_pending_callbacks + 1 = _
      rw [h4]
    · exact ⟨fun _ => hf, fun _ => rfl⟩
  · rw [if_neg hf]
    refine ⟨_, rfl, ?_, ?_, ?_⟩
    · show ((tp_object_submit _ wait true st).objects wait).u.wait.signaled = _
      rw [tp_object_submit_objects, update_same]
      show ((waitqueue_one_shot s bucket wait).objects wait).u.wait.signaled
        + (if ((waitqueue_one_shot s bucket wait).objects wait).type = TP_OBJECT_TYPE_WAIT
          ∧ true = true then 1 else 0) = _
      rw [h3, h5, if_pos ⟨hty, rfl⟩]
    · show ((tp_object_submit _ wait true st).objects wait).num_pending_callbacks = _
      rw [tp_object_submit_objects, update_same]
      show ((waitqueue_one_shot s bucket wait).objects wait).num_pending_callbacks + 1 = _
      rw [h4]
    · constructor
      · intro e
        cases e
      · intro e
        exact absurd e hf

theorem release_fold_objects (l : List Ptr) :
    ∀ (s : State) (x : Ptr),
      ((l.foldl (fun s wait => ( tp_object_release s wait).1) s).objects x).refcount
        = (s.objects x).refcount - (l.count x : Int) ∧
      ((l.foldl (fun s wait => ( tp_object_release s wait).1) s).objects x).u = (s.objects x).u ∧
      ((l.foldl (fun s wait => ( tp_object_release s wait).1) s).objects x).num_pending_callbacks
        = (s.objects x).num_pending_callbacks := by
  induction l with
  | nil =>
    intro s x
    exact ⟨by simp, rfl, rfl⟩
  | cons a l ih =>
    intro s x
    rw [List.foldl_cons]
    obtain ⟨h1, h2, h3⟩ := ih (tp_object_release s a).1 x
    rw [h1, h2, h3, tp_object_release_objects]
    by_cases hx : x = a
    · subst hx
      rw [update_same, List.count_cons_self]
      refine ⟨?_, rfl, rfl⟩
      show (s.objects x).refcount - 1 - _ = _
      push_cast
      ring
    · rw [update_of_ne _ _ _ _ hx, List.count_cons_of_ne hx]
      exact ⟨rfl, rfl, rfl⟩

/-- The release loop of the bucket thread: every object loses as many
references as the array holds entries for it, and nothing else of the wait
service changes. -/
theorem waitqueue_thread_release_objects (t : State) (objects : List Ptr) :
    (waitqueue_thread_release t objects).buckets = t.buckets ∧
    ∀ x, ((waitqueue_thread_release t objects).objects x).refcount
        = (t.objects x).refcount - (objects.count x : Int) ∧
      ((waitqueue_thread_release t objects).objects x).u.wait.signaled
        = (t.objects x).u.wait.signaled ∧
      ((waitqueue_thread_release t objects).objects x).num_pending_callbacks
        = (t.objects x).num_pending_callbacks ∧
      ((waitqueue_thread_release t objects).objects x).u.wait.bucket
        = (t.objects x).u.wait.bucket := by
  refine ⟨(waitqueue_thread_release_waits objects t).1, fun x => ?_⟩
  obtain ⟨h1, h2, h3⟩ := release_fold_objects objects.reverse t x
  unfold waitqueue_thread_release
  rw [h1, h2, h3, List.count_reverse]
  exact ⟨rfl, rfl, rfl, rfl⟩

/-- C27.  The multi-wait of the bucket thread of `bucket` has returned the
index of a handle, `wait` and `serial` being the object and the serial
captured at that index; the wait is a wait object and belongs to no other
bucket.  When the wait still has a bucket and its `update_serial` is the
captured one, it is dispatched as signalled: `u.wait.signaled` and
`num_pending_callbacks` are each one more than before, by `tp_object_submit`
or, under the flags for execution in the wait thread, by the two increments
that precede the call of `tp_object_execute`.  In every other case the state
is left as it is.  In both cases the release loop then runs, which takes from
every object as many references as the array holds entries for it and changes
no counter, no bucket pointer and no bucket. -/
theorem waitqueue_thread_signal_spec (s : State) (bucket : Ptr) (l : waitqueue_locals)
    (status : NTSTATUS) (threadid : Nat) (user : List instance_call) (thread_status : NTSTATUS)
    (wait : Ptr) (serial : Int)
    (hi : status ≥ STATUS_WAIT_0 ∧ status < STATUS_WAIT_0 + l.objects.length)
    (hw : l.objects.get? (status - STATUS_WAIT_0) = some wait)
    (hs : l.update_serials.get? (status - STATUS_WAIT_0) = some serial)
    (hty : (s.objects wait).type = TP_OBJECT_TYPE_WAIT)
    (hb : ∀ b, (s.objects wait).u.wait.bucket = some b → b = bucket) :
    (((s.objects wait).u.wait.bucket ≠ none ∧ (s.objects wait).update_serial = serial) →
      ∃ r, waitqueue_thread_signaled s bucket wait thread_status = some r ∧
        (r.1.objects wait).u.wait.signaled = (s.objects wait).u.wait.signaled + 1 ∧
        (r.1.objects wait).num_pending_callbacks
          = (s.objects wait).num_pending_callbacks + 1 ∧
        (r.2 = true ↔ (s.objects wait).u.wait.flags
          &&& (WT_EXECUTEINWAITTHREAD ||| WT_EXECUTEINIOTHREAD) ≠ 0) ∧
        waitqueue_thread_dispatch s bucket l status threadid user thread_status
          = some (if r.2 = true then tp_object_execute r.1 wait true threadid user else r.1)) ∧
    (¬ ((s.objects wait).u.wait.bucket ≠ none ∧ (s.objects wait).update_serial = serial) →
      waitqueue_thread_dispatch s bucket l status threadid user thread_status = some s) ∧
    (∀ t, waitqueue_thread_dispatch s bucket l status threadid user thread_status = some t →
      waitqueue_thread_signal s bucket l status threadid user thread_status
        = some (waitqueue_thread_release t l.objects) ∧
      (waitqueue_thread_release t l.objects).buckets = t.buckets ∧
      ∀ x, ((waitqueue_thread_release t l.objects).objects x).refcount
          = (t.objects x).refcount - (l.objects.count x : Int) ∧
        ((waitqueue_thread_release t l.objects).objects x).u.wait.signaled
          = (t.objects x).u.wait.signaled ∧
        ((waitqueue_thread_release t l.objects).objects x).num_pending_callbacks
          = (t.objects x).num_pending_callbacks ∧
        ((waitqueue_thread_release t l.objects).objects x).u.wait.bucket
          = (t.objects x).u.wait.bucket) := by
  refine ⟨?_, ?_, ?_⟩
  · intro hc
    have hbk : (s.objects wait).u.wait.bucket = some bucket := by
      cases hq : (s.objects wait).u.wait.bucket with
      | none => exact absurd hq hc.1
      | some b => rw [hb b hq]
    obtain ⟨r, he, h1, h2, h3⟩ :=
      waitqueue_thread_signaled_counts s bucket wait thread_status hbk hty
    refine ⟨r, he, h1, h2, h3, ?_⟩
    unfold waitqueue_thread_dispatch
    rw [if_pos hi, hw, hs]
    dsimp only
    rw [if_pos hc, he]
    obtain ⟨r1, rb⟩ := r
    cases rb
    · rfl
    · rfl
  · intro hc
    unfold waitqueue_thread_dispatch
    rw [if_pos hi, hw, hs]
    dsimp only
    rw [if_neg hc]
  · intro t ht
    refine ⟨?_, waitqueue_thread_release_objects t l.objects⟩
    unfold waitqueue_thread_signal
    rw [ht]

theorem waitqueue_thread_signal_spec_witness :
    (waitqueue_thread_collect wait_state_armed 30 120 5 [] STATUS_SUCCESS).map Prod.snd
      = some wait_locals_armed ∧
    (wait_state_collected.objects 20).u.wait.bucket = some 30 ∧
    (wait_state_collected.objects 20).update_serial = 1 ∧
    ∃ r, waitqueue_thread_signaled wait_state_collected 30 20 STATUS_SUCCESS = some r ∧
      (r.1.objects 20).u.wait.signaled = 1 ∧ (r.1.objects 20).num_pending_callbacks = 1 :=
  ⟨by decide, by decide, by decide,
    ((waitqueue_thread_signal_spec wait_state_collected 30 wait_locals_armed STATUS_WAIT_0 5 []
      STATUS_SUCCESS 20 1 (by decide) (by decide) (by decide) (by decide)
      (fun b hb => (Option.some.inj ((show (wait_state_collected.objects 20).u.wait.bucket
        = some 30 by decide).symm.trans hb)).symm)).1 ⟨by decide, by decide⟩).imp
      (fun _ h => ⟨h.1, h.2.1.trans (by decide), h.2.2.1.trans (by decide)⟩)⟩

theorem group_cancel_calls_append (a b : List call) :
    group_cancel_calls (a ++ b) = group_cancel_calls a ++ group_cancel_calls b := by
  unfold group_cancel_calls
  exact List.filter_append _ _

/-- A wait that returns has gone through sleeps only: what the other threads
keep, it keeps. -/
theorem tp_object_wait_keeps {α : Type} (g : State → α) (object : Ptr) (group_wait : Bool)
    (others : List (State → State)) :
    ∀ (s : State) (r : State × List (State → State)),
      (∀ f ∈ others, ∀ t, g (f t) = g t) →
      tp_object_wait s object group_wait others = some r →
      g r.1 = g s ∧ ∀ f ∈ r.2, f ∈ others := by
  intro s r hg h
  have := tp_object_wait_preserves (fun t => g t = g s) object group_wait others s r
    (fun f hf t ht => (hg f hf t).trans ht) rfl h
  exact this

theorem tp_object_release_loop_calls (object : Ptr) (n : Nat) :
    ∀ s : State, (tp_object_release_loop s object n).calls = s.calls := by
  induction n with
  | zero => intro s; rfl
  | succ n ih =>
    intro s
    rw [tp_object_release_loop, ih, tp_object_release_calls]

theorem tp_object_cancel_calls (s : State) (object : Ptr) :
    (tp_object_cancel s object).calls = s.calls := by
  unfold tp_object_cancel
  rw [tp_object_release_loop_calls]
  unfold tp_object_cancel_locked
  by_cases hp : (s.objects object).num_pending_callbacks = 0 <;>
  by_cases hw : (s.objects object).type = TP_OBJECT_TYPE_WAIT <;>
  by_cases hi : (s.objects object).type = TP_OBJECT_TYPE_IO <;>
  simp [hp, hw, hi]

theorem release_members_mark_calls (s : State) (this object : Ptr) :
    (release_members_mark s this object).calls = s.calls := by
  unfold release_members_mark
  by_cases hd : (s.objects object).refcount + 1 = 1
  · simp only [hd, if_true]
    rfl
  · simp only [hd, if_false]
    rw [(tp_object_prepare_shutdown_frame _ object).2.2.2]
    rfl

/-- The part of `TpReleaseCleanupGroupMembers` before its last loop makes no
call into user code. -/
theorem release_members_cancel_calls (s : State) (group : Ptr) (cancel_pending : Bool) :
    ( release_members_cancel (release_members_collect s group).1
      (release_members_collect s group).2 cancel_pending).calls = s.calls := by
  have hmark : ∀ (l : List Ptr) (t : State),
      (l.foldl (fun s object => release_members_mark s group object) t).calls = t.calls := by
    intro l
    induction l with
    | nil => intro t; rfl
    | cons a l ih =>
      intro t
      rw [List.foldl_cons, ih, release_members_mark_calls]
  have hcancel : ∀ (l : List Ptr) (t : State),
      (l.foldl (fun s object => tp_object_cancel s object) t).calls = t.calls := by
    intro l
    induction l with
    | nil => intro t; rfl
    | cons a l ih =>
      intro t
      rw [List.foldl_cons, ih, tp_object_cancel_calls]
  have hcollect : (release_members_collect s group).1.calls = s.calls := by
    unfold release_members_collect
    exact hmark _ s
  unfold release_members_cancel
  by_cases hc : cancel_pending = true
  · rw [if_pos hc, hcancel, hcollect]
  · rw [if_neg hc, hcollect]

/-- The last loop of `TpReleaseCleanupGroupMembers`, as a whole: it passes
through one state per member, and the group cancel callbacks it has called
when it returns are those that the members give rise to in these states, in
the order of the members; the other threads are taken to call no group
cancel callback meanwhile. -/
theorem release_members_wait_calls (cancel_pending : Bool) (userdata : Nat)
    (members : List Ptr) :
    ∀ (s : State) (others : List (State → State)) (r : State × List (State → State)),
      release_members_wait s members cancel_pending userdata others = some r →
      (release_members_wait_states s members cancel_pending userdata others).length
        = members.length ∧
      ((∀ f ∈ others, ∀ t, group_cancel_calls (f t).calls = group_cancel_calls t.calls) →
        group_cancel_calls r.1.calls = group_cancel_calls s.calls ++
          ((members.zip
              (release_members_wait_states s members cancel_pending userdata others)).flatMap
            (fun p =>
              match (p.2.objects p.1).group_cancel_callback with
              | some fn =>
                if cancel_pending = true ∧ (p.2.objects p.1).shutdown = false then
                  [call.group_cancel_callback fn (p.2.objects p.1).userdata userdata]
                else []
              | none => []))) := by
  induction members with
  | nil =>
    intro s others r h
    simp only [release_members_wait, Option.some.injEq] at h
    rw [← h]
    exact ⟨rfl, fun _ => by simp [release_members_wait_states]⟩
  | cons m rest ih =>
    intro s others r h
    simp only [release_members_wait] at h
    cases hw : tp_object_wait s m true others with
    | none =>
      rw [hw] at h
      simp at h
    | some w =>
      rw [hw] at h
      dsimp only at h
      obtain ⟨hl, hc⟩ := ih _ _ r h
      have hst : release_members_wait_states s (m :: rest) cancel_pending userdata others
          = w.1 :: release_members_wait_states
            ( release_members_finish w.1 m cancel_pending userdata) rest cancel_pending
            userdata w.2 := by
        rw [release_members_wait_states, hw]
      rw [hst]
      refine ⟨by rw [List.length_cons, List.length_cons, hl], fun ho => ?_⟩
      obtain ⟨hk, hsub⟩ := tp_object_wait_keeps (fun t => group_cancel_calls t.calls) m true
        others s w ho hw
      have hc2 := hc (fun f hf => ho f (hsub f hf))
      rw [hc2, (release_members_finish_eq w.1 m cancel_pending userdata).1,
        group_cancel_calls_append, hk, List.zip_cons_cons, List.flatMap_cons, List.append_assoc]
      congr 2
      cases hcb : (w.1.objects m).group_cancel_callback with
      | none => rfl
      | some fn =>
        dsimp only
        split_ifs
        · rfl
        · rfl

/-- The state in which the wait for a member of the temporary list returns
is the entry of `release_members_wait_states` at the place of the member. -/
theorem release_members_wait_states_split (cancel_pending : Bool) (userdata : Nat) (m : Ptr)
    (post : List Ptr) (pre : List Ptr) :
    ∀ (s : State) (others : List (State → State)) (s1 : State) (o1 : List (State → State))
      (s2 : State) (o2 : List (State → State)),
      release_members_wait s pre cancel_pending userdata others = some (s1, o1) →
      tp_object_wait s1 m true o1 = some (s2, o2) →
      (release_members_wait_states s (pre ++ m :: post) cancel_pending userdata others).get?
        pre.length = some s2 := by
  induction pre with
  | nil =>
    intro s others s1 o1 s2 o2 h1 h2
    simp only [release_members_wait, Option.some.injEq, Prod.mk.injEq] at h1
    obtain ⟨e1, e2⟩ := h1
    subst e1
    subst e2
    rw [List.nil_append, release_members_wait_states, h2]
    rfl
  | cons x pre ih =>
    intro s others s1 o1 s2 o2 h1 h2
    simp only [release_members_wait] at h1
    cases hw : tp_object_wait s x true others with
    | none =>
      rw [hw] at h1
      simp at h1
    | some w =>
      rw [hw] at h1
      dsimp only at h1
      rw [List.cons_append, release_members_wait_states, hw]
      exact ih _ _ s1 o1 s2 o2 h1 h2

/-- The last loop of `TpReleaseCleanupGroupMembers`, as a whole: the
references it has released when it returns are, for every object, two or one
for each place the object has in the list, as decided in the state of that
place; the other threads are taken to leave all reference counts alone
meanwhile. -/
theorem release_members_wait_refcount (cancel_pending : Bool) (userdata : Nat)
    (members : List Ptr) :
    ∀ (s : State) (others : List (State → State)) (r : State × List (State → State)),
      release_members_wait s members cancel_pending userdata others = some r →
      (∀ f ∈ others, ∀ t x, ((f t).objects x).refcount = (t.objects x).refcount) →
      ∀ x, (r.1.objects x).refcount = (s.objects x).refcount -
        ((members.zip
            (release_members_wait_states s members cancel_pending userdata others)).map
          (fun p =>
            if p.1 = x then
              (if (p.2.objects p.1).shutdown = false ∧
                  (p.2.objects p.1).type ≠ TP_OBJECT_TYPE_SIMPLE then (2 : Int) else 1)
            else 0)).sum := by
  induction members with
  | nil =>
    intro s others r h _ x
    simp only [release_members_wait, Option.some.injEq] at h
    rw [← h]
    simp [release_members_wait_states]
  | cons m rest ih =>
    intro s others r h ho x
    simp only [release_members_wait] at h
    cases hw : tp_object_wait s m true others with
    | none =>
      rw [hw] at h
      simp at h
    | some w =>
      rw [hw] at h
      dsimp only at h
      have hst : release_members_wait_states s (m :: rest) cancel_pending userdata others
          = w.1 :: release_members_wait_states
            ( release_members_finish w.1 m cancel_pending userdata) rest cancel_pending
            userdata w.2 := by
        rw [release_members_wait_states, hw]
      obtain ⟨hk, hsub⟩ := tp_object_wait_keeps (fun t => fun y => (t.objects y).refcount) m
        true others s w (fun f hf t => funext (fun y => ho f hf t y)) hw
      have hkx : (w.1.objects x).refcount = (s.objects x).refcount := congrFun hk x
      have hrec := ih _ _ r h (fun f hf => ho f (hsub f hf)) x
      obtain ⟨-, -, -, hfr, hfo⟩ := release_members_finish_eq w.1 m cancel_pending userdata
      rw [hrec, hst, List.zip_cons_cons, List.map_cons, List.sum_cons]
      by_cases hx : m = x
      · subst hx
        rw [hfr, hkx, if_pos rfl]
        ring
      · rw [hfo x (Ne.symm hx), hkx, if_neg hx]
        ring

theorem release_members_mark_fold_refcount (this : Ptr) (l : List Ptr) :
    ∀ s : State, l.Nodup →
      ∀ x, ((l.foldl (fun s object => release_members_mark s this object) s).objects
          x).refcount =
        if x ∈ l then
          (if (s.objects x).refcount + 1 = 1 then (s.objects x).refcount
            else (s.objects x).refcount + 1)
        else (s.objects x).refcount := by
  induction l with
  | nil =>
    intro s _ x
    simp
  | cons a l ih =>
    intro s hn x
    obtain ⟨ha, hl⟩ := List.nodup_cons.mp hn
    rw [List.foldl_cons, ih _ hl x]
    have hobj := (release_members_mark_eq s this a).1
    by_cases hx : x = a
    · subst hx
      rw [if_neg ha, if_pos (List.mem_cons_self _ _), hobj, update_same]
    · have hxo : (release_members_mark s this a).objects x = s.objects x := by
        rw [hobj, update_of_ne _ _ _ _ hx]
      rw [hxo]
      by_cases hm : x ∈ l
      · rw [if_pos hm, if_pos (List.mem_cons_of_mem _ hm)]
      · rw [if_neg hm, if_neg (fun h => (List.mem_cons.mp h).elim hx hm)]

theorem release_members_mark_fold_nodup (this : Ptr) (l : List Ptr) :
    ∀ s : State, (s.groups this).members.Nodup →
      ((l.foldl (fun s object => release_members_mark s this object) s).groups
        this).members.Nodup := by
  induction l with
  | nil => intro s h; exact h
  | cons a l ih =>
    intro s h
    rw [List.foldl_cons]
    apply ih
    rw [(release_members_mark_eq s this a).2]
    split_ifs
    · exact list_remove_nodup _ _ h
    · exact h

theorem tp_object_cancel_fold_refcount (l : List Ptr) :
    ∀ s : State, l.Nodup → (∀ m ∈ l, 0 ≤ (s.objects m).num_pending_callbacks) →
      ∀ x, ((l.foldl (fun s object => tp_object_cancel s object) s).objects x).refcount =
        (s.objects x).refcount -
          (if x ∈ l then (s.objects x).num_pending_callbacks else 0) := by
  induction l with
  | nil =>
    intro s _ _ x
    simp
  | cons a l ih =>
    intro s hn hp x
    obtain ⟨ha, hl⟩ := List.nodup_cons.mp hn
    have hother : ∀ y, y ≠ a → (tp_object_cancel s a).objects y = s.objects y :=
      fun y hy => tp_object_cancel_objects_other s a y hy
    rw [List.foldl_cons, ih _ hl (fun m hm => by
      have hma : m ≠ a := fun e => ha (e ▸ hm)
      rw [hother m hma]
      exact hp m (List.mem_cons_of_mem _ hm)) x]
    by_cases hx : x = a
    · subst hx
      rw [if_neg ha, if_pos (List.mem_cons_self _ _),
        (tp_object_cancel_effect s x (hp x (List.mem_cons_self _ _))).2.2.2.1]
      ring
    · rw [hother x hx]
      by_cases hm : x ∈ l
      · rw [if_pos hm, if_pos (List.mem_cons_of_mem _ hm)]
      · rw [if_neg hm, if_neg (fun h => (List.mem_cons.mp h).elim hx hm)]

/-- The reference counts before the last loop of
`TpReleaseCleanupGroupMembers`: the first loop has added a reference to every
member that is not being destroyed, and the cancellation, when asked for, has
released the pending callbacks of the members of the temporary list. -/
theorem release_members_cancel_refcount (s : State) (group : Ptr) (cancel_pending : Bool)
    (hnodup : (s.groups group).members.Nodup)
    (hpending : ∀ m ∈ (s.groups group).members, 0 ≤ (s.objects m).num_pending_callbacks) :
    ∀ m ∈ (s.groups group).members,
      (( release_members_cancel (release_members_collect s group).1
          (release_members_collect s group).2 cancel_pending).objects m).refcount =
        (if (s.objects m).refcount + 1 = 1 then (s.objects m).refcount
          else (s.objects m).refcount + 1) -
        (if cancel_pending = true ∧ m ∈ (release_members_collect s group).2 then
          (s.objects m).num_pending_callbacks else 0) := by
  intro m hm
  have hfold := release_members_mark_fold group (s.groups group).members s
  have hmark := release_members_mark_fold_refcount group (s.groups group).members s hnodup
  have hnd := release_members_mark_fold_nodup group (s.groups group).members s hnodup
  have hc1 : ∀ x, ((release_members_collect s group).1.objects x).refcount
      = if x ∈ (s.groups group).members then
          (if (s.objects x).refcount + 1 = 1 then (s.objects x).refcount
            else (s.objects x).refcount + 1)
        else (s.objects x).refcount := hmark
  have hc2 : ∀ x, ((release_members_collect s group).1.objects x).num_pending_callbacks
      = (s.objects x).num_pending_callbacks := hfold.1
  have hc3 : (release_members_collect s group).2.Nodup := hnd
  have hc4 : ∀ x ∈ (release_members_collect s group).2, x ∈ (s.groups group).members :=
    fun x hx => hfold.2.2.2.1 x hx
  unfold release_members_cancel
  by_cases hc : cancel_pending = true
  · rw [if_pos hc, tp_object_cancel_fold_refcount _ _ hc3 (fun x hx => by
      rw [hc2 x]
      exact hpending x (hc4 x hx)) m, hc1 m, if_pos hm, hc2 m]
    by_cases hin : m ∈ (release_members_collect s group).2
    · rw [if_pos hin, if_pos (show cancel_pending = true ∧
        m ∈ (release_members_collect s group).2 from ⟨hc, hin⟩)]
    · rw [if_neg hin, if_neg (fun h : cancel_pending = true ∧
        m ∈ (release_members_collect s group).2 => hin h.2)]
  · rw [if_neg hc, hc1 m, if_pos hm, if_neg (fun h : cancel_pending = true ∧
      m ∈ (release_members_collect s group).2 => hc h.1)]
    ring

/-- C7: when `TpReleaseCleanupGroupMembers` returns, it has, for every
member `m` of its temporary list, waited for `m` and then finished `m` once,
in the state `s2` in which the wait returned, which is the entry of
`release_members_wait_states` at the place of `m`.  Finishing `m` calls the
group cancel callback, once and with the `userdata` of `m` and the `userdata`
of the call, exactly when `cancel_pending` is set, `m` has such a callback and
`m` was not shut down in `s2`, and makes no call otherwise; it releases two
references of `m` when `m` was not shut down in `s2` and is not a simple
callback, and one reference otherwise.

For the call as a whole: there is one such state for each member of the
temporary list; when the other threads call no group cancel callback
meanwhile, the group cancel callbacks in the log of the returned state are
those of the log before the call followed by, for each member in the order of
the list, the one call described above if `cancel_pending` is set, the member
has a callback and was not shut down after its wait, and nothing for the
member otherwise, so that none is added when `cancel_pending` is not set; when
the other threads leave the reference counts alone, every object has lost,
over the last loop, two references for each of its places in the list at
which it was not shut down and is not a simple callback, one reference for
each of its other places, and none beyond these; and before the last loop the
function has added a reference to every member of the group that is not being
destroyed and, when `cancel_pending` is set, has released the pending
callbacks of the members of the temporary list. -/
theorem group_cancel_callback_spec (s : State) (group : Ptr) (cancel_pending : Bool)
    (userdata : Nat) (others : List (State → State)) (r : State × List (State → State))
    (hret : TpReleaseCleanupGroupMembers s group cancel_pending userdata others = some r) :
    (∀ pre m post, (release_members_collect s group).2 = pre ++ m :: post →
      ∃ s1 o1 s2 o2,
        release_members_wait
          ( release_members_cancel (release_members_collect s group).1
            (release_members_collect s group).2 cancel_pending)
          pre cancel_pending userdata others = some (s1, o1) ∧
        tp_object_wait s1 m true o1 = some (s2, o2) ∧
        release_members_wait ( release_members_finish s2 m cancel_pending userdata) post
          cancel_pending userdata o2 = some r ∧
        ( release_members_finish s2 m cancel_pending userdata).calls =
          s2.calls ++
            (match (s2.objects m).group_cancel_callback with
              | some fn =>
                if cancel_pending = true ∧ (s2.objects m).shutdown = false then
                  [call.group_cancel_callback fn (s2.objects m).userdata userdata]
                else []
              | none => []) ∧
        (( release_members_finish s2 m cancel_pending userdata).objects m).refcount =
          (s2.objects m).refcount -
            (if (s2.objects m).shutdown = false ∧ (s2.objects m).type ≠ TP_OBJECT_TYPE_SIMPLE
              then 2 else 1) ∧
        (release_members_wait_states
          ( release_members_cancel (release_members_collect s group).1
            (release_members_collect s group).2 cancel_pending)
          (release_members_collect s group).2 cancel_pending userdata others).get?
            pre.length = some s2) ∧
    (release_members_wait_states
      ( release_members_cancel (release_members_collect s group).1
        (release_members_collect s group).2 cancel_pending)
      (release_members_collect s group).2 cancel_pending userdata others).length =
        (release_members_collect s group).2.length ∧
    ((∀ f ∈ others, ∀ t, group_cancel_calls (f t).calls = group_cancel_calls t.calls) →
      group_cancel_calls r.1.calls = group_cancel_calls s.calls ++
        (((release_members_collect s group).2.zip
          (release_members_wait_states
            ( release_members_cancel (release_members_collect s group).1
              (release_members_collect s group).2 cancel_pending)
            (release_members_collect s group).2 cancel_pending userdata others)).flatMap
          (fun p =>
            match (p.2.objects p.1).group_cancel_callback with
            | some fn =>
              if cancel_pending = true ∧ (p.2.objects p.1).shutdown = false then
                [call.group_cancel_callback fn (p.2.objects p.1).userdata userdata]
              else []
            | none => [])) ∧
      (cancel_pending = false → group_cancel_calls r.1.calls = group_cancel_calls s.calls)) ∧
    ((∀ f ∈ others, ∀ t x, ((f t).objects x).refcount = (t.objects x).refcount) →
      ∀ x, (r.1.objects x).refcount =
        (( release_members_cancel (release_members_collect s group).1
          (release_members_collect s group).2 cancel_pending).objects x).refcount -
        (((release_members_collect s group).2.zip
          (release_members_wait_states
            ( release_members_cancel (release_members_collect s group).1
              (release_members_collect s group).2 cancel_pending)
            (release_members_collect s group).2 cancel_pending userdata others)).map
          (fun p =>
            if p.1 = x then
              (if (p.2.objects p.1).shutdown = false ∧
                  (p.2.objects p.1).type ≠ TP_OBJECT_TYPE_SIMPLE then (2 : Int) else 1)
            else 0)).sum) ∧
    ((s.groups group).members.Nodup →
      (∀ m ∈ (s.groups group).members, 0 ≤ (s.objects m).num_pending_callbacks) →
      ∀ m ∈ (s.groups group).members,
        (( release_members_cancel (release_members_collect s group).1
            (release_members_collect s group).2 cancel_pending).objects m).refcount =
          (if (s.objects m).refcount + 1 = 1 then (s.objects m).refcount
            else (s.objects m).refcount + 1) -
          (if cancel_pending = true ∧ m ∈ (release_members_collect s group).2 then
            (s.objects m).num_pending_callbacks else 0)) := by
  have hret2 : release_members_wait
      ( release_members_cancel (release_members_collect s group).1
        (release_members_collect s group).2 cancel_pending)
      (release_members_collect s group).2 cancel_pending userdata others = some r := hret
  obtain ⟨hlen, hcalls⟩ := release_members_wait_calls cancel_pending userdata _ _ _ r hret2
  refine ⟨?_, hlen, ?_, ?_, ?_⟩
  · intro pre m post hm
    have hret3 := hret2
    rw [hm] at hret3
    obtain ⟨s1, o1, s2, o2, h1, h2, h3⟩ :=
      release_members_wait_split cancel_pending userdata m post pre _ _ r hret3
    obtain ⟨hc, -, -, hr, -⟩ := release_members_finish_eq s2 m cancel_pending userdata
    have hst := release_members_wait_states_split cancel_pending userdata m post pre _ _
      s1 o1 s2 o2 h1 h2
    rw [← hm] at hst h1
    exact ⟨s1, o1, s2, o2, h1, h2, h3, hc, hr, hst⟩
  · intro ho
    have hc := hcalls ho
    rw [release_members_cancel_calls] at hc
    refine ⟨hc, fun hcp => ?_⟩
    rw [hc]
    have hnil : ∀ (l : List (Ptr × State)),
        l.flatMap (fun p =>
          match (p.2.objects p.1).group_cancel_callback with
          | some fn =>
            if cancel_pending = true ∧ (p.2.objects p.1).shutdown = false then
              [call.group_cancel_callback fn (p.2.objects p.1).userdata userdata]
            else []
          | none => []) = [] := by
      intro l
      induction l with
      | nil => rfl
      | cons p l ih =>
        rw [List.flatMap_cons, ih, List.append_nil]
        cases (p.2.objects p.1).group_cancel_callback with
        | none => rfl
        | some fn =>
          dsimp only
          rw [if_neg]
          rw [hcp]
          exact fun h => Bool.noConfusion h.1
    rw [hnil, List.append_nil]
  · intro ho x
    exact release_members_wait_refcount cancel_pending userdata _ _ _ r hret2 ho x
  · intro hnodup hpending m hm
    exact release_members_cancel_refcount s group cancel_pending hnodup hpending m hm

theorem group_cancel_callback_spec_witness :
    (release_members_collect state_group 50).2 = [10, 11] ∧
    ((TpReleaseCleanupGroupMembers state_group 50 true 77 []).map (fun r => r.1.calls)) =
      some [call.group_cancel_callback 99 42 77, call.group_cancel_callback 99 43 77] ∧
    ∃ r, TpReleaseCleanupGroupMembers state_group 50 true 77 [] = some r ∧
      (∃ s1 o1 s2 o2,
        release_members_wait
          ( release_members_cancel (release_members_collect state_group 50).1
            (release_members_collect state_group 50).2 true)
          [] true 77 [] = some (s1, o1) ∧
        tp_object_wait s1 10 true o1 = some (s2, o2) ∧
        release_members_wait ( release_members_finish s2 10 true 77) [11] true 77 o2 = some r ∧
        ( release_members_finish s2 10 true 77).calls =
          s2.calls ++
            (match (s2.objects 10).group_cancel_callback with
              | some fn =>
                if true = true ∧ (s2.objects 10).shutdown = false then
                  [call.group_cancel_callback fn (s2.objects 10).userdata 77]
                else []
              | none => []) ∧
        (( release_members_finish s2 10 true 77).objects 10).refcount =
          (s2.objects 10).refcount -
            (if (s2.objects 10).shutdown = false ∧ (s2.objects 10).type ≠ TP_OBJECT_TYPE_SIMPLE
              then 2 else 1) ∧
        (release_members_wait_states
          ( release_members_cancel (release_members_collect state_group 50).1
            (release_members_collect state_group 50).2 true)
          (release_members_collect state_group 50).2 true 77 []).get? 0 = some s2) ∧
      group_cancel_calls r.1.calls =
        [call.group_cancel_callback 99 42 77, call.group_cancel_callback 99 43 77] ∧
      (r.1.objects 10).refcount = 0 ∧ (r.1.objects 11).refcount = 0 ∧
      (state_group.objects 10).refcount = 2 ∧ (state_group.objects 11).refcount = 1 := by
  have hsome : (TpReleaseCleanupGroupMembers state_group 50 true 77 []).isSome = true := by
    decide
  obtain ⟨r, hr⟩ := Option.isSome_iff_exists.mp hsome
  have h := group_cancel_callback_spec state_group 50 true 77 [] r hr
  refine ⟨by decide, by decide, r, hr, h.1 [] 10 [11] (by decide), ?_, ?_, ?_, by decide,
    by decide⟩
  · exact (h.2.2.1 (fun f hf => absurd hf (List.not_mem_nil f))).1.trans (by decide)
  · exact (h.2.2.2.1 (fun f hf => absurd hf (List.not_mem_nil f)) 10).trans (by decide)
  · exact (h.2.2.2.1 (fun f hf => absurd hf (List.not_mem_nil f)) 11).trans (by decide)

/-- The loop of `TpSetPoolMinThreads` ends with a status other than
`STATUS_SUCCESS` exactly when one of the thread creations it makes fails: the
creations it makes are those for the workers that are missing. -/
theorem TpSetPoolMinThreads_loop_fails (pool : Ptr) (minimum : Nat)
    (thread_status : Nat → NTSTATUS) (hmin : minimum < 4294967296) (fuel : Nat) :
    ∀ (i : Nat) (s : State), 0 ≤ (s.pools pool).num_workers →
      (s.pools pool).num_workers < 4294967296 →
      (minimum : Int) ≤ (s.pools pool).num_workers + fuel →
      ((TpSetPoolMinThreads_loop pool minimum thread_status fuel i s).2 ≠ STATUS_SUCCESS ↔
        ∃ j : Nat, (s.pools pool).num_workers + (j : Int) < (minimum : Int) ∧
          thread_status (i + j) ≠ STATUS_SUCCESS) := by
  induction fuel with
  | zero =>
    intro i s h0 h1 h2
    constructor
    · intro h
      exact absurd rfl h
    · rintro ⟨j, hj, -⟩
      push_cast at h2
      omega
  | succ n ih =>
    intro i s h0 h1 h2
    have hu := to_uint_of_range _ h0 h1
    unfold TpSetPoolMinThreads_loop
    by_cases hc : to_uint (s.pools pool).num_workers < minimum
    · rw [if_pos hc]
      dsimp only
      have hlt : (s.pools pool).num_workers < (minimum : Int) := by
        rw [← hu]
        exact_mod_cast hc
      by_cases hst : thread_status i = STATUS_SUCCESS
      · have h3 : (tp_new_worker_thread s pool (thread_status i)).2 = STATUS_SUCCESS := by
          simp [tp_new_worker_thread, hst]
        rw [if_neg (not_not.mpr h3)]
        have hn : ((tp_new_worker_thread s pool (thread_status i)).1.pools pool).num_workers
            = (s.pools pool).num_workers + 1 := by
          rw [tp_new_worker_thread_fst]
          show (update s.pools pool _ pool).num_workers = _
          rw [update_same]
          simp [hst]
        have hih := ih (i + 1) (tp_new_worker_thread s pool (thread_status i)).1
          (by rw [hn]; omega) (by rw [hn]; omega) (by rw [hn]; push_cast at h2 ⊢; omega)
        rw [hih, hn]
        constructor
        · rintro ⟨j, hj, hf⟩
          refine ⟨j + 1, ?_, ?_⟩
          · push_cast
            omega
          · rw [← Nat.add_assoc, Nat.add_right_comm]
            exact hf
        · rintro ⟨j, hj, hf⟩
          cases j with
          | zero => exact absurd hst hf
          | succ k =>
            refine ⟨k, ?_, ?_⟩
            · push_cast at hj
              omega
            · rw [Nat.add_right_comm, Nat.add_assoc]
              exact hf
      · have h3 : (tp_new_worker_thread s pool (thread_status i)).2 ≠ STATUS_SUCCESS := by
          simp [tp_new_worker_thread, hst]
        rw [if_pos h3]
        constructor
        · intro _
          exact ⟨0, by simpa using hlt, hst⟩
        · intro _
          exact h3
    · rw [if_neg hc]
      have hge : ¬ (s.pools pool).num_workers < (minimum : Int) := by
        rw [← hu]
        exact_mod_cast hc
      constructor
      · intro h
        exact absurd rfl h
      · rintro ⟨j, hj, -⟩
        omega

/-- C18.  `TpSetPoolMinThreads` answers `TRUE` when every thread creation
succeeds; a `TRUE` answer comes with `min_workers` set to the minimum,
`max_workers` set to the larger of its former value and the minimum, and,
on a pool with a worker count that is not negative, with
`num_workers >= minimum` (the workers created are those that were missing);
a `FALSE` answer comes only after a thread creation failed and leaves
`min_workers` and `max_workers` as they were.  The minimum is a `DWORD` and
`min_workers` an `int`: the stored value is the minimum itself for every
minimum below 2^31.  The thread creations that the call makes are those for
the missing workers, creation `j` being made while `num_workers + j` is below
the minimum: the answer is `FALSE` if and only if one of them fails, and
`TRUE` if and only if none does. -/
theorem TpSetPoolMinThreads_spec (s : State) (pool : Ptr) (minimum : Nat)
    (thread_status : Nat → NTSTATUS) :
    ((∀ j, thread_status j = STATUS_SUCCESS) →
      (TpSetPoolMinThreads s pool minimum thread_status).2 = true) ∧
    ((TpSetPoolMinThreads s pool minimum thread_status).2 = true →
      ((TpSetPoolMinThreads s pool minimum thread_status).1.pools pool).min_workers
        = to_int minimum ∧
      ((TpSetPoolMinThreads s pool minimum thread_status).1.pools pool).max_workers
        = max (s.pools pool).max_workers (to_int minimum) ∧
      (minimum < 2147483648 →
        ((TpSetPoolMinThreads s pool minimum thread_status).1.pools pool).min_workers
          = (minimum : Int) ∧
        ((TpSetPoolMinThreads s pool minimum thread_status).1.pools pool).max_workers
          = max (s.pools pool).max_workers (minimum : Int)) ∧
      (minimum < 2147483648 → 0 ≤ (s.pools pool).num_workers →
        (s.pools pool).num_workers < 2147483648 →
        ((TpSetPoolMinThreads s pool minimum thread_status).1.pools pool).num_workers
          = max (s.pools pool).num_workers (minimum : Int))) ∧
    ((TpSetPoolMinThreads s pool minimum thread_status).2 = false →
      (∃ j, thread_status j ≠ STATUS_SUCCESS) ∧
      ((TpSetPoolMinThreads s pool minimum thread_status).1.pools pool).min_workers
        = (s.pools pool).min_workers ∧
      ((TpSetPoolMinThreads s pool minimum thread_status).1.pools pool).max_workers
        = (s.pools pool).max_workers) ∧
    (minimum < 4294967296 → 0 ≤ (s.pools pool).num_workers →
      (s.pools pool).num_workers < 4294967296 →
      ((TpSetPoolMinThreads s pool minimum thread_status).2 = false ↔
        ∃ j : Nat, (s.pools pool).num_workers + (j : Int) < (minimum : Int) ∧
          thread_status j ≠ STATUS_SUCCESS) ∧
      ((TpSetPoolMinThreads s pool minimum thread_status).2 = true ↔
        ∀ j : Nat, (s.pools pool).num_workers + (j : Int) < (minimum : Int) →
          thread_status j = STATUS_SUCCESS)) := by
  obtain ⟨c1, c2, -, c4, -⟩ :=
    TpSetPoolMinThreads_loop_counters pool minimum thread_status minimum 0 s pool
  have hstat := TpSetPoolMinThreads_loop_status pool minimum thread_status minimum 0 s
  have hiff : minimum < 4294967296 → 0 ≤ (s.pools pool).num_workers →
      (s.pools pool).num_workers < 4294967296 →
      ((TpSetPoolMinThreads_loop pool minimum thread_status minimum 0 s).2 ≠ STATUS_SUCCESS ↔
        ∃ j : Nat, (s.pools pool).num_workers + (j : Int) < (minimum : Int) ∧
          thread_status j ≠ STATUS_SUCCESS) := by
    intro hm h0 h1
    have := TpSetPoolMinThreads_loop_fails pool minimum thread_status hm minimum 0 s h0 h1
      (by omega)
    simpa using this
  by_cases hst : (TpSetPoolMinThreads_loop pool minimum thread_status minimum 0 s).2
      = STATUS_SUCCESS
  · have hres : TpSetPoolMinThreads s pool minimum thread_status =
        ((TpSetPoolMinThreads_loop pool minimum thread_status minimum 0 s).1.set_pool pool
          { (TpSetPoolMinThreads_loop pool minimum thread_status minimum 0 s).1.pools pool with
            min_workers := to_int minimum
            max_workers := c_max (to_int minimum)
              ((TpSetPoolMinThreads_loop pool minimum thread_status minimum 0
                s).1.pools pool).max_workers }, true) := by
      unfold TpSetPoolMinThreads
      dsimp only
      rw [if_pos hst]
    have hrec : (TpSetPoolMinThreads s pool minimum thread_status).1.pools pool =
        { (TpSetPoolMinThreads_loop pool minimum thread_status minimum 0 s).1.pools pool with
          min_workers := to_int minimum
          max_workers := c_max (to_int minimum)
            ((TpSetPoolMinThreads_loop pool minimum thread_status minimum 0
              s).1.pools pool).max_workers } := by
      rw [hres]
      show update _ pool _ pool = _
      rw [update_same]
    have hmax : ((TpSetPoolMinThreads s pool minimum thread_status).1.pools pool).max_workers
        = max (s.pools pool).max_workers (to_int minimum) := by
      rw [hrec]
      show c_max (to_int minimum) _ = _
      rw [c_max_int, c1, max_comm]
    have htrue : (TpSetPoolMinThreads s pool minimum thread_status).2 = true := by rw [hres]
    refine ⟨fun _ => htrue, fun _ => ⟨by rw [hrec], hmax, ?_, ?_⟩, ?_, ?_⟩
    · intro hm
      rw [hmax, hrec, to_int_of_small minimum hm]
      exact ⟨rfl, rfl⟩
    · intro hm h0 h1
      rw [hrec]
      show ((TpSetPoolMinThreads_loop pool minimum thread_status minimum 0 s).1.pools
        pool).num_workers = _
      have hup := TpSetPoolMinThreads_loop_bound pool minimum thread_status minimum
        (by omega) 0 s h0 (by omega)
      have hlow := TpSetPoolMinThreads_loop_reaches pool minimum thread_status minimum 0 s h0
        (by omega) (by omega) hst
      apply le_antisymm hup
      exact max_le c4 hlow
    · intro hf
      rw [htrue] at hf
      exact Bool.noConfusion hf
    · intro hm h0 h1
      have hno : ¬ ∃ j : Nat, (s.pools pool).num_workers + (j : Int) < (minimum : Int) ∧
          thread_status j ≠ STATUS_SUCCESS :=
        fun he => (hiff hm h0 h1).mpr he hst
      rw [htrue]
      constructor
      · constructor
        · intro hf
          exact Bool.noConfusion hf
        · intro he
          exact absurd he hno
      · constructor
        · intro _ j hj
          by_contra hne
          exact hno ⟨j, hj, hne⟩
        · intro _
          rfl
  · have hres : TpSetPoolMinThreads s pool minimum thread_status =
        ((TpSetPoolMinThreads_loop pool minimum thread_status minimum 0 s).1, false) := by
      unfold TpSetPoolMinThreads
      dsimp only
      rw [if_neg hst]
    have hfalse : (TpSetPoolMinThreads s pool minimum thread_status).2 = false := by rw [hres]
    refine ⟨fun hall => ?_, fun ht => ?_, fun _ => ⟨hstat hst, ?_, ?_⟩, ?_⟩
    · obtain ⟨j, hj⟩ := hstat hst
      exact absurd (hall j) hj
    · rw [hfalse] at ht
      exact Bool.noConfusion ht
    · rw [hres]
      exact c2
    · rw [hres]
      exact c1
    · intro hm h0 h1
      have hex := (hiff hm h0 h1).mp hst
      rw [hfalse]
      constructor
      · exact ⟨fun _ => hex, fun _ => rfl⟩
      · constructor
        · intro hf
          exact Bool.noConfusion hf
        · intro hall
          obtain ⟨j, hj, hne⟩ := hex
          exact absurd (hall j hj) hne

theorem TpSetPoolMinThreads_spec_witness :
    (TpSetPoolMinThreads state_one_worker 1 3 (fun _ => STATUS_SUCCESS)).2 = true ∧
    (state_one_worker.pools 1).num_workers = 1 ∧
    ((TpSetPoolMinThreads state_one_worker 1 3 (fun _ => STATUS_SUCCESS)).1.pools
      1).min_workers = 3 ∧
    ((TpSetPoolMinThreads state_one_worker 1 3 (fun _ => STATUS_SUCCESS)).1.pools
      1).max_workers = max (state_one_worker.pools 1).max_workers 3 ∧
    ((TpSetPoolMinThreads state_one_worker 1 3 (fun _ => STATUS_SUCCESS)).1.pools
      1).num_workers = max (state_one_worker.pools 1).num_workers 3 ∧
    (TpSetPoolMinThreads state_one_worker 1 3
      (fun j => if j = 1 then STATUS_NO_MEMORY else STATUS_SUCCESS)).2 = false ∧
    ((TpSetPoolMinThreads state_one_worker 1 3
      (fun j => if j = 1 then STATUS_NO_MEMORY else STATUS_SUCCESS)).1.pools 1).min_workers
      = (state_one_worker.pools 1).min_workers ∧
    (TpSetPoolMinThreads state_one_worker 1 3
      (fun j => if j = 2 then STATUS_NO_MEMORY else STATUS_SUCCESS)).2 = true := by
  have ht := (TpSetPoolMinThreads_spec state_one_worker 1 3 (fun _ => STATUS_SUCCESS)).1
    (fun _ => rfl)
  have h := (TpSetPoolMinThreads_spec state_one_worker 1 3 (fun _ => STATUS_SUCCESS)).2.1 ht
  have h3 := h.2.2.1 (by decide)
  have hf := ((TpSetPoolMinThreads_spec state_one_worker 1 3
    (fun j => if j = 1 then STATUS_NO_MEMORY else STATUS_SUCCESS)).2.2.2
      (by decide) (by decide) (by decide)).1.mpr ⟨1, by decide, by decide⟩
  have hk := (TpSetPoolMinThreads_spec state_one_worker 1 3
    (fun j => if j = 1 then STATUS_NO_MEMORY else STATUS_SUCCESS)).2.2.1 hf
  have hl := ((TpSetPoolMinThreads_spec state_one_worker 1 3
    (fun j => if j = 2 then STATUS_NO_MEMORY else STATUS_SUCCESS)).2.2.2
      (by decide) (by decide) (by decide)).2.mpr (fun j hj => by
        have h1 : (state_one_worker.pools 1).num_workers = 1 := by decide
        rw [h1] at hj
        have : j ≠ 2 := by omega
        simp [this])
  exact ⟨ht, by decide, h3.1, h3.2, h.2.2.2 (by decide) (by decide) (by decide), hf, hk.2.1, hl⟩

end Threadpool
